import Mathlib

/-!
# PictDB: a model of the single-file picture database

The development follows the C sources of the `pictDBM` library
(`pictDB.h`, `db_create.c`, `db_insert.c`, `dedup.c`, `db_read.c`,
`db_delete.c`, `db_list.c`, `image_content.c`, `db_utils.c`,
`db_gbcollect.c`) and the command `create` of `pictDBM.c`.

Modelling conventions.

* A C function that returns an `int` status and mutates `struct pictdb_file`
  becomes a function that returns `Option (error_code × pictdb_file)`.
  `none` stands for undefined behaviour of the C program: a read or a write
  outside the slot table (or outside the `pict_id` buffer), or a stdio call on
  a `NULL` stream.
* Bytes, characters and machine integers are naturals; every store into a
  fixed-width field reduces modulo the width of the field where the C code can
  exceed it. Loop counters (`int`, `size_t`) are naturals, which is exact for
  `max_files < 2^31`.
* A stdio stream is the byte content of the file, the position indicator and a
  script of faults: every `fseek`, `fread` and `fwrite` consumes the head of
  the script and reports failure when it is `true`. A failing call leaves the
  bytes and the position unchanged. `ftell`, `malloc`, `calloc` and
  `vips_image_new` are taken to succeed.
* SHA-256 and the libvips JPEG pipeline are parameters (`Lib`), and so are the
  json-c calls of `do_list` (`Json`).
-/

namespace PictDB

/-! ## Constants of `pictDB.h` -/

abbrev MAX_DB_NAME : Nat := 31
abbrev MAX_PIC_ID : Nat := 127
abbrev MAX_MAX_FILES : Nat := 100000
abbrev EMPTY : Nat := 0
abbrev NON_EMPTY : Nat := 1
abbrev RES_THUMB : Int := 0
abbrev RES_SMALL : Int := 1
abbrev RES_ORIG : Int := 2
abbrev NB_RES : Int := 3

/-- The text `CAT_TXT = "EPFL PictDB binary"` as character codes. -/
def CAT_TXT : List Nat :=
  [69, 80, 70, 76, 32, 80, 105, 99, 116, 68, 66, 32, 98, 105, 110, 97, 114, 121]

/-- Modelled from the spec: `error.h` is not among the sources. The result
codes form a closed set of distinct values, `ERR_NONE` being the value `0`
that the functions return on success (section 4.8 of the specification;
`ERR_VIPS` is the codec error). -/
inductive error_code
  | ERR_NONE
  | ERR_INVALID_ARGUMENT
  | ERR_OUT_OF_MEMORY
  | ERR_IO
  | ERR_FILE_NOT_FOUND
  | ERR_FULL_DATABASE
  | ERR_DUPLICATE_ID
  | ERR_INVALID_PICID
  | ERR_VIPS
  | ERR_NOT_ENOUGH_ARGUMENTS
  | ERR_INVALID_COMMAND
  | ERR_MAX_FILES
  | ERR_RESOLUTIONS
  | ERR_INVALID_FILENAME
  deriving DecidableEq, Repr

open error_code

/-! ## C strings -/

/-- The characters of a C string: everything before the first NUL. -/
def c_str (s : List Nat) : List Nat := s.takeWhile (fun c => c ≠ 0)

/-- `strlen`. -/
def strlen (s : List Nat) : Nat := (c_str s).length

/-- `strcmp`, up to the sign of a nonzero result (the sources only test the
result against zero). -/
def strcmp (a b : List Nat) : Int := if c_str a = c_str b then 0 else 1

/-- The pair of statements `strncpy(dst, src, strlen(src)); dst[strlen(src)] = 0`
on a buffer that is long enough. -/
def strncpy_nul (dst src : List Nat) : List Nat :=
  c_str src ++ 0 :: dst.drop (strlen src + 1)

/-! ## Records -/

/-- An array indexed by resolution code (`uint32_t size[NB_RES]`,
`uint64_t offset[NB_RES]`). -/
structure res_array where
  thumb : Nat
  small : Nat
  orig : Nat
  deriving DecidableEq, Repr

/-- Read `a[r]` for a resolution code `r` in range. -/
def res_array.get (a : res_array) (r : Int) : Nat :=
  if r = RES_THUMB then a.thumb else if r = RES_SMALL then a.small else a.orig

/-- Store `a[r] = v` for a resolution code `r` in range. -/
def res_array.put (a : res_array) (r : Int) (v : Nat) : res_array :=
  if r = RES_THUMB then { a with thumb := v }
  else if r = RES_SMALL then { a with small := v }
  else { a with orig := v }

/-- The record `struct pictdb_header`. -/
structure pictdb_header where
  db_name : List Nat
  db_version : Nat
  num_files : Nat
  max_files : Nat
  res_resized : List Nat
  unused_32 : Nat
  unused_64 : Nat
  deriving DecidableEq, Repr

/-- The record `struct pict_metadata`; `res_orig` is the pair
`(res_orig[0], res_orig[1])`. -/
structure pict_metadata where
  pict_id : List Nat
  SHA : List Nat
  res_orig : Nat × Nat
  size : res_array
  offset : res_array
  is_valid : Nat
  unused_16 : Nat
  deriving DecidableEq, Repr

/-- A slot as `calloc` returns it. -/
def zero_metadata : pict_metadata :=
  { pict_id := List.replicate (MAX_PIC_ID + 1) 0
    SHA := List.replicate 32 0
    res_orig := (0, 0)
    size := ⟨0, 0, 0⟩
    offset := ⟨0, 0, 0⟩
    is_valid := 0
    unused_16 := 0 }

/-! ## Byte images of the records -/

/-- Little-endian image of `v` on `n` bytes. -/
def le_bytes (n v : Nat) : List Nat := (List.range n).map (fun k => v / 256 ^ k % 256)

/-- A byte array of exactly `n` bytes holding `l`. -/
def fit (n : Nat) (l : List Nat) : List Nat := (l ++ List.replicate n 0).take n

/-- The size `sizeof(struct pictdb_header)`. -/
def sizeof_header : Nat := 64

/-- The size `sizeof(struct pict_metadata)`, alignment padding included. -/
def sizeof_metadata : Nat := 216

/-- The bytes `fwrite(&header, sizeof(struct pictdb_header), 1, f)` writes. -/
def encode_header (h : pictdb_header) : List Nat :=
  fit 32 h.db_name ++ le_bytes 4 h.db_version ++ le_bytes 4 h.num_files
    ++ le_bytes 4 h.max_files
    ++ le_bytes 2 (h.res_resized.getD 0 0) ++ le_bytes 2 (h.res_resized.getD 1 0)
    ++ le_bytes 2 (h.res_resized.getD 2 0) ++ le_bytes 2 (h.res_resized.getD 3 0)
    ++ le_bytes 4 h.unused_32 ++ le_bytes 8 h.unused_64

/-- The bytes `fwrite(&metadata[i], sizeof(struct pict_metadata), 1, f)` writes;
the padding bytes are the zeros `calloc` left. -/
def encode_metadata (m : pict_metadata) : List Nat :=
  fit 128 m.pict_id ++ fit 32 m.SHA
    ++ le_bytes 4 m.res_orig.1 ++ le_bytes 4 m.res_orig.2
    ++ le_bytes 4 m.size.thumb ++ le_bytes 4 m.size.small ++ le_bytes 4 m.size.orig
    ++ List.replicate 4 0
    ++ le_bytes 8 m.offset.thumb ++ le_bytes 8 m.offset.small ++ le_bytes 8 m.offset.orig
    ++ le_bytes 2 m.is_valid ++ le_bytes 2 m.unused_16
    ++ List.replicate 4 0

/-! ## Streams -/

/-- An open stdio stream on the database file. -/
structure FILE where
  bytes : List Nat
  pos : Nat
  faults : List Bool
  deriving DecidableEq, Repr

/-- Consume one entry of the fault script: whether the call fails, and the
stream afterwards. -/
def FILE.next (f : FILE) : Bool × FILE :=
  (f.faults.headD false, { f with faults := f.faults.tail })

/-- The call `fseek(f, off, SEEK_SET)`: success flag and stream. -/
def fseek_set (f : FILE) (off : Nat) : Bool × FILE :=
  if (FILE.next f).1 then (false, (FILE.next f).2)
  else (true, { (FILE.next f).2 with pos := off })

/-- The call `fseek(f, 0, SEEK_END)`: success flag and stream. -/
def fseek_end (f : FILE) : Bool × FILE :=
  if (FILE.next f).1 then (false, (FILE.next f).2)
  else (true, { (FILE.next f).2 with pos := f.bytes.length })

/-- The call `ftell(f)`. -/
def ftell (f : FILE) : Nat := f.pos

/-- The content of a file after `data` is written at position `pos`; a gap
past the end of the file reads as zeros. -/
def write_at (bytes : List Nat) (pos : Nat) (data : List Nat) : List Nat :=
  (bytes ++ List.replicate (pos - bytes.length) 0).take pos ++ data
    ++ bytes.drop (pos + data.length)

/-- The call `fwrite(data, size, 1, f)` with `size = data.length`: whether one
item was written, and the stream. A zero-sized item is never written. -/
def fwrite (f : FILE) (data : List Nat) : Bool × FILE :=
  if (FILE.next f).1 ∨ data.length = 0 then (false, (FILE.next f).2)
  else (true, { (FILE.next f).2 with
                  bytes := write_at f.bytes f.pos data
                  pos := f.pos + data.length })

/-- The call `fread(buf, size, 1, f)`: the item read, if one whole item was
read, and the stream. -/
def fread (f : FILE) (size : Nat) : Option (List Nat) × FILE :=
  if (FILE.next f).1 ∨ size = 0 ∨ f.bytes.length < f.pos + size then (none, (FILE.next f).2)
  else (some ((f.bytes.drop f.pos).take size), { (FILE.next f).2 with pos := f.pos + size })

/-- The model of `struct pictdb_file`: `fpdb` is `none` for a `NULL` stream,
`metadata` is the array the `metadata` pointer addresses. -/
structure pictdb_file where
  fpdb : Option FILE
  header : pictdb_header
  metadata : List pict_metadata
  deriving DecidableEq, Repr

/-- The libraries the sources call: `SHA256` of OpenSSL, and libvips
(`jpegload` gives `Xsize` and `Ysize` of a buffer that decodes;
`resize_jpegsave buf w h` gives the JPEG bytes of the image in `buf` resized
by `resize_ratio` for the bounding box `w × h`, when resizing and saving
succeed). -/
structure Lib where
  SHA256 : List Nat → List Nat
  jpegload : List Nat → Option (Nat × Nat)
  resize_jpegsave : List Nat → Nat → Nat → Option (List Nat)

/-- Conversion of a `long` file position to `int` (two's complement). -/
def to_int32 (n : Nat) : Int :=
  if n % 2 ^ 32 < 2 ^ 31 then ((n % 2 ^ 32 : Nat) : Int) else ((n % 2 ^ 32 : Nat) : Int) - 2 ^ 32

/-! ## Scans of the slot table -/

/-- A loop `for (i = k; i < bound; i++) if (p i metadata[i]) stop` over the
table `tbl` (the slots from index `k` on): `some (some i)` when it stops at
`i`, `some none` when it runs to `bound`, `none` when it reads past the end
of the table. -/
def first_slot (bound : Nat) (p : Nat → pict_metadata → Bool) :
    List pict_metadata → Nat → Option (Option Nat)
  | [], i => if i < bound then none else some none
  | m :: rest, i =>
    if i < bound then
      if p i m then some (some i) else first_slot bound p rest (i + 1)
    else some none

/-- The scan of `do_read`,
`while ((strcmp(metadata[i].pict_id, img_id) != 0 || metadata[i].is_valid == EMPTY)
        && i <= max_files) i++;`
which reads `metadata[i]` before it tests `i`: the final `i`, or `none` when
a slot past the end of the table is read. -/
def read_scan (max_files : Nat) (img_id : List Nat) : List pict_metadata → Nat → Option Nat
  | [], _ => none
  | m :: rest, i =>
    if (strcmp m.pict_id img_id ≠ 0 ∨ m.is_valid = EMPTY) ∧ i ≤ max_files then
      read_scan max_files img_id rest (i + 1)
    else some i

/-! ## Access to one slot -/

/-- The table after the store `metadata[i] = m`. -/
def set_slot (db : pictdb_file) (i : Nat) (m : pict_metadata) : pictdb_file :=
  { db with metadata := db.metadata.set i m }

/-- The file position of slot `i`:
`sizeof(struct pictdb_header) + i * sizeof(struct pict_metadata)`. -/
def slot_pos (i : Nat) : Nat := sizeof_header + i * sizeof_metadata

/-! ## `dedup.c` -/

/-- The function `sha_equal`: `0` when the two digests are equal. -/
def sha_equal (sha1 sha2 : List Nat) : Int := if sha1 = sha2 then 0 else 1

/-- The function `do_name_and_content_dedup`. -/
def do_name_and_content_dedup (db : pictdb_file) (index : Nat) :
    Option (error_code × pictdb_file) :=
  if index > db.header.max_files then some (ERR_INVALID_ARGUMENT, db)
  else
    match db.metadata[index]? with
    | none => none
    | some cand =>
      -- check for duplicate pic_id
      match first_slot db.header.max_files
          (fun _ m => m.is_valid = NON_EMPTY ∧ strcmp m.pict_id cand.pict_id = 0)
          db.metadata 0 with
      | none => none
      | some (some _) => some (ERR_DUPLICATE_ID, db)
      | some none =>
        match first_slot db.header.max_files
            (fun i m => m.is_valid = NON_EMPTY ∧ i ≠ index ∧ sha_equal m.SHA cand.SHA = 0)
            db.metadata 0 with
        | none => none
        | some (some i) =>
          match db.metadata[i]? with
          | none => none
          | some dup =>
            -- same sha -> update metadata
            some (ERR_NONE, set_slot db index
              { cand with size := dup.size, offset := dup.offset, res_orig := dup.res_orig })
        | some none =>
          -- file has no duplicate
          some (ERR_NONE, set_slot db index { cand with offset := cand.offset.put RES_ORIG 0 })

/-! ## `image_content.c` -/

/-- The function `get_resolution`: the status and, on success, the pair
`(width, height)` stored through the two pointers. -/
def get_resolution (L : Lib) (image_buffer : List Nat) : error_code × Option (Nat × Nat) :=
  match L.jpegload image_buffer with
  | none => (ERR_VIPS, none)
  | some (xsize, ysize) => (ERR_NONE, some (xsize, ysize))

/-- The function `lazily_resize`. -/
def lazily_resize (L : Lib) (res_code : Int) (db : pictdb_file) (image_id : Nat) :
    Option (error_code × pictdb_file) :=
  if res_code = RES_ORIG then some (ERR_NONE, db)
  else if res_code ≠ RES_THUMB ∧ res_code ≠ RES_SMALL then some (ERR_INVALID_ARGUMENT, db)
  else if image_id > db.header.max_files then some (ERR_INVALID_ARGUMENT, db)
  else
    match db.metadata[image_id]? with
    | none => none
    | some m =>
      if m.is_valid = NON_EMPTY then
        if m.offset.get res_code = 0 then
          match db.fpdb with
          | none => none
          | some f0 =>
            -- seek and read from memory
            let s1 := fseek_set f0 m.offset.orig
            if s1.1 = false then some ( ERR_IO, { db with fpdb := some s1.2 })
            else
              let r2 := fread s1.2 m.size.orig
              match r2.1 with
              | none => some ( ERR_IO, { db with fpdb := some r2.2 })
              | some res_buff_orig =>
                match L.jpegload res_buff_orig with
                | none => some (ERR_VIPS, { db with fpdb := some r2.2 })
                | some _ =>
                  match L.resize_jpegsave res_buff_orig
                      (db.header.res_resized.getD (2 * res_code).toNat 0)
                      (db.header.res_resized.getD ((2 * res_code).toNat + 1) 0) with
                  | none => some (ERR_VIPS, { db with fpdb := some r2.2 })
                  | some res_buff =>
                    -- go to the end of the file
                    let s3 := fseek_end r2.2
                    if s3.1 = false then some ( ERR_IO, { db with fpdb := some s3.2 })
                    else
                      -- save offset
                      let off := to_int32 (ftell s3.2)
                      if off < 0 then some ( ERR_IO, { db with fpdb := some s3.2 })
                      else
                        -- write
                        let w4 := fwrite s3.2 res_buff
                        if w4.1 = false then some ( ERR_IO, { db with fpdb := some w4.2 })
                        else
                          -- update metadata
                          let m1 : pict_metadata :=
                            { m with offset := m.offset.put res_code off.toNat
                                     size := m.size.put res_code (res_buff.length % 2 ^ 32) }
                          let db1 := set_slot db image_id m1
                          let s5 := fseek_set w4.2 (slot_pos image_id)
                          if s5.1 = false then some ( ERR_IO, { db1 with fpdb := some s5.2 })
                          else
                            -- write metadata
                            let w6 := fwrite s5.2 (encode_metadata m1)
                            if w6.1 = false then some ( ERR_IO, { db1 with fpdb := some w6.2 })
                            else some (ERR_NONE, { db1 with fpdb := some w6.2 })
        else some (ERR_NONE, db)
      else some (ERR_INVALID_PICID, db)

/-! ## `db_insert.c` -/

/-- The failure exit of `update_file`: `metadata[index].is_valid = EMPTY`. -/
def rewind_slot (db : pictdb_file) (index : Nat) : pictdb_file :=
  match db.metadata[index]? with
  | none => db
  | some m => set_slot db index { m with is_valid := EMPTY }

/-- The function `update_file`. -/
def update_file (db : pictdb_file) (index : Nat) : Option (error_code × pictdb_file) :=
  let db1 : pictdb_file :=
    { db with header := { db.header with
        num_files := (db.header.num_files + 1) % 2 ^ 32
        db_version := (db.header.db_version + 1) % 2 ^ 32 } }
  match db1.fpdb, db1.metadata[index]? with
  | none, _ => none
  | _, none => none
  | some f0, some m =>
    let s1 := fseek_set f0 0
    if s1.1 = false then some ( ERR_IO, rewind_slot { db1 with fpdb := some s1.2 } index)
    else
      let w2 := fwrite s1.2 (encode_header db1.header)
      if w2.1 = false then some ( ERR_IO, rewind_slot { db1 with fpdb := some w2.2 } index)
      else
        let s3 := fseek_set w2.2 (slot_pos index)
        if s3.1 = false then some ( ERR_IO, rewind_slot { db1 with fpdb := some s3.2 } index)
        else
          let w4 := fwrite s3.2 (encode_metadata m)
          if w4.1 = false then some ( ERR_IO, rewind_slot { db1 with fpdb := some w4.2 } index)
          else some (ERR_NONE, { db1 with fpdb := some w4.2 })

/-- The end of `do_insert`, after the dedup check succeeded on slot `i`:
either the slot already points to a stored image, or the image is appended. -/
def insert_image (L : Lib) (img_array : List Nat) (db : pictdb_file) (i : Nat) :
    Option (error_code × pictdb_file) :=
  match db.metadata[i]?, db.fpdb with
  | none, _ => none
  | _, none => none
  | some m2, some f0 =>
    -- an image with the same SHA was found by dedup
    if m2.offset.orig ≠ 0 then
      update_file (set_slot db i { m2 with is_valid := NON_EMPTY }) i
    else
      let s1 := fseek_end f0
      if s1.1 = false then some ( ERR_IO, { db with fpdb := some s1.2 })
      else
        let offset := ftell s1.2
        let w2 := fwrite s1.2 img_array
        if w2.1 = false then some ( ERR_IO, { db with fpdb := some w2.2 })
        else
          let m3 : pict_metadata :=
            { m2 with offset := ⟨0, 0, offset % 2 ^ 32⟩
                      size := ⟨0, 0, m2.size.orig⟩
                      is_valid := NON_EMPTY }
          match get_resolution L img_array with
          | (res, none) =>
            some (res, set_slot { db with fpdb := some w2.2 } i { m3 with is_valid := EMPTY })
          | (_, some (width, height)) =>
            update_file (set_slot { db with fpdb := some w2.2 } i
              { m3 with res_orig := (width, height) }) i

/-- The function `do_insert`; `img_array` is the buffer of `img_size` bytes. -/
def do_insert (L : Lib) (img_array : List Nat) (img_id : List Nat) (db : pictdb_file) :
    Option (error_code × pictdb_file) :=
  if strlen img_id = 0 ∨ img_array.length = 0 then some (ERR_INVALID_ARGUMENT, db)
  -- database is full
  else if db.header.num_files ≥ db.header.max_files then some (ERR_FULL_DATABASE, db)
  else
    match first_slot (db.header.max_files + 1) (fun _ m => m.is_valid ≠ NON_EMPTY)
        db.metadata 0 with
    | none => none
    | some none => some (ERR_FULL_DATABASE, db)
    | some (some i) =>
      -- we found a place at index i
      match db.metadata[i]? with
      | none => none
      | some m =>
        if MAX_PIC_ID < strlen img_id then none
        else
          let m1 : pict_metadata :=
            { m with SHA := L.SHA256 img_array
                     pict_id := strncpy_nul m.pict_id img_id
                     size := m.size.put RES_ORIG (img_array.length % 2 ^ 32) }
          -- check for dedup
          match do_name_and_content_dedup (set_slot db i m1) i with
          | none => none
          | some (dedup_res, db2) =>
            if dedup_res ≠ ERR_NONE then some (dedup_res, db2)
            else insert_image L img_array db2 i

/-! ## `db_read.c` -/

/-- The end of `do_read`, once slot `i` holds the image at `res_code`: seek,
allocate, read. The result carries the buffer and the size stored through
`img_array` and `size` on success. -/
def read_image (db : pictdb_file) (i : Nat) (res_code : Int) :
    Option (error_code × Option (List Nat × Nat) × pictdb_file) :=
  match db.metadata[i]?, db.fpdb with
  | none, _ => none
  | _, none => none
  | some m, some f0 =>
    let s1 := fseek_set f0 (m.offset.get res_code)
    if s1.1 = false then some ( ERR_IO, none, { db with fpdb := some s1.2 })
    else
      let r2 := fread s1.2 (m.size.get res_code)
      match r2.1 with
      | none => some ( ERR_IO, none, { db with fpdb := some r2.2 })
      | some img => some (ERR_NONE, some (img, m.size.get res_code), { db with fpdb := some r2.2 })

/-- The function `do_read`. -/
def do_read (L : Lib) (img_id : List Nat) (res_code : Int) (db : pictdb_file) :
    Option (error_code × Option (List Nat × Nat) × pictdb_file) :=
  if res_code ≥ NB_RES ∨ res_code < 0 then some (ERR_INVALID_ARGUMENT, none, db)
  else
    -- get the index of the image with img_id
    match read_scan db.header.max_files img_id db.metadata 0 with
    | none => none
    | some i =>
      if i = db.header.max_files then
        -- image doesn't exists in database
        some (ERR_FILE_NOT_FOUND, none, db)
      else
        match db.metadata[i]? with
        | none => none
        | some m =>
          -- check if image at corresponding resolution exists
          if m.offset.get res_code = 0 ∨ m.size.get res_code = 0 then
            if res_code = RES_ORIG then some (ERR_FILE_NOT_FOUND, none, db)
            else
              -- resize original to the resolution
              match lazily_resize L res_code db i with
              | none => none
              | some (res, db1) =>
                if res ≠ ERR_NONE then some (res, none, db1)
                else read_image db1 i res_code
          else read_image db i res_code

/-! ## `db_delete.c` -/

/-- The function `do_delete`. -/
def do_delete (name : List Nat) (db : pictdb_file) : Option (error_code × pictdb_file) :=
  if strlen name = 0 then some (ERR_INVALID_ARGUMENT, db)
  else
    -- find the index of the image to delete
    match first_slot db.header.max_files
        (fun _ m => m.is_valid = NON_EMPTY ∧ strcmp m.pict_id name = 0) db.metadata 0 with
    | none => none
    | some none => some (ERR_FILE_NOT_FOUND, db)
    | some (some index) =>
      match db.metadata[index]? with
      | none => none
      | some m =>
        let m1 : pict_metadata := { m with is_valid := EMPTY }
        let db1 := set_slot db index m1
        -- save everything back on the disk
        match db1.fpdb with
        | none => some ( ERR_IO, db1)
        | some f0 =>
          let s1 := fseek_set f0 (slot_pos index)
          if s1.1 = false then some ( ERR_IO, { db1 with fpdb := some s1.2 })
          else
            let w2 := fwrite s1.2 (encode_metadata m1)
            if w2.1 = false then some ( ERR_IO, { db1 with fpdb := some w2.2 })
            else
              -- update header
              let h1 : pictdb_header :=
                { db1.header with
                    num_files := if db1.header.num_files > 0 then db1.header.num_files - 1
                                 else db1.header.num_files
                    db_version := (db1.header.db_version + 1) % 2 ^ 32 }
              let s3 := fseek_set w2.2 0
              if s3.1 = false then some ( ERR_IO, { db1 with header := h1, fpdb := some s3.2 })
              else
                let w4 := fwrite s3.2 (encode_header h1)
                if w4.1 = false then
                  some ( ERR_IO, { db1 with header := h1, fpdb := some w4.2 })
                else some (ERR_NONE, { db1 with header := h1, fpdb := some w4.2 })

/-! ## `db_create.c` -/

/-- The call `fwrite(metadata, sizeof(struct pict_metadata), n, f)` of
`do_create`: the number of items written, and the stream. -/
def fwrite_table (f : FILE) (tbl : List pict_metadata) : Nat × FILE :=
  if (FILE.next f).1 ∨ tbl.length = 0 then (0, (FILE.next f).2)
  else (tbl.length, { (FILE.next f).2 with
          bytes := write_at f.bytes f.pos (tbl.map encode_metadata).flatten
          pos := f.pos + tbl.length * sizeof_metadata })

/-- The function `do_create`. `db_file` is the structure the caller passes
(its header carries `max_files` and `res_resized`); `fopen_wb` is the result
of `fopen(filename, "wb+")`: `none` for `NULL`, else the fault script of the
new stream, which is open on an empty file. -/
def do_create (filename : List Nat) (db_file : pictdb_file) (fopen_wb : Option (List Bool)) :
    Option (error_code × pictdb_file) :=
  if strlen filename = 0 then some (ERR_INVALID_ARGUMENT, db_file)
  else
    -- Sets the DB header name
    let header : pictdb_header :=
      { db_file.header with
          db_name := strncpy_nul db_file.header.db_name CAT_TXT
          db_version := 0
          num_files := 0 }
    -- Initialize metadata
    let metadata := List.replicate header.max_files zero_metadata
    -- the test `db_file == NULL` after `fopen` never fires
    match fopen_wb with
    | none => none
    | some script =>
      let f0 : FILE := { bytes := [], pos := 0, faults := script }
      let w1 := fwrite f0 (encode_header header)
      -- write the db header
      if w1.1 = false then
        some ( ERR_IO, { fpdb := none, header := header, metadata := metadata })
      else
        -- write the metadata
        let w2 := fwrite_table w1.2 metadata
        if 1 + w2.1 ≠ header.max_files + 1 then
          some ( ERR_IO, { fpdb := some w2.2, header := header, metadata := metadata })
        else some (ERR_NONE, { fpdb := some w2.2, header := header, metadata := metadata })

/-! ## Concrete values for the examples -/

/-- A stand-in for the libraries: the digest is the first 32 bytes of the
buffer, every non-empty buffer decodes, and the resized image is one byte. -/
def demo_lib : Lib :=
  { SHA256 := fun b => fit 32 b
    jpegload := fun b => if b.length = 0 then none else some (b.length, 1)
    resize_jpegsave := fun b _ _ => some (b.take 1) }

/-- The header of a database of `n` slots with the default resolutions. -/
def demo_header (n : Nat) : pictdb_header :=
  ⟨strncpy_nul [] CAT_TXT, 0, 0, n, [64, 64, 256, 256], 0, 0⟩

/-- The structure a caller passes to `do_create` for `n` slots. -/
def demo_config (n : Nat) : pictdb_file :=
  { fpdb := none, header := ⟨[], 0, 0, n, [64, 64, 256, 256], 0, 0⟩, metadata := [] }

/-- The stream `do_create` leaves for `demo_config n`, with the remaining
fault script `script`. -/
def demo_stream (n : Nat) (script : List Bool) : FILE :=
  ⟨encode_header (demo_header n)
      ++ ((List.replicate n zero_metadata).map encode_metadata).flatten,
    sizeof_header + n * sizeof_metadata, script⟩

/-- The database `do_create` makes from `demo_config n` on a stream whose
remaining fault script is `script`. -/
def demo_fresh (n : Nat) (script : List Bool) : pictdb_file :=
  { fpdb := some (demo_stream n script)
    header := demo_header n
    metadata := List.replicate n zero_metadata }

/-- The stream of a database (an empty one when the stream is `NULL`). -/
def demo_file (db : pictdb_file) : FILE := db.fpdb.getD ⟨[], 0, []⟩

/-! ## Predicates on the file content -/

/-- The offset at which the data region starts in a file of `n` slots. -/
def data_start (n : Nat) : Nat := slot_pos n

/-- The content `b'` has the length of `b` and the same bytes from offset `D` on. -/
def same_data (D : Nat) (b b' : List Nat) : Prop :=
  b'.length = b.length ∧ b'.drop D = b.drop D

/-- The content `b'` keeps every byte of `b` from offset `D` on, and may have
more bytes appended. -/
def data_kept (D : Nat) (b b' : List Nat) : Prop :=
  ∃ t, same_data D (b ++ t) b'

/-- The header after the two increments of `update_file`. -/
def bump_header (h : pictdb_header) : pictdb_header :=
  { h with num_files := (h.num_files + 1) % 2 ^ 32
           db_version := (h.db_version + 1) % 2 ^ 32 }

/-- The header after the update of `do_delete`: one file less (not below
zero), one more version. -/
def delete_header (h : pictdb_header) : pictdb_header :=
  { h with num_files := if h.num_files > 0 then h.num_files - 1 else h.num_files
           db_version := (h.db_version + 1) % 2 ^ 32 }

/-! ## Invariants of the data model -/

/-- No two distinct `NON_EMPTY` slots carry the same `pict_id` string. -/
def unique_ids (tbl : List pict_metadata) : Prop :=
  ∀ (i j : Nat) (mi mj : pict_metadata), tbl[i]? = some mi → tbl[j]? = some mj →
    mi.is_valid = NON_EMPTY → mj.is_valid = NON_EMPTY →
    c_str mi.pict_id = c_str mj.pict_id → i = j

/-- Every `is_valid` flag is `EMPTY` or `NON_EMPTY`. -/
def flags_ok (tbl : List pict_metadata) : Prop :=
  ∀ m ∈ tbl, m.is_valid = EMPTY ∨ m.is_valid = NON_EMPTY

/-- The table has `max_files` slots, the stream is open and the file holds at
least the header and the table. -/
def table_ok (db : pictdb_file) : Prop :=
  db.metadata.length = db.header.max_files ∧
    ∃ f, db.fpdb = some f ∧ data_start db.header.max_files ≤ f.bytes.length

/-- In a file shorter than `2^32` bytes, every `NON_EMPTY` slot points to a
non-empty original inside the data region whose digest is the slot's `SHA`. -/
def stored (L : Lib) (db : pictdb_file) : Prop :=
  ∀ f, db.fpdb = some f → f.bytes.length < 2 ^ 32 →
    ∀ m ∈ db.metadata, m.is_valid = NON_EMPTY →
      data_start db.header.max_files ≤ m.offset.orig ∧
      m.offset.orig + m.size.orig ≤ f.bytes.length ∧ 0 < m.size.orig ∧
      L.SHA256 ((f.bytes.drop m.offset.orig).take m.size.orig) = m.SHA

/-- The invariants kept by every operation on a created database. -/
def db_inv (L : Lib) (db : pictdb_file) : Prop :=
  table_ok db ∧ flags_ok db.metadata ∧ unique_ids db.metadata ∧ stored L db

/-- The databases of a session: made by a successful `do_create` (for a
`max_files` that the `int` counters of the sources can hold), then used
through calls of `do_insert`, `do_delete`, `do_read` and `lazily_resize`
with any arguments, whatever these calls return. -/
inductive Reachable (L : Lib) : pictdb_file → Prop
  | create (filename : List Nat) (db_file : pictdb_file) (script : List Bool)
      (db : pictdb_file) :
      db_file.header.max_files < 2 ^ 31 →
      do_create filename db_file (some script) = some (ERR_NONE, db) → Reachable L db
  | insert (db : pictdb_file) (img id : List Nat) (rc : error_code) (db' : pictdb_file) :
      Reachable L db → do_insert L img id db = some (rc, db') → Reachable L db'
  | delete (db : pictdb_file) (name : List Nat) (rc : error_code) (db' : pictdb_file) :
      Reachable L db → do_delete name db = some (rc, db') → Reachable L db'
  | read (db : pictdb_file) (id : List Nat) (res : Int) (rc : error_code)
      (out : Option (List Nat × Nat)) (db' : pictdb_file) :
      Reachable L db → do_read L id res db = some (rc, out, db') → Reachable L db'
  | resize (db : pictdb_file) (res : Int) (i : Nat) (rc : error_code) (db' : pictdb_file) :
      Reachable L db → lazily_resize L res db i = some (rc, db') → Reachable L db'

/-- The number of slots whose `is_valid` is `NON_EMPTY`. -/
def count_non_empty (db : pictdb_file) : Nat :=
  db.metadata.countP (fun m => m.is_valid = NON_EMPTY)

/-- The database `do_insert` leaves with the stand-in libraries (the database
itself when the call is undefined). -/
def demo_insert (img id : List Nat) (db : pictdb_file) : pictdb_file :=
  match do_insert demo_lib img id db with
  | some (_, db') => db'
  | none => db

/-- The database `do_delete` leaves (the database itself when the call is
undefined). -/
def demo_delete (name : List Nat) (db : pictdb_file) : pictdb_file :=
  match do_delete name db with
  | some (_, db') => db'
  | none => db

/-- The database `lazily_resize` leaves with the stand-in libraries (the
database itself when the call is undefined). -/
def demo_resize (res : Int) (i : Nat) (db : pictdb_file) : pictdb_file :=
  match lazily_resize demo_lib res db i with
  | some (_, db') => db'
  | none => db

/-- A payload of `2^32` bytes. -/
@[irreducible] def payload_4g : List Nat := List.replicate (2 ^ 32) 0

/-- A payload that brings the file of a fresh one-slot database to `2^32`
bytes: `2^32 - 280` bytes. -/
@[irreducible] def payload_fill : List Nat := List.replicate (2 ^ 32 - 280) 0

/-! ## `db_utils.c` -/

/-- The call `strncmp(a, b, n)`, up to the sign of a nonzero result: the
first `n` characters of the two strings are compared, the comparison stops
at a NUL. -/
def strncmp (a b : List Nat) (n : Nat) : Int :=
  if (c_str a).take n = (c_str b).take n then 0 else 1

/-- The text `"thumb"`. -/
def thumb_txt : List Nat := [116, 104, 117, 109, 98]

/-- The text `"thumbnail"`. -/
def thumbnail_txt : List Nat := [116, 104, 117, 109, 98, 110, 97, 105, 108]

/-- The text `"small"`. -/
def small_txt : List Nat := [115, 109, 97, 108, 108]

/-- The text `"orig"`. -/
def orig_txt : List Nat := [111, 114, 105, 103]

/-- The text `"original"`. -/
def original_txt : List Nat := [111, 114, 105, 103, 105, 110, 97, 108]

/-- The function `resolution_atoi`; `none` is the `NULL` pointer. -/
def resolution_atoi (res_name : Option (List Nat)) : Int :=
  match res_name with
  | none => -1
  | some name =>
    let res_length := strlen name
    if strncmp name thumb_txt res_length = 0 ∨ strncmp name thumbnail_txt res_length = 0 then
      RES_THUMB
    else if strncmp name small_txt res_length = 0 then RES_SMALL
    else if strncmp name orig_txt res_length = 0 ∨ strncmp name original_txt res_length = 0 then
      RES_ORIG
    else -1

/-- The value of a little-endian byte sequence. -/
def le_value : List Nat → Nat
  | [] => 0
  | b :: rest => b + 256 * le_value rest

/-- The record that `fread(&header, sizeof(struct pictdb_header), 1, f)` stores
from the 64 bytes `b`. -/
def decode_header (b : List Nat) : pictdb_header :=
  { db_name := b.take 32
    db_version := le_value ((b.drop 32).take 4)
    num_files := le_value ((b.drop 36).take 4)
    max_files := le_value ((b.drop 40).take 4)
    res_resized := [le_value ((b.drop 44).take 2), le_value ((b.drop 46).take 2),
      le_value ((b.drop 48).take 2), le_value ((b.drop 50).take 2)]
    unused_32 := le_value ((b.drop 52).take 4)
    unused_64 := le_value ((b.drop 56).take 8) }

/-- The slot that `fread` stores from the 216 bytes `b` of one record. -/
def decode_metadata (b : List Nat) : pict_metadata :=
  { pict_id := b.take 128
    SHA := (b.drop 128).take 32
    res_orig := (le_value ((b.drop 160).take 4), le_value ((b.drop 164).take 4))
    size := ⟨le_value ((b.drop 168).take 4), le_value ((b.drop 172).take 4),
      le_value ((b.drop 176).take 4)⟩
    offset := ⟨le_value ((b.drop 184).take 8), le_value ((b.drop 192).take 8),
      le_value ((b.drop 200).take 8)⟩
    is_valid := le_value ((b.drop 208).take 2)
    unused_16 := le_value ((b.drop 210).take 2) }

/-- The call `fread(metadata, sizeof(struct pict_metadata), n, f)` of `do_open`
into a table that `calloc` has zeroed: the number of whole records read, the
table, and the stream. -/
def fread_table (f : FILE) (n : Nat) : Nat × List pict_metadata × FILE :=
  if (FILE.next f).1 then (0, List.replicate n zero_metadata, (FILE.next f).2)
  else
    let k := min n ((f.bytes.length - f.pos) / sizeof_metadata)
    (k,
      (List.range k).map (fun j =>
          decode_metadata ((f.bytes.drop (f.pos + j * sizeof_metadata)).take sizeof_metadata))
        ++ List.replicate (n - k) zero_metadata,
      { (FILE.next f).2 with
          pos := if k = n then f.pos + n * sizeof_metadata else max f.pos f.bytes.length })

/-- The function `do_open`. `fopen_r` is the result of `fopen(filename, mode)`:
`none` for `NULL`, else the stream, which is open on the file at position 0. -/
def do_open (filename mode : List Nat) (db_file : pictdb_file) (fopen_r : Option FILE) :
    Option (error_code × pictdb_file) :=
  -- Check for good parameters
  if strlen filename = 0 ∨ strlen mode = 0 then some (ERR_INVALID_ARGUMENT, db_file)
  else
    -- Open and check if the opening worked
    match fopen_r with
    | none => some ( ERR_IO, { db_file with fpdb := none })
    | some f0 =>
      -- Read the header
      let s1 := fseek_set f0 0
      let r2 := fread s1.2 sizeof_header
      match r2.1 with
      | none => some ( ERR_IO, { db_file with fpdb := some r2.2 })
      | some header_bytes =>
        let header := decode_header header_bytes
        -- Read the metadata
        let s3 := fseek_set r2.2 sizeof_header
        let r4 := fread_table s3.2 header.max_files
        if r4.1 ≠ header.max_files then
          some ( ERR_IO, { fpdb := some r4.2.2, header := header, metadata := [] })
        else some (ERR_NONE, { fpdb := some r4.2.2, header := header, metadata := r4.2.1 })

/-! ## `pictDBM.c` -/

abbrev MAX_THUMB_RES : Nat := 128
abbrev MAX_SMALL_RES : Nat := 512
abbrev DEFAULT_MAX_FILES : Nat := 10
abbrev DEFAULT_THUMB_RES : Nat := 64
abbrev DEFAULT_SMALL_RES : Nat := 256

/-- The conversions `atouint32` and `atouint16` of `pictDBM_tools`, which is
not among the sources: they are parameters of the command. -/
structure Tools where
  atouint32 : List Nat → Nat
  atouint16 : List Nat → Nat

/-- The text `"-max_files"`. -/
def max_files_txt : List Nat := [45, 109, 97, 120, 95, 102, 105, 108, 101, 115]

/-- The text `"-thumb_res"`. -/
def thumb_res_txt : List Nat := [45, 116, 104, 117, 109, 98, 95, 114, 101, 115]

/-- The text `"-small_res"`. -/
def small_res_txt : List Nat := [45, 115, 109, 97, 108, 108, 95, 114, 101, 115]

/-- The local variables `max_files`, `thumb_res_x`, `thumb_res_y`,
`small_res_x`, `small_res_y` of `do_create_cmd`. -/
structure create_options where
  max_files : Nat
  thumb_res_x : Nat
  thumb_res_y : Nat
  small_res_x : Nat
  small_res_y : Nat
  deriving DecidableEq, Repr

/-- The default values of `do_create_cmd`. -/
def default_options : create_options :=
  ⟨DEFAULT_MAX_FILES, DEFAULT_THUMB_RES, DEFAULT_THUMB_RES, DEFAULT_SMALL_RES, DEFAULT_SMALL_RES⟩

/-- One round of the loop `while (i < args)` of `do_create_cmd`: `opt` is
`argv[i]` and `rest` holds the `args - 1 - i` arguments after it. The result
is the error returned, or the new values of the local variables with the
number of arguments the option takes (`i` advances by one more). -/
def create_option (T : Tools) (opt : List Nat) (rest : List (List Nat)) (o : create_options) :
    Except error_code (create_options × Nat) :=
  if strcmp opt max_files_txt = 0 then
    if rest.length < 1 then Except.error ERR_NOT_ENOUGH_ARGUMENTS
    else
      let res := T.atouint32 (rest.getD 0 []) % 2 ^ 32
      if res = 0 ∨ res > MAX_MAX_FILES then Except.error ERR_MAX_FILES
      else Except.ok ({ o with max_files := res }, 1)
  else if strcmp opt thumb_res_txt = 0 then
    if rest.length < 2 then Except.error ERR_NOT_ENOUGH_ARGUMENTS
    else
      let resx := T.atouint16 (rest.getD 0 []) % 2 ^ 16
      let resy := T.atouint16 (rest.getD 1 []) % 2 ^ 16
      if resx = 0 ∨ resy = 0 ∨ resx > MAX_THUMB_RES ∨ resy > MAX_THUMB_RES then
        Except.error ERR_RESOLUTIONS
      else Except.ok ({ o with thumb_res_x := resx, thumb_res_y := resy }, 2)
  else if strcmp opt small_res_txt = 0 then
    if rest.length < 2 then Except.error ERR_NOT_ENOUGH_ARGUMENTS
    else
      let resx := T.atouint16 (rest.getD 0 []) % 2 ^ 16
      let resy := T.atouint16 (rest.getD 1 []) % 2 ^ 16
      if resx = 0 ∨ resy = 0 ∨ resx > MAX_SMALL_RES ∨ resy > MAX_SMALL_RES then
        Except.error ERR_RESOLUTIONS
      else Except.ok ({ o with small_res_x := resx, small_res_y := resy }, 2)
  else Except.error ERR_INVALID_ARGUMENT

/-- The loop `while (i < args)` of `do_create_cmd` on the arguments from
`argv[i]` on, of which the first `skip` are the values of the option before
(`skip = 0` at an option): the error it returns, or the values it leaves in
the local variables. -/
def create_loop (T : Tools) : List (List Nat) → Nat → create_options →
    Except error_code create_options
  | [], _, o => Except.ok o
  | _ :: rest, skip + 1, o => create_loop T rest skip o
  | opt :: rest, 0, o =>
    match create_option T opt rest o with
    | Except.error e => Except.error e
    | Except.ok (o1, k) => create_loop T rest k o1

/-- The structure `do_create_cmd` passes to `do_create`: the local
`struct pictdb_file db_file`, whose other fields are not initialised, with the
known fields set. -/
def create_config (db_file : pictdb_file) (o : create_options) : pictdb_file :=
  { db_file with header := { db_file.header with
      max_files := o.max_files
      res_resized := [o.thumb_res_x, o.thumb_res_y, o.small_res_x, o.small_res_y] } }

/-- The function `do_create_cmd` on the argument vector `argv` (`argv[0]` is the
command name). `db_file` is the content of the local structure before it is
set, `fopen_wb` the result of the `fopen` of `do_create`. The result is the
status with the structure `do_create` left, or with `none` when `do_create`
was not called. -/
def do_create_cmd (T : Tools) (argv : List (List Nat)) (db_file : pictdb_file)
    (fopen_wb : Option (List Bool)) : Option (error_code × Option pictdb_file) :=
  match argv with
  | [] => some (ERR_NOT_ENOUGH_ARGUMENTS, none)
  | [_] => some (ERR_NOT_ENOUGH_ARGUMENTS, none)
  | _ :: filename :: options =>
    if strlen filename = 0 then some (ERR_INVALID_ARGUMENT, none)
    else
      match create_loop T options 0 default_options with
      | Except.error e => some (e, none)
      | Except.ok o =>
        -- create the file
        match do_create filename (create_config db_file o) fopen_wb with
        | none => none
        | some (res, db) => some (res, some db)

/-- A stand-in for the conversions: the decimal value of a string of digits. -/
def demo_tools : Tools :=
  { atouint32 := fun s => (c_str s).foldl (fun acc c => 10 * acc + (c - 48)) 0
    atouint16 := fun s => (c_str s).foldl (fun acc c => 10 * acc + (c - 48)) 0 }

/-- The fields of a header are within the ranges of their C types. -/
def header_wf (h : pictdb_header) : Prop :=
  h.db_name.length = MAX_DB_NAME + 1 ∧ (∀ c ∈ h.db_name, c < 256) ∧
    h.max_files < 2 ^ 31 ∧
    h.res_resized.length = 4 ∧ (∀ r ∈ h.res_resized, r < 2 ^ 16) ∧
    h.unused_32 < 2 ^ 32 ∧ h.unused_64 < 2 ^ 64

/-- A structure for `do_create` whose header fields are within the ranges of
their C types: `n` slots, the default resolutions. -/
def demo_wf_config (n : Nat) : pictdb_file :=
  { fpdb := none
    header := ⟨List.replicate 32 0, 0, 0, n, [64, 64, 256, 256], 0, 0⟩
    metadata := [] }

/-- The database `do_create` leaves on a stream without faults (the
structure itself when the call is undefined). -/
def demo_create (db_file : pictdb_file) : pictdb_file :=
  match do_create [100] db_file (some []) with
  | some (_, db) => db
  | none => db_file

/-- The database `do_read` leaves with the stand-in libraries (the database
itself when the call is undefined). -/
def demo_read (id : List Nat) (res : Int) (db : pictdb_file) : pictdb_file :=
  match do_read demo_lib id res db with
  | some (_, _, db') => db'
  | none => db

/-! ## `db_gbcollect.c` -/

/-- The files under the two names given to `do_gbcollect`: the content of
each, `none` when there is no file of that name. -/
structure gc_paths where
  orig : Option (List Nat)
  new : Option (List Nat)
  deriving DecidableEq, Repr

/-- The function `copy_and_delete` on the two files; `remove_fails` and
`rename_fails` tell whether `remove(old)` and `rename(new, old)` fail for a
cause of their own (both fail when the file they are to act on is missing). -/
def copy_and_delete (remove_fails rename_fails : Bool) (p : gc_paths) : error_code × gc_paths :=
  if remove_fails ∨ p.orig = none then ( ERR_IO, p)
  else
    match p.new with
    | none => ( ERR_IO, { p with orig := none })
    | some content =>
      if rename_fails then ( ERR_IO, { p with orig := none })
      else (ERR_NONE, { orig := some content, new := none })

/-- One of the two blocks of `do_gbcollect` that rematerialise a derived
resolution: `lazily_resize(res, &new_db_file, new_db_index)` when the source
slot has a nonzero size or offset at `res`. -/
def gbcollect_resize (L : Lib) (res : Int) (m : pict_metadata) (new_db_file : pictdb_file)
    (new_db_index : Nat) : Option (error_code × pictdb_file) :=
  if m.size.get res ≠ 0 ∨ m.offset.get res ≠ 0 then lazily_resize L res new_db_file new_db_index
  else some (ERR_NONE, new_db_file)

/-- The body of the loop of `do_gbcollect` for a slot `i` that holds a valid
image: the status, the source and the destination. -/
def gbcollect_slot (L : Lib) (i : Nat) (db_file new_db_file : pictdb_file)
    (new_db_index : Nat) : Option (error_code × pictdb_file × pictdb_file) :=
  match db_file.metadata[i]? with
  | none => none
  | some m =>
    match do_read L m.pict_id RES_ORIG db_file with
    | none => none
    | some (res, out, db1) =>
      if res ≠ ERR_NONE then some (res, db1, new_db_file)
      else
        match out, db1.metadata[i]? with
        | none, _ => none
        | _, none => none
        | some (img_array, size), some m1 =>
          match do_insert L (img_array.take size) m1.pict_id new_db_file with
          | none => none
          | some (res, ndb1) =>
            if res ≠ ERR_NONE then some (res, db1, ndb1)
            else
              match gbcollect_resize L RES_SMALL m1 ndb1 new_db_index with
              | none => none
              | some (res, ndb2) =>
                if res ≠ ERR_NONE then some (res, db1, ndb2)
                else
                  match gbcollect_resize L RES_THUMB m1 ndb2 new_db_index with
                  | none => none
                  | some (res, ndb3) => some (res, db1, ndb3)

/-- The loop `for (i = 0; i < max_files; i++)` of `do_gbcollect`, with `n`
rounds left from index `i`: the status (the first nonzero one stops the
loop), the source and the destination. -/
def gbcollect_loop (L : Lib) : Nat → Nat → pictdb_file → pictdb_file → Nat →
    Option (error_code × pictdb_file × pictdb_file)
  | 0, _, db_file, new_db_file, _ => some (ERR_NONE, db_file, new_db_file)
  | n + 1, i, db_file, new_db_file, new_db_index =>
    match db_file.metadata[i]? with
    | none => none
    | some m =>
      -- there is a valid image here
      if m.is_valid = 1 then
        match gbcollect_slot L i db_file new_db_file new_db_index with
        | none => none
        | some (res, db1, ndb1) =>
          if res ≠ ERR_NONE then some (res, db1, ndb1)
          else gbcollect_loop L n (i + 1) db1 ndb1 (new_db_index + 1)
      else gbcollect_loop L n (i + 1) db_file new_db_file new_db_index

/-- The result of `do_gbcollect`: the status, the source structure, the local
structure `new_db_file` at the return, and the two files. -/
structure gc_result where
  res : error_code
  db_file : pictdb_file
  new_db_file : pictdb_file
  paths : gc_paths
  deriving DecidableEq, Repr

/-- The function `do_gbcollect`. `db_file` is open on the file named
`orig_filename`, whose content is the content of its stream; `new_filename`
names another file. `new_db_file` is the content of the local structure before
it is set, `fopen_wb` the result of the `fopen` of `do_create`; `remove_fails`
and `rename_fails` are passed to `copy_and_delete`. The content of the file
named `new_filename` is the content of the stream of `new_db_file`; the calls
`remove(new_filename)` succeed. The status of `do_create` is not tested: after
a failure the table of `new_db_file` is not allocated, which the empty table
stands for. -/
def do_gbcollect (L : Lib) (db_file : pictdb_file) (new_filename : List Nat)
    (new_db_file : pictdb_file) (fopen_wb : Option (List Bool))
    (remove_fails rename_fails : Bool) : Option gc_result :=
  -- create new temporary pictdb_file
  let config : pictdb_file :=
    { new_db_file with header := { new_db_file.header with
        max_files := db_file.header.max_files
        res_resized := [db_file.header.res_resized.getD 0 0, db_file.header.res_resized.getD 1 0,
          db_file.header.res_resized.getD 2 0, db_file.header.res_resized.getD 3 0] } }
  match do_create new_filename config fopen_wb with
  | none => none
  | some (created, ndb0) =>
    let ndb : pictdb_file := if created = ERR_NONE then ndb0 else { ndb0 with metadata := [] }
    let max_files := db_file.header.max_files
    match gbcollect_loop L max_files 0 db_file ndb 0 with
    | none => none
    | some (res, db1, ndb1) =>
      let paths : gc_paths :=
        { orig := db1.fpdb.map (fun f => f.bytes)
          new := if strlen new_filename = 0 then none
                 else some (match ndb1.fpdb with
                            | some f => f.bytes
                            | none => []) }
      if res ≠ ERR_NONE then
        some { res := res, db_file := db1, new_db_file := ndb1,
               paths := { paths with new := none } }
      else
        let ndb2 : pictdb_file :=
          { ndb1 with header := { ndb1.header with db_version := db1.header.db_version } }
        let moved := copy_and_delete remove_fails rename_fails paths
        if moved.1 ≠ ERR_NONE then
          some { res := moved.1, db_file := db1, new_db_file := ndb2,
                 paths := { moved.2 with new := none } }
        else some { res := ERR_NONE, db_file := db1, new_db_file := ndb2, paths := moved.2 }

/-- A slot has the derived resolution `r` materialised: its size or its
offset at `r` is not zero. -/
def materialised (m : pict_metadata) (r : Int) : Prop :=
  m.size.get r ≠ 0 ∨ m.offset.get r ≠ 0

/-- The bytes a slot addresses as its original in the content `b` of the file. -/
def orig_bytes (b : List Nat) (m : pict_metadata) : List Nat :=
  (b.drop m.offset.orig).take m.size.orig

/-- The `NON_EMPTY` slots of a table, in the order of the table. -/
def live_slots (tbl : List pict_metadata) : List pict_metadata :=
  tbl.filter (fun m => m.is_valid = NON_EMPTY)

/-- Any two `NON_EMPTY` slots of the table with the same digest have the same
offset and the same size of the original. -/
def shared_orig (tbl : List pict_metadata) : Prop :=
  ∀ m1 ∈ tbl, ∀ m2 ∈ tbl, m1.is_valid = NON_EMPTY → m2.is_valid = NON_EMPTY →
    m1.SHA = m2.SHA → m1.offset.orig = m2.offset.orig ∧ m1.size.orig = m2.size.orig

/-- The file of the database is shorter than `2^32` bytes. -/
def small_file (db : pictdb_file) : Prop :=
  ∀ f, db.fpdb = some f → f.bytes.length < 2 ^ 32

/-- The content of the file of a database (empty when the stream is `NULL`). -/
def file_bytes (db : pictdb_file) : List Nat :=
  match db.fpdb with
  | some f => f.bytes
  | none => []

/-- The database with a stream on which no call fails. -/
def no_faults (db : pictdb_file) : pictdb_file :=
  { db with fpdb := db.fpdb.map (fun f => { f with faults := [] }) }

/-- The relation kept by the loop of `do_gbcollect` between a `NON_EMPTY` slot
`ms` of the source (file content `bs`) and the slot `md` made for it in the
destination (file content `bd`, data region from `D` on): same id, same
digest, same bytes and size of the original, which lies in the data region. -/
def gc_base (D : Nat) (bs bd : List Nat) (ms md : pict_metadata) : Prop :=
  md.is_valid = NON_EMPTY ∧ c_str md.pict_id = c_str ms.pict_id ∧ md.SHA = ms.SHA ∧
    orig_bytes bd md = orig_bytes bs ms ∧ md.size.orig = ms.size.orig ∧
    D ≤ md.offset.orig ∧ md.offset.orig + md.size.orig ≤ bd.length

/-- The relation `gc_base`, and every derived resolution materialised in the
source slot is materialised in the destination slot. -/
def gc_related (D : Nat) (bs bd : List Nat) (ms md : pict_metadata) : Prop :=
  gc_base D bs bd ms md ∧
    (materialised ms RES_THUMB → materialised md RES_THUMB) ∧
    (materialised ms RES_SMALL → materialised md RES_SMALL)

/-- The state of the loop of `do_gbcollect` on the source `D` (file content
`bs`) before the round of index `i`: the source structure `db` differs from
`D` in its stream position only; the destination `ndb` keeps the invariants,
its slots from `idx` on are not `NON_EMPTY`, and its first `idx` slots are
related, in order, to the `NON_EMPTY` slots among the first `i` of the
source. -/
def gc_inv (L : Lib) (D : pictdb_file) (bs : List Nat) (i : Nat) (db ndb : pictdb_file)
    (idx : Nat) : Prop :=
  db.header = D.header ∧ db.metadata = D.metadata ∧ (∃ f, db.fpdb = some f ∧ f.bytes = bs) ∧
    db_inv L ndb ∧ ndb.header.max_files = D.header.max_files ∧ idx ≤ ndb.metadata.length ∧
    (∀ j m, idx ≤ j → ndb.metadata[j]? = some m → m.is_valid ≠ NON_EMPTY) ∧
    List.Forall₂ (gc_related (data_start D.header.max_files) bs (file_bytes ndb))
      (live_slots (D.metadata.take i)) (ndb.metadata.take idx)

/-- The database in which `"a"` and `"b"` hold the same payload and the
thumbnail of `"a"` has been read. -/
def demo_shared : pictdb_file :=
  demo_read [97] RES_THUMB
    (demo_insert [1, 2, 3] [98] (demo_insert [1, 2, 3] [97] (demo_fresh 2 [])))

/-- The result of `do_gbcollect` with the stand-in libraries when every call
succeeds (a failure with the structures given when the call is undefined). -/
def demo_gbcollect (db : pictdb_file) : gc_result :=
  match do_gbcollect demo_lib db [116] (demo_config 0) (some []) false false with
  | some r => r
  | none => ⟨ERR_INVALID_ARGUMENT, db, demo_config 0, ⟨none, none⟩⟩

/-- A payload of `2^32 + 5` bytes, all equal to `1`. -/
@[irreducible] def payload_big : List Nat := List.replicate (2 ^ 32 + 5) 1

/-! ## `db_list.c` -/

/-- The mode `STDOUT` of `do_list_mode`. -/
abbrev STDOUT : Int := 0

/-- The mode `JSON` of `do_list_mode`. -/
abbrev JSON : Int := 1

/-- The library json-c as `do_list` calls it: whether
`json_object_new_object` and `json_object_new_array` return an object,
whether `json_object_new_string` returns one for a given C string, and the
text `json_object_to_json_string` gives for the object whose one member, under
the given key, is the array of the given strings. -/
structure Json where
  new_object : Bool
  new_array : Bool
  new_string : List Nat → Bool
  to_json_string : List Nat → List (List Nat) → List Nat

/-- What `do_list` prints in the mode `STDOUT`: the header (`print_header`),
the line `<< empty database >>`, or one slot (`print_metadata`). -/
inductive list_line
  | header (h : pictdb_header)
  | empty_database
  | metadata (m : pict_metadata)
  deriving DecidableEq, Repr

/-- The loop `for (i = k; i < bound; i++) if (metadata[i].is_valid == NON_EMPTY) ...`
of `do_list` over the table `tbl` (the slots from index `k` on): the slots the
body runs on, in the order of the loop; `none` when the loop reads past the
end of the table. -/
def list_loop (bound : Nat) : List pict_metadata → Nat → Option (List pict_metadata)
  | [], i => if i < bound then none else some []
  | m :: rest, i =>
    if i < bound then
      match list_loop bound rest (i + 1) with
      | none => none
      | some l => some (if m.is_valid = NON_EMPTY then m :: l else l)
    else some []

/-- The string literal `"Pictures"`. -/
def pictures_txt : List Nat := [80, 105, 99, 116, 117, 114, 101, 115]

/-- The string literal `"unimplemented do_list mode"`. -/
def unimplemented_txt : List Nat :=
  [117, 110, 105, 109, 112, 108, 101, 109, 101, 110, 116, 101, 100, 32, 100, 111, 95, 108, 105,
    115, 116, 32, 109, 111, 100, 101]

/-- The function `do_list` for a `db_file` that is not `NULL`: the string it
returns (`none` for `NULL`) and the lines it prints. -/
def do_list (J : Json) (db_file : pictdb_file) (mode : Int) :
    Option (Option (List Nat) × List list_line) :=
  if mode = STDOUT then
    -- check for the special case where there is no images
    if db_file.header.num_files = 0 then
      some (none, [list_line.header db_file.header, list_line.empty_database])
    else
      match list_loop db_file.header.max_files db_file.metadata 0 with
      | none => none
      | some l => some (none, list_line.header db_file.header :: l.map list_line.metadata)
  else if mode = JSON then
    -- create container json object
    if J.new_object = false then some (none, [])
    -- create container array for strings
    else if J.new_array = false then some (none, [])
    else
      -- pass through all metadatas
      match list_loop db_file.header.max_files db_file.metadata 0 with
      | none => none
      | some l =>
        let main_array :=
          (l.filter (fun m => J.new_string (c_str m.pict_id))).map (fun m => c_str m.pict_id)
        some (some (c_str (J.to_json_string pictures_txt main_array)), [])
  else some (some unimplemented_txt, [])

/-- A stand-in for json-c: every allocation succeeds, and the text is the key,
a colon, and the strings of the array, each followed by a comma. -/
def demo_json : Json :=
  { new_object := true
    new_array := true
    new_string := fun _ => true
    to_json_string := fun key arr => key ++ [58] ++ (arr.map (fun s => s ++ [44])).flatten }

/-! ## The records on disk -/

/-- The bytes of the header record in the content `b` of the file. -/
def header_record (b : List Nat) : List Nat := b.take sizeof_header

/-- The bytes of the record of slot `i` in the content `b` of the file. -/
def slot_record (b : List Nat) (i : Nat) : List Nat :=
  (b.drop (slot_pos i)).take sizeof_metadata

/-- The two bytes of the field `is_valid` of the record of slot `i` in the
content `b` of the file. -/
def disk_flag (b : List Nat) (i : Nat) : List Nat := (b.drop (slot_pos i + 208)).take 2

/-- In the content `b` of the file, the `is_valid` field of every record is
the flag of the slot in the table `tbl`, and the record of every `NON_EMPTY`
slot is the byte image of the slot. -/
def table_on_disk (b : List Nat) (tbl : List pict_metadata) : Prop :=
  ∀ i m, tbl[i]? = some m →
    disk_flag b i = le_bytes 2 m.is_valid ∧
    (m.is_valid = NON_EMPTY → slot_record b i = encode_metadata m)

/-- The file holds the header and the table, its header record is the
in-memory header, the `is_valid` field of every record is the in-memory flag,
and the record of every `NON_EMPTY` slot is the in-memory slot. -/
def on_disk (db : pictdb_file) : Prop :=
  ∃ f, db.fpdb = some f ∧ data_start db.header.max_files ≤ f.bytes.length ∧
    header_record f.bytes = encode_header db.header ∧ table_on_disk f.bytes db.metadata

/-- The databases of a session in which no call reports an I/O error: made by
a successful `do_create`, then used through calls of `do_insert`, `do_delete`
and `do_read` with any arguments that return a status other than `ERR_IO`. -/
inductive Session (L : Lib) : pictdb_file → Prop
  | create (filename : List Nat) (db_file : pictdb_file) (script : List Bool)
      (db : pictdb_file) :
      db_file.header.max_files < 2 ^ 31 →
      do_create filename db_file (some script) = some (ERR_NONE, db) → Session L db
  | insert (db : pictdb_file) (img id : List Nat) (rc : error_code) (db' : pictdb_file) :
      Session L db → do_insert L img id db = some (rc, db') → rc ≠ ERR_IO → Session L db'
  | delete (db : pictdb_file) (name : List Nat) (rc : error_code) (db' : pictdb_file) :
      Session L db → do_delete name db = some (rc, db') → rc ≠ ERR_IO → Session L db'
  | read (db : pictdb_file) (id : List Nat) (res : Int) (rc : error_code)
      (out : Option (List Nat × Nat)) (db' : pictdb_file) :
      Session L db → do_read L id res db = some (rc, out, db') → rc ≠ ERR_IO → Session L db'

/-- One call of `do_insert`, `do_delete`, `do_read` or `lazily_resize`, with
any arguments and whatever it returns: the database before and after. -/
inductive Step (L : Lib) : pictdb_file → pictdb_file → Prop
  | insert (db : pictdb_file) (img id : List Nat) (rc : error_code) (db' : pictdb_file) :
      do_insert L img id db = some (rc, db') → Step L db db'
  | delete (db : pictdb_file) (name : List Nat) (rc : error_code) (db' : pictdb_file) :
      do_delete name db = some (rc, db') → Step L db db'
  | read (db : pictdb_file) (id : List Nat) (res : Int) (rc : error_code)
      (out : Option (List Nat × Nat)) (db' : pictdb_file) :
      do_read L id res db = some (rc, out, db') → Step L db db'
  | resize (db : pictdb_file) (res : Int) (i : Nat) (rc : error_code) (db' : pictdb_file) :
      lazily_resize L res db i = some (rc, db') → Step L db db'

/-! ## Slots that survive a round trip through the file -/

/-- The fields of a slot that identify the image and locate its content are
within the sizes of their C types: the id is a string of at most `MAX_PIC_ID`
characters, the digest has 32 bytes, the sizes fit `uint32_t` and the offsets
`uint64_t`. -/
def slot_fits (m : pict_metadata) : Prop :=
  strlen m.pict_id ≤ MAX_PIC_ID ∧ m.SHA.length = 32 ∧
    m.size.thumb < 2 ^ 32 ∧ m.size.small < 2 ^ 32 ∧ m.size.orig < 2 ^ 32 ∧
    m.offset.thumb < 2 ^ 64 ∧ m.offset.small < 2 ^ 64 ∧ m.offset.orig < 2 ^ 64

/-- Every `NON_EMPTY` slot of the table satisfies `slot_fits`. -/
def table_fits (tbl : List pict_metadata) : Prop :=
  ∀ m ∈ tbl, m.is_valid = NON_EMPTY → slot_fits m

/-- The slot `m2` carries the flag of `m1` and, when the flag is `NON_EMPTY`,
its id, digest, sizes and offsets. -/
def same_entry (m1 m2 : pict_metadata) : Prop :=
  m2.is_valid = m1.is_valid ∧
    (m1.is_valid = NON_EMPTY →
      c_str m2.pict_id = c_str m1.pict_id ∧ m2.SHA = m1.SHA ∧ m2.size = m1.size ∧
        m2.offset = m1.offset)

/-- The table `do_open` reads from a file of content `b` that holds `n`
records. -/
def table_of_file (b : List Nat) (n : Nat) : List pict_metadata :=
  (List.range n).map (fun j => decode_metadata (slot_record b j))

/-! # Theorems -/

set_option maxRecDepth 100000

theorem encode_header_length (h : pictdb_header) : (encode_header h).length = sizeof_header := by
  simp [encode_header, fit, le_bytes, sizeof_header]

theorem encode_metadata_length (m : pict_metadata) :
    (encode_metadata m).length = sizeof_metadata := by
  simp [encode_metadata, fit, le_bytes, sizeof_metadata]

theorem strcmp_eq_zero (a b : List Nat) : strcmp a b = 0 ↔ c_str a = c_str b := by
  unfold strcmp; split <;> simp_all

theorem c_str_no_nul (s : List Nat) : ∀ c ∈ c_str s, (decide (c ≠ 0)) = true := by
  intro c hc
  exact List.mem_takeWhile_imp (p := fun c => decide (c ≠ 0)) hc

theorem c_str_strncpy_nul (dst src : List Nat) : c_str (strncpy_nul dst src) = c_str src := by
  unfold strncpy_nul
  show List.takeWhile _ _ = _
  rw [List.takeWhile_append_of_pos (c_str_no_nul src)]
  simp [c_str]

theorem first_slot_miss (bound : Nat) (p : Nat → pict_metadata → Bool) :
    ∀ (l : List pict_metadata) (i : Nat), l.length + i = bound →
      (∀ j m, l[j]? = some m → p (i + j) m = false) →
      first_slot bound p l i = some none := by
  intro l
  induction l with
  | nil => intro i h _; simp at h; simp [first_slot, h]
  | cons a l ih =>
    intro i h hp
    have h0 := hp 0 a (by simp)
    simp at h0
    have hi : i < bound := by simp at h; omega
    simp only [first_slot, hi, if_true, h0]
    apply ih (i + 1) (by simp at h; omega)
    intro j m hj
    have := hp (j + 1) m (by simpa using hj)
    rwa [show i + 1 + j = i + (j + 1) by omega]

theorem first_slot_hit (bound : Nat) (p : Nat → pict_metadata → Bool) :
    ∀ (l : List pict_metadata) (i : Nat), l.length + i ≤ bound →
      (∃ j m, l[j]? = some m ∧ p (i + j) m = true) →
      ∃ k m, first_slot bound p l i = some (some (i + k)) ∧ l[k]? = some m ∧
        p (i + k) m = true ∧ ∀ j m', j < k → l[j]? = some m' → p (i + j) m' = false := by
  intro l
  induction l with
  | nil => intro i _ ⟨j, m, hj, _⟩; simp at hj
  | cons a l ih =>
    intro i h hex
    have hi : i < bound := by simp at h; omega
    by_cases h0 : p i a = true
    · exact ⟨0, a, by simp [first_slot, hi, h0], by simp, by simpa using h0, by
        intro j m' hj; omega⟩
    · obtain ⟨j, m, hj, hpj⟩ := hex
      cases j with
      | zero => simp at hj; subst hj; exact absurd hpj h0
      | succ j =>
        obtain ⟨k, m1, hk1, hk2, hk3, hk4⟩ := ih (i + 1) (by simp at h; omega)
          ⟨j, m, by simpa using hj, by rwa [show i + 1 + j = i + (j + 1) by omega]⟩
        refine ⟨k + 1, m1, ?_, by simpa using hk2, ?_, ?_⟩
        · simp only [first_slot, hi, if_true, h0]
          rw [hk1]; simp; omega
        · rwa [show i + (k + 1) = i + 1 + k by omega]
        · intro j' m' hlt hj'
          cases j' with
          | zero => simp at hj'; subst hj'; simpa using h0
          | succ j' =>
            have := hk4 j' m' (by omega) (by simpa using hj')
            rwa [show i + (j' + 1) = i + 1 + j' by omega]

/-- C5 -/
theorem do_insert_full_database (L : Lib) (img_array img_id : List Nat) (db : pictdb_file)
    (hid : strlen img_id ≠ 0) (himg : img_array ≠ [])
    (hfull : db.header.num_files = db.header.max_files) :
    do_insert L img_array img_id db = some (ERR_FULL_DATABASE, db) := by
  simp [do_insert, hid, himg, hfull]

/-- C6 -/
theorem do_delete_unknown_id (name : List Nat) (db : pictdb_file)
    (hlen : db.metadata.length = db.header.max_files) (hname : strlen name ≠ 0)
    (hunknown : ∀ m ∈ db.metadata, ¬ (m.is_valid = NON_EMPTY ∧ c_str m.pict_id = c_str name)) :
    do_delete name db = some (ERR_FILE_NOT_FOUND, db) := by
  have hscan := first_slot_miss db.header.max_files
    (fun _ m => m.is_valid = NON_EMPTY ∧ strcmp m.pict_id name = 0) db.metadata 0
    (by simpa using hlen)
    (by
      intro j m hj
      have hm : m ∈ db.metadata := List.getElem?_mem hj
      have := hunknown m hm
      simp only [strcmp_eq_zero, decide_eq_false_iff_not]
      exact this)
  simp only [do_delete, hname, if_false, hscan]

theorem read_scan_miss (max_files : Nat) (img_id : List Nat) :
    ∀ (l : List pict_metadata) (i : Nat), l.length + i ≤ max_files + 1 →
      (∀ m ∈ l, ¬ (strcmp m.pict_id img_id = 0 ∧ m.is_valid ≠ EMPTY)) →
      read_scan max_files img_id l i = none := by
  intro l
  induction l with
  | nil => intro i _ _; rfl
  | cons a l ih =>
    intro i h hp
    have hi : i ≤ max_files := by simp at h; omega
    have h0 := hp a (by simp)
    have hc : (strcmp a.pict_id img_id ≠ 0 ∨ a.is_valid = EMPTY) ∧ i ≤ max_files := by
      refine ⟨?_, hi⟩
      by_cases hs : strcmp a.pict_id img_id = 0
      · right
        by_contra hv
        exact h0 ⟨hs, hv⟩
      · left; exact hs
    simp only [read_scan, hc, and_self, if_true]
    exact ih (i + 1) (by simp at h; omega) (fun m hm => hp m (by simp [hm]))

theorem read_scan_hit (max_files : Nat) (img_id : List Nat) :
    ∀ (l : List pict_metadata) (i k : Nat) (m : pict_metadata), l[k]? = some m →
      strcmp m.pict_id img_id = 0 → m.is_valid ≠ EMPTY → i + k ≤ max_files →
      (∀ j m', j < k → l[j]? = some m' → ¬ (strcmp m'.pict_id img_id = 0 ∧ m'.is_valid ≠ EMPTY)) →
      read_scan max_files img_id l i = some (i + k) := by
  intro l
  induction l with
  | nil => intro i k m hk; simp at hk
  | cons a l ih =>
    intro i k m hk hs hv hik hbefore
    cases k with
    | zero =>
      simp at hk; subst hk
      simp [read_scan, hs, hv]
    | succ k =>
      have h0 := hbefore 0 a (by omega) (by simp)
      have hc : (strcmp a.pict_id img_id ≠ 0 ∨ a.is_valid = EMPTY) ∧ i ≤ max_files := by
        refine ⟨?_, by omega⟩
        by_cases hs' : strcmp a.pict_id img_id = 0
        · right
          by_contra hv'
          exact h0 ⟨hs', hv'⟩
        · left; exact hs'
      simp only [read_scan, hc, and_self, if_true]
      rw [ih (i + 1) k m (by simpa using hk) hs hv (by omega)
        (fun j m' hj hm' => hbefore (j + 1) m' (by omega) (by simpa using hm'))]
      congr 1; omega

/-- On a table of `max_files` slots, the scan of `do_read` for an identifier
that no non-empty slot carries runs into slot `max_files`, outside the table:
the behaviour of `do_read` is undefined, whatever the resolution. -/
theorem do_read_unknown_id_undefined (L : Lib) (img_id : List Nat) (res_code : Int)
    (db : pictdb_file) (hlen : db.metadata.length = db.header.max_files)
    (hres : 0 ≤ res_code ∧ res_code < NB_RES)
    (hflags : ∀ m ∈ db.metadata, m.is_valid = EMPTY ∨ m.is_valid = NON_EMPTY)
    (hunknown : ∀ m ∈ db.metadata,
      ¬ (m.is_valid = NON_EMPTY ∧ c_str m.pict_id = c_str img_id)) :
    do_read L img_id res_code db = none := by
  have hscan := read_scan_miss db.header.max_files img_id db.metadata 0 (by omega)
    (by
      intro m hm ⟨hs, hv⟩
      rcases hflags m hm with h | h
      · exact hv h
      · exact hunknown m hm ⟨h, (strcmp_eq_zero _ _).1 hs⟩)
  have h1 : ¬ (res_code ≥ NB_RES ∨ res_code < 0) := by omega
  simp only [do_read, h1, if_false, hscan]

/-- C3 (failing input): in the database `do_create` makes for one slot,
`do_read` of the identifier `"a"` at `RES_THUMB` does not return
`ERR_FILE_NOT_FOUND`: its scan reads slot 1, past the end of the table. -/
theorem do_read_unknown_id_fresh :
    do_create [100] (demo_config 1) (some []) = some (ERR_NONE, demo_fresh 1 []) ∧
    do_read demo_lib [97] RES_THUMB (demo_fresh 1 []) = none ∧
    (do_read demo_lib [97] RES_THUMB (demo_fresh 1 [])).map (fun r => r.1)
      ≠ some ERR_FILE_NOT_FOUND := by
  decide

/-- C4 -/
theorem do_insert_duplicate_id (L : Lib) (img_array img_id : List Nat) (db : pictdb_file)
    (hlen : db.metadata.length = db.header.max_files)
    (hid : strlen img_id ≠ 0) (hid_max : strlen img_id ≤ MAX_PIC_ID) (himg : img_array ≠ [])
    (hroom : db.header.num_files < db.header.max_files)
    (hfree : ∃ m ∈ db.metadata, m.is_valid = EMPTY)
    (hdup : ∃ m ∈ db.metadata, m.is_valid = NON_EMPTY ∧ c_str m.pict_id = c_str img_id) :
    ∃ db', do_insert L img_array img_id db = some (ERR_DUPLICATE_ID, db') := by
  obtain ⟨mf, hmf, hmf0⟩ := hfree
  obtain ⟨jf, hjf⟩ := List.mem_iff_getElem?.1 hmf
  obtain ⟨k, m, hk1, hk2, hk3, -⟩ := first_slot_hit (db.header.max_files + 1)
    (fun _ m => m.is_valid ≠ NON_EMPTY) db.metadata 0 (by omega)
    ⟨jf, mf, hjf, by simp [hmf0]⟩
  simp only [Nat.zero_add] at hk1 hk3
  have hkv : m.is_valid ≠ NON_EMPTY := by simpa using hk3
  have hklt : k < db.metadata.length := (List.getElem?_eq_some.1 hk2).1
  obtain ⟨md, hmd, hmd1, hmd2⟩ := hdup
  obtain ⟨jd, hjd⟩ := List.mem_iff_getElem?.1 hmd
  have hne : k ≠ jd := by
    intro h; subst h; rw [hk2] at hjd; cases hjd; exact hkv hmd1
  obtain ⟨k', m', hs1, -, -, -⟩ := first_slot_hit db.header.max_files
    (fun _ m' => m'.is_valid = NON_EMPTY ∧
      strcmp m'.pict_id (strncpy_nul m.pict_id img_id) = 0)
    (db.metadata.set k
      { m with SHA := L.SHA256 img_array
               pict_id := strncpy_nul m.pict_id img_id
               size := m.size.put RES_ORIG (img_array.length % 2 ^ 32) }) 0
    (by simp [hlen])
    ⟨jd, md, by rw [List.getElem?_set_ne hne]; exact hjd, by
      simp [hmd1, strcmp_eq_zero, c_str_strncpy_nul, hmd2]⟩
  have h1 : ¬ (strlen img_id = 0 ∨ img_array.length = 0) := by
    simp [hid, himg]
  have h2 : ¬ (db.header.num_files ≥ db.header.max_files) := by omega
  have h3 : ¬ (MAX_PIC_ID < strlen img_id) := by omega
  have h4 : ¬ (k > db.header.max_files) := by omega
  have hres : do_insert L img_array img_id db = some (ERR_DUPLICATE_ID, set_slot db k
      { m with SHA := L.SHA256 img_array
               pict_id := strncpy_nul m.pict_id img_id
               size := m.size.put RES_ORIG (img_array.length % 2 ^ 32) }) := by
    simp only [do_insert, h1, h2, if_false, hk1, hk2, h3, do_name_and_content_dedup, set_slot,
      h4, List.getElem?_set_self hklt, hs1]
    simp
  exact ⟨_, hres⟩

/-! ## The stream primitives -/

theorem fseek_set_cases (f : FILE) (p : Nat) :
    fseek_set f p = (true, ⟨f.bytes, p, f.faults.tail⟩) ∨
    fseek_set f p = (false, ⟨f.bytes, f.pos, f.faults.tail⟩) := by
  unfold fseek_set FILE.next
  generalize f.faults.headD false = x
  cases x <;> simp

theorem fseek_end_cases (f : FILE) :
    fseek_end f = (true, ⟨f.bytes, f.bytes.length, f.faults.tail⟩) ∨
    fseek_end f = (false, ⟨f.bytes, f.pos, f.faults.tail⟩) := by
  unfold fseek_end FILE.next
  generalize f.faults.headD false = x
  cases x <;> simp

theorem fwrite_cases (f : FILE) (d : List Nat) :
    (fwrite f d = (true, ⟨write_at f.bytes f.pos d, f.pos + d.length, f.faults.tail⟩) ∧ d ≠ []) ∨
    fwrite f d = (false, ⟨f.bytes, f.pos, f.faults.tail⟩) := by
  unfold fwrite FILE.next
  generalize f.faults.headD false = x
  by_cases hd : d = []
  · right; simp [hd]
  · cases x <;> simp [hd]

theorem fread_cases (f : FILE) (n : Nat) :
    (fread f n = (some ((f.bytes.drop f.pos).take n), ⟨f.bytes, f.pos + n, f.faults.tail⟩) ∧
      n ≠ 0 ∧ f.pos + n ≤ f.bytes.length) ∨
    fread f n = (none, ⟨f.bytes, f.pos, f.faults.tail⟩) := by
  unfold fread FILE.next
  generalize f.faults.headD false = x
  by_cases hn : n = 0
  · right; simp [hn]
  · by_cases hl : f.bytes.length < f.pos + n
    · right; simp [hl]
    · cases x
      · left; simp [hn, hl]; omega
      · right; simp

/-! ## Writes and the data region -/

theorem write_at_end (b d : List Nat) : write_at b b.length d = b ++ d := by
  simp [write_at]

theorem write_at_length (b d : List Nat) (p : Nat) (h : p + d.length ≤ b.length) :
    (write_at b p d).length = b.length := by
  simp [write_at]; omega

theorem write_at_drop (b d : List Nat) (p D : Nat) (h1 : p + d.length ≤ D) (h2 : D ≤ b.length) :
    (write_at b p d).drop D = b.drop D := by
  unfold write_at
  have hp : p - b.length = 0 := by omega
  rw [hp]
  simp only [List.replicate_zero, List.append_nil, List.append_assoc]
  rw [List.drop_append_eq_append_drop, List.drop_append_eq_append_drop]
  have l1 : (List.take p b).length = p := by simp; omega
  rw [l1]
  have e1 : List.drop D (List.take p b) = [] := by
    apply List.drop_eq_nil_of_le; simp; omega
  have e2 : List.drop (D - p) d = [] := by
    apply List.drop_eq_nil_of_le; omega
  rw [e1, e2]
  simp only [List.nil_append, List.drop_drop]
  congr 1; omega

theorem same_data_refl (D : Nat) (b : List Nat) : same_data D b b := ⟨rfl, rfl⟩

theorem same_data_trans {D : Nat} {a b c : List Nat} (h1 : same_data D a b)
    (h2 : same_data D b c) : same_data D a c :=
  ⟨h2.1.trans h1.1, h2.2.trans h1.2⟩

theorem same_data_write_at (b d : List Nat) (p D : Nat) (h1 : p + d.length ≤ D)
    (h2 : D ≤ b.length) : same_data D b (write_at b p d) :=
  ⟨write_at_length b d p (by omega), write_at_drop b d p D h1 h2⟩

theorem data_kept_of_same {D : Nat} {b b' : List Nat} (h : same_data D b b') :
    data_kept D b b' := ⟨[], by simpa using h⟩

theorem data_kept_refl (D : Nat) (b : List Nat) : data_kept D b b :=
  data_kept_of_same (same_data_refl D b)

theorem data_kept_append (D : Nat) (b t : List Nat) : data_kept D b (b ++ t) :=
  ⟨t, same_data_refl D _⟩

theorem data_kept_length {D : Nat} {b b' : List Nat} (h : data_kept D b b') :
    b.length ≤ b'.length := by
  obtain ⟨t, h1, _⟩ := h
  rw [h1]; simp

theorem data_kept_trans {D : Nat} {a b c : List Nat} (ha : D ≤ a.length)
    (h1 : data_kept D a b) (h2 : data_kept D b c) : data_kept D a c := by
  obtain ⟨t1, l1, d1⟩ := h1
  obtain ⟨t2, l2, d2⟩ := h2
  refine ⟨t1 ++ t2, ?_, ?_⟩
  · rw [l2]; simp [l1]; omega
  · rw [d2, List.drop_append_of_le_length (by rw [l1]; simp; omega), d1]
    rw [List.drop_append_of_le_length ha, List.drop_append_of_le_length ha]
    simp

theorem data_kept_slice {D : Nat} {b b' : List Nat} (h : data_kept D b b') (off sz : Nat)
    (h1 : D ≤ off) (h2 : off + sz ≤ b.length) :
    (b'.drop off).take sz = (b.drop off).take sz := by
  obtain ⟨t, _, hd⟩ := h
  have e : ∀ l : List Nat, l.drop off = (l.drop D).drop (off - D) := by
    intro l; rw [List.drop_drop]; congr 1; omega
  rw [e b', hd, ← e, List.drop_append_of_le_length (by omega),
    List.take_append_of_le_length (by simp; omega)]

theorem first_slot_some_none (bound : Nat) (p : Nat → pict_metadata → Bool) :
    ∀ (l : List pict_metadata) (i : Nat), first_slot bound p l i = some none →
      ∀ j m, l[j]? = some m → i + j < bound → p (i + j) m = false := by
  intro l
  induction l with
  | nil => intro i _ j m hj; simp at hj
  | cons a l ih =>
    intro i h j m hj hlt
    have hi : i < bound := by omega
    simp only [first_slot, hi, if_true] at h
    by_cases h0 : p i a = true
    · simp [h0] at h
    · simp only [h0] at h
      cases j with
      | zero => simp at hj; subst hj; simpa using h0
      | succ j =>
        have := ih (i + 1) (by simpa using h) j m (by simpa using hj) (by omega)
        rwa [show i + 1 + j = i + (j + 1) by omega] at this

theorem first_slot_some_some (bound : Nat) (p : Nat → pict_metadata → Bool) :
    ∀ (l : List pict_metadata) (i k : Nat), first_slot bound p l i = some (some k) →
      ∃ m, i ≤ k ∧ k < bound ∧ l[k - i]? = some m ∧ p k m = true ∧
        ∀ j m', j < k - i → l[j]? = some m' → p (i + j) m' = false := by
  intro l
  induction l with
  | nil => intro i k h; simp only [first_slot] at h; split at h <;> simp at h
  | cons a l ih =>
    intro i k h
    by_cases hi : i < bound
    · simp only [first_slot, hi, if_true] at h
      by_cases h0 : p i a = true
      · simp only [h0, if_true, Option.some.injEq] at h
        subst h
        exact ⟨a, le_refl _, hi, by simp, h0, by intro j m' hj; omega⟩
      · simp only [h0] at h
        obtain ⟨m, h1, h2, h3, h4, h5⟩ := ih (i + 1) k (by simpa using h)
        refine ⟨m, by omega, h2, ?_, h4, ?_⟩
        · rw [show k - i = (k - (i + 1)) + 1 by omega]; simpa using h3
        · intro j m' hj hm'
          cases j with
          | zero => simp at hm'; subst hm'; simpa using h0
          | succ j =>
            have := h5 j m' (by omega) (by simpa using hm')
            rwa [show i + 1 + j = i + (j + 1) by omega] at this
    · simp [first_slot, hi] at h

theorem getElem?_lt {l : List pict_metadata} {k : Nat} {m : pict_metadata}
    (h : l[k]? = some m) : k < l.length := (List.getElem?_eq_some.1 h).1

/-! ## `update_file` -/

theorem rewind_slot_mk (fp : Option FILE) (hd : pictdb_header) (md : List pict_metadata)
    (idx : Nat) (m : pict_metadata) (h : md[idx]? = some m) :
    rewind_slot ⟨fp, hd, md⟩ idx = ⟨fp, hd, md.set idx { m with is_valid := EMPTY }⟩ := by
  simp [rewind_slot, h, set_slot]

/-- The header `update_file` leaves: one more file, one more version. -/
theorem update_file_cases (db db' : pictdb_file) (idx : Nat) (rc : error_code)
    (h : update_file db idx = some (rc, db')) :
    ∃ f m, db.fpdb = some f ∧ db.metadata[idx]? = some m ∧
      db'.header = { db.header with
        num_files := (db.header.num_files + 1) % 2 ^ 32
        db_version := (db.header.db_version + 1) % 2 ^ 32 } ∧
      ∃ f', db'.fpdb = some f' ∧
      ((rc = ERR_NONE ∧ db'.metadata = db.metadata ∧
          f'.bytes = write_at (write_at f.bytes 0 (encode_header db'.header))
            (slot_pos idx) (encode_metadata m) ∧ (f.faults = [] → f'.faults = [])) ∨
       (rc = ERR_IO ∧ db'.metadata = db.metadata.set idx { m with is_valid := EMPTY } ∧
          (f'.bytes = f.bytes ∨ f'.bytes = write_at f.bytes 0 (encode_header db'.header)))) := by
  unfold update_file at h
  simp only at h
  split at h
  · simp at h
  · simp at h
  · rename_i f0 m hf hm
    refine ⟨f0, m, hf, hm, ?_⟩
    rcases fseek_set_cases f0 0 with e1 | e1 <;> rw [e1] at h <;>
      simp only [if_true, if_false, Bool.true_eq_false] at h
    · rcases fwrite_cases ⟨f0.bytes, 0, f0.faults.tail⟩ (encode_header { db.header with
        num_files := (db.header.num_files + 1) % 2 ^ 32
        db_version := (db.header.db_version + 1) % 2 ^ 32 }) with ⟨e2, -⟩ | e2 <;>
        rw [e2] at h <;> simp only [if_true, if_false, Bool.true_eq_false] at h
      · rcases fseek_set_cases ⟨write_at f0.bytes 0 (encode_header { db.header with
            num_files := (db.header.num_files + 1) % 2 ^ 32
            db_version := (db.header.db_version + 1) % 2 ^ 32 }),
          0 + (encode_header { db.header with
            num_files := (db.header.num_files + 1) % 2 ^ 32
            db_version := (db.header.db_version + 1) % 2 ^ 32 }).length,
          f0.faults.tail.tail⟩ (slot_pos idx) with e3 | e3 <;>
          rw [e3] at h <;> simp only [if_true, if_false, Bool.true_eq_false] at h
        · rcases fwrite_cases ⟨write_at f0.bytes 0 (encode_header { db.header with
              num_files := (db.header.num_files + 1) % 2 ^ 32
              db_version := (db.header.db_version + 1) % 2 ^ 32 }),
            slot_pos idx, f0.faults.tail.tail.tail⟩ (encode_metadata m) with ⟨e4, -⟩ | e4 <;>
            rw [e4] at h <;> simp only [if_true, if_false, Bool.true_eq_false] at h
          · simp only [Option.some.injEq, Prod.mk.injEq] at h
            obtain ⟨rfl, rfl⟩ := h
            exact ⟨rfl, _, rfl, Or.inl ⟨rfl, rfl, rfl, fun hn => by simp [hn]⟩⟩
          · rw [rewind_slot_mk _ _ _ idx m hm] at h
            simp only [Option.some.injEq, Prod.mk.injEq] at h
            obtain ⟨rfl, rfl⟩ := h
            exact ⟨rfl, _, rfl, Or.inr ⟨rfl, rfl, Or.inr rfl⟩⟩
        · rw [rewind_slot_mk _ _ _ idx m hm] at h
          simp only [Option.some.injEq, Prod.mk.injEq] at h
          obtain ⟨rfl, rfl⟩ := h
          exact ⟨rfl, _, rfl, Or.inr ⟨rfl, rfl, Or.inr rfl⟩⟩
      · rw [rewind_slot_mk _ _ _ idx m hm] at h
        simp only [Option.some.injEq, Prod.mk.injEq] at h
        obtain ⟨rfl, rfl⟩ := h
        exact ⟨rfl, _, rfl, Or.inr ⟨rfl, rfl, Or.inl rfl⟩⟩
    · rw [rewind_slot_mk _ _ _ idx m hm] at h
      simp only [Option.some.injEq, Prod.mk.injEq] at h
      obtain ⟨rfl, rfl⟩ := h
      exact ⟨rfl, _, rfl, Or.inr ⟨rfl, rfl, Or.inl rfl⟩⟩

/-! ## `do_name_and_content_dedup` -/

theorem sha_equal_eq_zero (a b : List Nat) : sha_equal a b = 0 ↔ a = b := by
  unfold sha_equal; split <;> simp_all

theorem dedup_cases (db db2 : pictdb_file) (i : Nat) (rc : error_code)
    (hlen : db.metadata.length = db.header.max_files) (hi : i < db.metadata.length)
    (h : do_name_and_content_dedup db i = some (rc, db2)) :
    ∃ cand, db.metadata[i]? = some cand ∧
      ((rc = ERR_DUPLICATE_ID ∧ db2 = db ∧
          ∃ m ∈ db.metadata, m.is_valid = NON_EMPTY ∧ c_str m.pict_id = c_str cand.pict_id) ∨
       (rc = ERR_NONE ∧
          (∀ m ∈ db.metadata, m.is_valid = NON_EMPTY → c_str m.pict_id ≠ c_str cand.pict_id) ∧
          ((∃ k dup, db.metadata[k]? = some dup ∧ k ≠ i ∧ dup.is_valid = NON_EMPTY ∧
              dup.SHA = cand.SHA ∧
              (∀ j mj, j < k → db.metadata[j]? = some mj →
                ¬ (mj.is_valid = NON_EMPTY ∧ j ≠ i ∧ mj.SHA = cand.SHA)) ∧
              db2 = set_slot db i
                { cand with size := dup.size, offset := dup.offset, res_orig := dup.res_orig }) ∨
           ((∀ j mj, db.metadata[j]? = some mj →
                ¬ (mj.is_valid = NON_EMPTY ∧ j ≠ i ∧ mj.SHA = cand.SHA)) ∧
              db2 = set_slot db i { cand with offset := cand.offset.put RES_ORIG 0 })))) := by
  unfold do_name_and_content_dedup at h
  have h0 : ¬ (i > db.header.max_files) := by omega
  rw [if_neg h0] at h
  split at h
  · simp at h
  · rename_i cand hc
    refine ⟨cand, hc, ?_⟩
    split at h
    · simp at h
    · rename_i k hk
      simp only [Option.some.injEq, Prod.mk.injEq] at h
      obtain ⟨rfl, rfl⟩ := h
      obtain ⟨m, -, -, hm, hp, -⟩ := first_slot_some_some _ _ _ _ _ hk
      simp only [strcmp_eq_zero, decide_eq_true_eq] at hp
      exact Or.inl ⟨rfl, rfl, m, List.getElem?_mem hm, hp⟩
    · rename_i hnone
      have hnm : ∀ m ∈ db.metadata, m.is_valid = NON_EMPTY →
          c_str m.pict_id ≠ c_str cand.pict_id := by
        intro m hm hv hs
        obtain ⟨j, hj⟩ := List.mem_iff_getElem?.1 hm
        have := first_slot_some_none _ _ _ _ hnone j m hj (by
          have := getElem?_lt hj; omega)
        simp [strcmp_eq_zero, hv, hs] at this
      split at h
      · simp at h
      · rename_i k hk
        obtain ⟨dup, -, -, hd, hp, hbefore⟩ := first_slot_some_some _ _ _ _ _ hk
        simp only [Nat.sub_zero] at hd hbefore
        rw [hd] at h
        simp only [Option.some.injEq, Prod.mk.injEq] at h
        obtain ⟨rfl, rfl⟩ := h
        simp only [sha_equal_eq_zero, decide_eq_true_eq] at hp
        refine Or.inr ⟨rfl, hnm, Or.inl ⟨k, dup, hd, hp.2.1, hp.1, hp.2.2, ?_, rfl⟩⟩
        intro j mj hj hmj
        have := hbefore j mj hj hmj
        simpa [sha_equal_eq_zero] using this
      · rename_i hnone2
        simp only [Option.some.injEq, Prod.mk.injEq] at h
        obtain ⟨rfl, rfl⟩ := h
        refine Or.inr ⟨rfl, hnm, Or.inr ⟨?_, rfl⟩⟩
        intro j mj hmj
        have := first_slot_some_none _ _ _ _ hnone2 j mj hmj (by
          have := getElem?_lt hmj; omega)
        simpa [sha_equal_eq_zero] using this

theorem slot_pos_succ (i : Nat) : slot_pos (i + 1) = slot_pos i + sizeof_metadata := by
  simp [slot_pos]; ring

theorem sizeof_header_le_slot_pos (i : Nat) : sizeof_header ≤ slot_pos i := by
  simp [slot_pos]

theorem slot_pos_mono {i j : Nat} (h : i ≤ j) : slot_pos i ≤ slot_pos j := by
  simp only [slot_pos]
  have := Nat.mul_le_mul_right sizeof_metadata h
  omega

/-- The two writes of `update_file` stay inside the table. -/
theorem same_data_update (b : List Nat) (hd : pictdb_header) (m : pict_metadata) (i D : Nat)
    (h1 : slot_pos (i + 1) ≤ D) (h2 : D ≤ b.length) :
    same_data D b (write_at (write_at b 0 (encode_header hd)) (slot_pos i) (encode_metadata m)) := by
  have hh := sizeof_header_le_slot_pos (i + 1)
  have s1 : same_data D b (write_at b 0 (encode_header hd)) :=
    same_data_write_at b _ 0 D (by rw [encode_header_length]; omega) h2
  have s2 := same_data_write_at (write_at b 0 (encode_header hd)) (encode_metadata m)
    (slot_pos i) D (by rw [encode_metadata_length, ← slot_pos_succ]; exact h1)
    (by rw [s1.1]; exact h2)
  exact same_data_trans s1 s2

theorem update_file_shape (db db' : pictdb_file) (idx : Nat) (rc : error_code)
    (h : update_file db idx = some (rc, db')) :
    ∃ f m f', db.fpdb = some f ∧ db.metadata[idx]? = some m ∧ db'.fpdb = some f' ∧
      db'.header = bump_header db.header ∧
      ((rc = ERR_NONE ∧ db'.metadata = db.metadata ∧ (f.faults = [] → f'.faults = []) ∧
          ∀ D, slot_pos (idx + 1) ≤ D → D ≤ f.bytes.length → same_data D f.bytes f'.bytes) ∨
       (rc ≠ ERR_NONE ∧ db'.metadata = db.metadata.set idx { m with is_valid := EMPTY } ∧
          ∀ D, slot_pos (idx + 1) ≤ D → D ≤ f.bytes.length → same_data D f.bytes f'.bytes)) := by
  obtain ⟨f, m, hf, hm, hh, f', hf', hcase⟩ := update_file_cases db db' idx rc h
  refine ⟨f, m, f', hf, hm, hf', hh, ?_⟩
  rcases hcase with ⟨rfl, hmd, hb, hfl⟩ | ⟨rfl, hmd, hb⟩
  · refine Or.inl ⟨rfl, hmd, hfl, ?_⟩
    intro D h1 h2
    rw [hb]
    exact same_data_update _ _ _ _ _ h1 h2
  · refine Or.inr ⟨by decide, hmd, ?_⟩
    intro D h1 h2
    rcases hb with hb | hb
    · rw [hb]; exact same_data_refl _ _
    · rw [hb]
      exact same_data_write_at _ _ 0 D (by
        rw [encode_header_length]
        have := sizeof_header_le_slot_pos (idx + 1)
        omega) h2

/-! ## `insert_image` -/

theorem set_slot_set_slot (db : pictdb_file) (i : Nat) (a b : pict_metadata) :
    (set_slot db i a).metadata.set i b = db.metadata.set i b := by
  simp [set_slot]

theorem insert_image_cases (L : Lib) (img : List Nat) (db db' : pictdb_file) (i : Nat)
    (rc : error_code) (h : insert_image L img db i = some (rc, db')) :
    ∃ m2 f f', db.metadata[i]? = some m2 ∧ db.fpdb = some f ∧ db'.fpdb = some f' ∧
      ((rc ≠ ERR_NONE ∧ (db'.header = db.header ∨ db'.header = bump_header db.header) ∧
          (db'.metadata = db.metadata ∨
            ∃ m', m'.is_valid = EMPTY ∧ db'.metadata = db.metadata.set i m') ∧
          ∀ D, slot_pos (i + 1) ≤ D → D ≤ f.bytes.length → data_kept D f.bytes f'.bytes) ∨
       (rc = ERR_NONE ∧ db'.header = bump_header db.header ∧ m2.offset.orig ≠ 0 ∧
          (f.faults = [] → f'.faults = []) ∧
          db'.metadata = db.metadata.set i { m2 with is_valid := NON_EMPTY } ∧
          ∀ D, slot_pos (i + 1) ≤ D → D ≤ f.bytes.length → same_data D f.bytes f'.bytes) ∨
       (rc = ERR_NONE ∧ db'.header = bump_header db.header ∧ m2.offset.orig = 0 ∧ img ≠ [] ∧
          (f.faults = [] → f'.faults = []) ∧
          ∃ wh, L.jpegload img = some wh ∧
          db'.metadata = db.metadata.set i
            { m2 with offset := ⟨0, 0, f.bytes.length % 2 ^ 32⟩
                      size := ⟨0, 0, m2.size.orig⟩
                      is_valid := NON_EMPTY
                      res_orig := wh } ∧
          ∀ D, slot_pos (i + 1) ≤ D → D ≤ f.bytes.length →
            same_data D (f.bytes ++ img) f'.bytes)) := by
  unfold insert_image at h
  split at h
  · simp at h
  · simp at h
  · rename_i m2 f0 hm hf
    by_cases hoff : m2.offset.orig ≠ 0
    · rw [if_pos hoff] at h
      obtain ⟨f, m, f', hf1, hm1, hf', hh, hcase⟩ := update_file_shape _ _ _ _ h
      have hfe : f = f0 := by
        have : (set_slot db i { m2 with is_valid := NON_EMPTY }).fpdb = db.fpdb := rfl
        rw [this, hf] at hf1; cases hf1; rfl
      subst hfe
      have hlt := getElem?_lt hm
      have hme : m = { m2 with is_valid := NON_EMPTY } := by
        have : (set_slot db i { m2 with is_valid := NON_EMPTY }).metadata[i]? =
            some { m2 with is_valid := NON_EMPTY } := by
          simp [set_slot, List.getElem?_set_self hlt]
        rw [this] at hm1; cases hm1; rfl
      refine ⟨m2, f, f', hm, hf, hf', ?_⟩
      rcases hcase with ⟨rfl, hmd, hfl, hb⟩ | ⟨hrc, hmd, hb⟩
      · exact Or.inr (Or.inl ⟨rfl, hh, hoff, hfl, hmd, hb⟩)
      · exact Or.inl ⟨hrc, Or.inr hh, Or.inr ⟨{ m with is_valid := EMPTY }, rfl, by
          rw [hmd, set_slot_set_slot]⟩, fun D h1 h2 => data_kept_of_same (hb D h1 h2)⟩
    · rw [if_neg hoff] at h
      simp only [ne_eq, not_not] at hoff
      simp only at h
      rcases fseek_end_cases f0 with e1 | e1 <;> rw [e1] at h <;>
        simp only [if_true, if_false, Bool.true_eq_false] at h
      · rcases fwrite_cases ⟨f0.bytes, f0.bytes.length, f0.faults.tail⟩ img with ⟨e2, himg⟩ | e2 <;>
          rw [e2] at h <;> simp only [if_true, if_false, Bool.true_eq_false] at h
        · rw [write_at_end] at h
          unfold get_resolution at h
          cases hj : L.jpegload img with
          | none =>
            rw [hj] at h
            simp only [Option.some.injEq, Prod.mk.injEq] at h
            obtain ⟨rfl, rfl⟩ := h
            refine ⟨m2, f0, _, hm, hf, rfl, Or.inl ⟨by decide, Or.inl rfl, Or.inr ⟨_, ?_, rfl⟩, ?_⟩⟩
            · rfl
            · intro D _ _
              exact data_kept_append D _ _
          | some wh =>
            rw [hj] at h
            obtain ⟨w, ht⟩ := wh
            simp only at h
            obtain ⟨f, m, f', hf1, hm1, hf', hh, hcase⟩ := update_file_shape _ _ _ _ h
            have hfe : f = ⟨f0.bytes ++ img, f0.bytes.length + img.length, f0.faults.tail.tail⟩ := by
              simp only [set_slot] at hf1
              cases hf1; rfl
            subst hfe
            have hlt := getElem?_lt hm
            simp only [set_slot, List.getElem?_set_self hlt, Option.some.injEq] at hm1
            subst hm1
            simp only [ftell] at hh hcase hf' ⊢
            refine ⟨m2, f0, f', hm, hf, hf', ?_⟩
            rcases hcase with ⟨rfl, hmd, hfl, hb⟩ | ⟨hrc, hmd, hb⟩
            · refine Or.inr (Or.inr ⟨rfl, hh, hoff, himg, fun hn => hfl (by simp [hn]),
                (w, ht), rfl, hmd, ?_⟩)
              intro D h1 h2
              exact hb D h1 (by simp; omega)
            · refine Or.inl ⟨hrc, Or.inr hh, Or.inr ⟨_, ?_, hmd.trans (by simp [set_slot]; rfl)⟩, ?_⟩
              · exact rfl
              · intro D h1 h2
                have := hb D h1 (by simp; omega)
                exact ⟨img, this⟩
        · simp only [Option.some.injEq, Prod.mk.injEq] at h
          obtain ⟨rfl, rfl⟩ := h
          exact ⟨m2, f0, _, hm, hf, rfl, Or.inl ⟨by decide, Or.inl rfl, Or.inl rfl,
            fun D _ _ => data_kept_refl D _⟩⟩
      · simp only [Option.some.injEq, Prod.mk.injEq] at h
        obtain ⟨rfl, rfl⟩ := h
        exact ⟨m2, f0, _, hm, hf, rfl, Or.inl ⟨by decide, Or.inl rfl, Or.inl rfl,
          fun D _ _ => data_kept_refl D _⟩⟩

/-! ## `do_insert` -/

theorem res_array_put_orig (a : res_array) (v : Nat) :
    a.put RES_ORIG v = ⟨a.thumb, a.small, v⟩ := by
  simp [res_array.put]

/-- Every way `do_insert` returns: untouched database, a failure that leaves
the candidate slot not `NON_EMPTY`, a success through content dedup, or a
success through an append. -/
theorem do_insert_cases (L : Lib) (img id : List Nat) (db db' : pictdb_file) (rc : error_code)
    (hlen : db.metadata.length = db.header.max_files)
    (h : do_insert L img id db = some (rc, db')) :
    (rc ≠ ERR_NONE ∧ db' = db) ∨
    ∃ i m, db.metadata[i]? = some m ∧ m.is_valid ≠ NON_EMPTY ∧
      (∀ j mj, j < i → db.metadata[j]? = some mj → mj.is_valid = NON_EMPTY) ∧
      strlen id ≠ 0 ∧ strlen id ≤ MAX_PIC_ID ∧ img ≠ [] ∧
      db.header.num_files < db.header.max_files ∧
      ((rc ≠ ERR_NONE ∧ (db'.header = db.header ∨ db'.header = bump_header db.header) ∧
          (∃ m', (m'.is_valid = m.is_valid ∨ m'.is_valid = EMPTY) ∧
            db'.metadata = db.metadata.set i m') ∧
          (∀ f, db.fpdb = some f → ∃ f', db'.fpdb = some f' ∧
            ∀ D, slot_pos (i + 1) ≤ D → D ≤ f.bytes.length → data_kept D f.bytes f'.bytes)) ∨
       (rc = ERR_NONE ∧ db'.header = bump_header db.header ∧
          (∀ mk ∈ db.metadata, mk.is_valid = NON_EMPTY → c_str mk.pict_id ≠ c_str id) ∧
          ∃ f f', db.fpdb = some f ∧ db'.fpdb = some f' ∧ (f.faults = [] → f'.faults = []) ∧
          ((∃ k dup, db.metadata[k]? = some dup ∧ k ≠ i ∧ dup.is_valid = NON_EMPTY ∧
              dup.SHA = L.SHA256 img ∧
              (∀ j mj, j < k → db.metadata[j]? = some mj →
                ¬ (mj.is_valid = NON_EMPTY ∧ j ≠ i ∧ mj.SHA = L.SHA256 img)) ∧
              dup.offset.orig ≠ 0 ∧
              db'.metadata = db.metadata.set i
                ⟨strncpy_nul m.pict_id id, L.SHA256 img, dup.res_orig, dup.size, dup.offset,
                  NON_EMPTY, m.unused_16⟩ ∧
              ∀ D, slot_pos (i + 1) ≤ D → D ≤ f.bytes.length → same_data D f.bytes f'.bytes) ∨
           (∃ wh s, L.jpegload img = some wh ∧
              db'.metadata = db.metadata.set i
                ⟨strncpy_nul m.pict_id id, L.SHA256 img, wh, ⟨0, 0, s⟩,
                  ⟨0, 0, f.bytes.length % 2 ^ 32⟩, NON_EMPTY, m.unused_16⟩ ∧
              (((∀ j mj, db.metadata[j]? = some mj →
                    ¬ (mj.is_valid = NON_EMPTY ∧ j ≠ i ∧ mj.SHA = L.SHA256 img)) ∧
                  s = img.length % 2 ^ 32) ∨
               (∃ k dup, db.metadata[k]? = some dup ∧ k ≠ i ∧ dup.is_valid = NON_EMPTY ∧
                  dup.SHA = L.SHA256 img ∧ dup.offset.orig = 0 ∧ s = dup.size.orig)) ∧
              ∀ D, slot_pos (i + 1) ≤ D → D ≤ f.bytes.length →
                same_data D (f.bytes ++ img) f'.bytes)))) := by
  unfold do_insert at h
  split at h
  · simp only [Option.some.injEq, Prod.mk.injEq] at h
    obtain ⟨rfl, rfl⟩ := h
    exact Or.inl ⟨by decide, rfl⟩
  rename_i harg
  split at h
  · simp only [Option.some.injEq, Prod.mk.injEq] at h
    obtain ⟨rfl, rfl⟩ := h
    exact Or.inl ⟨by decide, rfl⟩
  rename_i hroom
  split at h
  · simp at h
  · simp only [Option.some.injEq, Prod.mk.injEq] at h
    obtain ⟨rfl, rfl⟩ := h
    exact Or.inl ⟨by decide, rfl⟩
  rename_i i hscan
  obtain ⟨m, -, -, hm, hp, hbefore⟩ := first_slot_some_some _ _ _ _ _ hscan
  simp only [Nat.sub_zero] at hm hbefore
  rw [hm] at h
  simp only at h
  split at h
  · simp at h
  rename_i hidmax
  have hv : m.is_valid ≠ NON_EMPTY := by simpa using hp
  have hlt := getElem?_lt hm
  simp only [not_or] at harg
  right
  refine ⟨i, m, hm, hv, ?_, harg.1, by omega, by
    intro hc; apply harg.2; simp [hc], by omega, ?_⟩
  · intro j mj hj hmj
    have := hbefore j mj hj hmj
    simpa using this
  -- the candidate slot after the three stores
  generalize hm1 : ({ m with SHA := L.SHA256 img
                             pict_id := strncpy_nul m.pict_id id
                             size := m.size.put RES_ORIG (img.length % 2 ^ 32) } :
    pict_metadata) = m1 at h
  have hm1v : m1.is_valid = m.is_valid := by subst hm1; rfl
  have hm1id : m1.pict_id = strncpy_nul m.pict_id id := by subst hm1; rfl
  have hm1sha : m1.SHA = L.SHA256 img := by subst hm1; rfl
  have hm1u : m1.unused_16 = m.unused_16 := by subst hm1; rfl
  have hm1s : m1.size.orig = img.length % 2 ^ 32 := by subst hm1; simp [res_array_put_orig]
  split at h
  · simp at h
  rename_i dedup_res db2 hdedup
  obtain ⟨cand, hcand, hd⟩ := dedup_cases (set_slot db i m1) db2 i dedup_res
    (by simpa [set_slot] using hlen) (by simpa [set_slot] using hlt) hdedup
  have hce : cand = m1 := by
    simp only [set_slot, List.getElem?_set_self hlt, Option.some.injEq] at hcand
    exact hcand.symm
  subst hce
  -- slots other than the candidate are those of `db`
  have hother : ∀ j mj, j ≠ i → ((set_slot db i cand).metadata[j]? = some mj ↔
      db.metadata[j]? = some mj) := by
    intro j mj hji
    simp only [set_slot]
    rw [List.getElem?_set_ne (Ne.symm hji)]
  have hnoid : (∀ mk ∈ (set_slot db i cand).metadata, mk.is_valid = NON_EMPTY →
      c_str mk.pict_id ≠ c_str cand.pict_id) →
      ∀ mk ∈ db.metadata, mk.is_valid = NON_EMPTY → c_str mk.pict_id ≠ c_str id := by
    intro hall mk hmk hmkv
    obtain ⟨j, hj⟩ := List.mem_iff_getElem?.1 hmk
    have hji : j ≠ i := by
      intro e; subst e; rw [hm] at hj; cases hj; exact hv hmkv
    have := hall mk (List.getElem?_mem ((hother j mk hji).2 hj)) hmkv
    rwa [hm1id, c_str_strncpy_nul] at this
  have hfp : (set_slot db i cand).fpdb = db.fpdb := rfl
  have hhd : (set_slot db i cand).header = db.header := rfl
  rcases hd with ⟨rfl, rfl, -⟩ | ⟨rfl, hnm, hd2⟩
  · -- duplicate identifier
    simp only [ne_eq, reduceCtorEq, not_false_eq_true, if_true, Option.some.injEq,
      Prod.mk.injEq] at h
    obtain ⟨rfl, rfl⟩ := h
    refine Or.inl ⟨by decide, Or.inl rfl, ⟨cand, Or.inl hm1v, rfl⟩, ?_⟩
    intro f hf
    exact ⟨f, hf, fun D _ _ => data_kept_refl D _⟩
  · simp only [ne_eq, not_true_eq_false, if_false] at h
    obtain ⟨m2, f, f', hm2, hf, hf', hcase⟩ := insert_image_cases L img db2 db' i rc h
    have hidfree := hnoid hnm
    rcases hd2 with ⟨k, dup, hk, hki, hdv, hds, hfirst, rfl⟩ | ⟨hnodup, rfl⟩
    · -- a slot with the same digest
      have hk' := (hother k dup hki).1 hk
      simp only [set_slot, List.set_set, List.getElem?_set_self hlt, Option.some.injEq]
        at hm2 hf hcase
      subst hm2
      rcases hcase with ⟨hrc, hh, hmd, hb⟩ | ⟨rfl, hh, hoff, hfl, hmd, hb⟩ |
        ⟨rfl, hh, hoff, himg, hfl, wh, hj, hmd, hb⟩
      · refine Or.inl ⟨hrc, hh, ?_, ?_⟩
        · rcases hmd with hmd | ⟨m', hm'v, hmd⟩
          · exact ⟨_, Or.inl (by exact hm1v), hmd⟩
          · exact ⟨m', Or.inr hm'v, hmd⟩
        · intro f0 hf0
          rw [hf0] at hf; cases hf
          exact ⟨f', hf', hb⟩
      · refine Or.inr ⟨rfl, hh, hidfree, f, f', hf, hf', hfl, Or.inl ⟨k, dup, hk', hki, hdv,
          by rw [hds, hm1sha], ?_, hoff, ?_, hb⟩⟩
        · intro j mj hjk hmj hc
          by_cases hji : j = i
          · exact hc.2.1 hji
          · exact hfirst j mj hjk ((hother j mj hji).2 hmj) ⟨hc.1, hc.2.1, by rw [hc.2.2, hm1sha]⟩
        · rw [hmd, ← hm1id, ← hm1sha, ← hm1u]
      · refine Or.inr ⟨rfl, hh, hidfree, f, f', hf, hf', hfl, Or.inr ⟨wh, dup.size.orig, hj, ?_,
          Or.inr ⟨k, dup, hk', hki, hdv, by rw [hds, hm1sha], hoff, rfl⟩, hb⟩⟩
        rw [hmd, ← hm1id, ← hm1sha, ← hm1u]
    · -- no slot with the same digest
      simp only [set_slot, List.set_set, List.getElem?_set_self hlt, Option.some.injEq]
        at hm2 hf hcase
      subst hm2
      rcases hcase with ⟨hrc, hh, hmd, hb⟩ | ⟨rfl, hh, hoff, hfl, hmd, hb⟩ |
        ⟨rfl, hh, hoff, himg, hfl, wh, hj, hmd, hb⟩
      · refine Or.inl ⟨hrc, hh, ?_, ?_⟩
        · rcases hmd with hmd | ⟨m', hm'v, hmd⟩
          · exact ⟨_, Or.inl (by exact hm1v), hmd⟩
          · exact ⟨m', Or.inr hm'v, hmd⟩
        · intro f0 hf0
          rw [hf0] at hf; cases hf
          exact ⟨f', hf', hb⟩
      · exfalso
        apply hoff
        simp [res_array_put_orig]
      · refine Or.inr ⟨rfl, hh, hidfree, f, f', hf, hf', hfl, Or.inr ⟨wh, img.length % 2 ^ 32, hj, ?_,
          Or.inl ⟨?_, rfl⟩, hb⟩⟩
        · rw [hmd, ← hm1id, ← hm1sha, ← hm1u, ← hm1s]
        · intro j mj hmj hc
          by_cases hji : j = i
          · exact hc.2.1 hji
          · exact hnodup j mj ((hother j mj hji).2 hmj) ⟨hc.1, hc.2.1, by rw [hc.2.2, hm1sha]⟩

/-! ## `lazily_resize` -/

/-- Every way `lazily_resize` returns: nothing touched, a failure before the
slot is updated, or the slot updated after the resized image is appended (the
write of the slot record may then still fail). -/
theorem lazily_resize_cases (L : Lib) (res : Int) (db db' : pictdb_file) (i : Nat)
    (rc : error_code) (h : lazily_resize L res db i = some (rc, db')) :
    db' = db ∨
    ∃ m f f', db.metadata[i]? = some m ∧ m.is_valid = NON_EMPTY ∧ m.offset.get res = 0 ∧
      (res = RES_THUMB ∨ res = RES_SMALL) ∧ db.fpdb = some f ∧ db'.fpdb = some f' ∧
      db'.header = db.header ∧
      ((rc ≠ ERR_NONE ∧ db'.metadata = db.metadata ∧
          (f'.bytes = f.bytes ∨ ∃ t, f'.bytes = f.bytes ++ t)) ∨
       (∃ res_buff, res_buff ≠ [] ∧ ¬ (to_int32 f.bytes.length < 0) ∧ m.size.orig ≠ 0 ∧
          m.offset.orig + m.size.orig ≤ f.bytes.length ∧
          L.resize_jpegsave ((f.bytes.drop m.offset.orig).take m.size.orig)
            (db.header.res_resized.getD (2 * res).toNat 0)
            (db.header.res_resized.getD ((2 * res).toNat + 1) 0) = some res_buff ∧
          db'.metadata = db.metadata.set i
            { m with offset := m.offset.put res (to_int32 f.bytes.length).toNat
                     size := m.size.put res (res_buff.length % 2 ^ 32) } ∧
          ((rc ≠ ERR_NONE ∧ f'.bytes = f.bytes ++ res_buff) ∨
           (rc = ERR_NONE ∧ (f.faults = [] → f'.faults = []) ∧
              f'.bytes = write_at (f.bytes ++ res_buff) (slot_pos i)
                (encode_metadata
                  { m with offset := m.offset.put res (to_int32 f.bytes.length).toNat
                           size := m.size.put res (res_buff.length % 2 ^ 32) }))))) := by
  unfold lazily_resize at h
  by_cases h1 : res = RES_ORIG
  · rw [if_pos h1] at h
    simp only [Option.some.injEq, Prod.mk.injEq] at h; exact Or.inl h.2.symm
  rw [if_neg h1] at h
  by_cases h2 : res ≠ RES_THUMB ∧ res ≠ RES_SMALL
  · rw [if_pos h2] at h
    simp only [Option.some.injEq, Prod.mk.injEq] at h; exact Or.inl h.2.symm
  rw [if_neg h2] at h
  split at h
  · simp only [Option.some.injEq, Prod.mk.injEq] at h; exact Or.inl h.2.symm
  split at h
  · simp at h
  rename_i m hm
  split at h
  swap
  · simp only [Option.some.injEq, Prod.mk.injEq] at h; exact Or.inl h.2.symm
  rename_i hv
  split at h
  swap
  · simp only [Option.some.injEq, Prod.mk.injEq] at h; exact Or.inl h.2.symm
  rename_i hoff
  split at h
  · simp at h
  rename_i f0 hf
  have hres : res = RES_THUMB ∨ res = RES_SMALL := by
    by_cases e : res = RES_THUMB
    · exact Or.inl e
    · right; by_contra e2; exact h2 ⟨e, e2⟩
  right
  simp only at h
  rcases fseek_set_cases f0 m.offset.orig with e1 | e1 <;> rw [e1] at h <;>
    simp only [if_true, if_false, Bool.true_eq_false] at h
  swap
  · simp only [Option.some.injEq, Prod.mk.injEq] at h
    obtain ⟨rfl, rfl⟩ := h
    exact ⟨m, f0, _, hm, hv, hoff, hres, hf, rfl, rfl, Or.inl ⟨by decide, rfl, Or.inl rfl⟩⟩
  rcases fread_cases ⟨f0.bytes, m.offset.orig, f0.faults.tail⟩ m.size.orig with
    ⟨e2, hsz, hrd⟩ | e2 <;> rw [e2] at h <;> simp only at h
  swap
  · simp only [Option.some.injEq, Prod.mk.injEq] at h
    obtain ⟨rfl, rfl⟩ := h
    exact ⟨m, f0, _, hm, hv, hoff, hres, hf, rfl, rfl, Or.inl ⟨by decide, rfl, Or.inl rfl⟩⟩
  split at h
  · simp only [Option.some.injEq, Prod.mk.injEq] at h
    obtain ⟨rfl, rfl⟩ := h
    exact ⟨m, f0, _, hm, hv, hoff, hres, hf, rfl, rfl, Or.inl ⟨by decide, rfl, Or.inl rfl⟩⟩
  split at h
  · simp only [Option.some.injEq, Prod.mk.injEq] at h
    obtain ⟨rfl, rfl⟩ := h
    exact ⟨m, f0, _, hm, hv, hoff, hres, hf, rfl, rfl, Or.inl ⟨by decide, rfl, Or.inl rfl⟩⟩
  rename_i res_buff hrb
  rcases fseek_end_cases ⟨f0.bytes, m.offset.orig + m.size.orig, f0.faults.tail.tail⟩ with
    e3 | e3 <;> rw [e3] at h <;> simp only [if_true, if_false, Bool.true_eq_false] at h
  swap
  · simp only [Option.some.injEq, Prod.mk.injEq] at h
    obtain ⟨rfl, rfl⟩ := h
    exact ⟨m, f0, _, hm, hv, hoff, hres, hf, rfl, rfl, Or.inl ⟨by decide, rfl, Or.inl rfl⟩⟩
  simp only [ftell] at h
  split at h
  · simp only [Option.some.injEq, Prod.mk.injEq] at h
    obtain ⟨rfl, rfl⟩ := h
    exact ⟨m, f0, _, hm, hv, hoff, hres, hf, rfl, rfl, Or.inl ⟨by decide, rfl, Or.inl rfl⟩⟩
  rename_i hnn
  rcases fwrite_cases ⟨f0.bytes, f0.bytes.length, f0.faults.tail.tail.tail⟩ res_buff with
    ⟨e4, hne⟩ | e4 <;> rw [e4] at h <;> simp only [if_true, if_false, Bool.true_eq_false] at h
  swap
  · simp only [Option.some.injEq, Prod.mk.injEq] at h
    obtain ⟨rfl, rfl⟩ := h
    exact ⟨m, f0, _, hm, hv, hoff, hres, hf, rfl, rfl, Or.inl ⟨by decide, rfl, Or.inl rfl⟩⟩
  rw [write_at_end] at h
  simp only at hrd hrb
  rcases fseek_set_cases ⟨f0.bytes ++ res_buff, f0.bytes.length + res_buff.length,
    f0.faults.tail.tail.tail.tail⟩ (slot_pos i) with e5 | e5 <;> rw [e5] at h <;>
    simp only [if_true, if_false, Bool.true_eq_false] at h
  swap
  · simp only [Option.some.injEq, Prod.mk.injEq] at h
    obtain ⟨rfl, rfl⟩ := h
    exact ⟨m, f0, _, hm, hv, hoff, hres, hf, rfl, rfl, Or.inr ⟨res_buff, hne, hnn, hsz, hrd, hrb,
      rfl, Or.inl ⟨by decide, rfl⟩⟩⟩
  rcases fwrite_cases ⟨f0.bytes ++ res_buff, slot_pos i, f0.faults.tail.tail.tail.tail.tail⟩
    (encode_metadata
      { m with offset := m.offset.put res (to_int32 f0.bytes.length).toNat
               size := m.size.put res (res_buff.length % 2 ^ 32) }) with
    ⟨e6, -⟩ | e6 <;> rw [e6] at h <;> simp only [if_true, if_false, Bool.true_eq_false] at h
  · simp only [Option.some.injEq, Prod.mk.injEq] at h
    obtain ⟨rfl, rfl⟩ := h
    exact ⟨m, f0, _, hm, hv, hoff, hres, hf, rfl, rfl, Or.inr ⟨res_buff, hne, hnn, hsz, hrd, hrb,
      rfl, Or.inr ⟨rfl, fun hn => by simp [hn], rfl⟩⟩⟩
  · simp only [Option.some.injEq, Prod.mk.injEq] at h
    obtain ⟨rfl, rfl⟩ := h
    exact ⟨m, f0, _, hm, hv, hoff, hres, hf, rfl, rfl, Or.inr ⟨res_buff, hne, hnn, hsz, hrd, hrb,
      rfl, Or.inl ⟨by decide, rfl⟩⟩⟩

/-! ## `do_read` -/

theorem read_image_cases (db db' : pictdb_file) (i : Nat) (res : Int) (rc : error_code)
    (out : Option (List Nat × Nat)) (h : read_image db i res = some (rc, out, db')) :
    ∃ m f f', db.metadata[i]? = some m ∧ db.fpdb = some f ∧ db'.fpdb = some f' ∧
      db'.header = db.header ∧ db'.metadata = db.metadata ∧ f'.bytes = f.bytes ∧
      ((rc ≠ ERR_NONE ∧ out = none) ∨
       (rc = ERR_NONE ∧ m.size.get res ≠ 0 ∧
          m.offset.get res + m.size.get res ≤ f.bytes.length ∧
          out = some ((f.bytes.drop (m.offset.get res)).take (m.size.get res),
            m.size.get res))) := by
  unfold read_image at h
  split at h
  · simp at h
  · simp at h
  rename_i m f0 hm hf
  simp only at h
  rcases fseek_set_cases f0 (m.offset.get res) with e1 | e1 <;> rw [e1] at h <;>
    simp only [if_true, if_false, Bool.true_eq_false] at h
  swap
  · simp only [Option.some.injEq, Prod.mk.injEq] at h
    obtain ⟨rfl, rfl, rfl⟩ := h
    exact ⟨m, f0, _, hm, hf, rfl, rfl, rfl, rfl, Or.inl ⟨by decide, rfl⟩⟩
  rcases fread_cases ⟨f0.bytes, m.offset.get res, f0.faults.tail⟩ (m.size.get res) with
    ⟨e2, hsz, hrd⟩ | e2 <;> rw [e2] at h <;> simp only at h
  · simp only [Option.some.injEq, Prod.mk.injEq] at h
    obtain ⟨rfl, rfl, rfl⟩ := h
    exact ⟨m, f0, _, hm, hf, rfl, rfl, rfl, rfl, Or.inr ⟨rfl, hsz, hrd, rfl⟩⟩
  · simp only [Option.some.injEq, Prod.mk.injEq] at h
    obtain ⟨rfl, rfl, rfl⟩ := h
    exact ⟨m, f0, _, hm, hf, rfl, rfl, rfl, rfl, Or.inl ⟨by decide, rfl⟩⟩

/-- What `do_read` does to the database is what one call of `lazily_resize`
does, followed by moves of the stream only. -/
theorem do_read_cases (L : Lib) (id : List Nat) (res : Int) (db db' : pictdb_file)
    (rc : error_code) (out : Option (List Nat × Nat))
    (h : do_read L id res db = some (rc, out, db')) :
    ∃ db1, (db1 = db ∨ ∃ i rc1, lazily_resize L res db i = some (rc1, db1)) ∧
      db'.header = db1.header ∧ db'.metadata = db1.metadata ∧
      (db' = db1 ∨ ∃ f f', db1.fpdb = some f ∧ db'.fpdb = some f' ∧ f'.bytes = f.bytes) := by
  unfold do_read at h
  split at h
  · simp only [Option.some.injEq, Prod.mk.injEq] at h
    obtain ⟨-, -, rfl⟩ := h
    exact ⟨db, Or.inl rfl, rfl, rfl, Or.inl rfl⟩
  split at h
  · simp at h
  rename_i i hscan
  split at h
  · simp only [Option.some.injEq, Prod.mk.injEq] at h
    obtain ⟨-, -, rfl⟩ := h
    exact ⟨db, Or.inl rfl, rfl, rfl, Or.inl rfl⟩
  split at h
  · simp at h
  rename_i m hm
  split at h
  · split at h
    · simp only [Option.some.injEq, Prod.mk.injEq] at h
      obtain ⟨-, -, rfl⟩ := h
      exact ⟨db, Or.inl rfl, rfl, rfl, Or.inl rfl⟩
    split at h
    · simp at h
    rename_i rc1 db1 hlazy
    split at h
    · simp only [Option.some.injEq, Prod.mk.injEq] at h
      obtain ⟨-, -, rfl⟩ := h
      exact ⟨db1, Or.inr ⟨i, rc1, hlazy⟩, rfl, rfl, Or.inl rfl⟩
    · obtain ⟨m', f, f', -, hf, hf', hh, hmd, hb, -⟩ := read_image_cases _ _ _ _ _ _ h
      exact ⟨db1, Or.inr ⟨i, rc1, hlazy⟩, hh, hmd, Or.inr ⟨f, f', hf, hf', hb⟩⟩
  · obtain ⟨m', f, f', -, hf, hf', hh, hmd, hb, -⟩ := read_image_cases _ _ _ _ _ _ h
    exact ⟨db, Or.inl rfl, hh, hmd, Or.inr ⟨f, f', hf, hf', hb⟩⟩

/-! ## `do_delete` -/

/-- Every way `do_delete` returns: nothing touched, or the first non-empty
slot that carries the name emptied, with the two records written or not. -/
theorem do_delete_cases (name : List Nat) (db db' : pictdb_file) (rc : error_code)
    (h : do_delete name db = some (rc, db')) :
    (rc ≠ ERR_NONE ∧ db' = db) ∨
    ∃ idx m, db.metadata[idx]? = some m ∧ m.is_valid = NON_EMPTY ∧
      c_str m.pict_id = c_str name ∧ idx < db.header.max_files ∧
      (∀ j mj, j < idx → db.metadata[j]? = some mj →
        ¬ (mj.is_valid = NON_EMPTY ∧ c_str mj.pict_id = c_str name)) ∧
      db'.metadata = db.metadata.set idx { m with is_valid := EMPTY } ∧
      ((rc ≠ ERR_NONE ∧ db'.header = db.header ∧
          (db'.fpdb = db.fpdb ∨ ∃ f f', db.fpdb = some f ∧ db'.fpdb = some f' ∧
            f'.bytes = f.bytes)) ∨
       (∃ f f', db.fpdb = some f ∧ db'.fpdb = some f' ∧
          db'.header = delete_header db.header ∧
          ((rc ≠ ERR_NONE ∧
              f'.bytes = write_at f.bytes (slot_pos idx)
                (encode_metadata { m with is_valid := EMPTY })) ∨
           (rc = ERR_NONE ∧
              f'.bytes = write_at (write_at f.bytes (slot_pos idx)
                (encode_metadata { m with is_valid := EMPTY })) 0
                (encode_header (delete_header db.header)))))) := by
  unfold do_delete at h
  split at h
  · simp only [Option.some.injEq, Prod.mk.injEq] at h
    obtain ⟨rfl, rfl⟩ := h
    exact Or.inl ⟨by decide, rfl⟩
  split at h
  · simp at h
  · simp only [Option.some.injEq, Prod.mk.injEq] at h
    obtain ⟨rfl, rfl⟩ := h
    exact Or.inl ⟨by decide, rfl⟩
  rename_i idx hscan
  obtain ⟨m, -, hidx, hm, hp, hbefore⟩ := first_slot_some_some _ _ _ _ _ hscan
  simp only [Nat.sub_zero] at hm hbefore
  simp only [strcmp_eq_zero, decide_eq_true_eq] at hp
  rw [hm] at h
  simp only at h
  right
  refine ⟨idx, m, hm, hp.1, hp.2, hidx, ?_, ?_⟩
  · intro j mj hj hmj
    have := hbefore j mj hj hmj
    simpa [strcmp_eq_zero] using this
  split at h
  · rename_i hnull
    simp only [Option.some.injEq, Prod.mk.injEq] at h
    obtain ⟨rfl, rfl⟩ := h
    exact ⟨rfl, Or.inl ⟨by decide, rfl, Or.inl rfl⟩⟩
  rename_i f0 hf
  have hf0 : db.fpdb = some f0 := hf
  rcases fseek_set_cases f0 (slot_pos idx) with e1 | e1 <;> rw [e1] at h <;>
    simp only [if_true, if_false, Bool.true_eq_false] at h
  swap
  · simp only [Option.some.injEq, Prod.mk.injEq] at h
    obtain ⟨rfl, rfl⟩ := h
    exact ⟨rfl, Or.inl ⟨by decide, rfl, Or.inr ⟨f0, _, hf0, rfl, rfl⟩⟩⟩
  rcases fwrite_cases ⟨f0.bytes, slot_pos idx, f0.faults.tail⟩
    (encode_metadata { m with is_valid := EMPTY }) with ⟨e2, -⟩ | e2 <;> rw [e2] at h <;>
    simp only [if_true, if_false, Bool.true_eq_false] at h
  swap
  · simp only [Option.some.injEq, Prod.mk.injEq] at h
    obtain ⟨rfl, rfl⟩ := h
    exact ⟨rfl, Or.inl ⟨by decide, rfl, Or.inr ⟨f0, _, hf0, rfl, rfl⟩⟩⟩
  rcases fseek_set_cases ⟨write_at f0.bytes (slot_pos idx)
      (encode_metadata { m with is_valid := EMPTY }),
    slot_pos idx + (encode_metadata { m with is_valid := EMPTY }).length,
    f0.faults.tail.tail⟩ 0 with e3 | e3 <;> rw [e3] at h <;>
    simp only [if_true, if_false, Bool.true_eq_false] at h
  swap
  · simp only [Option.some.injEq, Prod.mk.injEq] at h
    obtain ⟨rfl, rfl⟩ := h
    exact ⟨rfl, Or.inr ⟨f0, _, hf0, rfl, rfl, Or.inl ⟨by decide, rfl⟩⟩⟩
  rcases fwrite_cases ⟨write_at f0.bytes (slot_pos idx)
      (encode_metadata { m with is_valid := EMPTY }), 0, f0.faults.tail.tail.tail⟩
    (encode_header (delete_header db.header)) with ⟨e4, -⟩ | e4
  · have e4' := e4
    simp only [delete_header, set_slot] at e4' h
    rw [e4'] at h
    simp only [if_true, if_false, Bool.true_eq_false, Option.some.injEq, Prod.mk.injEq] at h
    obtain ⟨rfl, rfl⟩ := h
    exact ⟨rfl, Or.inr ⟨f0, _, hf0, rfl, rfl, Or.inr ⟨rfl, rfl⟩⟩⟩
  · have e4' := e4
    simp only [delete_header, set_slot] at e4' h
    rw [e4'] at h
    simp only [if_true, if_false, Bool.true_eq_false, Option.some.injEq, Prod.mk.injEq] at h
    obtain ⟨rfl, rfl⟩ := h
    exact ⟨rfl, Or.inr ⟨f0, _, hf0, rfl, rfl, Or.inl ⟨by decide, rfl⟩⟩⟩

/-! ## Invariants: the table -/

theorem unique_ids_set (tbl : List pict_metadata) (i : Nat) (m m' : pict_metadata)
    (hu : unique_ids tbl) (hm : tbl[i]? = some m)
    (h : m'.is_valid = NON_EMPTY →
      (m.is_valid = NON_EMPTY ∧ c_str m'.pict_id = c_str m.pict_id) ∨
      (∀ j mj, tbl[j]? = some mj → j ≠ i → mj.is_valid = NON_EMPTY →
        c_str mj.pict_id ≠ c_str m'.pict_id)) :
    unique_ids (tbl.set i m') := by
  have hlt := getElem?_lt hm
  intro a b ma mb ha hb hva hvb hid
  by_cases hai : a = i
  · by_cases hbi : b = i
    · rw [hai, hbi]
    · subst hai
      rw [List.getElem?_set_self hlt] at ha
      rw [List.getElem?_set_ne (Ne.symm hbi)] at hb
      cases ha
      rcases h hva with ⟨hmv, hmid⟩ | hnew
      · exact hu a b m mb hm hb hmv hvb (hmid.symm.trans hid)
      · exact absurd hid.symm (hnew b mb hb hbi hvb)
  · rw [List.getElem?_set_ne (Ne.symm hai)] at ha
    by_cases hbi : b = i
    · subst hbi
      rw [List.getElem?_set_self hlt] at hb
      cases hb
      rcases h hvb with ⟨hmv, hmid⟩ | hnew
      · exact hu a b ma m ha hm hva hmv (hid.trans hmid)
      · exact absurd hid (hnew a ma ha hai hva)
    · rw [List.getElem?_set_ne (Ne.symm hbi)] at hb
      exact hu a b ma mb ha hb hva hvb hid

theorem flags_ok_set (tbl : List pict_metadata) (i : Nat) (m' : pict_metadata)
    (hf : flags_ok tbl) (h : m'.is_valid = EMPTY ∨ m'.is_valid = NON_EMPTY) :
    flags_ok (tbl.set i m') := by
  intro x hx
  rcases List.mem_or_eq_of_mem_set hx with hx | hx
  · exact hf x hx
  · rw [hx]; exact h

theorem mem_set_cases (tbl : List pict_metadata) (i : Nat) (m' x : pict_metadata)
    (hx : x ∈ tbl.set i m') : x = m' ∨ ∃ j, j ≠ i ∧ tbl[j]? = some x := by
  obtain ⟨j, hj⟩ := List.mem_iff_getElem?.1 hx
  by_cases hji : j = i
  · subst hji
    rw [List.getElem?_set] at hj
    simp only [if_true] at hj
    split at hj
    · left; cases hj; rfl
    · cases hj
  · right
    rw [List.getElem?_set_ne (Ne.symm hji)] at hj
    exact ⟨j, hji, hj⟩

theorem data_start_pos (n : Nat) : 0 < data_start n := by
  simp [data_start, slot_pos, sizeof_header]

theorem slot_in_table {db : pictdb_file} {i : Nat} {m : pict_metadata}
    (hlen : db.metadata.length = db.header.max_files) (hm : db.metadata[i]? = some m) :
    slot_pos (i + 1) ≤ data_start db.header.max_files := by
  have := getElem?_lt hm
  exact slot_pos_mono (by omega)

/-! ## Invariants: the stored originals -/

theorem stored_of_step (L : Lib) (db db' : pictdb_file) (hs : stored L db)
    (ht : table_ok db) (hN : db'.header.max_files = db.header.max_files)
    (hfile : ∀ f f', db.fpdb = some f → db'.fpdb = some f' →
      data_kept (data_start db.header.max_files) f.bytes f'.bytes)
    (hslots : ∀ m' ∈ db'.metadata, m'.is_valid = NON_EMPTY →
      ∃ m ∈ db.metadata, m.is_valid = NON_EMPTY ∧ m.SHA = m'.SHA ∧
        m.offset.orig = m'.offset.orig ∧ m.size.orig = m'.size.orig) :
    stored L db' := by
  intro f' hf' hlt m' hm' hv'
  obtain ⟨-, f, hf, hD⟩ := ht
  have hk := hfile f f' hf hf'
  have hle := data_kept_length hk
  obtain ⟨m, hm, hv, e1, e2, e3⟩ := hslots m' hm' hv'
  obtain ⟨b1, b2, b3, b4⟩ := hs f hf (by omega) m hm hv
  rw [hN, ← e1, ← e2, ← e3]
  refine ⟨b1, by omega, b3, ?_⟩
  rw [data_kept_slice hk _ _ b1 b2]
  exact b4

/-! ## `do_create` -/

theorem table_bytes_length (n : Nat) :
    ((List.replicate n zero_metadata).map encode_metadata).flatten.length
      = n * sizeof_metadata := by
  induction n with
  | zero => simp
  | succ n ih =>
    simp only [List.replicate_succ, List.map_cons, List.flatten_cons, List.length_append, ih,
      encode_metadata_length]
    ring

/-- The database a successful `do_create` leaves. -/
theorem do_create_cases (filename : List Nat) (db_file db : pictdb_file) (script : List Bool)
    (h : do_create filename db_file (some script) = some (ERR_NONE, db)) :
    db.header = { db_file.header with
        db_name := strncpy_nul db_file.header.db_name CAT_TXT
        db_version := 0
        num_files := 0 } ∧
      db.metadata = List.replicate db_file.header.max_files zero_metadata ∧
      ∃ f, db.fpdb = some f ∧
        f.bytes = encode_header db.header ++
          ((List.replicate db_file.header.max_files zero_metadata).map
            encode_metadata).flatten := by
  unfold do_create at h
  split at h
  · simp at h
  simp only at h
  rcases fwrite_cases ⟨[], 0, script⟩ (encode_header { db_file.header with
        db_name := strncpy_nul db_file.header.db_name CAT_TXT
        db_version := 0
        num_files := 0 }) with ⟨e1, -⟩ | e1 <;> rw [e1] at h <;>
    simp only [if_true, if_false, Bool.true_eq_false] at h
  swap
  · simp at h
  split at h
  · simp at h
  rename_i hcount
  simp only [Option.some.injEq, Prod.mk.injEq, true_and] at h
  subst h
  refine ⟨rfl, rfl, _, rfl, ?_⟩
  unfold fwrite_table at hcount ⊢
  split
  · rename_i hc
    rw [if_pos hc] at hcount
    simp only [List.length_replicate] at hc hcount
    have hz : db_file.header.max_files = 0 := by
      simp only [ne_eq, not_not] at hcount; omega
    simp [hz, write_at, FILE.next]
  · simp only [write_at, List.length_nil, Nat.sub_zero, List.replicate_zero, List.append_nil,
      List.take_nil, List.nil_append, List.drop_nil, Nat.zero_add, FILE.next]
    rw [List.take_of_length_le (by simp), List.drop_eq_nil_of_le (by simp)]
    simp

theorem db_inv_create (L : Lib) (filename : List Nat) (db_file db : pictdb_file)
    (script : List Bool)
    (h : do_create filename db_file (some script) = some (ERR_NONE, db)) : db_inv L db := by
  obtain ⟨hh, hmd, f, hf, hb⟩ := do_create_cases filename db_file db script h
  have hN : db.header.max_files = db_file.header.max_files := by rw [hh]
  have hz : ∀ m ∈ db.metadata, m.is_valid = EMPTY := by
    intro m hm
    rw [hmd] at hm
    rw [List.eq_of_mem_replicate hm]; rfl
  refine ⟨⟨by rw [hmd, hN]; simp, f, hf, ?_⟩, ?_, ?_, ?_⟩
  · rw [hb, hN]
    simp only [List.length_append, encode_header_length, table_bytes_length, data_start,
      slot_pos]
    exact le_refl _
  · intro m hm; exact Or.inl (hz m hm)
  · intro i j mi mj hi _ hvi
    have := hz mi (List.getElem?_mem hi)
    rw [this] at hvi; cases hvi
  · intro f' _ _ m hm hv
    have := hz m hm
    rw [this] at hv; cases hv

/-! ## The invariants are kept by every operation -/

theorem db_inv_insert (L : Lib) (img id : List Nat) (db db' : pictdb_file) (rc : error_code)
    (hinv : db_inv L db) (h : do_insert L img id db = some (rc, db')) : db_inv L db' := by
  obtain ⟨⟨hlen, f, hf, hD⟩, hfl, hu, hs⟩ := hinv
  rcases do_insert_cases L img id db db' rc hlen h with
    ⟨-, rfl⟩ | ⟨i, m, hm, hv, hlow, hid0, hid1, himg, hroom, hcase⟩
  · exact ⟨⟨hlen, f, hf, hD⟩, hfl, hu, hs⟩
  have hit := slot_in_table hlen hm
  have hmE : m.is_valid = EMPTY := (hfl m (List.getElem?_mem hm)).resolve_right hv
  rcases hcase with ⟨hrc, hh, ⟨m', hm'v, hmd⟩, hfile⟩ |
    ⟨rfl, hh, hidfree, f0, f', hf0, hf', hflt, hcase2⟩
  · -- a failure: the candidate slot stays empty
    have hN : db'.header.max_files = db.header.max_files := by
      rcases hh with e | e
      · rw [e]
      · rw [e]; rfl
    obtain ⟨f', hf', hk⟩ := hfile f hf
    have hk' := hk _ hit hD
    have hm'E : m'.is_valid = EMPTY := by
      rcases hm'v with e | e
      · rw [e, hmE]
      · exact e
    refine ⟨⟨by rw [hmd, hN]; simpa using hlen, f', hf', by
      rw [hN]; have := data_kept_length hk'; omega⟩, ?_, ?_, ?_⟩
    · rw [hmd]; exact flags_ok_set _ _ _ hfl (Or.inl hm'E)
    · rw [hmd]
      exact unique_ids_set _ _ m m' hu hm (by intro hc; rw [hm'E] at hc; cases hc)
    · apply stored_of_step L db db' hs ⟨hlen, f, hf, hD⟩ hN
      · intro g g' hg hg'
        rw [hf] at hg; cases hg; rw [hf'] at hg'; cases hg'; exact hk'
      · intro x hx hxv
        rw [hmd] at hx
        rcases mem_set_cases _ _ _ _ hx with rfl | ⟨j, -, hj⟩
        · rw [hm'E] at hxv; cases hxv
        · exact ⟨x, List.getElem?_mem hj, hxv, rfl, rfl, rfl⟩
  · -- a success
    rw [hf] at hf0; cases hf0
    have hN : db'.header.max_files = db.header.max_files := by rw [hh]; rfl
    rcases hcase2 with ⟨k, dup, hk, hki, hdv, hds, -, hoff, hmd, hsame⟩ |
      ⟨wh, s, hj, hmd, hsrc, hsame⟩
    · -- through content dedup
      have hsd := hsame _ hit hD
      refine ⟨⟨by rw [hmd, hN]; simpa using hlen, f', hf', by rw [hN, hsd.1]; exact hD⟩,
        ?_, ?_, ?_⟩
      · rw [hmd]; exact flags_ok_set _ _ _ hfl (Or.inr rfl)
      · rw [hmd]
        apply unique_ids_set _ _ m _ hu hm
        intro _
        right
        intro j mj hj _ hjv
        simp only [c_str_strncpy_nul]
        exact hidfree mj (List.getElem?_mem hj) hjv
      · apply stored_of_step L db db' hs ⟨hlen, f, hf, hD⟩ hN
        · intro g g' hg hg'
          rw [hf] at hg; cases hg; rw [hf'] at hg'; cases hg'
          exact data_kept_of_same hsd
        · intro x hx hxv
          rw [hmd] at hx
          rcases mem_set_cases _ _ _ _ hx with rfl | ⟨j, -, hj⟩
          · exact ⟨dup, List.getElem?_mem hk, hdv, hds, rfl, rfl⟩
          · exact ⟨x, List.getElem?_mem hj, hxv, rfl, rfl, rfl⟩
    · -- through an append
      have hsd := hsame _ hit hD
      have hlen' : f'.bytes.length = f.bytes.length + img.length := by
        rw [hsd.1]; simp
      have hkept : data_kept (data_start db.header.max_files) f.bytes f'.bytes := ⟨img, hsd⟩
      refine ⟨⟨by rw [hmd, hN]; simpa using hlen, f', hf', by rw [hN, hlen']; omega⟩,
        ?_, ?_, ?_⟩
      · rw [hmd]; exact flags_ok_set _ _ _ hfl (Or.inr rfl)
      · rw [hmd]
        apply unique_ids_set _ _ m _ hu hm
        intro _
        right
        intro j mj hj _ hjv
        simp only [c_str_strncpy_nul]
        exact hidfree mj (List.getElem?_mem hj) hjv
      · intro g hg hlt x hx hxv
        rw [hf'] at hg; cases hg
        rw [hN]
        rw [hmd] at hx
        have hflt : f.bytes.length < 2 ^ 32 := by omega
        rcases mem_set_cases _ _ _ _ hx with rfl | ⟨j, -, hj⟩
        · simp only
          rcases hsrc with ⟨-, rfl⟩ | ⟨k, dup, hk, -, hdv, -, hoff0, -⟩
          · have himgpos : 0 < img.length := List.length_pos.2 himg
            rw [Nat.mod_eq_of_lt hflt, Nat.mod_eq_of_lt (by omega : img.length < 2 ^ 32)]
            refine ⟨hD, by omega, himgpos, ?_⟩
            rw [data_kept_slice (data_kept_of_same hsd) _ _ hD (by simp)]
            simp
          · have := (hs f hf hflt dup (List.getElem?_mem hk) hdv).1
            have hp := data_start_pos db.header.max_files
            omega
        · obtain ⟨b1, b2, b3, b4⟩ := hs f hf hflt x (List.getElem?_mem hj) hxv
          refine ⟨b1, by omega, b3, ?_⟩
          rw [data_kept_slice hkept _ _ b1 b2]
          exact b4

theorem res_array_put_orig_eq (a : res_array) (res : Int) (v : Nat)
    (hres : res = RES_THUMB ∨ res = RES_SMALL) : (a.put res v).orig = a.orig := by
  rcases hres with e | e <;> simp [res_array.put, e]

theorem db_inv_resize (L : Lib) (res : Int) (i : Nat) (db db' : pictdb_file) (rc : error_code)
    (hinv : db_inv L db) (h : lazily_resize L res db i = some (rc, db')) : db_inv L db' := by
  rcases lazily_resize_cases L res db db' i rc h with rfl |
    ⟨m, f0, f', hm, hv, hoff, hres, hf0, hf', hh, hcase⟩
  · exact hinv
  obtain ⟨⟨hlen, f, hf, hD⟩, hfl, hu, hs⟩ := hinv
  have e0 : f = f0 := by rw [hf] at hf0; exact Option.some.inj hf0
  subst e0
  have hit := slot_in_table hlen hm
  have hN : db'.header.max_files = db.header.max_files := by rw [hh]
  rcases hcase with ⟨-, hmd, hb⟩ | ⟨res_buff, -, -, -, -, -, hmd, hb⟩
  · have hk : data_kept (data_start db.header.max_files) f.bytes f'.bytes := by
      rcases hb with e | ⟨t, e⟩
      · rw [e]; exact data_kept_refl _ _
      · rw [e]; exact data_kept_append _ _ _
    refine ⟨⟨by rw [hmd, hN]; exact hlen, f', hf', by
      rw [hN]; have := data_kept_length hk; omega⟩, by rw [hmd]; exact hfl,
      by rw [hmd]; exact hu, ?_⟩
    apply stored_of_step L db db' hs ⟨hlen, f, hf, hD⟩ hN
    · intro g g' hg hg'
      rw [hf] at hg; cases hg; rw [hf'] at hg'; cases hg'; exact hk
    · intro x hx hxv
      rw [hmd] at hx
      exact ⟨x, hx, hxv, rfl, rfl, rfl⟩
  · have hk : data_kept (data_start db.header.max_files) f.bytes f'.bytes := by
      rcases hb with ⟨-, e⟩ | ⟨-, -, e⟩
      · rw [e]; exact data_kept_append _ _ _
      · rw [e]
        refine ⟨res_buff, ?_⟩
        exact same_data_write_at _ _ _ _ (by
          rw [encode_metadata_length, ← slot_pos_succ]; exact hit) (by simp; omega)
    refine ⟨⟨by rw [hmd, hN]; simpa using hlen, f', hf', by
      rw [hN]; have := data_kept_length hk; omega⟩, ?_, ?_, ?_⟩
    · rw [hmd]; exact flags_ok_set _ _ _ hfl (Or.inr hv)
    · rw [hmd]
      exact unique_ids_set _ _ m _ hu hm (fun _ => Or.inl ⟨hv, rfl⟩)
    · apply stored_of_step L db db' hs ⟨hlen, f, hf, hD⟩ hN
      · intro g g' hg hg'
        rw [hf] at hg; cases hg; rw [hf'] at hg'; cases hg'; exact hk
      · intro x hx hxv
        rw [hmd] at hx
        rcases mem_set_cases _ _ _ _ hx with rfl | ⟨j, -, hj⟩
        · exact ⟨m, List.getElem?_mem hm, hv, rfl,
            (res_array_put_orig_eq _ _ _ hres).symm, (res_array_put_orig_eq _ _ _ hres).symm⟩
        · exact ⟨x, List.getElem?_mem hj, hxv, rfl, rfl, rfl⟩

theorem db_inv_read (L : Lib) (id : List Nat) (res : Int) (db db' : pictdb_file)
    (rc : error_code) (out : Option (List Nat × Nat))
    (hinv : db_inv L db) (h : do_read L id res db = some (rc, out, db')) : db_inv L db' := by
  obtain ⟨db1, h1, hh, hmd, hfile⟩ := do_read_cases L id res db db' rc out h
  have hinv1 : db_inv L db1 := by
    rcases h1 with rfl | ⟨i, rc1, hl⟩
    · exact hinv
    · exact db_inv_resize L res i db db1 rc1 hinv hl
  rcases hfile with rfl | ⟨f, f', hf, hf', hb⟩
  · exact hinv1
  obtain ⟨⟨hlen, g, hg, hD⟩, hfl, hu, hs⟩ := hinv1
  have e0 : f = g := by rw [hf] at hg; exact Option.some.inj hg
  subst e0
  refine ⟨⟨by rw [hmd, hh]; exact hlen, f', hf', by rw [hh, hb]; exact hD⟩,
    by rw [hmd]; exact hfl, by rw [hmd]; exact hu, ?_⟩
  apply stored_of_step L db1 db' hs ⟨hlen, f, hf, hD⟩ (by rw [hh])
  · intro g g' hg hg'
    rw [hf] at hg; cases hg; rw [hf'] at hg'; cases hg'
    rw [hb]; exact data_kept_refl _ _
  · intro x hx hxv
    rw [hmd] at hx
    exact ⟨x, hx, hxv, rfl, rfl, rfl⟩

theorem db_inv_delete (L : Lib) (name : List Nat) (db db' : pictdb_file) (rc : error_code)
    (hinv : db_inv L db) (h : do_delete name db = some (rc, db')) : db_inv L db' := by
  rcases do_delete_cases name db db' rc h with ⟨-, rfl⟩ |
    ⟨idx, m, hm, hv, hid, hidx, hfirst, hmd, hcase⟩
  · exact hinv
  obtain ⟨⟨hlen, f, hf, hD⟩, hfl, hu, hs⟩ := hinv
  have hit := slot_in_table hlen hm
  have hfile : ∃ f', db'.fpdb = some f' ∧
      same_data (data_start db.header.max_files) f.bytes f'.bytes := by
    rcases hcase with ⟨-, -, e | ⟨g, g', hg, hg', e⟩⟩ | ⟨g, g', hg, hg', -, e⟩
    · exact ⟨f, by rw [e, hf], same_data_refl _ _⟩
    · have e0 : f = g := by rw [hf] at hg; exact Option.some.inj hg
      subst e0
      exact ⟨g', hg', by rw [e]; exact same_data_refl _ _⟩
    · have e0 : f = g := by rw [hf] at hg; exact Option.some.inj hg
      subst e0
      refine ⟨g', hg', ?_⟩
      have s1 : same_data (data_start db.header.max_files) f.bytes
          (write_at f.bytes (slot_pos idx) (encode_metadata { m with is_valid := EMPTY })) :=
        same_data_write_at _ _ _ _ (by
          rw [encode_metadata_length, ← slot_pos_succ]; exact hit) hD
      rcases e with ⟨-, e⟩ | ⟨-, e⟩
      · rw [e]; exact s1
      · rw [e]
        refine same_data_trans s1 (same_data_write_at _ _ _ _ (by
          rw [encode_header_length]
          have := sizeof_header_le_slot_pos (idx + 1)
          omega) (by rw [s1.1]; exact hD))
  have hN : db'.header.max_files = db.header.max_files := by
    rcases hcase with ⟨-, e, -⟩ | ⟨g, g', -, -, e, -⟩ <;> rw [e]
    rfl
  obtain ⟨f', hf', hsd⟩ := hfile
  refine ⟨⟨by rw [hmd, hN]; simpa using hlen, f', hf', by rw [hN, hsd.1]; exact hD⟩, ?_, ?_, ?_⟩
  · rw [hmd]; exact flags_ok_set _ _ _ hfl (Or.inl rfl)
  · rw [hmd]
    exact unique_ids_set _ _ m _ hu hm (by intro hc; cases hc)
  · apply stored_of_step L db db' hs ⟨hlen, f, hf, hD⟩ hN
    · intro g g' hg hg'
      rw [hf] at hg; cases hg; rw [hf'] at hg'; cases hg'
      exact data_kept_of_same hsd
    · intro x hx hxv
      rw [hmd] at hx
      rcases mem_set_cases _ _ _ _ hx with rfl | ⟨j, -, hj⟩
      · cases hxv
      · exact ⟨x, List.getElem?_mem hj, hxv, rfl, rfl, rfl⟩

/-- Every database of a session satisfies the invariants. -/
theorem reachable_inv (L : Lib) (db : pictdb_file) (h : Reachable L db) : db_inv L db := by
  induction h with
  | create filename db_file script db _ hc => exact db_inv_create L filename db_file db script hc
  | insert db img id rc db' _ hi ih => exact db_inv_insert L img id db db' rc ih hi
  | delete db name rc db' _ hd ih => exact db_inv_delete L name db db' rc ih hd
  | read db id res rc out db' _ hr ih => exact db_inv_read L id res db db' rc out ih hr
  | resize db res i rc db' _ hr ih => exact db_inv_resize L res i db db' rc ih hr

/-! ## Runs without faults -/

theorem fseek_set_ok (f : FILE) (p : Nat) (h : f.faults = []) :
    fseek_set f p = (true, ⟨f.bytes, p, []⟩) := by
  simp [fseek_set, FILE.next, h]

theorem fseek_end_ok (f : FILE) (h : f.faults = []) :
    fseek_end f = (true, ⟨f.bytes, f.bytes.length, []⟩) := by
  simp [fseek_end, FILE.next, h]

theorem fwrite_ok (f : FILE) (d : List Nat) (h : f.faults = []) (hd : d ≠ []) :
    fwrite f d = (true, ⟨write_at f.bytes f.pos d, f.pos + d.length, []⟩) := by
  simp [fwrite, FILE.next, h, hd]

theorem fread_ok (f : FILE) (n : Nat) (h : f.faults = []) (hn : n ≠ 0)
    (hl : f.pos + n ≤ f.bytes.length) :
    fread f n = (some ((f.bytes.drop f.pos).take n), ⟨f.bytes, f.pos + n, []⟩) := by
  have : ¬ (f.bytes.length < f.pos + n) := by omega
  simp [fread, FILE.next, h, hn, this]

theorem encode_header_ne_nil (h : pictdb_header) : encode_header h ≠ [] := by
  intro e
  have := encode_header_length h
  rw [e] at this
  simp [sizeof_header] at this

theorem encode_metadata_ne_nil (m : pict_metadata) : encode_metadata m ≠ [] := by
  intro e
  have := encode_metadata_length m
  rw [e] at this
  simp [sizeof_metadata] at this

theorem update_file_ok (db : pictdb_file) (idx : Nat) (f : FILE)
    (hf : db.fpdb = some f) (hfl : f.faults = []) (hi : idx < db.metadata.length) :
    ∃ db', update_file db idx = some (ERR_NONE, db') := by
  have hm : db.metadata[idx]? = some db.metadata[idx] := List.getElem?_eq_getElem hi
  unfold update_file
  simp only [hf, hm]
  rw [fseek_set_ok f 0 hfl]
  simp only [Bool.true_eq_false, if_false]
  rw [fwrite_ok _ _ rfl (encode_header_ne_nil _)]
  simp only [Bool.true_eq_false, if_false]
  rw [fseek_set_ok _ _ rfl]
  simp only [Bool.true_eq_false, if_false]
  rw [fwrite_ok _ _ rfl (encode_metadata_ne_nil _)]
  simp only [Bool.true_eq_false, if_false]
  exact ⟨_, rfl⟩

theorem insert_image_ok (L : Lib) (img : List Nat) (db : pictdb_file) (i : Nat) (f : FILE)
    (hi : i < db.metadata.length) (hf : db.fpdb = some f)
    (hfl : f.faults = []) (himg : img ≠ []) (hj : ∃ wh, L.jpegload img = some wh) :
    ∃ db', insert_image L img db i = some (ERR_NONE, db') := by
  have hm : db.metadata[i]? = some db.metadata[i] := List.getElem?_eq_getElem hi
  unfold insert_image
  simp only [hf, hm]
  by_cases hoff : db.metadata[i].offset.orig ≠ 0
  · rw [if_pos hoff]
    exact update_file_ok _ i f hf hfl (by simpa [set_slot] using hi)
  · rw [if_neg hoff]
    obtain ⟨wh, hwh⟩ := hj
    rw [fseek_end_ok f hfl]
    simp only [Bool.true_eq_false, if_false]
    rw [fwrite_ok _ _ rfl himg]
    simp only [Bool.true_eq_false, if_false, get_resolution, hwh]
    exact update_file_ok _ i _ rfl rfl (by simpa [set_slot] using hi)

theorem first_slot_total (bound : Nat) (p : Nat → pict_metadata → Bool) :
    ∀ (l : List pict_metadata) (i : Nat), l.length + i = bound →
      ∃ r, first_slot bound p l i = some r := by
  intro l
  induction l with
  | nil => intro i h; simp at h; exact ⟨none, by simp [first_slot, h]⟩
  | cons a l ih =>
    intro i h
    have hi : i < bound := by simp at h; omega
    by_cases h0 : p i a = true
    · exact ⟨some i, by simp [first_slot, hi, h0]⟩
    · obtain ⟨r, hr⟩ := ih (i + 1) (by simp at h; omega)
      exact ⟨r, by simp only [first_slot, hi, if_true, h0]; exact hr⟩

theorem dedup_total (db : pictdb_file) (i : Nat)
    (hlen : db.metadata.length = db.header.max_files) (hi : i < db.metadata.length) :
    ∃ r, do_name_and_content_dedup db i = some r := by
  obtain ⟨cand, hc⟩ : ∃ cand, db.metadata[i]? = some cand :=
    ⟨db.metadata[i], List.getElem?_eq_getElem hi⟩
  unfold do_name_and_content_dedup
  rw [if_neg (by omega), hc]
  simp only
  obtain ⟨r1, h1⟩ := first_slot_total db.header.max_files
    (fun _ m => m.is_valid = NON_EMPTY ∧ strcmp m.pict_id cand.pict_id = 0) db.metadata 0
    (by simpa using hlen)
  rw [h1]
  cases r1 with
  | some k => exact ⟨_, rfl⟩
  | none =>
    simp only
    obtain ⟨r2, h2⟩ := first_slot_total db.header.max_files
      (fun j m => m.is_valid = NON_EMPTY ∧ j ≠ i ∧ sha_equal m.SHA cand.SHA = 0) db.metadata 0
      (by simpa using hlen)
    rw [h2]
    cases r2 with
    | none => exact ⟨_, rfl⟩
    | some k =>
      simp only
      obtain ⟨dup, -, -, hd, -, -⟩ := first_slot_some_some _ _ _ _ _ h2
      simp only [Nat.sub_zero] at hd
      rw [hd]
      exact ⟨_, rfl⟩

/-- With working I/O, valid arguments, room in the table and a new
identifier, `do_insert` of an image that decodes returns `0`. -/
theorem do_insert_ok (L : Lib) (img id : List Nat) (db : pictdb_file) (f : FILE)
    (hlen : db.metadata.length = db.header.max_files)
    (hid : strlen id ≠ 0) (hid_max : strlen id ≤ MAX_PIC_ID) (himg : img ≠ [])
    (hroom : db.header.num_files < db.header.max_files)
    (hfree : ∃ m ∈ db.metadata, m.is_valid ≠ NON_EMPTY)
    (hnew : ∀ m ∈ db.metadata, m.is_valid = NON_EMPTY → c_str m.pict_id ≠ c_str id)
    (hf : db.fpdb = some f) (hfl : f.faults = [])
    (hj : ∃ wh, L.jpegload img = some wh) :
    ∃ db', do_insert L img id db = some (ERR_NONE, db') := by
  obtain ⟨mf, hmf, hmf0⟩ := hfree
  obtain ⟨jf, hjf⟩ := List.mem_iff_getElem?.1 hmf
  obtain ⟨k, m, hk1, hk2, hk3, -⟩ := first_slot_hit (db.header.max_files + 1)
    (fun _ m => m.is_valid ≠ NON_EMPTY) db.metadata 0 (by omega)
    ⟨jf, mf, hjf, by simp [hmf0]⟩
  simp only [Nat.zero_add] at hk1 hk3
  have hkv : m.is_valid ≠ NON_EMPTY := by simpa using hk3
  have hklt : k < db.metadata.length := getElem?_lt hk2
  have h1 : ¬ (strlen id = 0 ∨ img.length = 0) := by simp [hid, himg]
  have h2 : ¬ (db.header.num_files ≥ db.header.max_files) := by omega
  have h3 : ¬ (MAX_PIC_ID < strlen id) := by omega
  unfold do_insert
  rw [if_neg h1, if_neg h2, hk1]
  simp only [hk2, if_neg h3]
  generalize hm1 : ({ m with SHA := L.SHA256 img
                             pict_id := strncpy_nul m.pict_id id
                             size := m.size.put RES_ORIG (img.length % 2 ^ 32) } :
    pict_metadata) = m1
  have hm1v : m1.is_valid = m.is_valid := by subst hm1; rfl
  have hm1id : m1.pict_id = strncpy_nul m.pict_id id := by subst hm1; rfl
  obtain ⟨⟨rc2, db2⟩, hd⟩ := dedup_total (set_slot db k m1) k
    (by simpa [set_slot] using hlen) (by simpa [set_slot] using hklt)
  rw [hd]
  obtain ⟨cand, hcand, hcase⟩ := dedup_cases (set_slot db k m1) db2 k rc2
    (by simpa [set_slot] using hlen) (by simpa [set_slot] using hklt) hd
  have hce : cand = m1 := by
    simp only [set_slot, List.getElem?_set_self hklt, Option.some.injEq] at hcand
    exact hcand.symm
  subst hce
  rcases hcase with ⟨-, -, md, hmd, hmdv, hmdid⟩ | ⟨rfl, -, hcase2⟩
  · exfalso
    simp only [set_slot] at hmd
    rcases mem_set_cases _ _ _ _ hmd with rfl | ⟨j, -, hj⟩
    · exact hkv (hm1v ▸ hmdv)
    · rw [hm1id, c_str_strncpy_nul] at hmdid
      exact hnew md (List.getElem?_mem hj) hmdv hmdid
  · simp only [ne_eq, not_true_eq_false, if_false]
    rcases hcase2 with ⟨k2, dup, -, -, -, -, -, rfl⟩ | ⟨-, rfl⟩
    · exact insert_image_ok L img _ k f (by simpa [set_slot] using hklt) hf hfl himg hj
    · exact insert_image_ok L img _ k f (by simpa [set_slot] using hklt) hf hfl himg hj

/-- C5 (example): a one-slot database that holds one image rejects a second
insert with `ERR_FULL_DATABASE` and is left as it was. -/
theorem do_insert_full_database_witness :
    (demo_insert [1, 2, 3] [97] (demo_fresh 1 [])).header.num_files
      = (demo_insert [1, 2, 3] [97] (demo_fresh 1 [])).header.max_files ∧
    do_insert demo_lib [4, 5] [98] (demo_insert [1, 2, 3] [97] (demo_fresh 1 []))
      = some (ERR_FULL_DATABASE, demo_insert [1, 2, 3] [97] (demo_fresh 1 [])) :=
  ⟨by decide, do_insert_full_database demo_lib [4, 5] [98]
    (demo_insert [1, 2, 3] [97] (demo_fresh 1 [])) (by decide) (by decide) (by decide)⟩

/-- C6 (example): deleting `"b"` from a database that holds only `"a"`. -/
theorem do_delete_unknown_id_witness :
    do_delete [98] (demo_insert [1, 2, 3] [97] (demo_fresh 2 []))
      = some (ERR_FILE_NOT_FOUND, demo_insert [1, 2, 3] [97] (demo_fresh 2 [])) :=
  do_delete_unknown_id [98] (demo_insert [1, 2, 3] [97] (demo_fresh 2 []))
    (by decide) (by decide) (by decide)

/-- C4 (example): inserting under `"a"` again, with the same or with another
payload. -/
theorem do_insert_duplicate_id_witness :
    (∃ db', do_insert demo_lib [1, 2, 3] [97] (demo_insert [1, 2, 3] [97] (demo_fresh 2 []))
      = some (ERR_DUPLICATE_ID, db')) ∧
    (∃ db', do_insert demo_lib [9] [97] (demo_insert [1, 2, 3] [97] (demo_fresh 2 []))
      = some (ERR_DUPLICATE_ID, db')) :=
  ⟨do_insert_duplicate_id demo_lib [1, 2, 3] [97] (demo_insert [1, 2, 3] [97] (demo_fresh 2 []))
      (by decide) (by decide) (by decide) (by decide) (by decide)
      ⟨zero_metadata, by decide, by decide⟩
      ⟨(demo_insert [1, 2, 3] [97] (demo_fresh 2 [])).metadata.headD zero_metadata,
        by decide, by decide⟩,
    do_insert_duplicate_id demo_lib [9] [97] (demo_insert [1, 2, 3] [97] (demo_fresh 2 []))
      (by decide) (by decide) (by decide) (by decide) (by decide)
      ⟨zero_metadata, by decide, by decide⟩
      ⟨(demo_insert [1, 2, 3] [97] (demo_fresh 2 [])).metadata.headD zero_metadata,
        by decide, by decide⟩⟩

theorem res_array_get_put (a : res_array) (r : Int) (v : Nat) : (a.put r v).get r = v := by
  unfold res_array.put res_array.get
  split_ifs <;> rfl

theorem to_int32_nonneg (n : Nat) (hn : n < 2 ^ 32) (h : ¬ (to_int32 n < 0)) :
    (to_int32 n).toNat = n := by
  unfold to_int32 at *
  rw [Nat.mod_eq_of_lt hn] at h ⊢
  by_cases hlt : n < 2 ^ 31
  · rw [if_pos hlt]; simp
  · rw [if_neg hlt] at h; exfalso; apply h; omega

/-- C9: starting from a freshly created database, after every call of
`do_insert`, `do_delete`, `do_read` or `lazily_resize` (whatever the call
returns, I/O failures included), no two distinct `NON_EMPTY` slots have equal
`pict_id` strings. -/
theorem reachable_pict_id_unique (L : Lib) (db : pictdb_file) (h : Reachable L db) :
    unique_ids db.metadata :=
  (reachable_inv L db h).2.2.1

/-- C7: delete then insert of the same id. In a database with unique ids
and `num_files ≤ max_files`, after `do_delete x` returned `0`, `do_insert J x`
with a payload that decodes and working I/O returns `0`; the new entry is in
the lowest-index `EMPTY` slot, which is slot 0 when `x` was at slot 0. -/
theorem delete_then_insert_reuses_slot (L : Lib) (J x : List Nat) (db db1 : pictdb_file)
    (hlen : db.metadata.length = db.header.max_files)
    (hflags : flags_ok db.metadata) (huniq : unique_ids db.metadata)
    (hnum : db.header.num_files ≤ db.header.max_files)
    (hx : strlen x ≤ MAX_PIC_ID) (hJ : J ≠ []) (hvalid : ∃ wh, L.jpegload J = some wh)
    (hdel : do_delete x db = some (ERR_NONE, db1))
    (hio : ∀ f, db1.fpdb = some f → f.faults = []) :
    ∃ db2 i m0 m, do_insert L J x db1 = some (ERR_NONE, db2) ∧
      db1.metadata[i]? = some m0 ∧ m0.is_valid = EMPTY ∧
      (∀ j mj, j < i → db1.metadata[j]? = some mj → mj.is_valid = NON_EMPTY) ∧
      db2.metadata[i]? = some m ∧ m.is_valid = NON_EMPTY ∧ c_str m.pict_id = c_str x ∧
      (∀ m00, db.metadata[0]? = some m00 → m00.is_valid = NON_EMPTY →
        c_str m00.pict_id = c_str x → i = 0) := by
  have hx0 : strlen x ≠ 0 := by
    intro h0
    simp [do_delete, h0] at hdel
  rcases do_delete_cases x db db1 ERR_NONE hdel with ⟨hc, -⟩ |
    ⟨idx, md, hmd, hmdv, hmdid, hidx, hfirst, hmeta, hcase⟩
  · exact absurd rfl hc
  rcases hcase with ⟨hc, -⟩ | ⟨f, f1, hf, hf1, hh, -⟩
  · exact absurd rfl hc
  have hidxlt := getElem?_lt hmd
  have hlen1 : db1.metadata.length = db1.header.max_files := by
    rw [hmeta, hh]; simpa [delete_header] using hlen
  have hflags1 : flags_ok db1.metadata := by
    rw [hmeta]; exact flags_ok_set _ _ _ hflags (Or.inl rfl)
  have hroom : db1.header.num_files < db1.header.max_files := by
    rw [hh]
    simp only [delete_header]
    split <;> omega
  have hfree : ∃ m ∈ db1.metadata, m.is_valid ≠ NON_EMPTY := by
    refine ⟨{ md with is_valid := EMPTY }, ?_, by simp⟩
    rw [hmeta]
    exact List.getElem?_mem (List.getElem?_set_self hidxlt)
  have hnew : ∀ m ∈ db1.metadata, m.is_valid = NON_EMPTY → c_str m.pict_id ≠ c_str x := by
    intro m hm hmv hmid
    rw [hmeta] at hm
    rcases mem_set_cases _ _ _ _ hm with rfl | ⟨j, hji, hj⟩
    · cases hmv
    · exact hji (huniq j idx m md hj hmd hmv hmdv (hmid.trans hmdid.symm))
  obtain ⟨db2, hins⟩ := do_insert_ok L J x db1 f1 hlen1 hx0 hx hJ hroom hfree hnew hf1
    (hio f1 hf1) hvalid
  rcases do_insert_cases L J x db1 db2 ERR_NONE hlen1 hins with ⟨hc, -⟩ |
    ⟨i, m0, hm0, hm0v, hlow, -, -, -, -, hcase2⟩
  · exact absurd rfl hc
  have hm0E : m0.is_valid = EMPTY := (hflags1 m0 (List.getElem?_mem hm0)).resolve_right hm0v
  have hilt := getElem?_lt hm0
  have hzero : ∀ m00, db.metadata[0]? = some m00 → m00.is_valid = NON_EMPTY →
      c_str m00.pict_id = c_str x → i = 0 := by
    intro m00 h00 h00v h00id
    have hidx0 : idx = 0 := by
      by_contra hne
      exact hfirst 0 m00 (by omega) h00 ⟨h00v, h00id⟩
    subst hidx0
    by_contra hi0
    have h1 : db1.metadata[0]? = some { md with is_valid := EMPTY } := by
      rw [hmeta]; exact List.getElem?_set_self hidxlt
    have := hlow 0 _ (by omega) h1
    cases this
  rcases hcase2 with ⟨hc, -⟩ | ⟨-, -, -, g, g', -, -, -, hsucc⟩
  · exact absurd rfl hc
  rcases hsucc with ⟨k, dup, -, -, -, -, -, -, hmd2, -⟩ | ⟨wh, s, -, hmd2, -, -⟩
  · exact ⟨db2, i, m0, _, hins, hm0, hm0E, hlow,
      by rw [hmd2]; exact List.getElem?_set_self hilt, rfl, c_str_strncpy_nul _ _, hzero⟩
  · exact ⟨db2, i, m0, _, hins, hm0, hm0E, hlow,
      by rw [hmd2]; exact List.getElem?_set_self hilt, rfl, c_str_strncpy_nul _ _, hzero⟩
theorem demo_reachable_one :
    Reachable demo_lib (demo_insert [1, 2, 3] [97] (demo_fresh 2 [])) :=
  Reachable.insert (demo_fresh 2 []) [1, 2, 3] [97] ERR_NONE _
    (Reachable.create [100] (demo_config 2) [] _ (by decide) (by decide)) (by decide)

theorem demo_reachable_two :
    Reachable demo_lib
      (demo_insert [4, 5] [98] (demo_insert [1, 2, 3] [97] (demo_fresh 2 []))) :=
  Reachable.insert _ [4, 5] [98] ERR_NONE _ demo_reachable_one (by decide)

/-- C9 (example): the database after `"a"` and `"b"` are inserted. -/
theorem reachable_pict_id_unique_witness :
    unique_ids (demo_insert [4, 5] [98] (demo_insert [1, 2, 3] [97] (demo_fresh 2 []))).metadata :=
  reachable_pict_id_unique demo_lib _ demo_reachable_two

/-- C7 (example): `"a"` is inserted in slot 0, `"b"` in slot 1, `"a"` is
deleted and inserted again with another payload. -/
theorem delete_then_insert_reuses_slot_witness :
    ∃ db2 i m0 m,
      do_insert demo_lib [7, 7] [97]
        (demo_delete [97] (demo_insert [4, 5] [98] (demo_insert [1, 2, 3] [97] (demo_fresh 2 []))))
        = some (ERR_NONE, db2) ∧
      (demo_delete [97]
        (demo_insert [4, 5] [98] (demo_insert [1, 2, 3] [97] (demo_fresh 2 [])))).metadata[i]?
        = some m0 ∧ m0.is_valid = EMPTY ∧
      (∀ j mj, j < i →
        (demo_delete [97] (demo_insert [4, 5] [98]
          (demo_insert [1, 2, 3] [97] (demo_fresh 2 [])))).metadata[j]? = some mj →
        mj.is_valid = NON_EMPTY) ∧
      db2.metadata[i]? = some m ∧ m.is_valid = NON_EMPTY ∧ c_str m.pict_id = c_str [97] ∧
      (∀ m00, (demo_insert [4, 5] [98]
          (demo_insert [1, 2, 3] [97] (demo_fresh 2 []))).metadata[0]? = some m00 →
        m00.is_valid = NON_EMPTY → c_str m00.pict_id = c_str [97] → i = 0) :=
  delete_then_insert_reuses_slot demo_lib [7, 7] [97]
    (demo_insert [4, 5] [98] (demo_insert [1, 2, 3] [97] (demo_fresh 2 [])))
    (demo_delete [97] (demo_insert [4, 5] [98] (demo_insert [1, 2, 3] [97] (demo_fresh 2 []))))
    (by decide) (reachable_inv demo_lib _ demo_reachable_two).2.1
    (reachable_inv demo_lib _ demo_reachable_two).2.2.1 (by decide) (by decide) (by decide)
    ⟨(2, 1), by decide⟩ (by decide)
    (fun f hf => by
      have h : (demo_delete [97] (demo_insert [4, 5] [98]
          (demo_insert [1, 2, 3] [97] (demo_fresh 2 [])))).fpdb.map (fun g => g.faults)
          = some [] := by decide
      rw [hf] at h
      simpa using h)

/-- C8 (failing inputs): in a fresh one-slot database, a `do_insert` whose
`fseek` to the header fails returns `ERR_IO` with `num_files = 1` and no
`NON_EMPTY` slot; after a successful insert, a `do_delete` whose first `fseek`
fails returns `ERR_IO` with `num_files = 1` and no `NON_EMPTY` slot. -/
theorem io_failure_breaks_num_files :
    do_create [100] (demo_config 1) (some [false, false, false, false, true])
      = some (ERR_NONE, demo_fresh 1 [false, false, true]) ∧
    (do_insert demo_lib [1, 2, 3] [97] (demo_fresh 1 [false, false, true])).map
        (fun r => (r.1, r.2.header.num_files, count_non_empty r.2))
      = some ( ERR_IO, 1, 0) ∧
    (do_insert demo_lib [1, 2, 3] [97]
        (demo_fresh 1 [false, false, false, false, false, false, true])).map
        (fun r => (r.1, r.2.header.num_files, count_non_empty r.2))
      = some (ERR_NONE, 1, 1) ∧
    (do_delete [97] (demo_insert [1, 2, 3] [97]
        (demo_fresh 1 [false, false, false, false, false, false, true]))).map
        (fun r => (r.1, r.2.header.num_files, count_non_empty r.2))
      = some ( ERR_IO, 1, 0) := by
  decide

/-- C10 (amended): in a database whose file is shorter than `2^32` bytes, if
`lazily_resize` returns `0`, a second call with the same arguments returns
`0` and leaves the header, the slot table and the stream (content, length and
position) exactly as the first call left them. -/
theorem lazily_resize_idempotent (L : Lib) (res : Int) (db db1 : pictdb_file) (i : Nat)
    (hres : res = RES_THUMB ∨ res = RES_SMALL)
    (hsmall : ∀ f, db.fpdb = some f → f.bytes.length < 2 ^ 32)
    (hfirst : lazily_resize L res db i = some (ERR_NONE, db1)) :
    lazily_resize L res db1 i = some (ERR_NONE, db1) := by
  have h1 : ¬ res = RES_ORIG := by rcases hres with h | h <;> simp [h]
  have h2 : ¬ (res ≠ RES_THUMB ∧ res ≠ RES_SMALL) := by
    rcases hres with h | h <;> simp [h]
  have hle : ¬ i > db.header.max_files := by
    intro hgt
    unfold lazily_resize at hfirst
    rw [if_neg h1, if_neg h2, if_pos hgt] at hfirst
    simp at hfirst
  rcases lazily_resize_cases L res db db1 i ERR_NONE hfirst with rfl |
    ⟨m, f, f', hm, hv, hoff, -, hf, hf', hh, hcase⟩
  · exact hfirst
  rcases hcase with ⟨hc, -⟩ | ⟨res_buff, -, hnn, hsz, hrd, -, hmd, -⟩
  · exact absurd rfl hc
  have hlt := getElem?_lt hm
  have hfl := hsmall f hf
  have hm1 : db1.metadata[i]? = some
      { m with offset := m.offset.put res (to_int32 f.bytes.length).toNat
               size := m.size.put res (res_buff.length % 2 ^ 32) } := by
    rw [hmd]; exact List.getElem?_set_self hlt
  have hoff1 : ¬ (m.offset.put res (to_int32 f.bytes.length).toNat).get res = 0 := by
    rw [res_array_get_put, to_int32_nonneg _ hfl hnn]
    omega
  unfold lazily_resize
  rw [if_neg h1, if_neg h2, hh, if_neg hle, hm1]
  simp only
  rw [if_pos hv, if_neg hoff1]

/-! ## `do_read` at `RES_ORIG`, without faults -/

theorem res_array_get_orig (a : res_array) : a.get RES_ORIG = a.orig := by
  simp [res_array.get]

/-- When the scan finds slot `i`, the original is present and the I/O works,
`do_read` at `RES_ORIG` returns the `size[RES_ORIG]` bytes at
`offset[RES_ORIG]`. -/
theorem do_read_orig_ok (L : Lib) (id : List Nat) (db : pictdb_file) (i : Nat)
    (m : pict_metadata) (f : FILE)
    (hscan : read_scan db.header.max_files id db.metadata 0 = some i)
    (hi : i ≠ db.header.max_files) (hm : db.metadata[i]? = some m)
    (ho : m.offset.orig ≠ 0) (hs : m.size.orig ≠ 0)
    (hf : db.fpdb = some f) (hfl : f.faults = [])
    (hb : m.offset.orig + m.size.orig ≤ f.bytes.length) :
    ∃ db2, do_read L id RES_ORIG db = some (ERR_NONE,
      some ((f.bytes.drop m.offset.orig).take m.size.orig, m.size.orig), db2) := by
  have h1 : ¬ (RES_ORIG ≥ NB_RES ∨ RES_ORIG < 0) := by decide
  have h2 : ¬ (m.offset.get RES_ORIG = 0 ∨ m.size.get RES_ORIG = 0) := by
    rw [res_array_get_orig, res_array_get_orig]; simp [ho, hs]
  unfold do_read
  rw [if_neg h1, hscan]
  simp only [if_neg hi, hm, if_neg h2]
  unfold read_image
  simp only [hm, hf]
  rw [res_array_get_orig, res_array_get_orig, fseek_set_ok f _ hfl]
  simp only [Bool.true_eq_false, if_false]
  rw [fread_ok _ _ rfl hs hb]
  exact ⟨_, rfl⟩

/-- When the scan finds a slot whose `size[RES_ORIG]` is zero, `do_read` at
`RES_ORIG` returns `ERR_FILE_NOT_FOUND`. -/
theorem do_read_orig_empty (L : Lib) (id : List Nat) (db : pictdb_file) (i : Nat)
    (m : pict_metadata)
    (hscan : read_scan db.header.max_files id db.metadata 0 = some i)
    (hi : i ≠ db.header.max_files) (hm : db.metadata[i]? = some m)
    (hs : m.size.orig = 0) :
    do_read L id RES_ORIG db = some (ERR_FILE_NOT_FOUND, none, db) := by
  have h1 : ¬ (RES_ORIG ≥ NB_RES ∨ RES_ORIG < 0) := by decide
  have h2 : m.offset.get RES_ORIG = 0 ∨ m.size.get RES_ORIG = 0 := by
    rw [res_array_get_orig, res_array_get_orig]; exact Or.inr hs
  unfold do_read
  rw [if_neg h1, hscan]
  simp only [if_neg hi, hm, if_pos h2, if_true]

/-- The scan of `do_read` finds the slot just inserted: the slots before it
are `NON_EMPTY` slots of the old table, none of which carries the id. -/
theorem read_scan_inserted (id : List Nat) (tbl : List pict_metadata) (n i : Nat)
    (m0 m' : pict_metadata) (hlen : tbl.length = n) (hm0 : tbl[i]? = some m0)
    (hlow : ∀ j mj, j < i → tbl[j]? = some mj → mj.is_valid = NON_EMPTY)
    (hfree : ∀ mk ∈ tbl, mk.is_valid = NON_EMPTY → c_str mk.pict_id ≠ c_str id)
    (hv : m'.is_valid = NON_EMPTY) (hid : c_str m'.pict_id = c_str id) :
    read_scan n id (tbl.set i m') 0 = some i := by
  have hlt := getElem?_lt hm0
  have := read_scan_hit n id (tbl.set i m') 0 i m' (List.getElem?_set_self hlt)
    ((strcmp_eq_zero _ _).2 hid) (by rw [hv]; decide) (by omega)
    (by
      intro j mj hj hmj hc
      have hs := hc.1
      rw [List.getElem?_set_ne (by omega)] at hmj
      exact hfree mj (List.getElem?_mem hmj) (hlow j mj hj hmj) ((strcmp_eq_zero _ _).1 hs))
  simpa using this

/-! ## `lazily_resize`, without faults -/

theorem lazily_resize_ok (L : Lib) (res : Int) (db : pictdb_file) (i : Nat)
    (m : pict_metadata) (f : FILE) (res_buff : List Nat) (wh : Nat × Nat)
    (hres : res = RES_THUMB ∨ res = RES_SMALL)
    (hm : db.metadata[i]? = some m) (hle : i ≤ db.header.max_files)
    (hv : m.is_valid = NON_EMPTY) (hoff : m.offset.get res = 0)
    (hf : db.fpdb = some f) (hfl : f.faults = [])
    (hs : m.size.orig ≠ 0) (hb : m.offset.orig + m.size.orig ≤ f.bytes.length)
    (hj : L.jpegload ((f.bytes.drop m.offset.orig).take m.size.orig) = some wh)
    (hr : L.resize_jpegsave ((f.bytes.drop m.offset.orig).take m.size.orig)
      (db.header.res_resized.getD (2 * res).toNat 0)
      (db.header.res_resized.getD ((2 * res).toNat + 1) 0) = some res_buff)
    (hne : res_buff ≠ []) (hnn : ¬ (to_int32 f.bytes.length < 0)) :
    lazily_resize L res db i = some (ERR_NONE,
      { fpdb := some
          ⟨write_at (f.bytes ++ res_buff) (slot_pos i)
              (encode_metadata
                { m with offset := m.offset.put res (to_int32 f.bytes.length).toNat
                         size := m.size.put res (res_buff.length % 2 ^ 32) }),
            slot_pos i + (encode_metadata
                { m with offset := m.offset.put res (to_int32 f.bytes.length).toNat
                         size := m.size.put res (res_buff.length % 2 ^ 32) }).length, []⟩
        header := db.header
        metadata := db.metadata.set i
          { m with offset := m.offset.put res (to_int32 f.bytes.length).toNat
                   size := m.size.put res (res_buff.length % 2 ^ 32) } }) := by
  have h1 : ¬ res = RES_ORIG := by rcases hres with h | h <;> simp [h]
  have h2 : ¬ (res ≠ RES_THUMB ∧ res ≠ RES_SMALL) := by
    rcases hres with h | h <;> simp [h]
  unfold lazily_resize
  rw [if_neg h1, if_neg h2, if_neg (by omega), hm]
  simp only [if_pos hv, if_pos hoff, hf]
  rw [fseek_set_ok f _ hfl]
  simp only [Bool.true_eq_false, if_false]
  rw [fread_ok _ _ rfl hs hb]
  simp only [hj, hr]
  rw [fseek_end_ok _ rfl]
  simp only [Bool.true_eq_false, if_false, ftell, if_neg hnn]
  rw [fwrite_ok _ _ rfl hne]
  simp only [Bool.true_eq_false, if_false]
  rw [fseek_set_ok _ _ rfl]
  simp only [Bool.true_eq_false, if_false]
  rw [fwrite_ok _ _ rfl (encode_metadata_ne_nil _)]
  simp only [Bool.true_eq_false, if_false, write_at_end, set_slot]

/-- C1 (amended): insert/read round trip. For a database reachable from
`do_create` whose file is shorter than `2^32` bytes, working I/O, and a
payload `J` shorter than `2^32` bytes whose digest does not collide with
that of a different stored image: if `do_insert J id` returns `0`, then
`do_read id RES_ORIG` returns `0` with the size `|J|` and the bytes of `J`. -/
theorem insert_then_read_original (L : Lib) (J id : List Nat) (db db1 : pictdb_file)
    (f : FILE) (hreach : Reachable L db) (hf : db.fpdb = some f) (hio : f.faults = [])
    (hsmall : f.bytes.length < 2 ^ 32) (hJ : J.length < 2 ^ 32)
    (hcoll : ∀ m ∈ db.metadata, m.is_valid = NON_EMPTY → m.SHA = L.SHA256 J →
      (f.bytes.drop m.offset.orig).take m.size.orig = J)
    (hins : do_insert L J id db = some (ERR_NONE, db1)) :
    ∃ db2, do_read L id RES_ORIG db1 = some (ERR_NONE, some (J, J.length), db2) := by
  obtain ⟨⟨hlen, g, hg, hD⟩, hflags, huniq, hstored⟩ := reachable_inv L db hreach
  have e0 : f = g := by rw [hf] at hg; exact Option.some.inj hg
  subst e0
  rcases do_insert_cases L J id db db1 ERR_NONE hlen hins with ⟨hc, -⟩ |
    ⟨i, m0, hm0, hm0v, hlow, -, -, hJne, -, hcase⟩
  · exact absurd rfl hc
  rcases hcase with ⟨hc, -⟩ | ⟨-, hh, hidfree, f0, f', hf0, hf', hflt, hsucc⟩
  · exact absurd rfl hc
  have e1 : f = f0 := by rw [hf] at hf0; exact Option.some.inj hf0
  subst e1
  have hit := slot_in_table hlen hm0
  have hilt := getElem?_lt hm0
  have hN : db1.header.max_files = db.header.max_files := by rw [hh]; rfl
  have hDpos := data_start_pos db.header.max_files
  rcases hsucc with ⟨k, dup, hk, -, hdv, hds, -, hoff, hmd, hsame⟩ |
    ⟨wh, s, -, hmd, hsrc, hsame⟩
  · -- content dedup: the slot points to the stored copy
    have hsd := hsame _ hit hD
    obtain ⟨b1, b2, b3, -⟩ := hstored f hf hsmall dup (List.getElem?_mem hk) hdv
    have hslice := hcoll dup (List.getElem?_mem hk) hdv hds
    have hsz : dup.size.orig = J.length := by
      have := congrArg List.length hslice
      simp only [List.length_take, List.length_drop] at this
      omega
    have hscan : read_scan db1.header.max_files id db1.metadata 0 = some i := by
      rw [hmd, hN]
      exact read_scan_inserted id db.metadata _ i m0 _ hlen hm0 hlow hidfree rfl
        (c_str_strncpy_nul _ _)
    have hm1 := List.getElem?_set_self (a := (⟨strncpy_nul m0.pict_id id, L.SHA256 J,
      dup.res_orig, dup.size, dup.offset, NON_EMPTY, m0.unused_16⟩ : pict_metadata)) hilt
    rw [← hmd] at hm1
    obtain ⟨db2, hr⟩ := do_read_orig_ok L id db1 i _ f' hscan (by rw [hN]; omega)
      hm1 hoff (by simp only; omega) hf'
      (hflt hio) (by simp only; rw [hsd.1]; exact b2)
    refine ⟨db2, ?_⟩
    rw [hr]
    simp only
    rw [data_kept_slice (data_kept_of_same hsd) _ _ b1 b2, hslice, hsz]
  · -- append: the slot points to the bytes just written
    have hsd := hsame _ hit hD
    rcases hsrc with ⟨-, rfl⟩ | ⟨k, dup, hk, -, hdv, -, hoff0, -⟩
    · have hJpos : 0 < J.length := List.length_pos.2 hJne
      have hscan : read_scan db1.header.max_files id db1.metadata 0 = some i := by
        rw [hmd, hN]
        exact read_scan_inserted id db.metadata _ i m0 _ hlen hm0 hlow hidfree rfl
          (c_str_strncpy_nul _ _)
      have hm1 := List.getElem?_set_self (a := (⟨strncpy_nul m0.pict_id id, L.SHA256 J,
        wh, ⟨0, 0, J.length % 2 ^ 32⟩, ⟨0, 0, f.bytes.length % 2 ^ 32⟩, NON_EMPTY,
        m0.unused_16⟩ : pict_metadata)) hilt
      rw [← hmd] at hm1
      obtain ⟨db2, hr⟩ := do_read_orig_ok L id db1 i _ f' hscan (by rw [hN]; omega)
        hm1
        (by simp only; rw [Nat.mod_eq_of_lt hsmall]; omega)
        (by simp only; rw [Nat.mod_eq_of_lt hJ]; omega) hf' (hflt hio)
        (by
          simp only
          rw [Nat.mod_eq_of_lt hsmall, Nat.mod_eq_of_lt hJ, hsd.1]
          simp)
      refine ⟨db2, ?_⟩
      rw [hr]
      simp only
      rw [Nat.mod_eq_of_lt hsmall, Nat.mod_eq_of_lt hJ,
        data_kept_slice (data_kept_of_same hsd) _ _ hD (by simp)]
      simp
    · have := (hstored f hf hsmall dup (List.getElem?_mem hk) hdv).1
      omega

/-- C1 (example): `[1, 2, 3]` is stored as `"a"`, then inserted as `"b"`
(content dedup) and read back. -/
theorem insert_then_read_original_witness :
    ∃ db2, do_read demo_lib [98] RES_ORIG
        (demo_insert [1, 2, 3] [98] (demo_insert [1, 2, 3] [97] (demo_fresh 2 [])))
      = some (ERR_NONE, some ([1, 2, 3], [1, 2, 3].length), db2) :=
  insert_then_read_original demo_lib [1, 2, 3] [98]
    (demo_insert [1, 2, 3] [97] (demo_fresh 2 []))
    (demo_insert [1, 2, 3] [98] (demo_insert [1, 2, 3] [97] (demo_fresh 2 [])))
    (demo_file (demo_insert [1, 2, 3] [97] (demo_fresh 2 [])))
    demo_reachable_one (by decide) (by decide) (by decide) (by decide) (by decide) (by decide)

theorem demo_fresh_empty (n : Nat) (script : List Bool) :
    ∀ m ∈ (demo_fresh n script).metadata, m.is_valid ≠ NON_EMPTY := by
  intro m hm
  simp only [demo_fresh] at hm
  rw [List.eq_of_mem_replicate hm]
  decide

/-- What `do_insert` does to a freshly created one-slot database when the
payload decodes and the I/O works: the image is appended and slot 0 filled. -/
theorem demo_insert_fresh (J : List Nat) (hJ : J ≠ []) :
    ∃ db1 f1, do_insert demo_lib J [97] (demo_fresh 1 []) = some (ERR_NONE, db1) ∧
      db1.fpdb = some f1 ∧ f1.faults = [] ∧ f1.bytes.length = 280 + J.length ∧
      db1.header.max_files = 1 ∧ db1.header.res_resized = [64, 64, 256, 256] ∧
      ∃ sha wh sz, sz = J.length % 2 ^ 32 ∧ db1.metadata =
        [⟨strncpy_nul zero_metadata.pict_id [97], sha, wh, ⟨0, 0, sz⟩, ⟨0, 0, 280⟩,
          NON_EMPTY, 0⟩] := by
  have hlen : (demo_fresh 1 []).metadata.length = (demo_fresh 1 []).header.max_files := by
    decide
  obtain ⟨db1, hins⟩ := do_insert_ok demo_lib J [97] (demo_fresh 1 []) (demo_stream 1 [])
    hlen (by decide) (by decide) hJ (by decide) ⟨zero_metadata, by decide, by decide⟩
    (by decide) rfl rfl
    ⟨(J.length, 1), by simp [demo_lib, hJ]⟩
  rcases do_insert_cases demo_lib J [97] (demo_fresh 1 []) db1 ERR_NONE hlen hins with
    ⟨hc, -⟩ | ⟨i, m0, hm0, -, -, -, -, -, -, hcase⟩
  · exact absurd rfl hc
  rcases hcase with ⟨hc, -⟩ | ⟨-, hh, -, f, f1, hf, hf1, hflt, hsucc⟩
  · exact absurd rfl hc
  have hi : i = 0 := by
    have := getElem?_lt hm0
    simp [demo_fresh] at this
    exact this
  subst hi
  have hm0e : m0 = zero_metadata := by
    simp [demo_fresh] at hm0
    exact hm0.symm
  subst hm0e
  have hfe : f = demo_stream 1 [] := by
    simp only [demo_fresh, Option.some.injEq] at hf
    exact hf.symm
  subst hfe
  have hflen : (demo_stream 1 []).bytes.length = 280 := by decide
  have hD : slot_pos (0 + 1) ≤ 280 := by decide
  rcases hsucc with ⟨k, dup, hk, -, hdv, -⟩ | ⟨wh, s, -, hmd, hsrc, hsame⟩
  · exact absurd hdv (demo_fresh_empty 1 [] dup (List.getElem?_mem hk))
  rcases hsrc with ⟨-, rfl⟩ | ⟨k, dup, hk, -, hdv, -⟩
  swap
  · exact absurd hdv (demo_fresh_empty 1 [] dup (List.getElem?_mem hk))
  have hsd := hsame 280 hD (by rw [hflen])
  refine ⟨db1, f1, hins, hf1, hflt rfl, ?_, by rw [hh]; rfl, by rw [hh]; rfl,
    demo_lib.SHA256 J, wh, J.length % 2 ^ 32, rfl, ?_⟩
  · rw [hsd.1]; simp [hflen]
  · rw [hmd, hflen]
    rfl

theorem payload_4g_length : payload_4g.length = 2 ^ 32 := by
  unfold payload_4g
  exact List.length_replicate _ _

theorem payload_fill_length : payload_fill.length = 2 ^ 32 - 280 := by
  unfold payload_fill
  exact List.length_replicate _ _

/-- C1 (counterexample): in the database `do_create` makes for one slot, a
payload of `2^32` bytes is inserted with result `0` (its `size[RES_ORIG]` is
stored as `2^32 mod 2^32 = 0`), and `do_read` of the same id at `RES_ORIG`
returns `ERR_FILE_NOT_FOUND`. -/
theorem insert_then_read_large_payload :
    ∃ db1, do_insert demo_lib payload_4g [97] (demo_fresh 1 []) = some (ERR_NONE, db1) ∧
      do_read demo_lib [97] RES_ORIG db1 = some (ERR_FILE_NOT_FOUND, none, db1) := by
  have hne : payload_4g ≠ [] := by
    intro e
    have h := payload_4g_length
    rw [e] at h
    exact absurd h (by decide)
  obtain ⟨db1, f1, hins, -, -, -, hN, -, sha, wh, sz, hsz, hmd⟩ :=
    demo_insert_fresh payload_4g hne
  rw [payload_4g_length, Nat.mod_self] at hsz
  subst hsz
  refine ⟨db1, hins, ?_⟩
  have hscan : read_scan db1.header.max_files [97] db1.metadata 0 = some 0 := by
    rw [hmd, hN]
    exact read_scan_hit 1 [97] _ 0 0 _ rfl
      ((strcmp_eq_zero _ _).2 (c_str_strncpy_nul _ _)) (show (1 : Nat) ≠ 0 by decide) (by decide)
      (fun j _ hj => absurd hj (Nat.not_lt_zero j))
  exact do_read_orig_empty demo_lib [97] db1 0 _ hscan (by rw [hN]; decide)
    (by rw [hmd]; rfl) rfl

/-- C10 (example): the thumbnail of `"a"` is made, and asked for again. -/
theorem lazily_resize_idempotent_witness :
    lazily_resize demo_lib RES_THUMB
        (demo_resize RES_THUMB 0 (demo_insert [1, 2, 3] [97] (demo_fresh 2 []))) 0
      = some (ERR_NONE, demo_resize RES_THUMB 0 (demo_insert [1, 2, 3] [97] (demo_fresh 2 []))) :=
  lazily_resize_idempotent demo_lib RES_THUMB (demo_insert [1, 2, 3] [97] (demo_fresh 2 []))
    (demo_resize RES_THUMB 0 (demo_insert [1, 2, 3] [97] (demo_fresh 2 []))) 0
    (by decide)
    (fun f hf => by
      have h : (demo_insert [1, 2, 3] [97] (demo_fresh 2 [])).fpdb.map
          (fun g => decide (g.bytes.length < 2 ^ 32)) = some true := by decide
      rw [hf] at h
      simpa using h)
    (by decide)

/-- What `lazily_resize` at `RES_THUMB` does with the stand-in libraries on a
one-slot database whose slot 0 is `NON_EMPTY` without thumbnail, when the
original lies inside the file and the file length converts to a non-negative
`int`. -/
theorem demo_resize_thumb (db : pictdb_file) (f : FILE) (m : pict_metadata)
    (hmd : db.metadata = [m]) (hv : m.is_valid = NON_EMPTY) (hoff : m.offset.thumb = 0)
    (hf : db.fpdb = some f) (hfl : f.faults = [])
    (hs : m.size.orig ≠ 0) (hb : m.offset.orig + m.size.orig ≤ f.bytes.length)
    (hnn : ¬ (to_int32 f.bytes.length < 0)) (hD : 280 ≤ f.bytes.length) :
    ∃ db' f', lazily_resize demo_lib RES_THUMB db 0 = some (ERR_NONE, db') ∧
      db'.fpdb = some f' ∧ f'.faults = [] ∧ f'.bytes.length = f.bytes.length + 1 ∧
      db'.metadata = [{ m with offset := m.offset.put RES_THUMB (to_int32 f.bytes.length).toNat
                               size := m.size.put RES_THUMB 1 }] := by
  have hslice : ((f.bytes.drop m.offset.orig).take m.size.orig).length ≠ 0 := by
    simp only [List.length_take, List.length_drop]
    omega
  have hrb : (((f.bytes.drop m.offset.orig).take m.size.orig).take 1).length = 1 := by
    rw [List.length_take]
    omega
  have hne : ((f.bytes.drop m.offset.orig).take m.size.orig).take 1 ≠ [] := by
    intro e; rw [e] at hrb; simp at hrb
  have h := lazily_resize_ok demo_lib RES_THUMB db 0 m f
    (((f.bytes.drop m.offset.orig).take m.size.orig).take 1)
    (((f.bytes.drop m.offset.orig).take m.size.orig).length, 1) (Or.inl rfl)
    (by rw [hmd]; rfl) (Nat.zero_le _) hv (by simpa [res_array.get] using hoff) hf hfl hs hb
    (by simp only [demo_lib]; rw [if_neg hslice]) rfl hne hnn
  refine ⟨_, _, h, rfl, rfl, ?_, ?_⟩
  · simp only
    rw [write_at_length _ _ _ (by
      rw [encode_metadata_length, List.length_append, hrb]
      have : slot_pos 0 + sizeof_metadata = 280 := by decide
      omega)]
    simp [hrb]
  · simp only [hmd, hrb]
    rfl
/-- C10 (counterexample): the database `do_create` makes for one slot
receives an image of `2^32 - 280` bytes, so that its file is `2^32` bytes
long. The first `lazily_resize` at `RES_THUMB` returns `0` and appends one
byte at offset `2^32`, which it records as `offset[RES_THUMB] = 0`; the second
call returns `0` and appends again: the file is one byte longer than the
first call left it. -/
theorem lazily_resize_twice_large_file :
    ∃ db1 db2 db3,
      do_insert demo_lib payload_fill [97] (demo_fresh 1 []) = some (ERR_NONE, db1) ∧
      lazily_resize demo_lib RES_THUMB db1 0 = some (ERR_NONE, db2) ∧
      lazily_resize demo_lib RES_THUMB db2 0 = some (ERR_NONE, db3) ∧
      db2.fpdb.map (fun g => g.bytes.length) = some (2 ^ 32 + 1) ∧
      db3.fpdb.map (fun g => g.bytes.length) = some (2 ^ 32 + 2) := by
  have hne : payload_fill ≠ [] := by
    intro e
    have h := payload_fill_length
    rw [e] at h
    exact absurd h (by decide)
  obtain ⟨db1, f1, hins, hf1, hfl1, hlen1, -, -, sha, wh, sz, hsz, hmd1⟩ :=
    demo_insert_fresh payload_fill hne
  rw [payload_fill_length] at hsz hlen1
  have hsz' : sz = 4294967016 := by rw [hsz]; decide
  have hl1 : f1.bytes.length = 4294967296 := by rw [hlen1]; decide
  subst hsz'
  obtain ⟨db2, f2, hr2, hf2, hfl2, hlen2, hmd2⟩ := demo_resize_thumb db1 f1 _ hmd1 rfl rfl
    hf1 hfl1 (show (4294967016 : Nat) ≠ 0 by decide)
    (by rw [hl1]; show 280 + 4294967016 ≤ 4294967296; decide)
    (by rw [hl1]; decide) (by rw [hl1]; decide)
  have hl2 : f2.bytes.length = 4294967297 := by rw [hlen2, hl1]
  obtain ⟨db3, f3, hr3, hf3, -, hlen3, -⟩ := demo_resize_thumb db2 f2 _ hmd2 rfl
    (by rw [hl1]; show (to_int32 4294967296).toNat = 0; decide) hf2 hfl2
    (show (4294967016 : Nat) ≠ 0 by decide)
    (by rw [hl2]; show 280 + 4294967016 ≤ 4294967297; decide)
    (by rw [hl2]; decide) (by rw [hl2]; decide)
  refine ⟨db1, db2, db3, hins, hr2, hr3, ?_, ?_⟩
  · rw [hf2]; simp only [Option.map_some']; rw [hl2]; rfl
  · rw [hf3]; simp only [Option.map_some']; rw [hlen3, hl2]; rfl

/-- C2 (amended): content dedup. In a database reachable from `do_create`
whose file is shorter than `2^32` bytes, after `do_insert J a` and then
`do_insert J b` both returned `0`, the slots of `a` and `b` have equal
`offset[RES_ORIG]`, `size[RES_ORIG]`, `SHA` and `res_orig`; the second insert
appends no bytes; over the two inserts the file grew by `|J|` when no
`NON_EMPTY` slot held the digest of `J` before, and not at all otherwise. -/
theorem insert_twice_shares_content (L : Lib) (J a b : List Nat) (db db1 db2 : pictdb_file)
    (f : FILE) (hreach : Reachable L db) (hf : db.fpdb = some f)
    (hsmall : f.bytes.length < 2 ^ 32)
    (h1 : do_insert L J a db = some (ERR_NONE, db1))
    (h2 : do_insert L J b db1 = some (ERR_NONE, db2)) :
    ∃ (ia ib : Nat) (ma mb : pict_metadata) (f1 f2 : FILE), ia ≠ ib ∧
      db2.metadata[ia]? = some ma ∧ db2.metadata[ib]? = some mb ∧
      ma.is_valid = NON_EMPTY ∧ mb.is_valid = NON_EMPTY ∧
      c_str ma.pict_id = c_str a ∧ c_str mb.pict_id = c_str b ∧
      ma.offset.orig = mb.offset.orig ∧ ma.size.orig = mb.size.orig ∧
      ma.SHA = mb.SHA ∧ ma.res_orig = mb.res_orig ∧
      db1.fpdb = some f1 ∧ db2.fpdb = some f2 ∧ f2.bytes.length = f1.bytes.length ∧
      ((∃ m ∈ db.metadata, m.is_valid = NON_EMPTY ∧ m.SHA = L.SHA256 J) →
        f2.bytes.length = f.bytes.length) ∧
      ((¬ ∃ m ∈ db.metadata, m.is_valid = NON_EMPTY ∧ m.SHA = L.SHA256 J) →
        f2.bytes.length = f.bytes.length + J.length) := by
  obtain ⟨⟨hlen, g, hg, hD⟩, hflags, huniq, hstored⟩ := reachable_inv L db hreach
  have e0 : f = g := by rw [hf] at hg; exact Option.some.inj hg
  subst e0
  have hinv1 := db_inv_insert L J a db db1 ERR_NONE (reachable_inv L db hreach) h1
  have hlen1 := hinv1.1.1
  have hDpos := data_start_pos db.header.max_files
  -- the first insert
  rcases do_insert_cases L J a db db1 ERR_NONE hlen h1 with ⟨hc, -⟩ |
    ⟨ia, m0a, hm0a, hm0av, -, -, -, -, -, hcase1⟩
  · exact absurd rfl hc
  rcases hcase1 with ⟨hc, -⟩ | ⟨-, hh1, -, fa, f1, hfa, hf1, -, hsucc1⟩
  · exact absurd rfl hc
  have e1 : f = fa := by rw [hf] at hfa; exact Option.some.inj hfa
  subst e1
  have hita := slot_in_table hlen hm0a
  have hialt := getElem?_lt hm0a
  -- what slot `ia` holds after the first insert, and how the file grew
  obtain ⟨ma, hma, hmav, hmaid, hmasha, hmaoff, hgrow1, hsrc1⟩ :
      ∃ ma : pict_metadata, db1.metadata = db.metadata.set ia ma ∧ ma.is_valid = NON_EMPTY ∧
        c_str ma.pict_id = c_str a ∧ ma.SHA = L.SHA256 J ∧ ma.offset.orig ≠ 0 ∧
        (((∃ m ∈ db.metadata, m.is_valid = NON_EMPTY ∧ m.SHA = L.SHA256 J) ∧
            f1.bytes.length = f.bytes.length) ∨
         ((¬ ∃ m ∈ db.metadata, m.is_valid = NON_EMPTY ∧ m.SHA = L.SHA256 J) ∧
            f1.bytes.length = f.bytes.length + J.length)) ∧
        (∀ k dup, db.metadata[k]? = some dup → k ≠ ia → dup.is_valid = NON_EMPTY →
          dup.SHA = L.SHA256 J →
          (∀ j mj, j < k → db.metadata[j]? = some mj →
            ¬ (mj.is_valid = NON_EMPTY ∧ j ≠ ia ∧ mj.SHA = L.SHA256 J)) →
          ma.offset = dup.offset ∧ ma.size = dup.size ∧ ma.res_orig = dup.res_orig) := by
    rcases hsucc1 with ⟨k1, dup1, hk1, hk1i, hd1v, hd1s, hfirst1, hoff1, hmd1, hsame1⟩ |
      ⟨wh, s, -, hmd1, hsrc, hsame1⟩
    · refine ⟨_, hmd1, rfl, c_str_strncpy_nul _ _, rfl, hoff1,
        Or.inl ⟨⟨dup1, List.getElem?_mem hk1, hd1v, hd1s⟩, (hsame1 _ hita hD).1⟩, ?_⟩
      intro k dup hk hki hdv hds hfirst
      have hkk : k = k1 := by
        rcases Nat.lt_trichotomy k k1 with hlt | heq | hgt
        · exact absurd ⟨hdv, hki, hds⟩ (hfirst1 k dup hlt hk)
        · exact heq
        · exact absurd ⟨hd1v, hk1i, hd1s⟩ (hfirst k1 dup1 hgt hk1)
      subst hkk
      rw [hk1] at hk; cases hk
      exact ⟨rfl, rfl, rfl⟩
    · rcases hsrc with ⟨hnodup, rfl⟩ | ⟨k, dup, hk, -, hdv, -, hoff0, -⟩
      · refine ⟨_, hmd1, rfl, c_str_strncpy_nul _ _, rfl, ?_, Or.inr ⟨?_, ?_⟩, ?_⟩
        · simp only
          rw [Nat.mod_eq_of_lt hsmall]
          omega
        · rintro ⟨m, hm, hmv, hms⟩
          obtain ⟨j, hj⟩ := List.mem_iff_getElem?.1 hm
          have hji : j ≠ ia := by
            intro e; subst e; rw [hm0a] at hj; cases hj; exact hm0av hmv
          exact hnodup j m hj ⟨hmv, hji, hms⟩
        · rw [(hsame1 _ hita hD).1]; simp
        · intro k dup hk hki hdv hds _
          exact absurd ⟨hdv, hki, hds⟩ (hnodup k dup hk)
      · have := (hstored f hf hsmall dup (List.getElem?_mem hk) hdv).1
        omega
  have hma1 : db1.metadata[ia]? = some ma := by
    rw [hma]; exact List.getElem?_set_self hialt
  -- the second insert
  rcases do_insert_cases L J b db1 db2 ERR_NONE hlen1 h2 with ⟨hc, -⟩ |
    ⟨ib, m0b, hm0b, hm0bv, -, -, -, -, -, hcase2⟩
  · exact absurd rfl hc
  rcases hcase2 with ⟨hc, -⟩ | ⟨-, hh2, -, fb, f2, hfb, hf2, -, hsucc2⟩
  · exact absurd rfl hc
  have e2 : f1 = fb := by rw [hf1] at hfb; exact Option.some.inj hfb
  subst e2
  have hab : ia ≠ ib := by
    intro e; subst e; rw [hma1] at hm0b; cases hm0b; exact hm0bv hmav
  have hitb := slot_in_table hlen1 hm0b
  have hiblt := getElem?_lt hm0b
  have hN1 : db1.header.max_files = db.header.max_files := by rw [hh1]; rfl
  have hD1 : data_start db1.header.max_files ≤ f1.bytes.length := by
    obtain ⟨-, g1, hg1, hD1⟩ := hinv1.1
    rw [hf1] at hg1; cases hg1; exact hD1
  -- a slot of `db1` with the digest of `J`, other than `ia`, is a slot of `db`
  have hold : ∀ k dup, db1.metadata[k]? = some dup → k ≠ ia → db.metadata[k]? = some dup := by
    intro k dup hk hki
    rw [hma, List.getElem?_set_ne (Ne.symm hki)] at hk
    exact hk
  have hnew : ∀ k dup, db.metadata[k]? = some dup → k ≠ ia → db1.metadata[k]? = some dup := by
    intro k dup hk hki
    rw [hma, List.getElem?_set_ne (Ne.symm hki)]
    exact hk
  rcases hsucc2 with ⟨k2, dup2, hk2, hk2i, hd2v, hd2s, hfirst2, hoff2, hmd2, hsame2⟩ |
    ⟨wh, s, -, hmd2, hsrc, hsame2⟩
  · have hlen2 : f2.bytes.length = f1.bytes.length := (hsame2 _ hitb hD1).1
    have hmb2 : db2.metadata[ib]? = some ⟨strncpy_nul m0b.pict_id b, L.SHA256 J, dup2.res_orig,
        dup2.size, dup2.offset, NON_EMPTY, m0b.unused_16⟩ := by
      rw [hmd2]; exact List.getElem?_set_self hiblt
    have hma2 : db2.metadata[ia]? = some ma := by
      rw [hmd2, List.getElem?_set_ne (Ne.symm hab)]; exact hma1
    have hshare : ma.offset = dup2.offset ∧ ma.size = dup2.size ∧
        ma.res_orig = dup2.res_orig := by
      by_cases hk2a : k2 = ia
      · subst hk2a
        rw [hma1] at hk2; cases hk2
        exact ⟨rfl, rfl, rfl⟩
      · apply hsrc1 k2 dup2 (hold k2 dup2 hk2 hk2a) hk2a hd2v hd2s
        intro j mj hj hmj hc
        have hjb : j ≠ ib := by
          intro e; subst e
          rw [hnew j mj hmj hc.2.1] at hm0b; cases hm0b
          exact hm0bv hc.1
        exact hfirst2 j mj hj (hnew j mj hmj hc.2.1) ⟨hc.1, hjb, hc.2.2⟩
    refine ⟨ia, ib, ma, _, f1, f2, hab, hma2, hmb2, hmav, rfl, hmaid, c_str_strncpy_nul _ _,
      by rw [hshare.1], by rw [hshare.2.1], hmasha, hshare.2.2, hf1, hf2, hlen2, ?_, ?_⟩
    · intro hex
      rcases hgrow1 with ⟨-, e⟩ | ⟨hn, -⟩
      · rw [hlen2, e]
      · exact absurd hex hn
    · intro hnex
      rcases hgrow1 with ⟨hex, -⟩ | ⟨-, e⟩
      · exact absurd hex hnex
      · rw [hlen2, e]
  · -- the second insert cannot append: slot `ia` holds the digest
    exfalso
    rcases hsrc with ⟨hnodup, -⟩ | ⟨k, dup, hk, hki, hdv, hds, hoff0, -⟩
    · exact hnodup ia ma hma1 ⟨hmav, hab, hmasha⟩
    · by_cases hka : k = ia
      · subst hka
        rw [hma1] at hk; cases hk
        exact hmaoff hoff0
      · have := (hstored f hf hsmall dup (List.getElem?_mem (hold k dup hk hka)) hdv).1
        omega

/-- C2 (example): the payload `[1, 2, 3]` is inserted as `"a"` and as `"b"` in
a fresh database of two slots. -/
theorem insert_twice_shares_content_witness :
    ∃ (ia ib : Nat) (ma mb : pict_metadata) (f1 f2 : FILE), ia ≠ ib ∧
      (demo_insert [1, 2, 3] [98] (demo_insert [1, 2, 3] [97] (demo_fresh 2 []))).metadata[ia]?
        = some ma ∧
      (demo_insert [1, 2, 3] [98] (demo_insert [1, 2, 3] [97] (demo_fresh 2 []))).metadata[ib]?
        = some mb ∧
      ma.is_valid = NON_EMPTY ∧ mb.is_valid = NON_EMPTY ∧
      c_str ma.pict_id = c_str [97] ∧ c_str mb.pict_id = c_str [98] ∧
      ma.offset.orig = mb.offset.orig ∧ ma.size.orig = mb.size.orig ∧
      ma.SHA = mb.SHA ∧ ma.res_orig = mb.res_orig ∧
      (demo_insert [1, 2, 3] [97] (demo_fresh 2 [])).fpdb = some f1 ∧
      (demo_insert [1, 2, 3] [98] (demo_insert [1, 2, 3] [97] (demo_fresh 2 []))).fpdb
        = some f2 ∧
      f2.bytes.length = f1.bytes.length ∧
      ((∃ m ∈ (demo_fresh 2 []).metadata,
          m.is_valid = NON_EMPTY ∧ m.SHA = demo_lib.SHA256 [1, 2, 3]) →
        f2.bytes.length = (demo_stream 2 []).bytes.length) ∧
      ((¬ ∃ m ∈ (demo_fresh 2 []).metadata,
          m.is_valid = NON_EMPTY ∧ m.SHA = demo_lib.SHA256 [1, 2, 3]) →
        f2.bytes.length = (demo_stream 2 []).bytes.length + [1, 2, 3].length) :=
  insert_twice_shares_content demo_lib [1, 2, 3] [97] [98] (demo_fresh 2 [])
    (demo_insert [1, 2, 3] [97] (demo_fresh 2 []))
    (demo_insert [1, 2, 3] [98] (demo_insert [1, 2, 3] [97] (demo_fresh 2 [])))
    (demo_stream 2 [])
    (Reachable.create [100] (demo_config 2) [] _ (by decide) (by decide))
    rfl (by decide) (by decide) (by decide)

/-- C2 (counterexample): in a reachable database that already stores the
payload `[1, 2, 3]` under the id `"c"`, the inserts of `[1, 2, 3]` as `"a"` and
as `"b"` both return `0` and the file does not grow at all, where the claim
has it grow by the three bytes of the payload. -/
theorem insert_twice_known_payload :
    Reachable demo_lib (demo_insert [1, 2, 3] [99] (demo_fresh 3 [])) ∧
    (do_insert demo_lib [1, 2, 3] [97] (demo_insert [1, 2, 3] [99] (demo_fresh 3 []))).map
        (fun r => r.1) = some ERR_NONE ∧
    (do_insert demo_lib [1, 2, 3] [98]
        (demo_insert [1, 2, 3] [97] (demo_insert [1, 2, 3] [99] (demo_fresh 3 [])))).map
        (fun r => r.1) = some ERR_NONE ∧
    (demo_file (demo_insert [1, 2, 3] [98]
        (demo_insert [1, 2, 3] [97]
          (demo_insert [1, 2, 3] [99] (demo_fresh 3 []))))).bytes.length
      = (demo_file (demo_insert [1, 2, 3] [99] (demo_fresh 3 []))).bytes.length ∧
    (demo_file (demo_insert [1, 2, 3] [98]
        (demo_insert [1, 2, 3] [97]
          (demo_insert [1, 2, 3] [99] (demo_fresh 3 []))))).bytes.length
      ≠ (demo_file (demo_insert [1, 2, 3] [99] (demo_fresh 3 []))).bytes.length
          + [1, 2, 3].length :=
  ⟨Reachable.insert (demo_fresh 3 []) [1, 2, 3] [99] ERR_NONE _
      (Reachable.create [100] (demo_config 3) [] _ (by decide) (by decide!)) (by decide!),
    by decide!, by decide!, by decide!, by decide!⟩

/-! ## `resolution_atoi` -/

/-- C16: `resolution_atoi` maps `"thumb"` and `"thumbnail"` to `RES_THUMB` (0),
`"small"` to `RES_SMALL` (1), `"orig"` and `"original"` to `RES_ORIG` (2). -/
theorem resolution_atoi_listed_names :
    resolution_atoi (some thumb_txt) = 0 ∧ resolution_atoi (some thumbnail_txt) = 0 ∧
    resolution_atoi (some small_txt) = 1 ∧
    resolution_atoi (some orig_txt) = 2 ∧ resolution_atoi (some original_txt) = 2 ∧
    RES_THUMB = 0 ∧ RES_SMALL = 1 ∧ RES_ORIG = 2 := by
  decide

/-- C17 (failing inputs): `resolution_atoi` compares only the first
`strlen(res_name)` characters, so it accepts every prefix of a listed name:
the empty string and `"t"` give `RES_THUMB`, `"sm"` gives `RES_SMALL`, `"o"`
gives `RES_ORIG`; `"THUMB"` gives `-1`. -/
theorem resolution_atoi_accepts_prefixes :
    resolution_atoi (some []) = RES_THUMB ∧ resolution_atoi (some [116]) = RES_THUMB ∧
    resolution_atoi (some [115, 109]) = RES_SMALL ∧ resolution_atoi (some [111]) = RES_ORIG ∧
    resolution_atoi (some [84, 72, 85, 77, 66]) = -1 := by
  decide

/-! ## `do_create` and the reserved fields -/

/-- C19 (failing input): `do_create` on a structure whose reserved fields hold
`7` and `9` succeeds and writes a header record whose bytes 52 to 63, the two
reserved fields, are the little-endian images of `7` and `9`. -/
theorem do_create_writes_reserved_fields :
    ∃ db f,
      do_create [100] { fpdb := none, header := ⟨[], 0, 0, 1, [64, 64, 256, 256], 7, 9⟩,
                        metadata := [] } (some [])
        = some (ERR_NONE, db) ∧
      db.fpdb = some f ∧
      (f.bytes.take sizeof_header).drop 52 = [7, 0, 0, 0, 9, 0, 0, 0, 0, 0, 0, 0] ∧
      (decode_header (f.bytes.take sizeof_header)).unused_32 = 7 ∧
      (decode_header (f.bytes.take sizeof_header)).unused_64 = 9 := by
  refine ⟨_, _, rfl, rfl, ?_, ?_, ?_⟩ <;> decide

/-! ## `do_create_cmd` -/

theorem getD_append_lt {α : Type} (a l : List α) (i : Nat) (d : α) (h : i < a.length) :
    (a ++ l).getD i d = a.getD i d := by
  simp only [List.getD_eq_getElem?_getD, List.getElem?_append_left h]

theorem create_option_append (T : Tools) (opt : List Nat) (rest l : List (List Nat))
    (o o1 : create_options) (k : Nat)
    (h : create_option T opt rest o = Except.ok (o1, k)) :
    k ≤ rest.length ∧ create_option T opt (rest ++ l) o = Except.ok (o1, k) := by
  unfold create_option at h ⊢
  by_cases h1 : strcmp opt max_files_txt = 0
  · rw [if_pos h1] at h ⊢
    by_cases h2 : rest.length < 1
    · rw [if_pos h2] at h; cases h
    · rw [if_neg h2] at h
      have h2' : ¬ (rest ++ l).length < 1 := by rw [List.length_append]; omega
      rw [if_neg h2', getD_append_lt rest l 0 [] (by omega)]
      simp only at h ⊢
      split at h
      · cases h
      · rename_i h3
        rw [if_neg h3]
        cases h
        exact ⟨by omega, rfl⟩
  · rw [if_neg h1] at h ⊢
    by_cases h1b : strcmp opt thumb_res_txt = 0
    · rw [if_pos h1b] at h ⊢
      by_cases h2 : rest.length < 2
      · rw [if_pos h2] at h; cases h
      · rw [if_neg h2] at h
        have h2' : ¬ (rest ++ l).length < 2 := by rw [List.length_append]; omega
        rw [if_neg h2', getD_append_lt rest l 0 [] (by omega),
          getD_append_lt rest l 1 [] (by omega)]
        simp only at h ⊢
        split at h
        · cases h
        · rename_i h3
          rw [if_neg h3]
          cases h
          exact ⟨by omega, rfl⟩
    · rw [if_neg h1b] at h ⊢
      by_cases h1c : strcmp opt small_res_txt = 0
      · rw [if_pos h1c] at h ⊢
        by_cases h2 : rest.length < 2
        · rw [if_pos h2] at h; cases h
        · rw [if_neg h2] at h
          have h2' : ¬ (rest ++ l).length < 2 := by rw [List.length_append]; omega
          rw [if_neg h2', getD_append_lt rest l 0 [] (by omega),
            getD_append_lt rest l 1 [] (by omega)]
          simp only at h ⊢
          split at h
          · cases h
          · rename_i h3
            rw [if_neg h3]
            cases h
            exact ⟨by omega, rfl⟩
      · rw [if_neg h1c] at h; cases h

theorem create_loop_append (T : Tools) :
    ∀ (pre : List (List Nat)) (k : Nat) (o o1 : create_options), k ≤ pre.length →
      create_loop T pre k o = Except.ok o1 →
      ∀ l, create_loop T (pre ++ l) k o = create_loop T l 0 o1 := by
  intro pre
  induction pre with
  | nil =>
    intro k o o1 hk h l
    have hk0 : k = 0 := by simpa using hk
    subst hk0
    rw [create_loop] at h
    cases h
    rfl
  | cons opt rest ih =>
    intro k o o1 hk h l
    cases k with
    | succ k =>
      rw [create_loop] at h
      rw [List.cons_append, create_loop]
      exact ih k o o1 (by simpa using hk) h l
    | zero =>
      rw [create_loop] at h
      rw [List.cons_append, create_loop]
      cases hco : create_option T opt rest o with
      | error e => rw [hco] at h; cases h
      | ok r =>
        obtain ⟨o2, j⟩ := r
        rw [hco] at h
        obtain ⟨hj, happ⟩ := create_option_append T opt rest l o o2 j hco
        rw [happ]
        exact ih j o2 o1 hj h l

theorem max_files_txt_cmp : strcmp max_files_txt max_files_txt = 0 := by decide

theorem thumb_res_txt_cmp :
    ¬ strcmp thumb_res_txt max_files_txt = 0 ∧ strcmp thumb_res_txt thumb_res_txt = 0 := by
  decide

theorem small_res_txt_cmp :
    ¬ strcmp small_res_txt max_files_txt = 0 ∧ ¬ strcmp small_res_txt thumb_res_txt = 0 ∧
      strcmp small_res_txt small_res_txt = 0 := by
  decide

/-- C20: in `do_create_cmd`, after any options the loop has accepted, a
`-max_files` value that converts to `0` or to more than `100000` gives
`ERR_MAX_FILES`, a `-thumb_res` pair with a component that converts to `0` or
to more than `128` gives `ERR_RESOLUTIONS`, and so does a `-small_res` pair
with a component that converts to `0` or to more than `512`; in these cases
`do_create` is not called. Without options `do_create` is called with
`max_files = 10`, thumbnail `64 x 64` and small `256 x 256`. -/
theorem do_create_cmd_bounds (T : Tools) (cmd filename : List Nat) (pre rest : List (List Nat))
    (o : create_options) (db_file : pictdb_file) (fopen_wb : Option (List Bool))
    (hname : strlen filename ≠ 0)
    (hpre : create_loop T pre 0 default_options = Except.ok o) :
    (∀ v, T.atouint32 v % 2 ^ 32 = 0 ∨ T.atouint32 v % 2 ^ 32 > MAX_MAX_FILES →
      do_create_cmd T (cmd :: filename :: (pre ++ max_files_txt :: v :: rest)) db_file fopen_wb
        = some (ERR_MAX_FILES, none)) ∧
    (∀ vx vy, T.atouint16 vx % 2 ^ 16 = 0 ∨ T.atouint16 vy % 2 ^ 16 = 0 ∨
        T.atouint16 vx % 2 ^ 16 > 128 ∨ T.atouint16 vy % 2 ^ 16 > 128 →
      do_create_cmd T (cmd :: filename :: (pre ++ thumb_res_txt :: vx :: vy :: rest))
        db_file fopen_wb = some (ERR_RESOLUTIONS, none)) ∧
    (∀ vx vy, T.atouint16 vx % 2 ^ 16 = 0 ∨ T.atouint16 vy % 2 ^ 16 = 0 ∨
        T.atouint16 vx % 2 ^ 16 > 512 ∨ T.atouint16 vy % 2 ^ 16 > 512 →
      do_create_cmd T (cmd :: filename :: (pre ++ small_res_txt :: vx :: vy :: rest))
        db_file fopen_wb = some (ERR_RESOLUTIONS, none)) ∧
    do_create_cmd T [cmd, filename] db_file fopen_wb
      = (do_create filename
          { db_file with header := { db_file.header with
              max_files := 10, res_resized := [64, 64, 256, 256] } } fopen_wb).map
        (fun r => (r.1, some r.2)) := by
  have happ := create_loop_append T pre 0 default_options o (Nat.zero_le _) hpre
  refine ⟨?_, ?_, ?_, ?_⟩
  · intro v hv
    unfold do_create_cmd
    simp only
    rw [if_neg hname, happ, create_loop]
    unfold create_option
    rw [if_pos max_files_txt_cmp, if_neg (by simp), List.getD_cons_zero]
    simp only
    rw [if_pos hv]
  · intro vx vy hv
    unfold do_create_cmd
    simp only
    rw [if_neg hname, happ, create_loop]
    unfold create_option
    rw [if_neg thumb_res_txt_cmp.1, if_pos thumb_res_txt_cmp.2, if_neg (by simp),
      List.getD_cons_zero, List.getD_cons_succ, List.getD_cons_zero]
    simp only
    rw [if_pos hv]
  · intro vx vy hv
    unfold do_create_cmd
    simp only
    rw [if_neg hname, happ, create_loop]
    unfold create_option
    rw [if_neg small_res_txt_cmp.1, if_neg small_res_txt_cmp.2.1, if_pos small_res_txt_cmp.2.2,
      if_neg (by simp), List.getD_cons_zero, List.getD_cons_succ, List.getD_cons_zero]
    simp only
    rw [if_pos hv]
  · unfold do_create_cmd
    simp only
    rw [if_neg hname, create_loop]
    simp only
    have hc : create_config db_file default_options = { db_file with header :=
        { db_file.header with max_files := 10, res_resized := [64, 64, 256, 256] } } := rfl
    rw [hc]
    generalize do_create filename _ fopen_wb = r
    rcases r with _ | ⟨rc, db⟩ <;> rfl

/-- C20 (example): the command `create d -max_files 5` followed by a rejected
option, with decimal conversions. -/
theorem do_create_cmd_bounds_witness :
    (∀ v, demo_tools.atouint32 v % 2 ^ 32 = 0 ∨ demo_tools.atouint32 v % 2 ^ 32 > MAX_MAX_FILES →
      do_create_cmd demo_tools
        ([99] :: [100] :: ([max_files_txt, [53]] ++ max_files_txt :: v :: []))
        (demo_config 0) (some []) = some (ERR_MAX_FILES, none)) ∧
    (∀ vx vy, demo_tools.atouint16 vx % 2 ^ 16 = 0 ∨ demo_tools.atouint16 vy % 2 ^ 16 = 0 ∨
        demo_tools.atouint16 vx % 2 ^ 16 > 128 ∨ demo_tools.atouint16 vy % 2 ^ 16 > 128 →
      do_create_cmd demo_tools
        ([99] :: [100] :: ([max_files_txt, [53]] ++ thumb_res_txt :: vx :: vy :: []))
        (demo_config 0) (some []) = some (ERR_RESOLUTIONS, none)) ∧
    (∀ vx vy, demo_tools.atouint16 vx % 2 ^ 16 = 0 ∨ demo_tools.atouint16 vy % 2 ^ 16 = 0 ∨
        demo_tools.atouint16 vx % 2 ^ 16 > 512 ∨ demo_tools.atouint16 vy % 2 ^ 16 > 512 →
      do_create_cmd demo_tools
        ([99] :: [100] :: ([max_files_txt, [53]] ++ small_res_txt :: vx :: vy :: []))
        (demo_config 0) (some []) = some (ERR_RESOLUTIONS, none)) ∧
    do_create_cmd demo_tools [[99], [100]] (demo_config 0) (some [])
      = (do_create [100]
          { demo_config 0 with header := { (demo_config 0).header with
              max_files := 10, res_resized := [64, 64, 256, 256] } } (some [])).map
        (fun r => (r.1, some r.2)) :=
  do_create_cmd_bounds demo_tools [99] [100] [max_files_txt, [53]] []
    ⟨5, 64, 64, 256, 256⟩ (demo_config 0) (some []) (by decide) rfl

/-! ## The byte codec read back -/

theorem le_bytes_length (n v : Nat) : (le_bytes n v).length = n := by
  simp [le_bytes]

theorem le_bytes_succ (n v : Nat) : le_bytes (n + 1) v = v % 256 :: le_bytes n (v / 256) := by
  unfold le_bytes
  rw [List.range_succ_eq_map, List.map_cons, List.map_map]
  congr 1
  · simp
  · apply List.map_congr_left
    intro k _
    simp only [Function.comp, pow_succ, Nat.div_div_eq_div_mul]
    rw [Nat.mul_comm]

theorem le_value_le_bytes : ∀ (n v : Nat), v < 256 ^ n → le_value (le_bytes n v) = v := by
  intro n
  induction n with
  | zero =>
    intro v hv
    have : v = 0 := by simpa using hv
    subst this
    rfl
  | succ n ih =>
    intro v hv
    rw [le_bytes_succ, le_value, ih (v / 256)]
    · omega
    · rw [Nat.div_lt_iff_lt_mul (by decide)]
      rw [pow_succ] at hv
      exact hv

theorem take_drop_mid (pre x post : List Nat) (n k : Nat) (hpre : pre.length = n)
    (hx : x.length = k) : ((pre ++ x ++ post).drop n).take k = x := by
  subst hpre hx
  rw [List.append_assoc, List.drop_left, List.take_left]

theorem fit_length (n : Nat) (l : List Nat) : (fit n l).length = n := by
  simp [fit]

theorem fit_eq_self (n : Nat) (l : List Nat) (h : l.length = n) : fit n l = l := by
  subst h
  simp [fit]

theorem decode_encode_header (h : pictdb_header) (h1 : h.db_name.length = 32)
    (h2 : h.db_version < 2 ^ 32) (h3 : h.num_files < 2 ^ 32) (h4 : h.max_files < 2 ^ 32)
    (h5 : h.res_resized.length = 4) (h6 : ∀ r ∈ h.res_resized, r < 2 ^ 16)
    (h7 : h.unused_32 < 2 ^ 32) (h8 : h.unused_64 < 2 ^ 64) :
    decode_header (encode_header h) = h := by
  obtain ⟨name, ver, num, mx, res, u32, u64⟩ := h
  simp only at h1 h2 h3 h4 h5 h6 h7 h8
  match res, h5, h6 with
  | [a, b, c, d], _, h6 =>
    have ha : a < 2 ^ 16 := h6 a (by simp)
    have hb : b < 2 ^ 16 := h6 b (by simp)
    have hc : c < 2 ^ 16 := h6 c (by simp)
    have hd : d < 2 ^ 16 := h6 d (by simp)
    have e0 : (encode_header ⟨name, ver, num, mx, [a, b, c, d], u32, u64⟩).take 32 = name := by
      simp only [encode_header, List.append_assoc, fit_eq_self 32 name h1]
      rw [← h1, List.take_left]
    have e1 := take_drop_mid (fit 32 name) (le_bytes 4 ver)
      (le_bytes 4 num ++ le_bytes 4 mx ++ le_bytes 2 a ++ le_bytes 2 b ++ le_bytes 2 c
        ++ le_bytes 2 d ++ le_bytes 4 u32 ++ le_bytes 8 u64) 32 4 (fit_length _ _)
      (le_bytes_length _ _)
    have e2 := take_drop_mid (fit 32 name ++ le_bytes 4 ver) (le_bytes 4 num)
      (le_bytes 4 mx ++ le_bytes 2 a ++ le_bytes 2 b ++ le_bytes 2 c
        ++ le_bytes 2 d ++ le_bytes 4 u32 ++ le_bytes 8 u64) 36 4
      (by simp [fit_length, le_bytes_length]) (le_bytes_length _ _)
    have e3 := take_drop_mid (fit 32 name ++ le_bytes 4 ver ++ le_bytes 4 num) (le_bytes 4 mx)
      (le_bytes 2 a ++ le_bytes 2 b ++ le_bytes 2 c
        ++ le_bytes 2 d ++ le_bytes 4 u32 ++ le_bytes 8 u64) 40 4
      (by simp [fit_length, le_bytes_length]) (le_bytes_length _ _)
    have e4 := take_drop_mid (fit 32 name ++ le_bytes 4 ver ++ le_bytes 4 num ++ le_bytes 4 mx)
      (le_bytes 2 a) (le_bytes 2 b ++ le_bytes 2 c
        ++ le_bytes 2 d ++ le_bytes 4 u32 ++ le_bytes 8 u64) 44 2
      (by simp [fit_length, le_bytes_length]) (le_bytes_length _ _)
    have e5 := take_drop_mid (fit 32 name ++ le_bytes 4 ver ++ le_bytes 4 num ++ le_bytes 4 mx
        ++ le_bytes 2 a)
      (le_bytes 2 b) (le_bytes 2 c ++ le_bytes 2 d ++ le_bytes 4 u32 ++ le_bytes 8 u64) 46 2
      (by simp [fit_length, le_bytes_length]) (le_bytes_length _ _)
    have e6 := take_drop_mid (fit 32 name ++ le_bytes 4 ver ++ le_bytes 4 num ++ le_bytes 4 mx
        ++ le_bytes 2 a ++ le_bytes 2 b)
      (le_bytes 2 c) (le_bytes 2 d ++ le_bytes 4 u32 ++ le_bytes 8 u64) 48 2
      (by simp [fit_length, le_bytes_length]) (le_bytes_length _ _)
    have e7 := take_drop_mid (fit 32 name ++ le_bytes 4 ver ++ le_bytes 4 num ++ le_bytes 4 mx
        ++ le_bytes 2 a ++ le_bytes 2 b ++ le_bytes 2 c)
      (le_bytes 2 d) (le_bytes 4 u32 ++ le_bytes 8 u64) 50 2
      (by simp [fit_length, le_bytes_length]) (le_bytes_length _ _)
    have e8 := take_drop_mid (fit 32 name ++ le_bytes 4 ver ++ le_bytes 4 num ++ le_bytes 4 mx
        ++ le_bytes 2 a ++ le_bytes 2 b ++ le_bytes 2 c ++ le_bytes 2 d)
      (le_bytes 4 u32) (le_bytes 8 u64) 52 4
      (by simp [fit_length, le_bytes_length]) (le_bytes_length _ _)
    have e9 := take_drop_mid (fit 32 name ++ le_bytes 4 ver ++ le_bytes 4 num ++ le_bytes 4 mx
        ++ le_bytes 2 a ++ le_bytes 2 b ++ le_bytes 2 c ++ le_bytes 2 d ++ le_bytes 4 u32)
      (le_bytes 8 u64) [] 56 8
      (by simp [fit_length, le_bytes_length]) (le_bytes_length _ _)
    simp only [List.append_assoc, List.append_nil] at e1 e2 e3 e4 e5 e6 e7 e8 e9
    unfold decode_header
    rw [e0]
    simp only [encode_header, List.getD_cons_zero, List.getD_cons_succ, List.append_assoc]
    rw [e1, e2, e3, e4, e5, e6, e7, e8, e9,
      le_value_le_bytes 4 ver h2, le_value_le_bytes 4 num h3, le_value_le_bytes 4 mx h4,
      le_value_le_bytes 2 a ha, le_value_le_bytes 2 b hb, le_value_le_bytes 2 c hc,
      le_value_le_bytes 2 d hd, le_value_le_bytes 4 u32 h7, le_value_le_bytes 8 u64 h8]

theorem decode_encode_zero : decode_metadata (encode_metadata zero_metadata) = zero_metadata := by
  decide

theorem flatten_replicate_slice (c : List Nat) :
    ∀ (n j : Nat), j < n →
      (((List.replicate n c).flatten).drop (j * c.length)).take c.length = c := by
  intro n
  induction n with
  | zero => intro j hj; omega
  | succ n ih =>
    intro j hj
    rw [List.replicate_succ, List.flatten_cons]
    cases j with
    | zero => simp
    | succ j =>
      have : (j + 1) * c.length = c.length + j * c.length := by ring
      rw [this, ← List.drop_drop, List.drop_left]
      exact ih j (by omega)


theorem fread_table_created (h : pictdb_header) (n : Nat) :
    fread_table
        ⟨encode_header h ++ ((List.replicate n zero_metadata).map encode_metadata).flatten,
          sizeof_header, []⟩ n
      = (n, List.replicate n zero_metadata,
          ⟨encode_header h ++ ((List.replicate n zero_metadata).map encode_metadata).flatten,
            sizeof_header + n * sizeof_metadata, []⟩) := by
  have hk : min n ((((encode_header h ++
      ((List.replicate n zero_metadata).map encode_metadata).flatten).length - sizeof_header)
      / sizeof_metadata)) = n := by
    rw [List.length_append, encode_header_length, table_bytes_length, Nat.add_sub_cancel_left,
      Nat.mul_div_cancel _ (by decide : 0 < sizeof_metadata)]
    exact Nat.min_self n
  have hitems : (List.range n).map (fun j =>
      decode_metadata (((encode_header h ++
        ((List.replicate n zero_metadata).map encode_metadata).flatten).drop
          (sizeof_header + j * sizeof_metadata)).take sizeof_metadata))
      = List.replicate n zero_metadata := by
    rw [List.eq_replicate_iff]
    refine ⟨by simp, ?_⟩
    intro b hb
    obtain ⟨j, hj, rfl⟩ := List.mem_map.1 hb
    have hjn : j < n := List.mem_range.1 hj
    rw [← encode_header_length h, ← List.drop_drop, List.drop_left, List.map_replicate,
      ← encode_metadata_length zero_metadata,
      flatten_replicate_slice (encode_metadata zero_metadata) n j hjn]
    exact decode_encode_zero
  unfold fread_table
  simp only [FILE.next, List.headD_nil, List.tail_nil, Bool.false_eq_true, if_false]
  rw [hk, hitems]
  simp

theorem c_str_cat_txt : c_str CAT_TXT = CAT_TXT := by decide

theorem strncpy_nul_cat_length (name : List Nat) (h : name.length = 32) :
    (strncpy_nul name CAT_TXT).length = 32 := by
  have h1 : c_str CAT_TXT = CAT_TXT := c_str_cat_txt
  have h2 : strlen CAT_TXT = 18 := by decide
  unfold strncpy_nul
  rw [h1, h2]
  simp only [List.length_append, List.length_cons, List.length_drop, h]
  decide

/-- C18: a successful `do_create` on a header configuration whose fields are
within the ranges of their C types leaves the in-memory header with
`num_files = 0`, `db_version = 0`, the name `"EPFL PictDB binary"` and
`max_files` and `res_resized` as configured, leaves `max_files` in-memory
slots that are all zero (`is_valid = EMPTY`), and leaves a file of exactly
`sizeof(header) + max_files * sizeof(slot)` bytes, the header record followed
by `max_files` zeroed slot records; `do_open` on that file, with I/O that
succeeds, returns `0` with the same header and slot table. -/
theorem do_create_then_open (filename name2 mode : List Nat) (db_file db other : pictdb_file)
    (script : List Bool) (hwf : header_wf db_file.header)
    (hname2 : strlen name2 ≠ 0) (hmode : strlen mode ≠ 0)
    (h : do_create filename db_file (some script) = some (ERR_NONE, db)) :
    strlen filename ≠ 0 ∧
    db.header.num_files = 0 ∧ db.header.db_version = 0 ∧ c_str db.header.db_name = CAT_TXT ∧
    db.header.max_files = db_file.header.max_files ∧
    db.header.res_resized = db_file.header.res_resized ∧
    db.metadata = List.replicate db_file.header.max_files zero_metadata ∧
    (∀ m ∈ db.metadata, m.is_valid = EMPTY) ∧
    ∃ f, db.fpdb = some f ∧
      f.bytes = encode_header db.header ++
        ((List.replicate db_file.header.max_files zero_metadata).map encode_metadata).flatten ∧
      f.bytes.length = sizeof_header + db_file.header.max_files * sizeof_metadata ∧
      ∃ g, do_open name2 mode other (some ⟨f.bytes, 0, []⟩)
        = some (ERR_NONE, ⟨some g, db.header, db.metadata⟩) := by
  obtain ⟨hw1, -, hw3, hw4, hw5, hw6, hw7⟩ := hwf
  have hfn : strlen filename ≠ 0 := by
    intro h0
    unfold do_create at h
    rw [if_pos h0] at h
    cases h
  obtain ⟨hh, hmd, f, hf, hb⟩ := do_create_cases filename db_file db script h
  have hdec : decode_header (encode_header db.header) = db.header := by
    apply decode_encode_header
    · rw [hh]; exact strncpy_nul_cat_length _ hw1
    · rw [hh]; show (0 : Nat) < 2 ^ 32; decide
    · rw [hh]; show (0 : Nat) < 2 ^ 32; decide
    · rw [hh]; exact Nat.lt_trans hw3 (by decide)
    · rw [hh]; exact hw4
    · rw [hh]; exact hw5
    · rw [hh]; exact hw6
    · rw [hh]; exact hw7
  have hmax : db.header.max_files = db_file.header.max_files := by rw [hh]
  refine ⟨hfn, by rw [hh], by rw [hh], by rw [hh]; exact (c_str_strncpy_nul _ _).trans c_str_cat_txt,
    hmax, by rw [hh], hmd, ?_, f, hf, hb, ?_, ?_⟩
  · intro m hm
    rw [hmd] at hm
    rw [List.eq_of_mem_replicate hm]
    rfl
  · rw [hb, List.length_append, encode_header_length, table_bytes_length]
  · have hlen : sizeof_header ≤ f.bytes.length := by
      rw [hb, List.length_append, encode_header_length]; omega
    have htake : (f.bytes.drop 0).take sizeof_header = encode_header db.header := by
      rw [List.drop_zero, hb, ← encode_header_length db.header, List.take_left]
    unfold do_open
    rw [if_neg (by simp [hname2, hmode])]
    simp only
    rw [fseek_set_ok _ 0 rfl]
    simp only
    rw [fread_ok ⟨f.bytes, 0, []⟩ sizeof_header rfl (by decide) (by simpa using hlen)]
    simp only [htake, hdec, Nat.zero_add]
    rw [fseek_set_ok _ sizeof_header rfl]
    simp only
    rw [hb, hmax, fread_table_created db.header db_file.header.max_files]
    simp only [ne_eq, not_true_eq_false, if_false]
    exact ⟨_, by rw [hmd]⟩

/-- C18 (example): a database of two slots with the default resolutions. -/
theorem do_create_then_open_witness :
    strlen [100] ≠ 0 ∧
    (demo_create (demo_wf_config 2)).header.num_files = 0 ∧
    (demo_create (demo_wf_config 2)).header.db_version = 0 ∧
    c_str (demo_create (demo_wf_config 2)).header.db_name = CAT_TXT ∧
    (demo_create (demo_wf_config 2)).header.max_files = (demo_wf_config 2).header.max_files ∧
    (demo_create (demo_wf_config 2)).header.res_resized
      = (demo_wf_config 2).header.res_resized ∧
    (demo_create (demo_wf_config 2)).metadata
      = List.replicate (demo_wf_config 2).header.max_files zero_metadata ∧
    (∀ m ∈ (demo_create (demo_wf_config 2)).metadata, m.is_valid = EMPTY) ∧
    ∃ f, (demo_create (demo_wf_config 2)).fpdb = some f ∧
      f.bytes = encode_header (demo_create (demo_wf_config 2)).header ++
        ((List.replicate (demo_wf_config 2).header.max_files zero_metadata).map
          encode_metadata).flatten ∧
      f.bytes.length
        = sizeof_header + (demo_wf_config 2).header.max_files * sizeof_metadata ∧
      ∃ g, do_open [100] [114] (demo_config 0) (some ⟨f.bytes, 0, []⟩)
        = some (ERR_NONE, ⟨some g, (demo_create (demo_wf_config 2)).header,
            (demo_create (demo_wf_config 2)).metadata⟩) :=
  do_create_then_open [100] [100] [114] (demo_wf_config 2) (demo_create (demo_wf_config 2))
    (demo_config 0) []
    ⟨by decide, by decide, by decide, by decide, by decide, by decide, by decide⟩
    (by decide) (by decide) (by decide)

/-- C13 (failing inputs): on an empty database of one slot, a `do_gbcollect`
whose `remove(old)` succeeds and whose `rename` fails returns `ERR_IO` and
leaves no file under either name; a `do_gbcollect` whose `do_create` fails
on the write of the header returns `0`, and the file under the name of the
source is then the empty file. -/
theorem do_gbcollect_loses_source :
    (do_gbcollect demo_lib (demo_fresh 1 []) [116] (demo_config 0) (some []) false true).map
        (fun r => (r.res, r.paths))
      = some ( ERR_IO, ⟨none, none⟩) ∧
    (demo_fresh 1 []).fpdb.map (fun f => f.bytes.length) = some 280 ∧
    do_create [116] (demo_config 1) (some [true])
      = some ( ERR_IO, ⟨none, demo_header 1, [zero_metadata]⟩) ∧
    (do_gbcollect demo_lib (demo_fresh 1 []) [116] (demo_config 0) (some [true]) false false).map
        (fun r => (r.res, r.paths))
      = some (ERR_NONE, ⟨some [], none⟩) := by
  decide!

/-- C14 (failing input): the source holds `"b"` after `"a"` and `"b"` were
inserted and `"a"` was deleted, so its `db_version` is `3`. A successful
`do_gbcollect` leaves `db_version = 3` in the local structure only: the
header of the file that takes the name of the source, as `do_open` reads it
back, has `db_version = 1`. -/
theorem do_gbcollect_file_version :
    (demo_delete [97]
      (demo_insert [4, 5] [98] (demo_insert [1, 2, 3] [97] (demo_fresh 2 [])))).header.db_version
      = 3 ∧
    ((do_gbcollect demo_lib
        (demo_delete [97] (demo_insert [4, 5] [98] (demo_insert [1, 2, 3] [97] (demo_fresh 2 []))))
        [116] (demo_config 0) (some []) false false).map
      (fun r => (r.res, r.new_db_file.header.db_version, r.paths.new,
        (do_open [100] [114] (demo_config 0)
          (r.paths.orig.map (fun c => ⟨c, 0, []⟩))).map
          (fun o => (o.1, o.2.header.db_version)))))
      = some (ERR_NONE, 3, none, some (ERR_NONE, 1)) := by
  decide!

/-! ## Slots with the same digest -/

theorem shared_of_slots (tbl tbl' : List pict_metadata) (h : shared_orig tbl)
    (hslots : ∀ m' ∈ tbl', m'.is_valid = NON_EMPTY →
      ∃ m ∈ tbl, m.is_valid = NON_EMPTY ∧ m.SHA = m'.SHA ∧
        m.offset.orig = m'.offset.orig ∧ m.size.orig = m'.size.orig) :
    shared_orig tbl' := by
  intro m1 h1 m2 h2 v1 v2 hsha
  obtain ⟨x1, hx1, xv1, s1, o1, z1⟩ := hslots m1 h1 v1
  obtain ⟨x2, hx2, xv2, s2, o2, z2⟩ := hslots m2 h2 v2
  have := h x1 hx1 x2 hx2 xv1 xv2 (by rw [s1, s2, hsha])
  rw [← o1, ← o2, ← z1, ← z2]
  exact this

theorem shared_insert (L : Lib) (img id : List Nat) (db db' : pictdb_file) (rc : error_code)
    (hinv : db_inv L db) (hsh : small_file db → shared_orig db.metadata)
    (h : do_insert L img id db = some (rc, db')) :
    small_file db' → shared_orig db'.metadata := by
  intro hsmall'
  have hinv' := db_inv_insert L img id db db' rc hinv h
  obtain ⟨⟨hlen, f, hf, hD⟩, hfl, hu, hs⟩ := hinv
  rcases do_insert_cases L img id db db' rc hlen h with
    ⟨-, rfl⟩ | ⟨i, m, hm, hv, hlow, hid0, hid1, himg, hroom, hcase⟩
  · exact hsh hsmall'
  have hit := slot_in_table hlen hm
  have hmE : m.is_valid = EMPTY := (hfl m (List.getElem?_mem hm)).resolve_right hv
  rcases hcase with ⟨hrc, hh, ⟨m', hm'v, hmd⟩, hfile⟩ |
    ⟨rfl, hh, hidfree, f0, f', hf0, hf', hflt, hcase2⟩
  · obtain ⟨f', hf', hk⟩ := hfile f hf
    have hk' := data_kept_length (hk _ hit hD)
    have hsmall : small_file db := by
      intro g hg
      rw [hf] at hg; cases hg
      have := hsmall' f' hf'
      omega
    have hm'E : m'.is_valid = EMPTY := by
      rcases hm'v with e | e
      · rw [e, hmE]
      · exact e
    apply shared_of_slots _ _ (hsh hsmall)
    intro x hx hxv
    rw [hmd] at hx
    rcases mem_set_cases _ _ _ _ hx with rfl | ⟨j, -, hj⟩
    · rw [hm'E] at hxv; cases hxv
    · exact ⟨x, List.getElem?_mem hj, hxv, rfl, rfl, rfl⟩
  · rw [hf] at hf0; cases hf0
    rcases hcase2 with ⟨k, dup, hk, hki, hdv, hds, -, hoff, hmd, hsame⟩ |
      ⟨wh, s, hj, hmd, hsrc, hsame⟩
    · have hsd := hsame _ hit hD
      have hsmall : small_file db := by
        intro g hg
        rw [hf] at hg; cases hg
        have := hsmall' f' hf'
        rw [hsd.1] at this
        exact this
      apply shared_of_slots _ _ (hsh hsmall)
      intro x hx hxv
      rw [hmd] at hx
      rcases mem_set_cases _ _ _ _ hx with rfl | ⟨j, -, hj⟩
      · exact ⟨dup, List.getElem?_mem hk, hdv, hds, rfl, rfl⟩
      · exact ⟨x, List.getElem?_mem hj, hxv, rfl, rfl, rfl⟩
    · have hsd := hsame _ hit hD
      have hlen' : f'.bytes.length = f.bytes.length + img.length := by
        rw [hsd.1]; simp
      have hflt' : f.bytes.length < 2 ^ 32 := by
        have := hsmall' f' hf'
        omega
      have hsmall : small_file db := by
        intro g hg
        rw [hf] at hg; cases hg
        exact hflt'
      have hnodup : ∀ j mj, db.metadata[j]? = some mj →
          ¬ (mj.is_valid = NON_EMPTY ∧ j ≠ i ∧ mj.SHA = L.SHA256 img) := by
        rcases hsrc with ⟨hn, -⟩ | ⟨k, dup, hk, -, hdv, -, hoff0, -⟩
        · exact hn
        · have := (hs f hf hflt' dup (List.getElem?_mem hk) hdv).1
          have hp := data_start_pos db.header.max_files
          omega
      have hold := hsh hsmall
      intro m1 h1 m2 h2 v1 v2 hsha
      rw [hmd] at h1 h2
      rcases mem_set_cases _ _ _ _ h1 with rfl | ⟨j1, hj1i, hj1⟩
      · rcases mem_set_cases _ _ _ _ h2 with rfl | ⟨j2, hj2i, hj2⟩
        · exact ⟨rfl, rfl⟩
        · exact absurd ⟨v2, hj2i, hsha.symm⟩ (hnodup j2 m2 hj2)
      · rcases mem_set_cases _ _ _ _ h2 with rfl | ⟨j2, hj2i, hj2⟩
        · exact absurd ⟨v1, hj1i, hsha⟩ (hnodup j1 m1 hj1)
        · exact hold m1 (List.getElem?_mem hj1) m2 (List.getElem?_mem hj2) v1 v2 hsha

theorem shared_resize (L : Lib) (res : Int) (i : Nat) (db db' : pictdb_file) (rc : error_code)
    (hinv : db_inv L db) (hsh : small_file db → shared_orig db.metadata)
    (h : lazily_resize L res db i = some (rc, db')) :
    small_file db' → shared_orig db'.metadata := by
  intro hsmall'
  rcases lazily_resize_cases L res db db' i rc h with rfl |
    ⟨m, f0, f', hm, hv, hoff, hres, hf0, hf', hh, hcase⟩
  · exact hsh hsmall'
  obtain ⟨⟨hlen, f, hf, hD⟩, -, -, -⟩ := hinv
  have e0 : f = f0 := by rw [hf] at hf0; exact Option.some.inj hf0
  subst e0
  have hit := slot_in_table hlen hm
  have hle : f.bytes.length ≤ f'.bytes.length := by
    rcases hcase with ⟨-, -, hb⟩ | ⟨res_buff, -, -, -, -, -, -, hb⟩
    · rcases hb with e | ⟨t, e⟩
      · rw [e]
      · rw [e]; simp
    · rcases hb with ⟨-, e⟩ | ⟨-, -, e⟩
      · rw [e]; simp
      · rw [e, write_at_length _ _ _ (by
          rw [encode_metadata_length, ← slot_pos_succ, List.length_append]
          unfold data_start at hD hit
          omega)]
        simp
  have hsmall : small_file db := by
    intro g hg
    rw [hf] at hg; cases hg
    have := hsmall' f' hf'
    omega
  apply shared_of_slots _ _ (hsh hsmall)
  intro x hx hxv
  rcases hcase with ⟨-, hmd, -⟩ | ⟨res_buff, -, -, -, -, -, hmd, -⟩
  · rw [hmd] at hx
    exact ⟨x, hx, hxv, rfl, rfl, rfl⟩
  · rw [hmd] at hx
    rcases mem_set_cases _ _ _ _ hx with rfl | ⟨j, -, hj⟩
    · exact ⟨m, List.getElem?_mem hm, hv, rfl,
        (res_array_put_orig_eq _ _ _ hres).symm, (res_array_put_orig_eq _ _ _ hres).symm⟩
    · exact ⟨x, List.getElem?_mem hj, hxv, rfl, rfl, rfl⟩

theorem shared_read (L : Lib) (id : List Nat) (res : Int) (db db' : pictdb_file)
    (rc : error_code) (out : Option (List Nat × Nat))
    (hinv : db_inv L db) (hsh : small_file db → shared_orig db.metadata)
    (h : do_read L id res db = some (rc, out, db')) :
    small_file db' → shared_orig db'.metadata := by
  intro hsmall'
  obtain ⟨db1, h1, hh, hmd, hfile⟩ := do_read_cases L id res db db' rc out h
  have hsmall1 : small_file db1 := by
    rcases hfile with rfl | ⟨f, f', hf, hf', hb⟩
    · exact hsmall'
    · intro g hg
      rw [hf] at hg; cases hg
      rw [← hb]
      exact hsmall' f' hf'
  rw [hmd]
  rcases h1 with rfl | ⟨i, rc1, hl⟩
  · exact hsh hsmall1
  · exact shared_resize L res i db db1 rc1 hinv hsh hl hsmall1

theorem shared_delete (L : Lib) (name : List Nat) (db db' : pictdb_file) (rc : error_code)
    (hinv : db_inv L db) (hsh : small_file db → shared_orig db.metadata)
    (h : do_delete name db = some (rc, db')) :
    small_file db' → shared_orig db'.metadata := by
  intro hsmall'
  have hinv' := db_inv_delete L name db db' rc hinv h
  rcases do_delete_cases name db db' rc h with ⟨-, rfl⟩ |
    ⟨idx, m, hm, hv, hid, hidx, hfirst, hmd, hcase⟩
  · exact hsh hsmall'
  obtain ⟨⟨hlen, f, hf, hD⟩, hfl, hu, hs⟩ := hinv
  have hit := slot_in_table hlen hm
  have hsmall : small_file db := by
    intro g hg
    rw [hf] at hg; cases hg
    rcases hcase with ⟨-, -, e | ⟨g, g', hg, hg', e⟩⟩ | ⟨g, g', hg, hg', -, e⟩
    · exact hsmall' f (by rw [e, hf])
    · rw [hf] at hg; cases hg
      rw [← e]; exact hsmall' g' hg'
    · rw [hf] at hg; cases hg
      have s1 : (write_at f.bytes (slot_pos idx)
          (encode_metadata { m with is_valid := EMPTY })).length = f.bytes.length :=
        write_at_length _ _ _ (by
          rw [encode_metadata_length, ← slot_pos_succ]
          unfold data_start at hD hit
          omega)
      have := hsmall' g' hg'
      rcases e with ⟨-, e⟩ | ⟨-, e⟩
      · rw [e, s1] at this; exact this
      · rw [e] at this
        have s2 := write_at_length (write_at f.bytes (slot_pos idx)
          (encode_metadata { m with is_valid := EMPTY }))
          (encode_header (delete_header db.header)) 0 (by
            rw [encode_header_length, s1]
            have := sizeof_header_le_slot_pos (idx + 1)
            unfold data_start at hD hit
            omega)
        rw [s2, s1] at this
        exact this
  apply shared_of_slots _ _ (hsh hsmall)
  intro x hx hxv
  rw [hmd] at hx
  rcases mem_set_cases _ _ _ _ hx with rfl | ⟨j, -, hj⟩
  · cases hxv
  · exact ⟨x, List.getElem?_mem hj, hxv, rfl, rfl, rfl⟩

theorem reachable_shared (L : Lib) (db : pictdb_file) (h : Reachable L db) :
    small_file db → shared_orig db.metadata := by
  induction h with
  | create filename db_file script db _ hc =>
    intro _ m1 h1 _ _ v1 _ _
    rw [(do_create_cases filename db_file db script hc).2.1] at h1
    rw [List.eq_of_mem_replicate h1] at v1
    cases v1
  | insert db img id rc db' hr hi ih =>
    exact shared_insert L img id db db' rc (reachable_inv L db hr) ih hi
  | delete db name rc db' hr hd ih =>
    exact shared_delete L name db db' rc (reachable_inv L db hr) ih hd
  | read db id res rc out db' hr hd ih =>
    exact shared_read L id res db db' rc out (reachable_inv L db hr) ih hd
  | resize db res i rc db' hr hd ih =>
    exact shared_resize L res i db db' rc (reachable_inv L db hr) ih hd

/-- C15 (amended): in every state reachable from a created database whose
file is shorter than `2^32` bytes, any two `NON_EMPTY` slots with equal `SHA`
have equal `offset[RES_ORIG]` and equal `size[RES_ORIG]`. -/
theorem reachable_shares_original (L : Lib) (db : pictdb_file) (f : FILE)
    (hreach : Reachable L db) (hf : db.fpdb = some f) (hsmall : f.bytes.length < 2 ^ 32)
    (m1 m2 : pict_metadata) (h1 : m1 ∈ db.metadata) (h2 : m2 ∈ db.metadata)
    (hv1 : m1.is_valid = NON_EMPTY) (hv2 : m2.is_valid = NON_EMPTY) (hsha : m1.SHA = m2.SHA) :
    m1.offset.orig = m2.offset.orig ∧ m1.size.orig = m2.size.orig := by
  refine reachable_shared L db hreach ?_ m1 h1 m2 h2 hv1 hv2 hsha
  intro g hg
  rw [hf] at hg; cases hg
  exact hsmall


theorem demo_reachable_shared :
    Reachable demo_lib (demo_insert [1, 2, 3] [98] (demo_insert [1, 2, 3] [97] (demo_fresh 2 []))) :=
  Reachable.insert _ [1, 2, 3] [98] ERR_NONE _ demo_reachable_one (by decide)

/-- C15 (example): the slots of `"a"` and `"b"` after the same payload was
inserted under the two ids. -/
theorem reachable_shares_original_witness :
    ((demo_insert [1, 2, 3] [98]
        (demo_insert [1, 2, 3] [97] (demo_fresh 2 []))).metadata.getD 0 zero_metadata).offset.orig
      = ((demo_insert [1, 2, 3] [98]
        (demo_insert [1, 2, 3] [97] (demo_fresh 2 []))).metadata.getD 1 zero_metadata).offset.orig ∧
    ((demo_insert [1, 2, 3] [98]
        (demo_insert [1, 2, 3] [97] (demo_fresh 2 []))).metadata.getD 0 zero_metadata).size.orig
      = ((demo_insert [1, 2, 3] [98]
        (demo_insert [1, 2, 3] [97] (demo_fresh 2 []))).metadata.getD 1 zero_metadata).size.orig :=
  reachable_shares_original demo_lib
    (demo_insert [1, 2, 3] [98] (demo_insert [1, 2, 3] [97] (demo_fresh 2 [])))
    (demo_file (demo_insert [1, 2, 3] [98] (demo_insert [1, 2, 3] [97] (demo_fresh 2 []))))
    demo_reachable_shared (by decide) (by decide) _ _ (by decide) (by decide) (by decide)
    (by decide) (by decide)

/-- C15 (counterexample): after `do_insert` of the same payload as `"a"` and
as `"b"` and a `do_read` of `"a"` at `RES_THUMB`, all of which return `0`, the
two `NON_EMPTY` slots have the same `SHA`, the slot of `"a"` has its thumbnail
at offset `499` with size `1`, and the slot of `"b"` has offset `0` and size
`0` at `RES_THUMB`. -/
theorem dedup_partner_without_thumbnail :
    do_create [100] (demo_config 2) (some []) = some (ERR_NONE, demo_fresh 2 []) ∧
    (do_insert demo_lib [1, 2, 3] [97] (demo_fresh 2 [])).map (fun r => r.1) = some ERR_NONE ∧
    (do_insert demo_lib [1, 2, 3] [98] (demo_insert [1, 2, 3] [97] (demo_fresh 2 []))).map
      (fun r => r.1) = some ERR_NONE ∧
    (do_read demo_lib [97] RES_THUMB
      (demo_insert [1, 2, 3] [98] (demo_insert [1, 2, 3] [97] (demo_fresh 2 [])))).map
      (fun r => r.1) = some ERR_NONE ∧
    demo_shared.metadata.map
        (fun m => (c_str m.pict_id, m.is_valid, m.SHA, m.offset.thumb, m.size.thumb))
      = [([97], NON_EMPTY, fit 32 [1, 2, 3], 499, 1),
         ([98], NON_EMPTY, fit 32 [1, 2, 3], 0, 0)] := by
  decide!

/-- C12 (counterexample): in `demo_shared` the entry `"b"`, which shares its
content with `"a"`, has no thumbnail. `do_gbcollect` returns `0` and in the
destination the slot of `"b"` has the thumbnail of `"a"`: size `1` at offset
`499`, in the local structure and in the table `do_open` reads from the file
left under the name of the source. -/
theorem do_gbcollect_adds_thumbnail :
    demo_shared.metadata.map
        (fun m => (c_str m.pict_id, m.is_valid, m.size.thumb, m.offset.thumb))
      = [([97], NON_EMPTY, 1, 499), ([98], NON_EMPTY, 0, 0)] ∧
    (do_gbcollect demo_lib demo_shared [116] (demo_config 0) (some []) false false).map
        (fun r => (r.res, r.new_db_file.metadata.map
          (fun m => (c_str m.pict_id, m.is_valid, m.size.thumb, m.offset.thumb))))
      = some (ERR_NONE, [([97], NON_EMPTY, 1, 499), ([98], NON_EMPTY, 1, 499)]) ∧
    (do_gbcollect demo_lib demo_shared [116] (demo_config 0) (some []) false false).map
        (fun r => r.paths.new) = some none ∧
    ((do_gbcollect demo_lib demo_shared [116] (demo_config 0) (some []) false false).bind
        (fun r => do_open [100] [114] (demo_config 0)
          (r.paths.orig.map (fun c => ⟨c, 0, []⟩)))).map
        (fun o => (o.1, o.2.metadata.map
          (fun m => (c_str m.pict_id, m.is_valid, m.size.thumb, m.offset.thumb))))
      = some (ERR_NONE, [([97], NON_EMPTY, 1, 499), ([98], NON_EMPTY, 1, 499)]) := by
  refine ⟨by decide!, by decide!, by decide!, by decide!⟩

/-! ## `do_read` at `RES_ORIG` -/

theorem read_scan_some (n : Nat) (id : List Nat) :
    ∀ (l : List pict_metadata) (k i : Nat), read_scan n id l k = some i →
      ∃ j m, i = k + j ∧ l[j]? = some m ∧
        ((strcmp m.pict_id id = 0 ∧ m.is_valid ≠ EMPTY) ∨ n < i) := by
  intro l
  induction l with
  | nil => intro k i h; simp [read_scan] at h
  | cons m rest ih =>
    intro k i h
    rw [read_scan] at h
    split at h
    · obtain ⟨j, m', e, hj, hp⟩ := ih (k + 1) i h
      exact ⟨j + 1, m', by omega, by simpa using hj, hp⟩
    · rename_i hc
      cases h
      refine ⟨0, m, rfl, by simp, ?_⟩
      by_cases hle : k ≤ n
      · left
        by_contra hcon
        apply hc
        refine ⟨?_, hle⟩
        by_cases h1 : strcmp m.pict_id id = 0
        · right
          by_contra h2
          exact hcon ⟨h1, h2⟩
        · exact Or.inl h1
      · right; omega

theorem orig_bytes_length (b : List Nat) (m : pict_metadata)
    (h : m.offset.orig + m.size.orig ≤ b.length) : (orig_bytes b m).length = m.size.orig := by
  unfold orig_bytes
  rw [List.length_take, List.length_drop]
  omega

theorem do_read_orig_cases (L : Lib) (id : List Nat) (db db' : pictdb_file) (rc : error_code)
    (out : Option (List Nat × Nat)) (hlen : db.metadata.length = db.header.max_files)
    (h : do_read L id RES_ORIG db = some (rc, out, db')) :
    db'.header = db.header ∧ db'.metadata = db.metadata ∧
      (∀ f, db.fpdb = some f → ∃ f', db'.fpdb = some f' ∧ f'.bytes = f.bytes) ∧
      (rc = ERR_NONE → ∃ (i : Nat) (m : pict_metadata) (f : FILE),
        db.metadata[i]? = some m ∧ strcmp m.pict_id id = 0 ∧
        m.is_valid ≠ EMPTY ∧ db.fpdb = some f ∧ m.offset.orig ≠ 0 ∧ m.size.orig ≠ 0 ∧
        m.offset.orig + m.size.orig ≤ f.bytes.length ∧
        out = some (orig_bytes f.bytes m, m.size.orig)) := by
  have h1 : ¬ (RES_ORIG ≥ NB_RES ∨ RES_ORIG < 0) := by decide
  unfold do_read at h
  rw [if_neg h1] at h
  split at h
  · simp at h
  rename_i i hscan
  split at h
  · simp only [Option.some.injEq, Prod.mk.injEq] at h
    obtain ⟨rfl, -, rfl⟩ := h
    exact ⟨rfl, rfl, fun f hf => ⟨f, hf, rfl⟩, fun hc => by cases hc⟩
  rename_i hi
  split at h
  · simp at h
  rename_i m hm
  split at h
  · rw [if_pos rfl] at h
    simp only [Option.some.injEq, Prod.mk.injEq] at h
    obtain ⟨rfl, -, rfl⟩ := h
    exact ⟨rfl, rfl, fun f hf => ⟨f, hf, rfl⟩, fun hc => by cases hc⟩
  rename_i hz
  rw [res_array_get_orig, res_array_get_orig] at hz
  obtain ⟨m', f, f', hm', hf, hf', hh, hmd, hb, hcase⟩ := read_image_cases _ _ _ _ _ _ h
  rw [hm] at hm'; cases hm'
  refine ⟨hh, hmd, ?_, ?_⟩
  · intro g hg
    rw [hf] at hg; cases hg
    exact ⟨f', hf', hb⟩
  · intro hrc
    rcases hcase with ⟨hne, -⟩ | ⟨-, -, hbd, hout⟩
    · exact absurd hrc hne
    · rw [res_array_get_orig, res_array_get_orig] at hbd hout
      obtain ⟨j, mj, e, hj, hp⟩ := read_scan_some _ _ _ _ _ hscan
      rw [Nat.zero_add] at e
      subst e
      rw [hm] at hj; cases hj
      have hlt := getElem?_lt hm
      rcases hp with hp | hp
      · exact ⟨i, m, f, hm, hp.1, hp.2, hf, fun e => hz (Or.inl e), fun e => hz (Or.inr e),
          hbd, hout⟩
      · omega

/-! ## `do_insert` and `lazily_resize` keep the data region -/

theorem insert_file_kept (L : Lib) (img id : List Nat) (db db' : pictdb_file) (rc : error_code)
    (hinv : db_inv L db) (h : do_insert L img id db = some (rc, db')) :
    db'.header.max_files = db.header.max_files ∧
    ∀ f f', db.fpdb = some f → db'.fpdb = some f' →
      data_kept (data_start db.header.max_files) f.bytes f'.bytes := by
  obtain ⟨⟨hlen, f, hf, hD⟩, hfl, hu, hs⟩ := hinv
  rcases do_insert_cases L img id db db' rc hlen h with
    ⟨-, rfl⟩ | ⟨i, m, hm, hv, hlow, hid0, hid1, himg, hroom, hcase⟩
  · refine ⟨rfl, ?_⟩
    intro g g' hg hg'
    rw [hg] at hg'; cases hg'
    exact data_kept_refl _ _
  have hit := slot_in_table hlen hm
  rcases hcase with ⟨hrc, hh, -, hfile⟩ | ⟨rfl, hh, hidfree, f0, f', hf0, hf', hflt, hcase2⟩
  · refine ⟨by
      rcases hh with e | e
      · rw [e]
      · rw [e]; rfl, ?_⟩
    intro g g' hg hg'
    obtain ⟨f', hf', hk⟩ := hfile g hg
    rw [hf'] at hg'; cases hg'
    rw [hf] at hg; cases hg
    exact hk _ hit hD
  · refine ⟨by rw [hh]; rfl, ?_⟩
    intro g g' hg hg'
    rw [hf0] at hg; cases hg
    rw [hf'] at hg'; cases hg'
    rw [hf] at hf0; cases hf0
    rcases hcase2 with ⟨k, dup, -, -, -, -, -, -, -, hsame⟩ | ⟨wh, s, -, -, -, hsame⟩
    · exact data_kept_of_same (hsame _ hit hD)
    · exact ⟨img, hsame _ hit hD⟩

theorem resize_file_kept (L : Lib) (res : Int) (i : Nat) (db db' : pictdb_file) (rc : error_code)
    (hinv : db_inv L db) (h : lazily_resize L res db i = some (rc, db')) :
    db'.header = db.header ∧
    ∀ f f', db.fpdb = some f → db'.fpdb = some f' →
      data_kept (data_start db.header.max_files) f.bytes f'.bytes := by
  rcases lazily_resize_cases L res db db' i rc h with rfl |
    ⟨m, f0, f', hm, hv, hoff, hres, hf0, hf', hh, hcase⟩
  · refine ⟨rfl, ?_⟩
    intro g g' hg hg'
    rw [hg] at hg'; cases hg'
    exact data_kept_refl _ _
  obtain ⟨⟨hlen, f, hf, hD⟩, -, -, -⟩ := hinv
  have hit := slot_in_table hlen hm
  refine ⟨hh, ?_⟩
  intro g g' hg hg'
  rw [hf0] at hg; cases hg
  rw [hf'] at hg'; cases hg'
  rw [hf] at hf0; cases hf0
  rcases hcase with ⟨-, -, hb⟩ | ⟨res_buff, -, -, -, -, -, -, hb⟩
  · rcases hb with e | ⟨t, e⟩
    · rw [e]; exact data_kept_refl _ _
    · rw [e]; exact data_kept_append _ _ _
  · rcases hb with ⟨-, e⟩ | ⟨-, -, e⟩
    · rw [e]; exact data_kept_append _ _ _
    · rw [e]
      refine ⟨res_buff, ?_⟩
      exact same_data_write_at _ _ _ _ (by
        rw [encode_metadata_length, ← slot_pos_succ]; exact hit) (by simp; omega)

theorem do_insert_empty_table (L : Lib) (img id : List Nat) (db db' : pictdb_file)
    (rc : error_code) (hmd : db.metadata = [])
    (h : do_insert L img id db = some (rc, db')) : rc ≠ ERR_NONE := by
  unfold do_insert at h
  split at h
  · simp only [Option.some.injEq, Prod.mk.injEq] at h
    rw [← h.1]; decide
  split at h
  · simp only [Option.some.injEq, Prod.mk.injEq] at h
    rw [← h.1]; decide
  rw [hmd] at h
  simp [first_slot] at h

/-! ## A successful `lazily_resize` -/

theorem lazily_resize_success (L : Lib) (res : Int) (db db' : pictdb_file) (i : Nat)
    (rc : error_code) (hres : res = RES_THUMB ∨ res = RES_SMALL) (hrc : rc = ERR_NONE)
    (h : lazily_resize L res db i = some (rc, db')) :
    ∃ m, db.metadata[i]? = some m ∧ m.is_valid = NON_EMPTY ∧
      ((m.offset.get res ≠ 0 ∧ db' = db) ∨
       (m.offset.get res = 0 ∧ ∃ (f : FILE) (res_buff : List Nat), db.fpdb = some f ∧
          ¬ (to_int32 f.bytes.length < 0) ∧ db'.header = db.header ∧
          db'.metadata = db.metadata.set i
            { m with offset := m.offset.put res (to_int32 f.bytes.length).toNat
                     size := m.size.put res (res_buff.length % 2 ^ 32) })) := by
  have h1 : ¬ res = RES_ORIG := by rcases hres with e | e <;> rw [e] <;> decide
  have h2 : ¬ (res ≠ RES_THUMB ∧ res ≠ RES_SMALL) := by
    rcases hres with e | e <;> simp [e]
  unfold lazily_resize at h
  rw [if_neg h1, if_neg h2] at h
  split at h
  · cases ((Prod.mk.inj (Option.some.inj h)).1.trans hrc)
  split at h
  · simp at h
  rename_i m hm
  split at h
  swap
  · cases ((Prod.mk.inj (Option.some.inj h)).1.trans hrc)
  rename_i hv
  refine ⟨m, hm, hv, ?_⟩
  split at h
  swap
  · rename_i hoff
    simp only [Option.some.injEq, Prod.mk.injEq] at h
    exact Or.inl ⟨hoff, h.2.symm⟩
  rename_i hoff
  right
  refine ⟨hoff, ?_⟩
  split at h
  · simp at h
  rename_i f0 hf
  simp only at h
  rcases fseek_set_cases f0 m.offset.orig with e1 | e1 <;> rw [e1] at h <;>
    simp only [if_true, if_false, Bool.true_eq_false] at h
  swap
  · cases ((Prod.mk.inj (Option.some.inj h)).1.trans hrc)
  rcases fread_cases ⟨f0.bytes, m.offset.orig, f0.faults.tail⟩ m.size.orig with
    ⟨e2, hsz, hrd⟩ | e2 <;> rw [e2] at h <;> simp only at h
  swap
  · cases ((Prod.mk.inj (Option.some.inj h)).1.trans hrc)
  split at h
  · cases ((Prod.mk.inj (Option.some.inj h)).1.trans hrc)
  split at h
  · cases ((Prod.mk.inj (Option.some.inj h)).1.trans hrc)
  rename_i res_buff hrb
  rcases fseek_end_cases ⟨f0.bytes, m.offset.orig + m.size.orig, f0.faults.tail.tail⟩ with
    e3 | e3 <;> rw [e3] at h <;> simp only [if_true, if_false, Bool.true_eq_false] at h
  swap
  · cases ((Prod.mk.inj (Option.some.inj h)).1.trans hrc)
  simp only [ftell] at h
  split at h
  · cases ((Prod.mk.inj (Option.some.inj h)).1.trans hrc)
  rename_i hnn
  rcases fwrite_cases ⟨f0.bytes, f0.bytes.length, f0.faults.tail.tail.tail⟩ res_buff with
    ⟨e4, hne⟩ | e4 <;> rw [e4] at h <;> simp only [if_true, if_false, Bool.true_eq_false] at h
  swap
  · cases ((Prod.mk.inj (Option.some.inj h)).1.trans hrc)
  rw [write_at_end] at h
  rcases fseek_set_cases ⟨f0.bytes ++ res_buff, f0.bytes.length + res_buff.length,
    f0.faults.tail.tail.tail.tail⟩ (slot_pos i) with e5 | e5 <;> rw [e5] at h <;>
    simp only [if_true, if_false, Bool.true_eq_false] at h
  swap
  · cases ((Prod.mk.inj (Option.some.inj h)).1.trans hrc)
  rcases fwrite_cases ⟨f0.bytes ++ res_buff, slot_pos i, f0.faults.tail.tail.tail.tail.tail⟩
    (encode_metadata
      { m with offset := m.offset.put res (to_int32 f0.bytes.length).toNat
               size := m.size.put res (res_buff.length % 2 ^ 32) }) with
    ⟨e6, -⟩ | e6 <;> rw [e6] at h <;> simp only [if_true, if_false, Bool.true_eq_false] at h
  · simp only [Option.some.injEq, Prod.mk.injEq] at h
    obtain ⟨-, rfl⟩ := h
    exact ⟨f0, res_buff, hf, hnn, rfl, rfl⟩
  · cases ((Prod.mk.inj (Option.some.inj h)).1.trans hrc)

theorem res_array_get_put_ne (a : res_array) (r r' : Int) (v : Nat)
    (hr : r = RES_THUMB ∨ r = RES_SMALL) (hr' : r' = RES_THUMB ∨ r' = RES_SMALL)
    (hne : r ≠ r') : (a.put r v).get r' = a.get r' := by
  rcases hr with e | e <;> rcases hr' with e' | e' <;> subst e e' <;>
    first
      | exact absurd rfl hne
      | simp [res_array.put, res_array.get]

theorem materialised_put (m : pict_metadata) (res r : Int) (v w : Nat)
    (hres : res = RES_THUMB ∨ res = RES_SMALL) (hr : r = RES_THUMB ∨ r = RES_SMALL)
    (hv : v ≠ 0) (h : materialised m r ∨ r = res) :
    materialised { m with offset := m.offset.put res v, size := m.size.put res w } r := by
  by_cases e : res = r
  · subst e
    right
    show (m.offset.put res v).get res ≠ 0
    rw [res_array_get_put]
    exact hv
  · rcases h with h | h
    · unfold materialised at h ⊢
      show (m.size.put res w).get r ≠ 0 ∨ (m.offset.put res v).get r ≠ 0
      rw [res_array_get_put_ne _ _ _ _ hres hr e, res_array_get_put_ne _ _ _ _ hres hr e]
      exact h
    · exact absurd h.symm e

/-- What a successful round `gbcollect_resize` does to slot `idx` of the
destination, whose table is `base` with the slot `md` at `idx`. -/
theorem gbcollect_resize_ok (L : Lib) (res : Int) (m : pict_metadata) (ndb ndb' : pictdb_file)
    (idx : Nat) (base : List pict_metadata) (md : pict_metadata)
    (hres : res = RES_THUMB ∨ res = RES_SMALL) (hinv : db_inv L ndb)
    (hsmall : small_file ndb') (hidx : idx < base.length)
    (hbase : ndb.metadata = base.set idx md) (hv : md.is_valid = NON_EMPTY)
    (h : gbcollect_resize L res m ndb idx = some (ERR_NONE, ndb')) :
    db_inv L ndb' ∧ ndb'.header = ndb.header ∧
    (∀ f f', ndb.fpdb = some f → ndb'.fpdb = some f' →
      data_kept (data_start ndb.header.max_files) f.bytes f'.bytes) ∧
    ∃ md', ndb'.metadata = base.set idx md' ∧ md'.pict_id = md.pict_id ∧ md'.SHA = md.SHA ∧
      md'.is_valid = NON_EMPTY ∧ md'.offset.orig = md.offset.orig ∧
      md'.size.orig = md.size.orig ∧
      (materialised m res → materialised md' res) ∧
      (∀ r, r = RES_THUMB ∨ r = RES_SMALL → materialised md r → materialised md' r) := by
  unfold gbcollect_resize at h
  split at h
  swap
  · simp only [Option.some.injEq, Prod.mk.injEq, true_and] at h
    subst h
    rename_i hc
    refine ⟨hinv, rfl, ?_, md, hbase, rfl, rfl, hv, rfl, rfl, ?_, fun _ _ hm => hm⟩
    · intro f f' hf hf'
      rw [hf] at hf'; cases hf'
      exact data_kept_refl _ _
    · intro hm
      exact absurd hm hc
  · have hinv' := db_inv_resize L res idx ndb ndb' ERR_NONE hinv h
    obtain ⟨hh, hk⟩ := resize_file_kept L res idx ndb ndb' ERR_NONE hinv h
    refine ⟨hinv', hh, hk, ?_⟩
    obtain ⟨m0, hm0, hm0v, hcase⟩ := lazily_resize_success L res ndb ndb' idx ERR_NONE hres rfl h
    have hm0' : m0 = md := by
      rw [hbase, List.getElem?_set_self hidx] at hm0
      exact (Option.some.inj hm0).symm
    subst hm0'
    rcases hcase with ⟨hoff, rfl⟩ | ⟨hoff, f, res_buff, hf, hnn, -, hmd⟩
    · exact ⟨m0, hbase, rfl, rfl, hv, rfl, rfl, fun _ => Or.inr hoff, fun _ _ hm => hm⟩
    · obtain ⟨⟨-, g, hg, hD⟩, -, -, -⟩ := hinv
      rw [hf] at hg; cases hg
      obtain ⟨⟨-, f', hf', -⟩, -, -, -⟩ := hinv'
      have hle := data_kept_length (hk f f' hf hf')
      have hlt : f.bytes.length < 2 ^ 32 := by
        have := hsmall f' hf'
        omega
      have hpos := data_start_pos ndb.header.max_files
      have hoffv : (to_int32 f.bytes.length).toNat ≠ 0 := by
        rw [to_int32_nonneg _ hlt hnn]
        omega
      refine ⟨{ m0 with offset := m0.offset.put res (to_int32 f.bytes.length).toNat
                        size := m0.size.put res (res_buff.length % 2 ^ 32) },
        by rw [hmd, hbase, List.set_set], rfl, rfl, hv,
        res_array_put_orig_eq _ _ _ hres, res_array_put_orig_eq _ _ _ hres, ?_, ?_⟩
      · intro _
        exact materialised_put m0 res res _ _ hres hres hoffv (Or.inr rfl)
      · intro r hr hm
        exact materialised_put m0 res r _ _ hres hr hoffv (Or.inl hm)

/-! ## Lists of slots -/

theorem take_set_succ (l : List pict_metadata) (a : pict_metadata) :
    ∀ (idx : Nat), idx < l.length → (l.set idx a).take (idx + 1) = l.take idx ++ [a] := by
  induction l with
  | nil => intro idx h; simp at h
  | cons x rest ih =>
    intro idx h
    cases idx with
    | zero => simp
    | succ k =>
      simp only [List.set_cons_succ, List.take_succ_cons, List.cons_append]
      rw [ih k (by simpa using h)]

theorem live_take_succ (tbl : List pict_metadata) (i : Nat) (m : pict_metadata)
    (h : tbl[i]? = some m) :
    live_slots (tbl.take (i + 1))
      = live_slots (tbl.take i) ++ (if m.is_valid = NON_EMPTY then [m] else []) := by
  unfold live_slots
  rw [List.take_succ, h, List.filter_append]
  congr 1
  by_cases hv : m.is_valid = NON_EMPTY
  · simp [hv]
  · simp [hv]

theorem forall2_mem_right {α β : Type} {R : α → β → Prop} {l1 : List α} {l2 : List β}
    (h : List.Forall₂ R l1 l2) : ∀ b ∈ l2, ∃ a ∈ l1, R a b := by
  induction h with
  | nil => intro b hb; cases hb
  | cons hab _ ih =>
    intro b hb
    rcases List.mem_cons.1 hb with rfl | hb
    · exact ⟨_, List.mem_cons_self _ _, hab⟩
    · obtain ⟨a, ha, hr⟩ := ih b hb
      exact ⟨a, List.mem_cons_of_mem _ ha, hr⟩

theorem forall2_mem_left {α β : Type} {R : α → β → Prop} {l1 : List α} {l2 : List β}
    (h : List.Forall₂ R l1 l2) : ∀ a ∈ l1, ∃ b ∈ l2, R a b := by
  induction h with
  | nil => intro a ha; cases ha
  | cons hab _ ih =>
    intro a ha
    rcases List.mem_cons.1 ha with rfl | ha
    · exact ⟨_, List.mem_cons_self _ _, hab⟩
    · obtain ⟨b, hb, hr⟩ := ih a ha
      exact ⟨b, List.mem_cons_of_mem _ hb, hr⟩

theorem forall2_map_eq {α β γ : Type} {R : α → β → Prop} {l1 : List α} {l2 : List β}
    (f : α → γ) (g : β → γ) (h : List.Forall₂ R l1 l2) (hfg : ∀ a b, R a b → g b = f a) :
    l2.map g = l1.map f := by
  induction h with
  | nil => rfl
  | cons hab _ ih => simp only [List.map_cons, hfg _ _ hab, ih]

theorem live_eq_take (tbl : List pict_metadata) (idx : Nat)
    (h1 : ∀ m ∈ tbl.take idx, m.is_valid = NON_EMPTY)
    (h2 : ∀ j m, idx ≤ j → tbl[j]? = some m → m.is_valid ≠ NON_EMPTY) :
    live_slots tbl = tbl.take idx := by
  unfold live_slots
  conv_lhs => rw [← List.take_append_drop idx tbl]
  rw [List.filter_append]
  have e1 : (tbl.take idx).filter (fun m => decide (m.is_valid = NON_EMPTY)) = tbl.take idx := by
    rw [List.filter_eq_self]
    intro m hm
    simpa using h1 m hm
  have e2 : (tbl.drop idx).filter (fun m => decide (m.is_valid = NON_EMPTY)) = [] := by
    rw [List.filter_eq_nil_iff]
    intro m hm
    obtain ⟨j, hj⟩ := List.mem_iff_getElem?.1 hm
    rw [List.getElem?_drop] at hj
    simpa using h2 (idx + j) m (by omega) hj
  rw [e1, e2, List.append_nil]

theorem mem_live_slots (tbl : List pict_metadata) (m : pict_metadata) :
    m ∈ live_slots tbl ↔ m ∈ tbl ∧ m.is_valid = NON_EMPTY := by
  unfold live_slots
  simp

/-! ## The relation of the collector -/

theorem gc_base_kept (D : Nat) (bs bd bd' : List Nat) (ms md : pict_metadata)
    (hk : data_kept D bd bd') (h : gc_base D bs bd ms md) : gc_base D bs bd' ms md := by
  obtain ⟨h1, h2, h3, h4, h5, h6, h7⟩ := h
  have hl := data_kept_length hk
  refine ⟨h1, h2, h3, ?_, h5, h6, by omega⟩
  unfold orig_bytes at h4 ⊢
  rw [data_kept_slice hk _ _ h6 h7]
  exact h4

theorem gc_related_kept (D : Nat) (bs bd bd' : List Nat) (ms md : pict_metadata)
    (hk : data_kept D bd bd') (h : gc_related D bs bd ms md) : gc_related D bs bd' ms md :=
  ⟨gc_base_kept D bs bd bd' ms md hk h.1, h.2⟩

theorem file_bytes_some (db : pictdb_file) (f : FILE) (h : db.fpdb = some f) :
    file_bytes db = f.bytes := by
  unfold file_bytes
  rw [h]

/-! ## `do_read` of a live entry -/

theorem do_read_live_ok (L : Lib) (id : List Nat) (db : pictdb_file) (i : Nat)
    (m : pict_metadata) (f : FILE) (hlen : db.metadata.length = db.header.max_files)
    (hfl : flags_ok db.metadata) (hu : unique_ids db.metadata)
    (hm : db.metadata[i]? = some m) (hv : m.is_valid = NON_EMPTY)
    (hid : c_str id = c_str m.pict_id) (hf : db.fpdb = some f) (hff : f.faults = [])
    (ho : m.offset.orig ≠ 0) (hs : m.size.orig ≠ 0)
    (hb : m.offset.orig + m.size.orig ≤ f.bytes.length) :
    ∃ db2, do_read L id RES_ORIG db
      = some (ERR_NONE, some (orig_bytes f.bytes m, m.size.orig), db2) := by
  have hlt := getElem?_lt hm
  have hscan : read_scan db.header.max_files id db.metadata 0 = some i := by
    have := read_scan_hit db.header.max_files id db.metadata 0 i m hm
      ((strcmp_eq_zero _ _).2 hid.symm) (by rw [hv]; decide) (by omega) (by
        intro j m' hj hm' hc
        have hv' : m'.is_valid = NON_EMPTY :=
          (hfl m' (List.getElem?_mem hm')).resolve_left hc.2
        have := hu j i m' m hm' hm hv' hv (((strcmp_eq_zero _ _).1 hc.1).trans hid)
        omega)
    rw [Nat.zero_add] at this
    exact this
  exact do_read_orig_ok L id db i m f hscan (by omega) hm ho hs hf hff hb

/-! ## The rounds of `do_gbcollect` -/

theorem gbcollect_resize_inv (L : Lib) (res : Int) (m : pict_metadata) (ndb ndb' : pictdb_file)
    (idx : Nat) (rc : error_code) (hinv : db_inv L ndb)
    (h : gbcollect_resize L res m ndb idx = some (rc, ndb')) :
    db_inv L ndb' ∧ ndb'.header = ndb.header ∧
    ∀ f f', ndb.fpdb = some f → ndb'.fpdb = some f' →
      data_kept (data_start ndb.header.max_files) f.bytes f'.bytes := by
  unfold gbcollect_resize at h
  split at h
  · exact ⟨db_inv_resize L res idx ndb ndb' rc hinv h, resize_file_kept L res idx ndb ndb' rc hinv h⟩
  · simp only [Option.some.injEq, Prod.mk.injEq] at h
    obtain ⟨-, rfl⟩ := h
    refine ⟨hinv, rfl, ?_⟩
    intro f f' hf hf'
    rw [hf] at hf'; cases hf'
    exact data_kept_refl _ _

theorem gbcollect_slot_cases (L : Lib) (i : Nat) (db db1 ndb ndb3 : pictdb_file) (idx : Nat)
    (rc : error_code) (h : gbcollect_slot L i db ndb idx = some (rc, db1, ndb3)) :
    ∃ m res0 out, db.metadata[i]? = some m ∧
      do_read L m.pict_id RES_ORIG db = some (res0, out, db1) ∧
      ((res0 ≠ ERR_NONE ∧ rc = res0 ∧ ndb3 = ndb) ∨
       (res0 = ERR_NONE ∧ ∃ img size m1 rc1 ndb1, out = some (img, size) ∧
          db1.metadata[i]? = some m1 ∧
          do_insert L (img.take size) m1.pict_id ndb = some (rc1, ndb1) ∧
          ((rc1 ≠ ERR_NONE ∧ rc = rc1 ∧ ndb3 = ndb1) ∨
           (rc1 = ERR_NONE ∧ ∃ rc2 ndb2,
              gbcollect_resize L RES_SMALL m1 ndb1 idx = some (rc2, ndb2) ∧
              ((rc2 ≠ ERR_NONE ∧ rc = rc2 ∧ ndb3 = ndb2) ∨
               (rc2 = ERR_NONE ∧
                  gbcollect_resize L RES_THUMB m1 ndb2 idx = some (rc, ndb3))))))) := by
  unfold gbcollect_slot at h
  split at h
  · simp at h
  rename_i m hm
  split at h
  · simp at h
  rename_i res0 out db1' hread
  refine ⟨m, res0, out, hm, ?_⟩
  split at h
  · rename_i hne
    simp only [Option.some.injEq, Prod.mk.injEq] at h
    obtain ⟨rfl, rfl, rfl⟩ := h
    exact ⟨hread, Or.inl ⟨hne, rfl, rfl⟩⟩
  rename_i hres0
  have hres0' : res0 = ERR_NONE := by simpa using hres0
  split at h
  · simp at h
  · simp at h
  rename_i img size m1 hm1
  split at h
  · simp at h
  rename_i rc1 ndb1 hins
  split at h
  · rename_i hne
    simp only [Option.some.injEq, Prod.mk.injEq] at h
    obtain ⟨rfl, rfl, rfl⟩ := h
    exact ⟨hread, Or.inr ⟨hres0', img, size, m1, _, _, rfl, hm1, hins, Or.inl ⟨hne, rfl, rfl⟩⟩⟩
  rename_i hrc1
  have hrc1' : rc1 = ERR_NONE := by simpa using hrc1
  split at h
  · simp at h
  rename_i rc2 ndb2 hsmall
  split at h
  · rename_i hne
    simp only [Option.some.injEq, Prod.mk.injEq] at h
    obtain ⟨rfl, rfl, rfl⟩ := h
    exact ⟨hread, Or.inr ⟨hres0', img, size, m1, _, _, rfl, hm1, hins,
      Or.inr ⟨hrc1', _, _, hsmall, Or.inl ⟨hne, rfl, rfl⟩⟩⟩⟩
  rename_i hrc2
  have hrc2' : rc2 = ERR_NONE := by simpa using hrc2
  split at h
  · simp at h
  rename_i rc3 ndb3' hthumb
  simp only [Option.some.injEq, Prod.mk.injEq] at h
  obtain ⟨rfl, rfl, rfl⟩ := h
  exact ⟨hread, Or.inr ⟨hres0', img, size, m1, _, _, rfl, hm1, hins,
    Or.inr ⟨hrc1', _, _, hsmall, Or.inr ⟨hrc2', hthumb⟩⟩⟩⟩

theorem gbcollect_slot_inv (L : Lib) (i : Nat) (db db1 ndb ndb3 : pictdb_file) (idx : Nat)
    (rc : error_code) (hinv : db_inv L ndb)
    (h : gbcollect_slot L i db ndb idx = some (rc, db1, ndb3)) :
    db_inv L ndb3 ∧ ndb3.header.max_files = ndb.header.max_files ∧
    ∀ f f', ndb.fpdb = some f → ndb3.fpdb = some f' →
      data_kept (data_start ndb.header.max_files) f.bytes f'.bytes := by
  have hrefl : ∀ f f', ndb.fpdb = some f → ndb.fpdb = some f' →
      data_kept (data_start ndb.header.max_files) f.bytes f'.bytes := by
    intro f f' hf hf'
    rw [hf] at hf'; cases hf'
    exact data_kept_refl _ _
  obtain ⟨m, res0, out, hm, hread, hcase⟩ := gbcollect_slot_cases L i db db1 ndb ndb3 idx rc h
  rcases hcase with ⟨-, -, rfl⟩ | ⟨-, img, size, m1, rc1, ndb1, -, hm1, hins, hcase⟩
  · exact ⟨hinv, rfl, hrefl⟩
  have hinv1 := db_inv_insert L _ _ ndb ndb1 rc1 hinv hins
  obtain ⟨hN1, hk1⟩ := insert_file_kept L _ _ ndb ndb1 rc1 hinv hins
  rcases hcase with ⟨-, -, rfl⟩ | ⟨-, rc2, ndb2, hsm, hcase⟩
  · exact ⟨hinv1, hN1, hk1⟩
  obtain ⟨hinv2, hh2, hk2⟩ := gbcollect_resize_inv L RES_SMALL m1 ndb1 ndb2 idx rc2 hinv1 hsm
  obtain ⟨-, f0, hf0, hD0⟩ := hinv.1
  obtain ⟨-, f1, hf1, hD1⟩ := hinv1.1
  obtain ⟨-, f2, hf2, hD2⟩ := hinv2.1
  have k01 := hk1 f0 f1 hf0 hf1
  have k12 := hk2 f1 f2 hf1 hf2
  rw [hN1] at k12 hD1
  have k02 := data_kept_trans hD0 k01 k12
  rcases hcase with ⟨-, -, rfl⟩ | ⟨-, hth⟩
  · refine ⟨hinv2, by rw [hh2, hN1], ?_⟩
    intro f f' hf hf'
    rw [hf0] at hf; cases hf
    rw [hf2] at hf'; cases hf'
    exact k02
  obtain ⟨hinv3, hh3, hk3⟩ := gbcollect_resize_inv L RES_THUMB m1 ndb2 ndb3 idx rc hinv2 hth
  refine ⟨hinv3, by rw [hh3, hh2, hN1], ?_⟩
  intro f f' hf hf'
  rw [hf0] at hf; cases hf
  have k23 := hk3 f2 f' hf2 hf'
  rw [hh2, hN1] at k23
  exact data_kept_trans hD0 k02 k23

theorem gc_base_congr (D : Nat) (bs bd : List Nat) (ms md md' : pict_metadata)
    (h1 : md'.pict_id = md.pict_id) (h2 : md'.SHA = md.SHA) (h3 : md'.is_valid = NON_EMPTY)
    (h4 : md'.offset.orig = md.offset.orig) (h5 : md'.size.orig = md.size.orig)
    (h : gc_base D bs bd ms md) : gc_base D bs bd ms md' := by
  obtain ⟨-, g2, g3, g4, g5, g6, g7⟩ := h
  unfold orig_bytes at g4
  refine ⟨h3, by rw [h1]; exact g2, by rw [h2]; exact g3, ?_, by rw [h5]; exact g5,
    by rw [h4]; exact g6, by rw [h4, h5]; exact g7⟩
  unfold orig_bytes
  rw [h4, h5]
  exact g4

theorem mem_take_of_getElem? (l : List pict_metadata) (n j : Nat) (m : pict_metadata)
    (hj : j < n) (h : l[j]? = some m) : m ∈ l.take n := by
  have h' : (l.take n)[j]? = some m := by
    rw [List.getElem?_take_of_lt hj]
    exact h
  exact List.getElem?_mem h'

/-- One round of the loop of `do_gbcollect` on a `NON_EMPTY` slot keeps the
relation between the source and the destination. -/
theorem gbcollect_slot_step (L : Lib) (D : pictdb_file) (fD : FILE) (i idx : Nat)
    (db db1 ndb ndb3 : pictdb_file) (m : pict_metadata)
    (hD : db_inv L D) (hfD : D.fpdb = some fD) (hDs : fD.bytes.length < 2 ^ 32)
    (hsh : shared_orig D.metadata)
    (hinv : gc_inv L D fD.bytes i db ndb idx)
    (hm : D.metadata[i]? = some m) (hv : m.is_valid = NON_EMPTY)
    (h : gbcollect_slot L i db ndb idx = some (ERR_NONE, db1, ndb3))
    (hsmall : small_file ndb3) :
    gc_inv L D fD.bytes (i + 1) db1 ndb3 (idx + 1) := by
  obtain ⟨hdh, hdm, ⟨fs, hfs, hfsb⟩, hninv, hN, hidx, hrest, hF⟩ := hinv
  obtain ⟨⟨hlenD, -, -, -⟩, hflD, huD, hsD⟩ := hD
  -- the four calls of the round
  obtain ⟨m', res0, out, hm', hread, hcase⟩ :=
    gbcollect_slot_cases L i db db1 ndb ndb3 idx ERR_NONE h
  rw [hdm, hm] at hm'
  cases hm'
  rcases hcase with ⟨hne, e, -⟩ | ⟨hres0, img, size, m1, rc1, ndb1, hout, hm1, hins, hcase⟩
  · exact absurd e.symm hne
  rcases hcase with ⟨hne, e, -⟩ | ⟨hrc1, rc2, ndb2, hsm, hcase⟩
  · exact absurd e.symm hne
  rcases hcase with ⟨hne, e, -⟩ | ⟨hrc2, hth⟩
  · exact absurd e.symm hne
  subst hres0 hrc1 hrc2
  -- the read of the source
  obtain ⟨hh1, hmd1, hfile1, hok⟩ := do_read_orig_cases L m.pict_id db db1 ERR_NONE out
    (by rw [hdm, hdh]; exact hlenD) hread
  obtain ⟨i', m'', f, hm'', hcmp, hval, hf, hoff0, hsz0, hbd, hout'⟩ := hok rfl
  rw [hfs] at hf
  cases hf
  rw [hdm] at hm''
  have hv'' : m''.is_valid = NON_EMPTY :=
    (hflD m'' (List.getElem?_mem hm'')).resolve_left hval
  have hii : i' = i := huD i' i m'' m hm'' hm hv'' hv ((strcmp_eq_zero _ _).1 hcmp)
  subst hii
  rw [hm] at hm''
  cases hm''
  rw [hout] at hout'
  simp only [Option.some.injEq, Prod.mk.injEq] at hout'
  obtain ⟨himg, hsize⟩ := hout'
  rw [hfsb] at hbd himg
  have himglen : img.length = m.size.orig := by
    rw [himg]; exact orig_bytes_length _ _ hbd
  have htake : img.take size = img := by
    rw [hsize, ← himglen]; exact List.take_length _
  rw [htake] at hins
  rw [hmd1, hdm, hm] at hm1
  cases hm1
  obtain ⟨b1, b2, b3, b4⟩ := hsD fD hfD hDs m (List.getElem?_mem hm) hv
  have hsha : L.SHA256 img = m.SHA := by rw [himg]; exact b4
  -- the invariants of the destination along the round
  have hinv1 := db_inv_insert L _ _ ndb ndb1 ERR_NONE hninv hins
  obtain ⟨hN1, hk1⟩ := insert_file_kept L _ _ ndb ndb1 ERR_NONE hninv hins
  obtain ⟨hinv2, hh2, hk2⟩ := gbcollect_resize_inv L RES_SMALL m ndb1 ndb2 idx ERR_NONE hinv1 hsm
  obtain ⟨hinv3, hh3, hk3⟩ := gbcollect_resize_inv L RES_THUMB m ndb2 ndb3 idx ERR_NONE hinv2 hth
  obtain ⟨hlenN, fn, hfn, hDn⟩ := hninv.1
  obtain ⟨-, f1, hf1, hD1⟩ := hinv1.1
  obtain ⟨-, f2, hf2, hD2⟩ := hinv2.1
  obtain ⟨-, f3, hf3, hD3⟩ := hinv3.1
  have k01 := hk1 fn f1 hfn hf1
  have k12 := hk2 f1 f2 hf1 hf2
  have k23 := hk3 f2 f3 hf2 hf3
  rw [hN1] at k12 hD1
  rw [hh2, hN1] at k23 hD2
  have k13 := data_kept_trans hD1 k12 k23
  have k03 := data_kept_trans hDn k01 k13
  have l01 := data_kept_length k01
  have l12 := data_kept_length k12
  have l23 := data_kept_length k23
  have l3 := hsmall f3 hf3
  have hsmall2 : small_file ndb2 := by
    intro g hg; rw [hf2] at hg; cases hg; omega
  have hfnlt : fn.bytes.length < 2 ^ 32 := by omega
  rw [hN] at k01 k13 k03 hDn hD1 k12
  have hfbn : file_bytes ndb = fn.bytes := file_bytes_some _ _ hfn
  rw [hfbn] at hF
  -- the slot chosen by `do_insert` is slot `idx`
  rcases do_insert_cases L img m.pict_id ndb ndb1 ERR_NONE hlenN hins with ⟨hne, -⟩ |
    ⟨i0, m0, hm0, hm0v, hlow, -, -, -, -, hcase⟩
  · exact absurd rfl hne
  have hi0 : i0 = idx := by
    rcases Nat.lt_trichotomy i0 idx with hlt | heq | hgt
    · exfalso
      obtain ⟨ms, -, hr⟩ := forall2_mem_right hF m0 (mem_take_of_getElem? _ _ _ _ hlt hm0)
      exact hm0v hr.1.1
    · exact heq
    · exfalso
      have hil : idx < ndb.metadata.length := Nat.lt_trans hgt (getElem?_lt hm0)
      have hx := hlow idx (ndb.metadata[idx]) hgt (List.getElem?_eq_getElem hil)
      exact hrest idx _ (Nat.le_refl _) (List.getElem?_eq_getElem hil) hx
  subst hi0
  have hil : i0 < ndb.metadata.length := getElem?_lt hm0
  have hit := slot_in_table hlenN hm0
  rw [hN] at hit
  rcases hcase with ⟨hne, -⟩ | ⟨-, -, -, g, g1, hg, hg1, -, hcase⟩
  · exact absurd rfl hne
  rw [hfn] at hg; cases hg
  rw [hf1] at hg1; cases hg1
  -- the slot after the insert
  obtain ⟨md1, hmd1', hmd1v, hbase1⟩ : ∃ md1 : pict_metadata,
      ndb1.metadata = ndb.metadata.set i0 md1 ∧ md1.is_valid = NON_EMPTY ∧
      gc_base (data_start D.header.max_files) fD.bytes f1.bytes m md1 := by
    rcases hcase with ⟨k, dup, hk, hki, hdv, hds, -, -, hmd, -⟩ | ⟨wh, s, -, hmd, hsrc, hsame⟩
    · have hklt : k < i0 := by
        rcases Nat.lt_or_ge k i0 with hlt | hge
        · exact hlt
        · exact absurd hdv (hrest k dup hge hk)
      obtain ⟨ms, hms, hr⟩ := forall2_mem_right hF dup (mem_take_of_getElem? _ _ _ _ hklt hk)
      obtain ⟨hmsD, hmsv⟩ := (mem_live_slots _ _).1 hms
      have hmsD' : ms ∈ D.metadata := List.mem_of_mem_take hmsD
      obtain ⟨g1', g2', g3', g4', g5', g6', g7'⟩ := gc_base_kept _ _ _ _ _ _ k01 hr.1
      have hshare := hsh ms hmsD' m (List.getElem?_mem hm) hmsv hv (by rw [← g3', hds, hsha])
      have hbytes : orig_bytes fD.bytes ms = orig_bytes fD.bytes m := by
        unfold orig_bytes
        rw [hshare.1, hshare.2]
      refine ⟨_, hmd, rfl, rfl, c_str_strncpy_nul _ _, hsha, ?_, ?_, g6', g7'⟩
      · exact g4'.trans hbytes
      · exact g5'.trans hshare.2
    · have hs : s = img.length := by
        rcases hsrc with ⟨-, e⟩ | ⟨k, dup, hk, -, hdv, -, hoff0', -⟩
        · rw [e, Nat.mod_eq_of_lt (by omega)]
        · exfalso
          have := (hninv.2.2.2 fn hfn hfnlt dup (List.getElem?_mem hk) hdv).1
          have hp := data_start_pos ndb.header.max_files
          omega
      subst hs
      have hsd := hsame _ hit (by rw [← hN] at hDn ⊢; exact hDn)
      have hslice : (f1.bytes.drop fn.bytes.length).take img.length = img := by
        rw [data_kept_slice (data_kept_of_same hsd) _ _ hDn (by simp)]
        simp
      refine ⟨_, hmd, rfl, rfl, c_str_strncpy_nul _ _, hsha, ?_, himglen, ?_, ?_⟩
      · show (f1.bytes.drop (fn.bytes.length % 2 ^ 32)).take img.length = _
        rw [Nat.mod_eq_of_lt hfnlt, hslice, himg]
      · show data_start D.header.max_files ≤ fn.bytes.length % 2 ^ 32
        rw [Nat.mod_eq_of_lt hfnlt]
        exact hDn
      · show fn.bytes.length % 2 ^ 32 + img.length ≤ f1.bytes.length
        rw [Nat.mod_eq_of_lt hfnlt, hsd.1]
        simp
  -- the two rounds of `lazily_resize`
  obtain ⟨-, -, -, md2, hmd2, e21, e22, e23, e24, e25, hmat2, hkeep2⟩ :=
    gbcollect_resize_ok L RES_SMALL m ndb1 ndb2 i0 ndb.metadata md1 (Or.inr rfl) hinv1 hsmall2
      hil hmd1' hmd1v hsm
  obtain ⟨-, -, -, md3, hmd3, e31, e32, e33, e34, e35, hmat3, hkeep3⟩ :=
    gbcollect_resize_ok L RES_THUMB m ndb2 ndb3 i0 ndb.metadata md2 (Or.inl rfl) hinv2 hsmall
      hil hmd2 e23 hth
  have hrel : gc_related (data_start D.header.max_files) fD.bytes f3.bytes m md3 := by
    refine ⟨?_, hmat3, fun hms => hkeep3 _ (Or.inr rfl) (hmat2 hms)⟩
    apply gc_base_congr _ _ _ _ md1 md3 (e31.trans e21) (e32.trans e22) e33 (e34.trans e24)
      (e35.trans e25)
    exact gc_base_kept _ _ _ _ _ _ k13 hbase1
  -- the state after the round
  obtain ⟨g, hg, hgb⟩ := hfile1 fs hfs
  refine ⟨hh1.trans hdh, hmd1.trans hdm, ⟨g, hg, hgb.trans hfsb⟩, hinv3, ?_, ?_, ?_, ?_⟩
  · rw [hh3, hh2, hN1, hN]
  · rw [hmd3, List.length_set]; omega
  · intro j x hj hx
    rw [hmd3, List.getElem?_set_ne (by omega)] at hx
    exact hrest j x (by omega) hx
  · rw [live_take_succ _ _ _ hm, if_pos hv, hmd3, take_set_succ _ _ _ hil,
      file_bytes_some _ _ hf3]
    exact List.rel_append
      (hF.imp (fun a b hab => gc_related_kept _ _ _ _ _ _ k03 hab))
      (List.Forall₂.cons hrel List.Forall₂.nil)

/-! ## The loop of `do_gbcollect` -/

theorem gbcollect_loop_inv (L : Lib) :
    ∀ (n i : Nat) (db ndb : pictdb_file) (idx : Nat) (rc : error_code) (db' ndb' : pictdb_file),
      db_inv L ndb → gbcollect_loop L n i db ndb idx = some (rc, db', ndb') →
      db_inv L ndb' ∧ ndb'.header.max_files = ndb.header.max_files ∧
      ∀ f f', ndb.fpdb = some f → ndb'.fpdb = some f' → f.bytes.length ≤ f'.bytes.length := by
  intro n
  induction n with
  | zero =>
    intro i db ndb idx rc db' ndb' hinv h
    rw [gbcollect_loop] at h
    simp only [Option.some.injEq, Prod.mk.injEq] at h
    obtain ⟨-, -, rfl⟩ := h
    refine ⟨hinv, rfl, ?_⟩
    intro f f' hf hf'
    rw [hf] at hf'; cases hf'
    exact Nat.le_refl _
  | succ n ih =>
    intro i db ndb idx rc db' ndb' hinv h
    rw [gbcollect_loop] at h
    split at h
    · simp at h
    split at h
    · split at h
      · simp at h
      rename_i res db1 ndb1 hslot
      obtain ⟨hinv1, hN1, hk1⟩ := gbcollect_slot_inv L i db db1 ndb ndb1 idx res hinv hslot
      have hmono1 : ∀ f f', ndb.fpdb = some f → ndb1.fpdb = some f' →
          f.bytes.length ≤ f'.bytes.length :=
        fun f f' hf hf' => data_kept_length (hk1 f f' hf hf')
      split at h
      · simp only [Option.some.injEq, Prod.mk.injEq] at h
        obtain ⟨-, -, rfl⟩ := h
        exact ⟨hinv1, hN1, hmono1⟩
      · obtain ⟨hinv', hN', hmono'⟩ := ih _ _ _ _ _ _ _ hinv1 h
        refine ⟨hinv', hN'.trans hN1, ?_⟩
        intro f f' hf hf'
        obtain ⟨-, f1, hf1, -⟩ := hinv1.1
        exact Nat.le_trans (hmono1 f f1 hf hf1) (hmono' f1 f' hf1 hf')
    · exact ih _ _ _ _ _ _ _ hinv h

theorem gbcollect_loop_spec (L : Lib) (D : pictdb_file) (fD : FILE)
    (hD : db_inv L D) (hfD : D.fpdb = some fD) (hDs : fD.bytes.length < 2 ^ 32)
    (hsh : shared_orig D.metadata) :
    ∀ (n i : Nat) (db ndb : pictdb_file) (idx : Nat) (db' ndb' : pictdb_file),
      gc_inv L D fD.bytes i db ndb idx →
      gbcollect_loop L n i db ndb idx = some (ERR_NONE, db', ndb') → small_file ndb' →
      ∃ idx', gc_inv L D fD.bytes (i + n) db' ndb' idx' := by
  intro n
  induction n with
  | zero =>
    intro i db ndb idx db' ndb' hinv h _
    rw [gbcollect_loop] at h
    simp only [Option.some.injEq, Prod.mk.injEq, true_and] at h
    obtain ⟨rfl, rfl⟩ := h
    exact ⟨idx, hinv⟩
  | succ n ih =>
    intro i db ndb idx db' ndb' hinv h hsmall
    have hdm := hinv.2.1
    rw [gbcollect_loop] at h
    split at h
    · simp at h
    rename_i m hm
    rw [hdm] at hm
    have e : i + (n + 1) = i + 1 + n := by omega
    rw [e]
    split at h
    · rename_i hv
      split at h
      · simp at h
      rename_i res db1 ndb1 hslot
      split at h
      · rename_i hne
        simp only [Option.some.injEq, Prod.mk.injEq] at h
        exact absurd h.1 hne
      · rename_i hres
        have hres' : res = ERR_NONE := by simpa using hres
        subst hres'
        have hninv := hinv.2.2.2.1
        obtain ⟨hinv1, -, -⟩ :=
          gbcollect_slot_inv L i db db1 ndb ndb1 idx ERR_NONE hninv hslot
        obtain ⟨hinv', -, hmono⟩ := gbcollect_loop_inv L _ _ _ _ _ _ _ _ hinv1 h
        have hsmall1 : small_file ndb1 := by
          intro f1 hf1
          obtain ⟨-, f', hf', -⟩ := hinv'.1
          have := hmono f1 f' hf1 hf'
          have := hsmall f' hf'
          omega
        exact ih _ _ _ _ _ _
          (gbcollect_slot_step L D fD i idx db db1 ndb ndb1 m hD hfD hDs hsh hinv hm hv hslot
            hsmall1) h hsmall
    · rename_i hv
      refine ih _ _ _ _ _ _ ?_ h hsmall
      obtain ⟨h1, h2, h3, h4, h5, h6, h7, h8⟩ := hinv
      refine ⟨h1, h2, h3, h4, h5, h6, h7, ?_⟩
      rw [live_take_succ _ _ _ hm, if_neg hv, List.append_nil]
      exact h8

theorem gbcollect_loop_empty_dest (L : Lib) :
    ∀ (n i : Nat) (db ndb : pictdb_file) (idx : Nat) (db' ndb' : pictdb_file),
      ndb.metadata = [] → gbcollect_loop L n i db ndb idx = some (ERR_NONE, db', ndb') →
      ndb' = ndb ∧ db' = db ∧
      ∀ j m, i ≤ j → j < i + n → db.metadata[j]? = some m → m.is_valid ≠ NON_EMPTY := by
  intro n
  induction n with
  | zero =>
    intro i db ndb idx db' ndb' _ h
    rw [gbcollect_loop] at h
    simp only [Option.some.injEq, Prod.mk.injEq, true_and] at h
    obtain ⟨rfl, rfl⟩ := h
    exact ⟨rfl, rfl, fun j m h1 h2 => by omega⟩
  | succ n ih =>
    intro i db ndb idx db' ndb' hmd h
    rw [gbcollect_loop] at h
    split at h
    · simp at h
    rename_i m hm
    split at h
    · exfalso
      split at h
      · simp at h
      rename_i res db1 ndb1 hslot
      split at h
      · rename_i hne
        simp only [Option.some.injEq, Prod.mk.injEq] at h
        exact hne h.1
      · rename_i hres
        have hres' : res = ERR_NONE := by simpa using hres
        subst hres'
        obtain ⟨m', res0, out, -, -, hcase⟩ :=
          gbcollect_slot_cases L i db db1 ndb ndb1 idx ERR_NONE hslot
        rcases hcase with ⟨hne, e, -⟩ | ⟨-, img, size, m1, rc1, ndb1', -, -, hins, hcase⟩
        · exact hne e.symm
        · have hne := do_insert_empty_table L _ _ ndb ndb1' rc1 hmd hins
          rcases hcase with ⟨-, e, -⟩ | ⟨e, -⟩
          · exact hne e.symm
          · exact hne e
    · rename_i hv
      obtain ⟨e1, e2, hrest⟩ := ih _ _ _ _ _ _ hmd h
      refine ⟨e1, e2, ?_⟩
      intro j x h1 h2 hx
      rcases Nat.eq_or_lt_of_le h1 with rfl | hlt
      · rw [hm] at hx; cases hx
        exact hv
      · exact hrest j x (by omega) (by omega) hx

/-! ## `do_gbcollect` -/

theorem count_non_empty_live (db : pictdb_file) :
    count_non_empty db = (live_slots db.metadata).length := by
  unfold count_non_empty live_slots
  exact List.countP_eq_length_filter _ _

theorem no_faults_read (L : Lib) (id : List Nat) (db : pictdb_file) (f : FILE) (i : Nat)
    (m : pict_metadata) (hinv : db_inv L db) (hf : db.fpdb = some f)
    (hm : db.metadata[i]? = some m) (hv : m.is_valid = NON_EMPTY)
    (hid : c_str id = c_str m.pict_id) (ho : m.offset.orig ≠ 0) (hs : m.size.orig ≠ 0)
    (hb : m.offset.orig + m.size.orig ≤ f.bytes.length) :
    ∃ db2, do_read L id RES_ORIG (no_faults db)
      = some (ERR_NONE, some (orig_bytes f.bytes m, m.size.orig), db2) := by
  obtain ⟨⟨hlen, -⟩, hfl, hu, -⟩ := hinv
  have hf' : (no_faults db).fpdb = some { f with faults := [] } := by
    unfold no_faults
    rw [hf]
    rfl
  exact do_read_live_ok L id (no_faults db) i m { f with faults := [] } hlen hfl hu hm hv hid
    hf' rfl ho hs hb

theorem demo_shared_reachable : Reachable demo_lib demo_shared :=
  Reachable.read _ [97] RES_THUMB ERR_NONE (some ([1], 1)) _ demo_reachable_shared (by decide!)

/-! ## A payload longer than `2^32` bytes -/

theorem payload_big_length : payload_big.length = 2 ^ 32 + 5 := by
  unfold payload_big
  exact List.length_replicate _ _

theorem payload_big_take (n : Nat) (h : n ≤ 2 ^ 32 + 5) :
    payload_big.take n = List.replicate n 1 := by
  unfold payload_big
  rw [List.take_replicate, Nat.min_eq_left h]

theorem payload_big_sha : demo_lib.SHA256 payload_big = List.replicate 32 1 := by
  show (payload_big ++ List.replicate 32 0).take 32 = List.replicate 32 1
  rw [List.take_append_of_le_length (by rw [payload_big_length]; decide),
    payload_big_take 32 (by decide)]

/-- What `do_insert` does to a freshly created one-slot database when the
payload decodes and the I/O works, with the content of the file. -/
theorem demo_insert_fresh_data (J : List Nat) (hJ : J ≠ []) :
    ∃ db1 f1, do_insert demo_lib J [97] (demo_fresh 1 []) = some (ERR_NONE, db1) ∧
      db1.fpdb = some f1 ∧ f1.faults = [] ∧ f1.bytes.length = 280 + J.length ∧
      f1.bytes.drop 280 = J ∧ db1.header = bump_header (demo_header 1) ∧
      db1.metadata =
        [⟨strncpy_nul zero_metadata.pict_id [97], demo_lib.SHA256 J, (J.length, 1),
          ⟨0, 0, J.length % 2 ^ 32⟩, ⟨0, 0, 280⟩, NON_EMPTY, 0⟩] := by
  have hlen : (demo_fresh 1 []).metadata.length = (demo_fresh 1 []).header.max_files := by
    decide
  obtain ⟨db1, hins⟩ := do_insert_ok demo_lib J [97] (demo_fresh 1 []) (demo_stream 1 [])
    hlen (by decide) (by decide) hJ (by decide) ⟨zero_metadata, by decide, by decide⟩
    (by decide) rfl rfl
    ⟨(J.length, 1), by simp [demo_lib, hJ]⟩
  rcases do_insert_cases demo_lib J [97] (demo_fresh 1 []) db1 ERR_NONE hlen hins with
    ⟨hc, -⟩ | ⟨i, m0, hm0, -, -, -, -, -, -, hcase⟩
  · exact absurd rfl hc
  rcases hcase with ⟨hc, -⟩ | ⟨-, hh, -, f, f1, hf, hf1, hflt, hsucc⟩
  · exact absurd rfl hc
  have hi : i = 0 := by
    have := getElem?_lt hm0
    simp [demo_fresh] at this
    exact this
  subst hi
  have hm0e : m0 = zero_metadata := by
    simp [demo_fresh] at hm0
    exact hm0.symm
  subst hm0e
  have hfe : f = demo_stream 1 [] := by
    simp only [demo_fresh, Option.some.injEq] at hf
    exact hf.symm
  subst hfe
  have hflen : (demo_stream 1 []).bytes.length = 280 := by decide
  have hD : slot_pos (0 + 1) ≤ 280 := by decide
  rcases hsucc with ⟨k, dup, hk, -, hdv, -⟩ | ⟨wh, s, hj, hmd, hsrc, hsame⟩
  · exact absurd hdv (demo_fresh_empty 1 [] dup (List.getElem?_mem hk))
  rcases hsrc with ⟨-, rfl⟩ | ⟨k, dup, hk, -, hdv, -⟩
  swap
  · exact absurd hdv (demo_fresh_empty 1 [] dup (List.getElem?_mem hk))
  have hsd := hsame 280 hD (by rw [hflen])
  have hwh : wh = (J.length, 1) := by
    have hJl : J.length ≠ 0 := fun e => hJ (List.length_eq_zero.1 e)
    have : demo_lib.jpegload J = some (J.length, 1) := by
      show (if J.length = 0 then none else some (J.length, 1)) = _
      rw [if_neg hJl]
    rw [this] at hj
    exact (Option.some.inj hj).symm
  subst hwh
  refine ⟨db1, f1, hins, hf1, hflt rfl, ?_, ?_, hh, ?_⟩
  · rw [hsd.1]; simp [hflen]
  · rw [hsd.2, ← hflen, List.drop_left]
  · rw [hmd, hflen]
    rfl

/-- The round of `do_gbcollect` on a slot without derived resolutions whose
read and insert return `0`. -/
theorem gbcollect_slot_plain (L : Lib) (i idx : Nat) (db db1 ndb ndb1 : pictdb_file)
    (m m1 : pict_metadata) (img : List Nat) (size : Nat)
    (hm : db.metadata[i]? = some m)
    (hread : do_read L m.pict_id RES_ORIG db = some (ERR_NONE, some (img, size), db1))
    (hm1 : db1.metadata[i]? = some m1)
    (hins : do_insert L (img.take size) m1.pict_id ndb = some (ERR_NONE, ndb1))
    (hs : m1.size.small = 0 ∧ m1.offset.small = 0)
    (ht : m1.size.thumb = 0 ∧ m1.offset.thumb = 0) :
    gbcollect_slot L i db ndb idx = some (ERR_NONE, db1, ndb1) := by
  have hsmall : gbcollect_resize L RES_SMALL m1 ndb1 idx = some (ERR_NONE, ndb1) := by
    unfold gbcollect_resize
    rw [if_neg]
    simp [res_array.get, hs.1, hs.2]
  have hthumb : gbcollect_resize L RES_THUMB m1 ndb1 idx = some (ERR_NONE, ndb1) := by
    unfold gbcollect_resize
    rw [if_neg]
    simp [res_array.get, ht.1, ht.2]
  unfold gbcollect_slot
  rw [hm]
  simp only
  rw [hread]
  simp only [ne_eq, not_true_eq_false, if_false]
  rw [hm1]
  simp only
  rw [hins]
  simp only [ne_eq, not_true_eq_false, if_false]
  rw [hsmall]
  simp only [ne_eq, not_true_eq_false, if_false]
  rw [hthumb]

/-- A `do_gbcollect` whose calls all succeed, from the results of `do_create`
and of the loop. -/
theorem do_gbcollect_ok (L : Lib) (D : pictdb_file) (new_filename : List Nat)
    (new_db_file : pictdb_file) (fopen_wb : Option (List Bool))
    (ndb0 db1 ndb1 : pictdb_file) (g g1 : FILE) (hname : strlen new_filename ≠ 0)
    (hcreate : do_create new_filename
      { new_db_file with header := { new_db_file.header with
          max_files := D.header.max_files
          res_resized := [D.header.res_resized.getD 0 0, D.header.res_resized.getD 1 0,
            D.header.res_resized.getD 2 0, D.header.res_resized.getD 3 0] } } fopen_wb
      = some (ERR_NONE, ndb0))
    (hloop : gbcollect_loop L D.header.max_files 0 D ndb0 0 = some (ERR_NONE, db1, ndb1))
    (hg : db1.fpdb = some g) (hg1 : ndb1.fpdb = some g1) :
    do_gbcollect L D new_filename new_db_file fopen_wb false false
      = some { res := ERR_NONE, db_file := db1,
               new_db_file := { ndb1 with header :=
                 { ndb1.header with db_version := db1.header.db_version } },
               paths := { orig := some g1.bytes, new := none } } := by
  unfold do_gbcollect
  simp only
  rw [hcreate]
  simp only [if_true]
  rw [hloop]
  simp only [ne_eq, not_true_eq_false, if_false, hg, hg1, if_neg hname, copy_and_delete,
    Option.map_some', Bool.false_eq_true, false_or, reduceCtorEq]

/-- C11 (counterexamples): a payload of `2^32 + 5` bytes, all `1`, is inserted
as `"a"` in a fresh database of one slot (`size[RES_ORIG]` is stored as `5`).
`do_gbcollect` returns `0`; the slot of `"a"` carries the digest of the payload
in the source and the digest of its first five bytes in the destination, in
the local structure and in the table `do_open` reads from the file left under
the name of the source. And on an empty database of one slot, a `do_gbcollect`
whose `do_create` fails on the write of the header returns `0` and leaves
under the name of the source an empty file, on which `do_open` returns
`ERR_IO`. -/
theorem do_gbcollect_large_payload :
    do_create [100] (demo_config 1) (some []) = some (ERR_NONE, demo_fresh 1 []) ∧
    (do_gbcollect demo_lib (demo_fresh 1 []) [116] (demo_config 0) (some [true]) false false).map
        (fun r => (r.res, r.paths.orig, r.paths.new,
          (do_open [100] [114] (demo_config 0) (r.paths.orig.map (fun c => ⟨c, 0, []⟩))).map
            (fun o => o.1)))
      = some (ERR_NONE, some [], none, some ERR_IO) ∧
    ∃ D r, do_insert demo_lib payload_big [97] (demo_fresh 1 []) = some (ERR_NONE, D) ∧
      do_gbcollect demo_lib D [116] (demo_config 0) (some []) false false = some r ∧
      r.res = ERR_NONE ∧
      D.metadata.map (fun m => (c_str m.pict_id, m.is_valid, m.SHA))
        = [([97], NON_EMPTY, List.replicate 32 1)] ∧
      r.new_db_file.metadata.map (fun m => (c_str m.pict_id, m.is_valid, m.SHA))
        = [([97], NON_EMPTY, [1, 1, 1, 1, 1] ++ List.replicate 27 0)] ∧
      r.paths.new = none ∧
      (do_open [100] [114] (demo_config 0) (r.paths.orig.map (fun c => ⟨c, 0, []⟩))).map
          (fun o => (o.1, o.2.metadata.map (fun m => (c_str m.pict_id, m.is_valid, m.SHA))))
        = some (ERR_NONE, [([97], NON_EMPTY, [1, 1, 1, 1, 1] ++ List.replicate 27 0)]) := by
  refine ⟨by decide, by decide!, ?_⟩
  have hne : payload_big ≠ [] := by
    intro e
    have h := payload_big_length
    rw [e] at h
    exact absurd h (by decide)
  obtain ⟨D, f1, hins, hf1, hfl, hlen, hdrop, hh, hmd⟩ := demo_insert_fresh_data payload_big hne
  rw [payload_big_sha, payload_big_length] at hmd
  have hsz : (2 ^ 32 + 5) % 2 ^ 32 = 5 := by decide
  rw [hsz] at hmd
  rw [payload_big_length] at hlen
  have hreach : Reachable demo_lib D :=
    Reachable.insert _ _ _ ERR_NONE _
      (Reachable.create [100] (demo_config 1) [] _ (by decide) (by decide)) hins
  have hinv := reachable_inv demo_lib D hreach
  have hm0 : D.metadata[0]? = some
      ⟨strncpy_nul zero_metadata.pict_id [97], List.replicate 32 1, (2 ^ 32 + 5, 1),
        ⟨0, 0, 5⟩, ⟨0, 0, 280⟩, NON_EMPTY, 0⟩ := by
    rw [hmd]; rfl
  obtain ⟨db1, hread⟩ := do_read_live_ok demo_lib (strncpy_nul zero_metadata.pict_id [97]) D 0 _
    f1 hinv.1.1 hinv.2.1 hinv.2.2.1 hm0 rfl rfl hf1 hfl (by decide) (by decide)
    (by rw [hlen]; decide)
  have hbytes : orig_bytes f1.bytes
      ⟨strncpy_nul zero_metadata.pict_id [97], List.replicate 32 1, (2 ^ 32 + 5, 1),
        ⟨0, 0, 5⟩, ⟨0, 0, 280⟩, NON_EMPTY, 0⟩ = [1, 1, 1, 1, 1] := by
    show (f1.bytes.drop 280).take 5 = _
    rw [hdrop, payload_big_take 5 (by decide)]
    rfl
  rw [hbytes] at hread
  obtain ⟨hh1, hmd1, hfile1, -⟩ := do_read_orig_cases demo_lib _ D db1 ERR_NONE _ hinv.1.1 hread
  obtain ⟨g, hg, -⟩ := hfile1 f1 hf1
  have hslot := gbcollect_slot_plain demo_lib 0 0 D db1 (demo_fresh 1 [])
    (demo_insert [1, 1, 1, 1, 1] (strncpy_nul zero_metadata.pict_id [97]) (demo_fresh 1 []))
    _ _ [1, 1, 1, 1, 1] 5 hm0 hread (by rw [hmd1]; exact hm0) (by decide) ⟨rfl, rfl⟩ ⟨rfl, rfl⟩
  have hloop : gbcollect_loop demo_lib D.header.max_files 0 D (demo_fresh 1 []) 0
      = some (ERR_NONE, db1,
          demo_insert [1, 1, 1, 1, 1] (strncpy_nul zero_metadata.pict_id [97])
            (demo_fresh 1 [])) := by
    have hN : D.header.max_files = 1 := by rw [hh]; rfl
    rw [hN, gbcollect_loop, hm0]
    simp only [if_true]
    rw [hslot]
    simp only [ne_eq, not_true_eq_false, if_false]
    rw [gbcollect_loop]
  have hcreate : do_create [116]
      { demo_config 0 with header := { (demo_config 0).header with
          max_files := D.header.max_files
          res_resized := [D.header.res_resized.getD 0 0, D.header.res_resized.getD 1 0,
            D.header.res_resized.getD 2 0, D.header.res_resized.getD 3 0] } } (some [])
      = some (ERR_NONE, demo_fresh 1 []) := by
    rw [hh]
    decide
  have hgc := do_gbcollect_ok demo_lib D [116] (demo_config 0) (some []) _ _ _ g
    (demo_file (demo_insert [1, 1, 1, 1, 1] (strncpy_nul zero_metadata.pict_id [97])
      (demo_fresh 1 []))) (by decide) hcreate hloop hg (by decide)
  refine ⟨D, _, hins, hgc, rfl, ?_, ?_, rfl, ?_⟩
  · rw [hmd]
    decide
  · show (demo_insert [1, 1, 1, 1, 1] (strncpy_nul zero_metadata.pict_id [97])
        (demo_fresh 1 [])).metadata.map (fun m => (c_str m.pict_id, m.is_valid, m.SHA))
      = [([97], NON_EMPTY, [1, 1, 1, 1, 1] ++ List.replicate 27 0)]
    decide
  · show (do_open [100] [114] (demo_config 0)
        (some ⟨(demo_file (demo_insert [1, 1, 1, 1, 1] (strncpy_nul zero_metadata.pict_id [97])
          (demo_fresh 1 []))).bytes, 0, []⟩)).map
          (fun o => (o.1, o.2.metadata.map (fun m => (c_str m.pict_id, m.is_valid, m.SHA))))
      = some (ERR_NONE, [([97], NON_EMPTY, [1, 1, 1, 1, 1] ++ List.replicate 27 0)])
    decide!

/-! ## `do_list` -/

theorem list_loop_live (bound : Nat) :
    ∀ (l : List pict_metadata) (i : Nat), l.length + i = bound →
      list_loop bound l i = some (live_slots l) := by
  intro l
  induction l with
  | nil =>
    intro i h
    simp only [List.length_nil, Nat.zero_add] at h
    simp [list_loop, live_slots, h]
  | cons m rest ih =>
    intro i h
    simp only [List.length_cons] at h
    have hi : i < bound := by omega
    unfold list_loop
    rw [if_pos hi, ih (i + 1) (by omega)]
    simp only [live_slots, List.filter_cons]
    by_cases hv : m.is_valid = NON_EMPTY
    · simp [hv]
    · simp [hv]

/-- C21: in the mode `JSON`, when json-c allocates every object, `do_list`
returns the text of the object whose member `"Pictures"` is the array of the
`pict_id` strings of the `NON_EMPTY` slots, in the order of the table. -/
theorem do_list_json_ids (J : Json) (db : pictdb_file)
    (hlen : db.metadata.length = db.header.max_files)
    (hobj : J.new_object = true) (harr : J.new_array = true)
    (hstr : ∀ s, J.new_string s = true) :
    do_list J db JSON =
      some (some (c_str (J.to_json_string pictures_txt
        ((live_slots db.metadata).map (fun m => c_str m.pict_id)))), []) := by
  unfold do_list
  rw [if_neg (by decide), if_pos rfl, hobj, harr, list_loop_live _ _ _ (by simpa using hlen)]
  simp [hstr]

theorem do_list_json_ids_witness :
    (demo_insert [1, 2, 3] [97] (demo_fresh 2 [])).metadata.length =
        (demo_insert [1, 2, 3] [97] (demo_fresh 2 [])).header.max_files ∧
      do_list demo_json (demo_insert [1, 2, 3] [97] (demo_fresh 2 [])) JSON =
        some (some [80, 105, 99, 116, 117, 114, 101, 115, 58, 97, 44], []) :=
  ⟨by decide, (do_list_json_ids demo_json (demo_insert [1, 2, 3] [97] (demo_fresh 2 []))
    (by decide) rfl rfl (fun _ => rfl)).trans (by decide)⟩

/-! ## A table with room has a free slot -/

theorem exists_free_slot (tbl : List pict_metadata)
    (h : tbl.countP (fun m => m.is_valid = NON_EMPTY) < tbl.length) :
    ∃ (j : Nat) (m : pict_metadata), tbl[j]? = some m ∧ m.is_valid ≠ NON_EMPTY := by
  by_contra hc
  have hall : ∀ a ∈ tbl, (fun m : pict_metadata => decide (m.is_valid = NON_EMPTY)) a = true := by
    intro a ha
    by_contra hv
    obtain ⟨j, hj⟩ := List.mem_iff_getElem?.1 ha
    exact hc ⟨j, a, hj, by simpa using hv⟩
  have := List.countP_eq_length.2 hall
  omega

/-! ## `do_create` when `fopen` fails -/

/-- C30: when `fopen` returns `NULL`, `do_create` with a non-empty file name
does not return: the test after `fopen` looks at `db_file`, not at
`db_file->fpdb`, and the header is written to the `NULL` stream. -/
theorem do_create_fopen_null (filename : List Nat) (db_file : pictdb_file) :
    do_create filename db_file none =
      if strlen filename = 0 then some (ERR_INVALID_ARGUMENT, db_file) else none := by
  unfold do_create
  split <;> rfl

/-! ## A failure of `update_file` and the next insert -/

/-- C25: in a database of one slot, an insert whose `update_file` fails at its
first seek leaves the slot `EMPTY` and `num_files = 1`; the next insert, with
valid arguments on a stream without faults, returns `ERR_FULL_DATABASE`. -/
theorem update_file_failure_blocks_reuse :
    do_insert demo_lib [1, 2, 3] [97] (demo_fresh 1 [false, false, true]) =
        some ( ERR_IO, demo_insert [1, 2, 3] [97] (demo_fresh 1 [false, false, true])) ∧
      (demo_insert [1, 2, 3] [97] (demo_fresh 1 [false, false, true])).metadata.map
        (fun m => m.is_valid) = [EMPTY] ∧
      (demo_insert [1, 2, 3] [97] (demo_fresh 1 [false, false, true])).header.num_files = 1 ∧
      (demo_file (demo_insert [1, 2, 3] [97] (demo_fresh 1 [false, false, true]))).faults = [] ∧
      do_insert demo_lib [4, 5] [98]
          (demo_insert [1, 2, 3] [97] (demo_fresh 1 [false, false, true])) =
        some (ERR_FULL_DATABASE, demo_insert [1, 2, 3] [97] (demo_fresh 1 [false, false, true])) := by
  decide!

/-! ## The stored originals in every reachable state -/

theorem delete_file_kept (name : List Nat) (db db' : pictdb_file) (rc : error_code)
    (hlen : db.metadata.length = db.header.max_files)
    (h : do_delete name db = some (rc, db')) :
    ∀ f f', db.fpdb = some f → db'.fpdb = some f' →
      data_start db.header.max_files ≤ f.bytes.length →
      same_data (data_start db.header.max_files) f.bytes f'.bytes := by
  intro f f' hf hf' hD
  rcases do_delete_cases name db db' rc h with ⟨-, rfl⟩ | ⟨idx, m, hm, -, -, -, -, -, hcase⟩
  · rw [hf] at hf'; cases hf'
    exact same_data_refl _ _
  · have hpos := slot_in_table hlen hm
    have hel := encode_metadata_length { m with is_valid := EMPTY }
    have hhl := encode_header_length (delete_header db.header)
    have hslot : slot_pos idx + sizeof_metadata = slot_pos (idx + 1) := by
      simp only [slot_pos]; ring
    have hw1 : same_data (data_start db.header.max_files) f.bytes
        (write_at f.bytes (slot_pos idx) (encode_metadata { m with is_valid := EMPTY })) :=
      same_data_write_at _ _ _ _ (by rw [hel]; omega) hD
    rcases hcase with ⟨-, -, hfp | ⟨f0, f0', hf0, hf0', hb⟩⟩ | ⟨f0, f0', hf0, hf0', -, hb⟩
    · rw [hfp, hf] at hf'; cases hf'
      exact same_data_refl _ _
    · rw [hf] at hf0; cases hf0
      rw [hf'] at hf0'; cases hf0'
      exact ⟨by rw [hb], by rw [hb]⟩
    · rw [hf] at hf0; cases hf0
      rw [hf'] at hf0'; cases hf0'
      rcases hb with ⟨-, hb⟩ | ⟨-, hb⟩
      · rw [hb]; exact hw1
      · rw [hb]
        refine same_data_trans hw1 (same_data_write_at _ _ _ _ ?_ ?_)
        · rw [hhl]
          have : sizeof_header ≤ slot_pos (idx + 1) := by simp [slot_pos]
          omega
        · rw [hw1.1]; exact hD

theorem read_file_kept (L : Lib) (id : List Nat) (res : Int) (db db' : pictdb_file)
    (rc : error_code) (out : Option (List Nat × Nat)) (hinv : db_inv L db)
    (h : do_read L id res db = some (rc, out, db')) :
    ∀ f f', db.fpdb = some f → db'.fpdb = some f' →
      data_kept (data_start db.header.max_files) f.bytes f'.bytes := by
  intro f f' hf hf'
  obtain ⟨db1, h1, -, -, h2⟩ := do_read_cases L id res db db' rc out h
  have hk1 : ∀ f1, db1.fpdb = some f1 →
      data_kept (data_start db.header.max_files) f.bytes f1.bytes := by
    intro f1 hf1
    rcases h1 with rfl | ⟨i, rc1, hr⟩
    · rw [hf] at hf1; cases hf1
      exact data_kept_refl _ _
    · exact (resize_file_kept L res i db db1 rc1 hinv hr).2 f f1 hf hf1
  rcases h2 with rfl | ⟨g, g', hg, hg', hb⟩
  · exact hk1 f' hf'
  · rw [hf'] at hg'; cases hg'
    rw [hb]
    exact hk1 g hg

theorem step_file_kept (L : Lib) (db db' : pictdb_file) (hinv : db_inv L db)
    (h : Step L db db') :
    ∀ f f', db.fpdb = some f → db'.fpdb = some f' →
      data_kept (data_start db.header.max_files) f.bytes f'.bytes := by
  intro f f' hf hf'
  cases h
  · rename_i h
    exact (insert_file_kept L _ _ db db' _ hinv h).2 f f' hf hf'
  · rename_i h
    obtain ⟨g, hg, hD⟩ := hinv.1.2
    rw [hf] at hg; cases hg
    exact data_kept_of_same (delete_file_kept _ db db' _ hinv.1.1 h f f' hf hf' hD)
  · rename_i h
    exact read_file_kept L _ _ db db' _ _ hinv h f f' hf hf'
  · rename_i h
    exact (resize_file_kept L _ _ db db' _ hinv h).2 f f' hf hf'

/-- C26: in every database reachable from `do_create` whose file is shorter
than `2^32` bytes, a `NON_EMPTY` slot has a non-empty original that lies in
the data region, inside the file, and whose digest is the slot's `SHA`; and a
further call of `do_insert`, `do_delete`, `do_read` or `lazily_resize` keeps
every byte of the data region (it may append), so the bytes of the original
too. -/
theorem reachable_originals_stored (L : Lib) (db : pictdb_file) (f : FILE) (m : pict_metadata)
    (hreach : Reachable L db) (hf : db.fpdb = some f) (hsmall : f.bytes.length < 2 ^ 32)
    (hm : m ∈ db.metadata) (hv : m.is_valid = NON_EMPTY) :
    (0 < m.size.orig ∧
      sizeof_header + db.header.max_files * sizeof_metadata ≤ m.offset.orig ∧
      m.offset.orig + m.size.orig ≤ f.bytes.length ∧
      L.SHA256 ((f.bytes.drop m.offset.orig).take m.size.orig) = m.SHA) ∧
    ∀ db' f', Step L db db' → db'.fpdb = some f' →
      data_kept (sizeof_header + db.header.max_files * sizeof_metadata) f.bytes f'.bytes ∧
      (f'.bytes.drop m.offset.orig).take m.size.orig =
        (f.bytes.drop m.offset.orig).take m.size.orig := by
  have hinv := reachable_inv L db hreach
  obtain ⟨h1, h2, h3, h4⟩ := hinv.2.2.2 f hf hsmall m hm hv
  refine ⟨⟨h3, h1, h2, h4⟩, ?_⟩
  intro db' f' hstep hf'
  have hk := step_file_kept L db db' hinv hstep f f' hf hf'
  exact ⟨hk, data_kept_slice hk _ _ h1 h2⟩

theorem reachable_originals_stored_witness :
    (0 < ((demo_insert [1, 2, 3] [97] (demo_fresh 2 [])).metadata.getD 0 zero_metadata).size.orig ∧
      sizeof_header + (demo_insert [1, 2, 3] [97] (demo_fresh 2 [])).header.max_files *
          sizeof_metadata ≤
        ((demo_insert [1, 2, 3] [97] (demo_fresh 2 [])).metadata.getD 0 zero_metadata).offset.orig ∧
      ((demo_insert [1, 2, 3] [97] (demo_fresh 2 [])).metadata.getD 0 zero_metadata).offset.orig +
          ((demo_insert [1, 2, 3] [97] (demo_fresh 2 [])).metadata.getD 0 zero_metadata).size.orig ≤
        (demo_file (demo_insert [1, 2, 3] [97] (demo_fresh 2 []))).bytes.length ∧
      demo_lib.SHA256
          (((demo_file (demo_insert [1, 2, 3] [97] (demo_fresh 2 []))).bytes.drop
            ((demo_insert [1, 2, 3] [97] (demo_fresh 2 [])).metadata.getD 0
              zero_metadata).offset.orig).take
            ((demo_insert [1, 2, 3] [97] (demo_fresh 2 [])).metadata.getD 0
              zero_metadata).size.orig) =
        ((demo_insert [1, 2, 3] [97] (demo_fresh 2 [])).metadata.getD 0 zero_metadata).SHA) ∧
    ∀ db' f', Step demo_lib (demo_insert [1, 2, 3] [97] (demo_fresh 2 [])) db' →
      db'.fpdb = some f' →
      data_kept (sizeof_header + (demo_insert [1, 2, 3] [97] (demo_fresh 2 [])).header.max_files *
          sizeof_metadata)
        (demo_file (demo_insert [1, 2, 3] [97] (demo_fresh 2 []))).bytes f'.bytes ∧
      (f'.bytes.drop
          ((demo_insert [1, 2, 3] [97] (demo_fresh 2 [])).metadata.getD 0
            zero_metadata).offset.orig).take
          ((demo_insert [1, 2, 3] [97] (demo_fresh 2 [])).metadata.getD 0 zero_metadata).size.orig =
        ((demo_file (demo_insert [1, 2, 3] [97] (demo_fresh 2 []))).bytes.drop
          ((demo_insert [1, 2, 3] [97] (demo_fresh 2 [])).metadata.getD 0
            zero_metadata).offset.orig).take
          ((demo_insert [1, 2, 3] [97] (demo_fresh 2 [])).metadata.getD 0 zero_metadata).size.orig :=
  reachable_originals_stored demo_lib (demo_insert [1, 2, 3] [97] (demo_fresh 2 []))
    (demo_file (demo_insert [1, 2, 3] [97] (demo_fresh 2 [])))
    ((demo_insert [1, 2, 3] [97] (demo_fresh 2 [])).metadata.getD 0 zero_metadata)
    demo_reachable_one (by decide!) (by decide!) (by decide!) (by decide!)

/-! ## Slices of the file content -/

theorem write_at_getElem? (b d : List Nat) (p j : Nat) (h : p + d.length ≤ b.length) :
    (write_at b p d)[j]? =
      if j < p then b[j]? else if j < p + d.length then d[j - p]? else b[j]? := by
  unfold write_at
  have hp : p - b.length = 0 := by omega
  rw [hp]
  simp only [List.replicate_zero, List.append_nil]
  have l1 : (List.take p b).length = p := by simp; omega
  by_cases h1 : j < p
  · rw [if_pos h1, List.append_assoc, List.getElem?_append_left (by omega)]
    rw [List.getElem?_take_of_lt h1]
  · rw [if_neg h1]
    by_cases h2 : j < p + d.length
    · rw [if_pos h2, List.getElem?_append_left (by simp; omega),
        List.getElem?_append_right (by omega), l1]
    · rw [if_neg h2, List.getElem?_append_right (by simp; omega)]
      simp only [List.length_append, l1, List.getElem?_drop]
      congr 1; omega

theorem slice_getElem? (l : List Nat) (q k j : Nat) :
    ((l.drop q).take k)[j]? = if j < k then l[q + j]? else none := by
  by_cases h : j < k
  · rw [if_pos h, List.getElem?_take_of_lt h, List.getElem?_drop]
  · rw [if_neg h]
    apply List.getElem?_eq_none
    simp; omega

theorem slice_write_same (b d : List Nat) (p : Nat) (h : p + d.length ≤ b.length) :
    ((write_at b p d).drop p).take d.length = d := by
  apply List.ext_getElem?
  intro j
  rw [slice_getElem?, write_at_getElem? b d p _ h]
  by_cases hj : j < d.length
  · rw [if_pos hj, if_neg (by omega), if_pos (by omega)]
    congr 1; omega
  · rw [if_neg hj]
    exact (List.getElem?_eq_none (by omega)).symm

theorem slice_write_other (b d : List Nat) (p q k : Nat) (h : p + d.length ≤ b.length)
    (hd : q + k ≤ p ∨ p + d.length ≤ q) :
    ((write_at b p d).drop q).take k = (b.drop q).take k := by
  apply List.ext_getElem?
  intro j
  rw [slice_getElem?, slice_getElem?, write_at_getElem? b d p _ h]
  by_cases hj : j < k
  · rw [if_pos hj, if_pos hj]
    rcases hd with hd | hd
    · rw [if_pos (by omega)]
    · rw [if_neg (by omega), if_neg (by omega)]
  · rw [if_neg hj, if_neg hj]

theorem slice_append (b t : List Nat) (q k : Nat) (h : q + k ≤ b.length) :
    ((b ++ t).drop q).take k = (b.drop q).take k := by
  rw [List.drop_append_of_le_length (by omega), List.take_append_of_le_length (by simp; omega)]

theorem slice_slice (b e : List Nat) (q k a c : Nat) (h : (b.drop q).take k = e)
    (hac : a + c ≤ k) : (b.drop (q + a)).take c = (e.drop a).take c := by
  subst h
  apply List.ext_getElem?
  intro j
  rw [slice_getElem?, slice_getElem?]
  by_cases hj : j < c
  · rw [if_pos hj, if_pos hj, slice_getElem?, if_pos (by omega)]
    congr 1; omega
  · rw [if_neg hj, if_neg hj]

theorem slot_pos_ge (i : Nat) : 64 ≤ slot_pos i := by
  simp only [slot_pos, sizeof_header]; omega

theorem slot_end_le {tbl : List pict_metadata} {i N : Nat} (hi : i < tbl.length)
    (hlen : tbl.length = N) : slot_pos i + 216 ≤ data_start N := by
  simp only [data_start, slot_pos, sizeof_header, sizeof_metadata] at *
  have h1 : i + 1 ≤ N := by omega
  have := Nat.mul_le_mul_right 216 h1
  omega

/-! ## Calls of `do_insert` that report no I/O error -/

/-- The ways `insert_image` returns a status other than `ERR_IO`: the image
does not decode (it stays appended, the slot is `EMPTY`), or the header and
the slot are written. -/
theorem insert_image_bytes (L : Lib) (img : List Nat) (db db' : pictdb_file) (i : Nat)
    (rc : error_code) (h : insert_image L img db i = some (rc, db')) (hio : rc ≠ ERR_IO) :
    ∃ m2 f f', db.metadata[i]? = some m2 ∧ db.fpdb = some f ∧ db'.fpdb = some f' ∧
      ((rc = ERR_VIPS ∧ m2.offset.orig = 0 ∧ f'.bytes = f.bytes ++ img ∧
          db'.header = db.header ∧
          ∃ m', m'.is_valid = EMPTY ∧ db'.metadata = db.metadata.set i m') ∨
       (rc = ERR_NONE ∧ db'.header = bump_header db.header ∧
          ∃ m' B, (B = f.bytes ∨ B = f.bytes ++ img) ∧ m'.is_valid = NON_EMPTY ∧
            db'.metadata = db.metadata.set i m' ∧
            f'.bytes = write_at (write_at B 0 (encode_header (bump_header db.header)))
              (slot_pos i) (encode_metadata m'))) := by
  unfold insert_image at h
  split at h
  · simp at h
  · simp at h
  · rename_i m2 f0 hm hf
    have hlt := getElem?_lt hm
    by_cases hoff : m2.offset.orig ≠ 0
    · rw [if_pos hoff] at h
      obtain ⟨f, m, hf1, hm1, hh, f', hf', hcase⟩ := update_file_cases _ _ _ _ h
      have hfe : f = f0 := by
        have : (set_slot db i { m2 with is_valid := NON_EMPTY }).fpdb = db.fpdb := rfl
        rw [this, hf] at hf1; cases hf1; rfl
      subst hfe
      have hme : m = { m2 with is_valid := NON_EMPTY } := by
        have : (set_slot db i { m2 with is_valid := NON_EMPTY }).metadata[i]? =
            some { m2 with is_valid := NON_EMPTY } := by
          simp [set_slot, List.getElem?_set_self hlt]
        rw [this] at hm1; cases hm1; rfl
      subst hme
      have hh' : db'.header = bump_header db.header := hh
      rcases hcase with ⟨hrc, hmd, hb, -⟩ | ⟨hrc, -⟩
      · refine ⟨m2, f, f', hm, hf, hf', Or.inr ⟨hrc, hh', _, f.bytes, Or.inl rfl, ?_, hmd, ?_⟩⟩
        · rfl
        · rw [hb, hh']
      · exact absurd hrc hio
    · rw [if_neg hoff] at h
      simp only [ne_eq, not_not] at hoff
      simp only at h
      rcases fseek_end_cases f0 with e1 | e1 <;> rw [e1] at h <;>
        simp only [if_true, if_false, Bool.true_eq_false] at h
      · rcases fwrite_cases ⟨f0.bytes, f0.bytes.length, f0.faults.tail⟩ img with ⟨e2, himg⟩ | e2 <;>
          rw [e2] at h <;> simp only [if_true, if_false, Bool.true_eq_false] at h
        · rw [write_at_end] at h
          unfold get_resolution at h
          cases hj : L.jpegload img with
          | none =>
            rw [hj] at h
            simp only [Option.some.injEq, Prod.mk.injEq] at h
            obtain ⟨rfl, rfl⟩ := h
            exact ⟨m2, f0, _, hm, hf, rfl, Or.inl ⟨rfl, hoff, rfl, rfl, _, rfl, rfl⟩⟩
          | some wh =>
            rw [hj] at h
            obtain ⟨w, ht⟩ := wh
            simp only at h
            obtain ⟨f, m, hf1, hm1, hh, f', hf', hcase⟩ := update_file_cases _ _ _ _ h
            have hfe : f = ⟨f0.bytes ++ img, f0.bytes.length + img.length,
                f0.faults.tail.tail⟩ := by
              simp only [set_slot] at hf1
              cases hf1; rfl
            subst hfe
            simp only [set_slot, List.getElem?_set_self hlt, Option.some.injEq] at hm1
            subst hm1
            have hh' : db'.header = bump_header db.header := hh
            rcases hcase with ⟨hrc, hmd, hb, -⟩ | ⟨hrc, -⟩
            · refine ⟨m2, f0, f', hm, hf, hf', Or.inr ⟨hrc, hh', _, f0.bytes ++ img, Or.inr rfl,
                ?_, hmd, ?_⟩⟩
              · rfl
              · rw [hb, hh']
            · exact absurd hrc hio
        · simp only [Option.some.injEq, Prod.mk.injEq] at h
          exact absurd h.1.symm hio
      · simp only [Option.some.injEq, Prod.mk.injEq] at h
        exact absurd h.1.symm hio

/-- The ways `do_insert` returns a status other than `ERR_IO`. -/
theorem do_insert_no_io (L : Lib) (img id : List Nat) (db db' : pictdb_file) (rc : error_code)
    (hlen : db.metadata.length = db.header.max_files)
    (h : do_insert L img id db = some (rc, db')) (hio : rc ≠ ERR_IO) :
    ((rc = ERR_INVALID_ARGUMENT ∨ rc = ERR_FULL_DATABASE) ∧ db' = db) ∨
    ∃ i m, db.metadata[i]? = some m ∧ m.is_valid ≠ NON_EMPTY ∧
      (∀ j mj, j < i → db.metadata[j]? = some mj → mj.is_valid = NON_EMPTY) ∧
      ((rc = ERR_DUPLICATE_ID ∧
          db' = set_slot db i { m with SHA := L.SHA256 img
                                       pict_id := strncpy_nul m.pict_id id
                                       size := m.size.put RES_ORIG (img.length % 2 ^ 32) }) ∨
       (∃ f f', db.fpdb = some f ∧ db'.fpdb = some f' ∧
          ((rc = ERR_VIPS ∧ f'.bytes = f.bytes ++ img ∧ db'.header = db.header ∧
              ∃ m', m'.is_valid = EMPTY ∧ db'.metadata = db.metadata.set i m') ∨
           (rc = ERR_NONE ∧ db'.header = bump_header db.header ∧
              ∃ m' B, (B = f.bytes ∨ B = f.bytes ++ img) ∧ m'.is_valid = NON_EMPTY ∧
                db'.metadata = db.metadata.set i m' ∧
                f'.bytes = write_at (write_at B 0 (encode_header (bump_header db.header)))
                  (slot_pos i) (encode_metadata m'))))) := by
  unfold do_insert at h
  split at h
  · simp only [Option.some.injEq, Prod.mk.injEq] at h
    obtain ⟨rfl, rfl⟩ := h
    exact Or.inl ⟨Or.inl rfl, rfl⟩
  split at h
  · simp only [Option.some.injEq, Prod.mk.injEq] at h
    obtain ⟨rfl, rfl⟩ := h
    exact Or.inl ⟨Or.inr rfl, rfl⟩
  split at h
  · simp at h
  · simp only [Option.some.injEq, Prod.mk.injEq] at h
    obtain ⟨rfl, rfl⟩ := h
    exact Or.inl ⟨Or.inr rfl, rfl⟩
  rename_i i hscan
  obtain ⟨m, -, -, hm, hp, hbefore⟩ := first_slot_some_some _ _ _ _ _ hscan
  simp only [Nat.sub_zero] at hm hbefore
  rw [hm] at h
  simp only at h
  split at h
  · simp at h
  have hv : m.is_valid ≠ NON_EMPTY := by simpa using hp
  have hlt := getElem?_lt hm
  right
  refine ⟨i, m, hm, hv, ?_, ?_⟩
  · intro j mj hj hmj
    have := hbefore j mj hj hmj
    simpa using this
  generalize hm1 : ({ m with SHA := L.SHA256 img
                             pict_id := strncpy_nul m.pict_id id
                             size := m.size.put RES_ORIG (img.length % 2 ^ 32) } :
    pict_metadata) = m1 at h
  split at h
  · simp at h
  rename_i dedup_res db2 hdedup
  obtain ⟨cand, hcand, hd⟩ := dedup_cases (set_slot db i m1) db2 i dedup_res
    (by simpa [set_slot] using hlen) (by simpa [set_slot] using hlt) hdedup
  have hce : cand = m1 := by
    simp only [set_slot, List.getElem?_set_self hlt, Option.some.injEq] at hcand
    exact hcand.symm
  subst hce
  rcases hd with ⟨rfl, rfl, -⟩ | ⟨rfl, -, hd2⟩
  · simp only [ne_eq, reduceCtorEq, not_false_eq_true, if_true, Option.some.injEq,
      Prod.mk.injEq] at h
    obtain ⟨rfl, rfl⟩ := h
    exact Or.inl ⟨rfl, rfl⟩
  · simp only [ne_eq, not_true_eq_false, if_false] at h
    have hdb2 : ∃ X, db2 = set_slot (set_slot db i cand) i X := by
      rcases hd2 with ⟨k, dup, -, -, -, -, -, e⟩ | ⟨-, e⟩
      · exact ⟨_, e⟩
      · exact ⟨_, e⟩
    obtain ⟨X, rfl⟩ := hdb2
    obtain ⟨m2, f, f', hm2, hf, hf', hcase⟩ := insert_image_bytes L img _ db' i rc h hio
    have hfp : (set_slot (set_slot db i cand) i X).fpdb = db.fpdb := rfl
    have hhd : (set_slot (set_slot db i cand) i X).header = db.header := rfl
    have hmd : ∀ m', (set_slot (set_slot db i cand) i X).metadata.set i m' =
        db.metadata.set i m' := by
      intro m'
      simp [set_slot, List.set_set]
    rw [hfp] at hf
    right
    refine ⟨f, f', hf, hf', ?_⟩
    rcases hcase with ⟨hrc, -, hb, hh, m', hm'v, hm'⟩ | ⟨hrc, hh, m', B, hB, hm'v, hm', hb⟩
    · exact Or.inl ⟨hrc, hb, hh.trans hhd, m', hm'v, hm'.trans (hmd m')⟩
    · rw [hhd] at hh hb
      exact Or.inr ⟨hrc, hh, m', B, hB, hm'v, hm'.trans (hmd m'), hb⟩

/-! ## A rejected insert -/

/-- C28: when `do_insert` returns `ERR_DUPLICATE_ID`, the header and the
stream are the ones before the call, and the table differs only at the lowest
slot that is not `NON_EMPTY`, in the fields `SHA`, `pict_id` and
`size[RES_ORIG]`; every `NON_EMPTY` slot and every `is_valid` flag is kept. -/
theorem do_insert_duplicate_frame (L : Lib) (img id : List Nat) (db db' : pictdb_file)
    (hlen : db.metadata.length = db.header.max_files)
    (h : do_insert L img id db = some (ERR_DUPLICATE_ID, db')) :
    db'.header = db.header ∧ db'.fpdb = db.fpdb ∧
    (∃ (i : Nat) (m : pict_metadata), db.metadata[i]? = some m ∧ m.is_valid ≠ NON_EMPTY ∧
      (∀ j mj, j < i → db.metadata[j]? = some mj → mj.is_valid = NON_EMPTY) ∧
      db'.metadata = db.metadata.set i
        { m with SHA := L.SHA256 img
                 pict_id := strncpy_nul m.pict_id id
                 size := m.size.put RES_ORIG (img.length % 2 ^ 32) }) ∧
    (∀ (j : Nat) (mj : pict_metadata), db.metadata[j]? = some mj → mj.is_valid = NON_EMPTY →
      db'.metadata[j]? = some mj) ∧
    db'.metadata.map (fun m => m.is_valid) = db.metadata.map (fun m => m.is_valid) := by
  rcases do_insert_no_io L img id db db' _ hlen h (by decide) with ⟨hc, -⟩ |
    ⟨i, m, hm, hv, hlow, hcase⟩
  · rcases hc with hc | hc <;> cases hc
  rcases hcase with ⟨-, rfl⟩ | ⟨f, f', -, -, ⟨hc, -⟩ | ⟨hc, -⟩⟩
  · have hlt := getElem?_lt hm
    refine ⟨rfl, rfl, ⟨i, m, hm, hv, hlow, rfl⟩, ?_, ?_⟩
    · intro j mj hj hjv
      have hji : i ≠ j := by
        intro e; subst e; rw [hm] at hj; cases hj; exact hv hjv
      simp only [set_slot]
      rw [List.getElem?_set_ne hji]
      exact hj
    · simp only [set_slot]
      apply List.ext_getElem?
      intro j
      simp only [List.getElem?_map]
      by_cases hji : i = j
      · subst hji
        rw [List.getElem?_set_self hlt, hm]
        rfl
      · rw [List.getElem?_set_ne hji]
  · cases hc
  · cases hc

theorem do_insert_duplicate_frame_witness :
    (demo_insert [4] [97] (demo_insert [1, 2, 3] [97] (demo_fresh 2 []))).header =
        (demo_insert [1, 2, 3] [97] (demo_fresh 2 [])).header ∧
      (demo_insert [4] [97] (demo_insert [1, 2, 3] [97] (demo_fresh 2 []))).fpdb =
        (demo_insert [1, 2, 3] [97] (demo_fresh 2 [])).fpdb ∧
      (∃ (i : Nat) (m : pict_metadata),
        (demo_insert [1, 2, 3] [97] (demo_fresh 2 [])).metadata[i]? = some m ∧
        m.is_valid ≠ NON_EMPTY ∧
        (∀ j mj, j < i → (demo_insert [1, 2, 3] [97] (demo_fresh 2 [])).metadata[j]? = some mj →
          mj.is_valid = NON_EMPTY) ∧
        (demo_insert [4] [97] (demo_insert [1, 2, 3] [97] (demo_fresh 2 []))).metadata =
          (demo_insert [1, 2, 3] [97] (demo_fresh 2 [])).metadata.set i
            { m with SHA := demo_lib.SHA256 [4]
                     pict_id := strncpy_nul m.pict_id [97]
                     size := m.size.put RES_ORIG ([4].length % 2 ^ 32) }) ∧
      (∀ (j : Nat) (mj : pict_metadata),
        (demo_insert [1, 2, 3] [97] (demo_fresh 2 [])).metadata[j]? = some mj →
        mj.is_valid = NON_EMPTY →
        (demo_insert [4] [97] (demo_insert [1, 2, 3] [97] (demo_fresh 2 []))).metadata[j]? =
          some mj) ∧
      (demo_insert [4] [97] (demo_insert [1, 2, 3] [97] (demo_fresh 2 []))).metadata.map
          (fun m => m.is_valid) =
        (demo_insert [1, 2, 3] [97] (demo_fresh 2 [])).metadata.map (fun m => m.is_valid) :=
  do_insert_duplicate_frame demo_lib [4] [97] (demo_insert [1, 2, 3] [97] (demo_fresh 2 []))
    (demo_insert [4] [97] (demo_insert [1, 2, 3] [97] (demo_fresh 2 [])))
    (by decide!) (by decide!)

/-! ## Calls of `lazily_resize`, `do_read` and `do_delete` that report no I/O error -/

/-- The ways `lazily_resize` returns a status other than `ERR_IO`: nothing
touched, the original does not decode or resize (only the stream moved), or
the resized image appended and the slot written. -/
theorem lazily_resize_no_io (L : Lib) (res : Int) (db db' : pictdb_file) (i : Nat)
    (rc : error_code) (h : lazily_resize L res db i = some (rc, db')) (hio : rc ≠ ERR_IO) :
    (db' = db ∧ (rc = ERR_NONE → res = RES_ORIG ∨
        ∃ m, db.metadata[i]? = some m ∧ m.is_valid = NON_EMPTY ∧ m.offset.get res ≠ 0)) ∨
    ∃ m f f', db.metadata[i]? = some m ∧ m.is_valid = NON_EMPTY ∧ m.offset.get res = 0 ∧
      (res = RES_THUMB ∨ res = RES_SMALL) ∧ db.fpdb = some f ∧ db'.fpdb = some f' ∧
      db'.header = db.header ∧
      ((rc = ERR_VIPS ∧ db'.metadata = db.metadata ∧ f'.bytes = f.bytes) ∨
       (rc = ERR_NONE ∧ ∃ res_buff, res_buff ≠ [] ∧ ¬ (to_int32 f.bytes.length < 0) ∧
          m.size.orig ≠ 0 ∧ m.offset.orig + m.size.orig ≤ f.bytes.length ∧
          L.resize_jpegsave ((f.bytes.drop m.offset.orig).take m.size.orig)
            (db.header.res_resized.getD (2 * res).toNat 0)
            (db.header.res_resized.getD ((2 * res).toNat + 1) 0) = some res_buff ∧
          db'.metadata = db.metadata.set i
            { m with offset := m.offset.put res (to_int32 f.bytes.length).toNat
                     size := m.size.put res (res_buff.length % 2 ^ 32) } ∧
          f'.bytes = write_at (f.bytes ++ res_buff) (slot_pos i)
            (encode_metadata
              { m with offset := m.offset.put res (to_int32 f.bytes.length).toNat
                       size := m.size.put res (res_buff.length % 2 ^ 32) }))) := by
  unfold lazily_resize at h
  by_cases h1 : res = RES_ORIG
  · rw [if_pos h1] at h
    simp only [Option.some.injEq, Prod.mk.injEq] at h
    exact Or.inl ⟨h.2.symm, fun _ => Or.inl h1⟩
  rw [if_neg h1] at h
  by_cases h2 : res ≠ RES_THUMB ∧ res ≠ RES_SMALL
  · rw [if_pos h2] at h
    simp only [Option.some.injEq, Prod.mk.injEq] at h
    exact Or.inl ⟨h.2.symm, fun e => by rw [← h.1] at e; cases e⟩
  rw [if_neg h2] at h
  split at h
  · simp only [Option.some.injEq, Prod.mk.injEq] at h
    exact Or.inl ⟨h.2.symm, fun e => by rw [← h.1] at e; cases e⟩
  split at h
  · simp at h
  rename_i m hm
  split at h
  swap
  · simp only [Option.some.injEq, Prod.mk.injEq] at h
    exact Or.inl ⟨h.2.symm, fun e => by rw [← h.1] at e; cases e⟩
  rename_i hv
  split at h
  swap
  · rename_i hoff
    simp only [Option.some.injEq, Prod.mk.injEq] at h
    exact Or.inl ⟨h.2.symm, fun _ => Or.inr ⟨m, hm, hv, hoff⟩⟩
  rename_i hoff
  split at h
  · simp at h
  rename_i f0 hf
  have hres : res = RES_THUMB ∨ res = RES_SMALL := by
    by_cases e : res = RES_THUMB
    · exact Or.inl e
    · right; by_contra e2; exact h2 ⟨e, e2⟩
  right
  simp only at h
  rcases fseek_set_cases f0 m.offset.orig with e1 | e1 <;> rw [e1] at h <;>
    simp only [if_true, if_false, Bool.true_eq_false] at h
  swap
  · simp only [Option.some.injEq, Prod.mk.injEq] at h
    exact absurd h.1.symm hio
  rcases fread_cases ⟨f0.bytes, m.offset.orig, f0.faults.tail⟩ m.size.orig with
    ⟨e2, hsz, hrd⟩ | e2 <;> rw [e2] at h <;> simp only at h
  swap
  · simp only [Option.some.injEq, Prod.mk.injEq] at h
    exact absurd h.1.symm hio
  split at h
  · simp only [Option.some.injEq, Prod.mk.injEq] at h
    obtain ⟨rfl, rfl⟩ := h
    exact ⟨m, f0, _, hm, hv, hoff, hres, hf, rfl, rfl, Or.inl ⟨rfl, rfl, rfl⟩⟩
  split at h
  · simp only [Option.some.injEq, Prod.mk.injEq] at h
    obtain ⟨rfl, rfl⟩ := h
    exact ⟨m, f0, _, hm, hv, hoff, hres, hf, rfl, rfl, Or.inl ⟨rfl, rfl, rfl⟩⟩
  rename_i res_buff hrb
  rcases fseek_end_cases ⟨f0.bytes, m.offset.orig + m.size.orig, f0.faults.tail.tail⟩ with
    e3 | e3 <;> rw [e3] at h <;> simp only [if_true, if_false, Bool.true_eq_false] at h
  swap
  · simp only [Option.some.injEq, Prod.mk.injEq] at h
    exact absurd h.1.symm hio
  simp only [ftell] at h
  split at h
  · simp only [Option.some.injEq, Prod.mk.injEq] at h
    exact absurd h.1.symm hio
  rename_i hnn
  rcases fwrite_cases ⟨f0.bytes, f0.bytes.length, f0.faults.tail.tail.tail⟩ res_buff with
    ⟨e4, hne⟩ | e4 <;> rw [e4] at h <;> simp only [if_true, if_false, Bool.true_eq_false] at h
  swap
  · simp only [Option.some.injEq, Prod.mk.injEq] at h
    exact absurd h.1.symm hio
  rw [write_at_end] at h
  simp only at hrd hrb
  rcases fseek_set_cases ⟨f0.bytes ++ res_buff, f0.bytes.length + res_buff.length,
    f0.faults.tail.tail.tail.tail⟩ (slot_pos i) with e5 | e5 <;> rw [e5] at h <;>
    simp only [if_true, if_false, Bool.true_eq_false] at h
  swap
  · simp only [Option.some.injEq, Prod.mk.injEq] at h
    exact absurd h.1.symm hio
  rcases fwrite_cases ⟨f0.bytes ++ res_buff, slot_pos i, f0.faults.tail.tail.tail.tail.tail⟩
    (encode_metadata
      { m with offset := m.offset.put res (to_int32 f0.bytes.length).toNat
               size := m.size.put res (res_buff.length % 2 ^ 32) }) with
    ⟨e6, -⟩ | e6 <;> rw [e6] at h <;> simp only [if_true, if_false, Bool.true_eq_false] at h
  · simp only [Option.some.injEq, Prod.mk.injEq] at h
    obtain ⟨rfl, rfl⟩ := h
    exact ⟨m, f0, _, hm, hv, hoff, hres, hf, rfl, rfl, Or.inr ⟨rfl, res_buff, hne, hnn, hsz, hrd,
      hrb, rfl, rfl⟩⟩
  · simp only [Option.some.injEq, Prod.mk.injEq] at h
    exact absurd h.1.symm hio

/-- When `do_read` returns a status other than `ERR_IO`, so did the call of
`lazily_resize` it made, if any. -/
theorem do_read_no_io (L : Lib) (id : List Nat) (res : Int) (db db' : pictdb_file)
    (rc : error_code) (out : Option (List Nat × Nat))
    (h : do_read L id res db = some (rc, out, db')) (hio : rc ≠ ERR_IO) :
    ∃ db1, (db1 = db ∨ ∃ i rc1, rc1 ≠ ERR_IO ∧ lazily_resize L res db i = some (rc1, db1)) ∧
      db'.header = db1.header ∧ db'.metadata = db1.metadata ∧
      (db' = db1 ∨ ∃ f f', db1.fpdb = some f ∧ db'.fpdb = some f' ∧ f'.bytes = f.bytes) := by
  unfold do_read at h
  split at h
  · simp only [Option.some.injEq, Prod.mk.injEq] at h
    obtain ⟨-, -, rfl⟩ := h
    exact ⟨db, Or.inl rfl, rfl, rfl, Or.inl rfl⟩
  split at h
  · simp at h
  rename_i i hscan
  split at h
  · simp only [Option.some.injEq, Prod.mk.injEq] at h
    obtain ⟨-, -, rfl⟩ := h
    exact ⟨db, Or.inl rfl, rfl, rfl, Or.inl rfl⟩
  split at h
  · simp at h
  rename_i m hm
  split at h
  · split at h
    · simp only [Option.some.injEq, Prod.mk.injEq] at h
      obtain ⟨-, -, rfl⟩ := h
      exact ⟨db, Or.inl rfl, rfl, rfl, Or.inl rfl⟩
    split at h
    · simp at h
    rename_i rc1 db1 hlazy
    split at h
    · simp only [Option.some.injEq, Prod.mk.injEq] at h
      obtain ⟨hrc, -, rfl⟩ := h
      exact ⟨db1, Or.inr ⟨i, rc1, by rw [hrc]; exact hio, hlazy⟩, rfl, rfl, Or.inl rfl⟩
    · rename_i hok
      have hok' : rc1 = ERR_NONE := by simpa using hok
      obtain ⟨m', f, f', -, hf, hf', hh, hmd, hb, -⟩ := read_image_cases _ _ _ _ _ _ h
      exact ⟨db1, Or.inr ⟨i, rc1, by rw [hok']; decide, hlazy⟩, hh, hmd,
        Or.inr ⟨f, f', hf, hf', hb⟩⟩
  · obtain ⟨m', f, f', -, hf, hf', hh, hmd, hb, -⟩ := read_image_cases _ _ _ _ _ _ h
    exact ⟨db, Or.inl rfl, hh, hmd, Or.inr ⟨f, f', hf, hf', hb⟩⟩

/-- The ways `do_delete` returns a status other than `ERR_IO`: nothing
touched, or the first `NON_EMPTY` slot that carries the name emptied and the
two records written. -/
theorem do_delete_no_io (name : List Nat) (db db' : pictdb_file) (rc : error_code)
    (h : do_delete name db = some (rc, db')) (hio : rc ≠ ERR_IO) :
    (rc ≠ ERR_NONE ∧ db' = db) ∨
    (rc = ERR_NONE ∧ ∃ idx m f f', db.metadata[idx]? = some m ∧ m.is_valid = NON_EMPTY ∧
      c_str m.pict_id = c_str name ∧ idx < db.header.max_files ∧
      (∀ j mj, j < idx → db.metadata[j]? = some mj →
        ¬ (mj.is_valid = NON_EMPTY ∧ c_str mj.pict_id = c_str name)) ∧
      db'.metadata = db.metadata.set idx { m with is_valid := EMPTY } ∧
      db.fpdb = some f ∧ db'.fpdb = some f' ∧ db'.header = delete_header db.header ∧
      f'.bytes = write_at (write_at f.bytes (slot_pos idx)
        (encode_metadata { m with is_valid := EMPTY })) 0
        (encode_header (delete_header db.header))) := by
  unfold do_delete at h
  split at h
  · simp only [Option.some.injEq, Prod.mk.injEq] at h
    obtain ⟨rfl, rfl⟩ := h
    exact Or.inl ⟨by decide, rfl⟩
  split at h
  · simp at h
  · simp only [Option.some.injEq, Prod.mk.injEq] at h
    obtain ⟨rfl, rfl⟩ := h
    exact Or.inl ⟨by decide, rfl⟩
  rename_i idx hscan
  obtain ⟨m, -, hidx, hm, hp, hbefore⟩ := first_slot_some_some _ _ _ _ _ hscan
  simp only [Nat.sub_zero] at hm hbefore
  simp only [strcmp_eq_zero, decide_eq_true_eq] at hp
  rw [hm] at h
  simp only at h
  have hlow : ∀ j mj, j < idx → db.metadata[j]? = some mj →
      ¬ (mj.is_valid = NON_EMPTY ∧ c_str mj.pict_id = c_str name) := by
    intro j mj hj hmj
    have := hbefore j mj hj hmj
    simpa [strcmp_eq_zero] using this
  split at h
  · simp only [Option.some.injEq, Prod.mk.injEq] at h
    exact absurd h.1.symm hio
  rename_i f0 hf
  have hf0 : db.fpdb = some f0 := hf
  rcases fseek_set_cases f0 (slot_pos idx) with e1 | e1 <;> rw [e1] at h <;>
    simp only [if_true, if_false, Bool.true_eq_false] at h
  swap
  · simp only [Option.some.injEq, Prod.mk.injEq] at h
    exact absurd h.1.symm hio
  rcases fwrite_cases ⟨f0.bytes, slot_pos idx, f0.faults.tail⟩
    (encode_metadata { m with is_valid := EMPTY }) with ⟨e2, -⟩ | e2 <;> rw [e2] at h <;>
    simp only [if_true, if_false, Bool.true_eq_false] at h
  swap
  · simp only [Option.some.injEq, Prod.mk.injEq] at h
    exact absurd h.1.symm hio
  rcases fseek_set_cases ⟨write_at f0.bytes (slot_pos idx)
      (encode_metadata { m with is_valid := EMPTY }),
    slot_pos idx + (encode_metadata { m with is_valid := EMPTY }).length,
    f0.faults.tail.tail⟩ 0 with e3 | e3 <;> rw [e3] at h <;>
    simp only [if_true, if_false, Bool.true_eq_false] at h
  swap
  · simp only [Option.some.injEq, Prod.mk.injEq] at h
    exact absurd h.1.symm hio
  rcases fwrite_cases ⟨write_at f0.bytes (slot_pos idx)
      (encode_metadata { m with is_valid := EMPTY }), 0, f0.faults.tail.tail.tail⟩
    (encode_header (delete_header db.header)) with ⟨e4, -⟩ | e4
  · have e4' := e4
    simp only [delete_header, set_slot] at e4' h
    rw [e4'] at h
    simp only [if_true, if_false, Bool.true_eq_false, Option.some.injEq, Prod.mk.injEq] at h
    obtain ⟨rfl, rfl⟩ := h
    exact Or.inr ⟨rfl, idx, m, f0, _, hm, hp.1, hp.2, hidx, hlow, rfl, hf0, rfl, rfl, rfl⟩
  · have e4' := e4
    simp only [delete_header, set_slot] at e4' h
    rw [e4'] at h
    simp only [if_true, if_false, Bool.true_eq_false, Option.some.injEq, Prod.mk.injEq] at h
    exact absurd h.1.symm hio

/-! ## What a successful `do_delete` changes -/

/-- C23: in a database whose table has `max_files` slots with unique ids and
whose file holds the header and the table, a `do_delete` of the id of the
`NON_EMPTY` slot `i` that returns `0` sets the flag of slot `i` to `EMPTY` and
nothing else in the table, takes one from `num_files` (not below zero), adds
one to `db_version` modulo `2^32`, keeps the other header fields, the length
of the file, the data region and the records of the other slots, and leaves
on disk the header and the slot `i` it leaves in memory. -/
theorem do_delete_frame (name : List Nat) (db db' : pictdb_file) (f f' : FILE) (i : Nat)
    (m : pict_metadata) (hlen : db.metadata.length = db.header.max_files)
    (huniq : unique_ids db.metadata) (hf : db.fpdb = some f)
    (hD : data_start db.header.max_files ≤ f.bytes.length)
    (hm : db.metadata[i]? = some m) (hv : m.is_valid = NON_EMPTY)
    (hid : c_str m.pict_id = c_str name)
    (h : do_delete name db = some (ERR_NONE, db')) (hf' : db'.fpdb = some f') :
    db'.metadata = db.metadata.set i { m with is_valid := EMPTY } ∧
    db'.header = delete_header db.header ∧
    db'.header.num_files =
      (if db.header.num_files > 0 then db.header.num_files - 1 else db.header.num_files) ∧
    db'.header.db_version = (db.header.db_version + 1) % 2 ^ 32 ∧
    db'.header.max_files = db.header.max_files ∧
    db'.header.res_resized = db.header.res_resized ∧
    f'.bytes.length = f.bytes.length ∧
    f'.bytes.drop (data_start db.header.max_files) =
      f.bytes.drop (data_start db.header.max_files) ∧
    header_record f'.bytes = encode_header db'.header ∧
    slot_record f'.bytes i = encode_metadata { m with is_valid := EMPTY } ∧
    ∀ j, j ≠ i → slot_record f'.bytes j = slot_record f.bytes j := by
  rcases do_delete_no_io name db db' _ h (by decide) with ⟨hc, -⟩ |
    ⟨-, idx, m0, f0, f0', hm0, hv0, hid0, -, -, hmd, hf0, hf0', hh, hb⟩
  · exact absurd rfl hc
  have e : idx = i := huniq idx i m0 m hm0 hm hv0 hv (hid0.trans hid.symm)
  subst e
  rw [hm] at hm0; cases hm0
  rw [hf] at hf0; cases hf0
  rw [hf'] at hf0'; cases hf0'
  have hlt := getElem?_lt hm
  have hend := slot_end_le hlt hlen
  have hel : (encode_metadata { m with is_valid := EMPTY }).length = 216 :=
    encode_metadata_length _
  have hhl : (encode_header (delete_header db.header)).length = 64 := encode_header_length _
  have hge := slot_pos_ge idx
  have hl1 : (write_at f.bytes (slot_pos idx)
      (encode_metadata { m with is_valid := EMPTY })).length = f.bytes.length :=
    write_at_length _ _ _ (by rw [hel]; omega)
  have hD0 : 64 ≤ data_start db.header.max_files := by
    have := slot_pos_ge db.header.max_files
    exact this
  refine ⟨hmd, hh, by rw [hh]; rfl, by rw [hh]; rfl, by rw [hh]; rfl, by rw [hh]; rfl, ?_, ?_,
    ?_, ?_, ?_⟩
  · rw [hb, write_at_length _ _ _ (by rw [hhl, hl1]; omega), hl1]
  · rw [hb, write_at_drop _ _ _ _ (by rw [hhl]; omega) (by rw [hl1]; omega),
      write_at_drop _ _ _ _ (by rw [hel]; omega) hD]
  · rw [hh, hb]
    have := slice_write_same (write_at f.bytes (slot_pos idx)
      (encode_metadata { m with is_valid := EMPTY })) (encode_header (delete_header db.header)) 0
      (by rw [hhl, hl1]; omega)
    rw [hhl] at this
    simpa [header_record, sizeof_header] using this
  · rw [hb]
    unfold slot_record
    rw [slice_write_other _ _ _ _ _ (by rw [hhl, hl1]; omega) (Or.inr (by rw [hhl]; omega))]
    have := slice_write_same f.bytes (encode_metadata { m with is_valid := EMPTY })
      (slot_pos idx) (by rw [hel]; omega)
    rw [hel] at this
    exact this
  · intro j hj
    rw [hb]
    unfold slot_record
    have hgj := slot_pos_ge j
    rw [slice_write_other _ _ _ _ _ (by rw [hhl, hl1]; omega) (Or.inr (by rw [hhl]; omega)),
      slice_write_other _ _ _ _ _ (by rw [hel]; omega) (by
        rw [hel]
        simp only [slot_pos, sizeof_header, sizeof_metadata]
        omega)]

theorem do_delete_frame_witness :
    (demo_delete [97] (demo_insert [1, 2, 3] [97] (demo_fresh 2 []))).metadata =
        (demo_insert [1, 2, 3] [97] (demo_fresh 2 [])).metadata.set 0
          { (demo_insert [1, 2, 3] [97] (demo_fresh 2 [])).metadata.getD 0 zero_metadata with
            is_valid := EMPTY } ∧
      (demo_delete [97] (demo_insert [1, 2, 3] [97] (demo_fresh 2 []))).header =
        delete_header (demo_insert [1, 2, 3] [97] (demo_fresh 2 [])).header ∧
      (demo_delete [97] (demo_insert [1, 2, 3] [97] (demo_fresh 2 []))).header.num_files =
        (if (demo_insert [1, 2, 3] [97] (demo_fresh 2 [])).header.num_files > 0 then
          (demo_insert [1, 2, 3] [97] (demo_fresh 2 [])).header.num_files - 1
        else (demo_insert [1, 2, 3] [97] (demo_fresh 2 [])).header.num_files) ∧
      (demo_delete [97] (demo_insert [1, 2, 3] [97] (demo_fresh 2 []))).header.db_version =
        ((demo_insert [1, 2, 3] [97] (demo_fresh 2 [])).header.db_version + 1) % 2 ^ 32 ∧
      (demo_delete [97] (demo_insert [1, 2, 3] [97] (demo_fresh 2 []))).header.max_files =
        (demo_insert [1, 2, 3] [97] (demo_fresh 2 [])).header.max_files ∧
      (demo_delete [97] (demo_insert [1, 2, 3] [97] (demo_fresh 2 []))).header.res_resized =
        (demo_insert [1, 2, 3] [97] (demo_fresh 2 [])).header.res_resized ∧
      (demo_file (demo_delete [97] (demo_insert [1, 2, 3] [97] (demo_fresh 2 [])))).bytes.length =
        (demo_file (demo_insert [1, 2, 3] [97] (demo_fresh 2 []))).bytes.length ∧
      (demo_file (demo_delete [97] (demo_insert [1, 2, 3] [97] (demo_fresh 2 [])))).bytes.drop
          (data_start (demo_insert [1, 2, 3] [97] (demo_fresh 2 [])).header.max_files) =
        (demo_file (demo_insert [1, 2, 3] [97] (demo_fresh 2 []))).bytes.drop
          (data_start (demo_insert [1, 2, 3] [97] (demo_fresh 2 [])).header.max_files) ∧
      header_record (demo_file (demo_delete [97]
          (demo_insert [1, 2, 3] [97] (demo_fresh 2 [])))).bytes =
        encode_header (demo_delete [97] (demo_insert [1, 2, 3] [97] (demo_fresh 2 []))).header ∧
      slot_record (demo_file (demo_delete [97]
          (demo_insert [1, 2, 3] [97] (demo_fresh 2 [])))).bytes 0 =
        encode_metadata
          { (demo_insert [1, 2, 3] [97] (demo_fresh 2 [])).metadata.getD 0 zero_metadata with
            is_valid := EMPTY } ∧
      ∀ j, j ≠ 0 →
        slot_record (demo_file (demo_delete [97]
          (demo_insert [1, 2, 3] [97] (demo_fresh 2 [])))).bytes j =
        slot_record (demo_file (demo_insert [1, 2, 3] [97] (demo_fresh 2 []))).bytes j :=
  do_delete_frame [97] (demo_insert [1, 2, 3] [97] (demo_fresh 2 []))
    (demo_delete [97] (demo_insert [1, 2, 3] [97] (demo_fresh 2 [])))
    (demo_file (demo_insert [1, 2, 3] [97] (demo_fresh 2 [])))
    (demo_file (demo_delete [97] (demo_insert [1, 2, 3] [97] (demo_fresh 2 [])))) 0
    ((demo_insert [1, 2, 3] [97] (demo_fresh 2 [])).metadata.getD 0 zero_metadata)
    (by decide!) (reachable_inv demo_lib _ demo_reachable_one).2.2.1 (by decide!) (by decide!)
    (by decide!) (by decide!) (by decide!) (by decide!) (by decide!)

/-! ## What a successful `lazily_resize` changes -/

/-- C24 (counterexample): the database `do_create` makes for one slot receives
an image of `2^32 - 280` bytes, so that its file is `2^32` bytes long. The
call `lazily_resize(RES_THUMB, db, 0)` returns `0` and appends the resized
image at offset `2^32`, but the slot records `offset[RES_THUMB] = 0`. -/
theorem lazily_resize_offset_large_file :
    ∃ db1 f1 db2,
      do_insert demo_lib payload_fill [97] (demo_fresh 1 []) = some (ERR_NONE, db1) ∧
      db1.fpdb = some f1 ∧ f1.bytes.length = 2 ^ 32 ∧
      lazily_resize demo_lib RES_THUMB db1 0 = some (ERR_NONE, db2) ∧
      db2.metadata.map (fun m => m.offset.thumb) = [0] := by
  have hne : payload_fill ≠ [] := by
    intro e
    have h := payload_fill_length
    rw [e] at h
    exact absurd h (by decide)
  obtain ⟨db1, f1, hins, hf1, hfl1, hlen1, -, -, sha, wh, sz, hsz, hmd1⟩ :=
    demo_insert_fresh payload_fill hne
  rw [payload_fill_length] at hsz hlen1
  have hsz' : sz = 4294967016 := by rw [hsz]; decide
  have hl1 : f1.bytes.length = 4294967296 := by rw [hlen1]; decide
  subst hsz'
  obtain ⟨db2, f2, hr2, -, -, -, hmd2⟩ := demo_resize_thumb db1 f1 _ hmd1 rfl rfl
    hf1 hfl1 (show (4294967016 : Nat) ≠ 0 by decide)
    (by rw [hl1]; show 280 + 4294967016 ≤ 4294967296; decide)
    (by rw [hl1]; decide) (by rw [hl1]; decide)
  refine ⟨db1, f1, db2, hins, hf1, hl1, hr2, ?_⟩
  rw [hmd2, hl1]
  show [(to_int32 4294967296).toNat] = [0]
  decide

/-- C24 (amended): for a slot `i` with `offset[r] = 0`, `r` one of `RES_THUMB`
and `RES_SMALL`, in a database whose table has `max_files` slots and whose
file holds the header and the table, a call of `lazily_resize` that returns
`0` and leaves a file shorter than `2^32` bytes found the slot `NON_EMPTY`,
keeps the header in memory and on disk, changes in the table only `offset[r]`
and `size[r]` of slot `i`, which become the length of the file before the call
and the length of the resized image, and leaves the previous file with the
resized image appended and the record of slot `i` rewritten. -/
theorem lazily_resize_frame (L : Lib) (res : Int) (db db' : pictdb_file) (i : Nat)
    (m : pict_metadata) (f f' : FILE) (hres : res = RES_THUMB ∨ res = RES_SMALL)
    (hlen : db.metadata.length = db.header.max_files)
    (hm : db.metadata[i]? = some m) (hoff : m.offset.get res = 0) (hf : db.fpdb = some f)
    (hD : data_start db.header.max_files ≤ f.bytes.length)
    (h : lazily_resize L res db i = some (ERR_NONE, db')) (hf' : db'.fpdb = some f')
    (hsmall : f'.bytes.length < 2 ^ 32) :
    m.is_valid = NON_EMPTY ∧ ∃ res_buff,
      L.resize_jpegsave ((f.bytes.drop m.offset.orig).take m.size.orig)
        (db.header.res_resized.getD (2 * res).toNat 0)
        (db.header.res_resized.getD ((2 * res).toNat + 1) 0) = some res_buff ∧
      db'.header = db.header ∧
      db'.metadata = db.metadata.set i
        { m with offset := m.offset.put res f.bytes.length
                 size := m.size.put res res_buff.length } ∧
      f'.bytes = write_at (f.bytes ++ res_buff) (slot_pos i)
        (encode_metadata { m with offset := m.offset.put res f.bytes.length
                                  size := m.size.put res res_buff.length }) ∧
      f'.bytes.length = f.bytes.length + res_buff.length ∧
      f'.bytes.drop (data_start db.header.max_files) =
        f.bytes.drop (data_start db.header.max_files) ++ res_buff ∧
      header_record f'.bytes = header_record f.bytes ∧
      slot_record f'.bytes i =
        encode_metadata { m with offset := m.offset.put res f.bytes.length
                                 size := m.size.put res res_buff.length } ∧
      ∀ j, j ≠ i → j < db.header.max_files →
        slot_record f'.bytes j = slot_record f.bytes j := by
  rcases lazily_resize_no_io L res db db' i _ h (by decide) with ⟨-, hc⟩ |
    ⟨m0, f0, f0', hm0, hv, -, -, hf0, hf0', hh, hcase⟩
  · exfalso
    rcases hc rfl with e | ⟨m0, hm0, -, hne⟩
    · rcases hres with r | r <;> rw [r] at e <;> exact absurd e (by decide)
    · rw [hm] at hm0; cases hm0
      exact hne hoff
  rw [hm] at hm0; cases hm0
  rw [hf] at hf0; cases hf0
  rw [hf'] at hf0'; cases hf0'
  rcases hcase with ⟨hc, -⟩ | ⟨-, res_buff, -, hnn, -, -, hrb, hmd, hb⟩
  · cases hc
  have hlt := getElem?_lt hm
  have hend := slot_end_le hlt hlen
  have hge := slot_pos_ge i
  have hel : ∀ x : pict_metadata, (encode_metadata x).length = 216 := encode_metadata_length
  have hlb : f'.bytes.length = f.bytes.length + res_buff.length := by
    rw [hb, write_at_length _ _ _ (by rw [hel, List.length_append]; omega), List.length_append]
  have hfs : f.bytes.length < 2 ^ 32 := by omega
  have hrs : res_buff.length % 2 ^ 32 = res_buff.length := Nat.mod_eq_of_lt (by omega)
  have hto : (to_int32 f.bytes.length).toNat = f.bytes.length :=
    to_int32_nonneg _ hfs hnn
  rw [hto, hrs] at hmd hb
  refine ⟨hv, res_buff, hrb, hh, hmd, hb, hlb, ?_, ?_, ?_, ?_⟩
  · rw [hb, write_at_drop _ _ _ _ (by rw [hel]; omega) (by rw [List.length_append]; omega),
      List.drop_append_of_le_length hD]
  · rw [hb]
    unfold header_record
    have h1 := slice_write_other (f.bytes ++ res_buff)
      (encode_metadata { m with offset := m.offset.put res f.bytes.length
                                size := m.size.put res res_buff.length })
      (slot_pos i) 0 sizeof_header (by rw [hel, List.length_append]; omega)
      (Or.inl (by simp only [sizeof_header]; omega))
    have h2 := slice_append f.bytes res_buff 0 sizeof_header
      (by simp only [sizeof_header]; omega)
    simp only [List.drop_zero] at h1 h2
    rw [h1, h2]
  · rw [hb]
    unfold slot_record
    have := slice_write_same (f.bytes ++ res_buff)
      (encode_metadata { m with offset := m.offset.put res f.bytes.length
                                size := m.size.put res res_buff.length })
      (slot_pos i) (by rw [hel, List.length_append]; omega)
    rw [hel] at this
    exact this
  · intro j hj hjN
    rw [hb]
    unfold slot_record
    have hjend : slot_pos j + 216 ≤ data_start db.header.max_files := by
      simp only [slot_pos, data_start, sizeof_header, sizeof_metadata]
      have := Nat.mul_le_mul_right 216 (show j + 1 ≤ db.header.max_files by omega)
      omega
    rw [slice_write_other _ _ _ _ _ (by rw [hel, List.length_append]; omega) (by
        rw [hel]
        simp only [slot_pos, sizeof_header, sizeof_metadata]
        omega),
      slice_append _ _ _ _ (by simp only [sizeof_metadata]; omega)]

theorem lazily_resize_frame_witness :
    ((demo_insert [1, 2, 3] [97] (demo_fresh 2 [])).metadata.getD 0 zero_metadata).is_valid =
      NON_EMPTY ∧ ∃ res_buff,
      demo_lib.resize_jpegsave
        (((demo_file (demo_insert [1, 2, 3] [97] (demo_fresh 2 []))).bytes.drop
          ((demo_insert [1, 2, 3] [97] (demo_fresh 2 [])).metadata.getD 0
            zero_metadata).offset.orig).take
          ((demo_insert [1, 2, 3] [97] (demo_fresh 2 [])).metadata.getD 0
            zero_metadata).size.orig)
        ((demo_insert [1, 2, 3] [97] (demo_fresh 2 [])).header.res_resized.getD
          (2 * RES_THUMB).toNat 0)
        ((demo_insert [1, 2, 3] [97] (demo_fresh 2 [])).header.res_resized.getD
          ((2 * RES_THUMB).toNat + 1) 0) = some res_buff ∧
      (demo_resize RES_THUMB 0 (demo_insert [1, 2, 3] [97] (demo_fresh 2 []))).header =
        (demo_insert [1, 2, 3] [97] (demo_fresh 2 [])).header ∧
      (demo_resize RES_THUMB 0 (demo_insert [1, 2, 3] [97] (demo_fresh 2 []))).metadata =
        (demo_insert [1, 2, 3] [97] (demo_fresh 2 [])).metadata.set 0
          { (demo_insert [1, 2, 3] [97] (demo_fresh 2 [])).metadata.getD 0 zero_metadata with
            offset := ((demo_insert [1, 2, 3] [97] (demo_fresh 2 [])).metadata.getD 0
              zero_metadata).offset.put RES_THUMB
                (demo_file (demo_insert [1, 2, 3] [97] (demo_fresh 2 []))).bytes.length
            size := ((demo_insert [1, 2, 3] [97] (demo_fresh 2 [])).metadata.getD 0
              zero_metadata).size.put RES_THUMB res_buff.length } ∧
      (demo_file (demo_resize RES_THUMB 0
          (demo_insert [1, 2, 3] [97] (demo_fresh 2 [])))).bytes =
        write_at ((demo_file (demo_insert [1, 2, 3] [97] (demo_fresh 2 []))).bytes ++ res_buff)
          (slot_pos 0)
          (encode_metadata
            { (demo_insert [1, 2, 3] [97] (demo_fresh 2 [])).metadata.getD 0 zero_metadata with
              offset := ((demo_insert [1, 2, 3] [97] (demo_fresh 2 [])).metadata.getD 0
                zero_metadata).offset.put RES_THUMB
                  (demo_file (demo_insert [1, 2, 3] [97] (demo_fresh 2 []))).bytes.length
              size := ((demo_insert [1, 2, 3] [97] (demo_fresh 2 [])).metadata.getD 0
                zero_metadata).size.put RES_THUMB res_buff.length }) ∧
      (demo_file (demo_resize RES_THUMB 0
          (demo_insert [1, 2, 3] [97] (demo_fresh 2 [])))).bytes.length =
        (demo_file (demo_insert [1, 2, 3] [97] (demo_fresh 2 []))).bytes.length +
          res_buff.length ∧
      (demo_file (demo_resize RES_THUMB 0
          (demo_insert [1, 2, 3] [97] (demo_fresh 2 [])))).bytes.drop
          (data_start (demo_insert [1, 2, 3] [97] (demo_fresh 2 [])).header.max_files) =
        (demo_file (demo_insert [1, 2, 3] [97] (demo_fresh 2 []))).bytes.drop
          (data_start (demo_insert [1, 2, 3] [97] (demo_fresh 2 [])).header.max_files) ++
          res_buff ∧
      header_record (demo_file (demo_resize RES_THUMB 0
          (demo_insert [1, 2, 3] [97] (demo_fresh 2 [])))).bytes =
        header_record (demo_file (demo_insert [1, 2, 3] [97] (demo_fresh 2 []))).bytes ∧
      slot_record (demo_file (demo_resize RES_THUMB 0
          (demo_insert [1, 2, 3] [97] (demo_fresh 2 [])))).bytes 0 =
        encode_metadata
          { (demo_insert [1, 2, 3] [97] (demo_fresh 2 [])).metadata.getD 0 zero_metadata with
            offset := ((demo_insert [1, 2, 3] [97] (demo_fresh 2 [])).metadata.getD 0
              zero_metadata).offset.put RES_THUMB
                (demo_file (demo_insert [1, 2, 3] [97] (demo_fresh 2 []))).bytes.length
            size := ((demo_insert [1, 2, 3] [97] (demo_fresh 2 [])).metadata.getD 0
              zero_metadata).size.put RES_THUMB res_buff.length } ∧
      ∀ j, j ≠ 0 → j < (demo_insert [1, 2, 3] [97] (demo_fresh 2 [])).header.max_files →
        slot_record (demo_file (demo_resize RES_THUMB 0
          (demo_insert [1, 2, 3] [97] (demo_fresh 2 [])))).bytes j =
        slot_record (demo_file (demo_insert [1, 2, 3] [97] (demo_fresh 2 []))).bytes j :=
  lazily_resize_frame demo_lib RES_THUMB (demo_insert [1, 2, 3] [97] (demo_fresh 2 []))
    (demo_resize RES_THUMB 0 (demo_insert [1, 2, 3] [97] (demo_fresh 2 []))) 0
    ((demo_insert [1, 2, 3] [97] (demo_fresh 2 [])).metadata.getD 0 zero_metadata)
    (demo_file (demo_insert [1, 2, 3] [97] (demo_fresh 2 [])))
    (demo_file (demo_resize RES_THUMB 0 (demo_insert [1, 2, 3] [97] (demo_fresh 2 []))))
    (Or.inl rfl) (by decide!) (by decide!) (by decide!) (by decide!) (by decide!) (by decide!)
    (by decide!) (by decide!)

/-! ## The offset `do_insert` records for an appended image -/

/-- C29: when `do_insert` returns `0` on a file of `L` bytes that holds the
header and the table, either a `NON_EMPTY` slot with the same digest and a
non-zero offset shares its content and the file keeps its length, or the image
is appended at position `L`: the new slot records `offset[RES_ORIG] = L mod
2^32`, which is `L` exactly when `L < 2^32`, and (when every `NON_EMPTY` slot
with the same digest has the size of the image modulo `2^32`)
`size[RES_ORIG] = img_size mod 2^32`. -/
theorem do_insert_append_offset (L : Lib) (img id : List Nat) (db db' : pictdb_file)
    (f f' : FILE) (hlen : db.metadata.length = db.header.max_files)
    (hf : db.fpdb = some f) (hD : data_start db.header.max_files ≤ f.bytes.length)
    (hcoll : ∀ dup ∈ db.metadata, dup.is_valid = NON_EMPTY → dup.SHA = L.SHA256 img →
      dup.size.orig = img.length % 2 ^ 32)
    (h : do_insert L img id db = some (ERR_NONE, db')) (hf' : db'.fpdb = some f') :
    (∃ dup ∈ db.metadata, dup.is_valid = NON_EMPTY ∧ dup.SHA = L.SHA256 img ∧
      dup.offset.orig ≠ 0 ∧ f'.bytes.length = f.bytes.length) ∨
    ∃ (i : Nat) (m m' : pict_metadata), db.metadata[i]? = some m ∧ m.is_valid ≠ NON_EMPTY ∧
      db'.metadata = db.metadata.set i m' ∧ m'.is_valid = NON_EMPTY ∧
      m'.offset.orig = f.bytes.length % 2 ^ 32 ∧ m'.size.orig = img.length % 2 ^ 32 ∧
      f'.bytes.length = f.bytes.length + img.length ∧ f'.bytes.drop f.bytes.length = img ∧
      (m'.offset.orig = f.bytes.length ↔ f.bytes.length < 2 ^ 32) := by
  rcases do_insert_cases L img id db db' ERR_NONE hlen h with ⟨hc, -⟩ |
    ⟨i, m, hm, hv, -, -, -, -, -, hcase⟩
  · exact absurd rfl hc
  rcases hcase with ⟨hc, -⟩ | ⟨-, -, -, f0, f0', hf0, hf0', -, hsucc⟩
  · exact absurd rfl hc
  rw [hf] at hf0; cases hf0
  rw [hf'] at hf0'; cases hf0'
  have hpos := slot_in_table hlen hm
  rcases hsucc with ⟨k, dup, hk, -, hdv, hds, -, hdoff, -, hb⟩ | ⟨wh, s, -, hmd, hs, hb⟩
  · exact Or.inl ⟨dup, List.getElem?_mem hk, hdv, hds, hdoff, (hb _ hpos hD).1⟩
  · right
    have hsame := hb _ hpos hD
    have hs' : s = img.length % 2 ^ 32 := by
      rcases hs with ⟨-, e⟩ | ⟨k, dup, hk, -, hdv, hds, -, e⟩
      · exact e
      · rw [e]; exact hcoll dup (List.getElem?_mem hk) hdv hds
    refine ⟨i, m, _, hm, hv, hmd, rfl, rfl, hs', ?_, ?_, ?_⟩
    · rw [hsame.1, List.length_append]
    · have e : f'.bytes.drop f.bytes.length =
          (f'.bytes.drop (data_start db.header.max_files)).drop
            (f.bytes.length - data_start db.header.max_files) := by
        rw [List.drop_drop]; congr 1; omega
      rw [e, hsame.2, List.drop_drop]
      have e2 : data_start db.header.max_files +
          (f.bytes.length - data_start db.header.max_files) = f.bytes.length := by omega
      rw [e2, List.drop_left]
    · show f.bytes.length % 2 ^ 32 = f.bytes.length ↔ f.bytes.length < 2 ^ 32
      exact Nat.mod_eq_iff_lt (by decide)

theorem do_insert_append_offset_witness :
    (∃ dup ∈ (demo_fresh 2 []).metadata, dup.is_valid = NON_EMPTY ∧
      dup.SHA = demo_lib.SHA256 [1, 2, 3] ∧ dup.offset.orig ≠ 0 ∧
      (demo_file (demo_insert [1, 2, 3] [97] (demo_fresh 2 []))).bytes.length =
        (demo_file (demo_fresh 2 [])).bytes.length) ∨
    ∃ (i : Nat) (m m' : pict_metadata), (demo_fresh 2 []).metadata[i]? = some m ∧
      m.is_valid ≠ NON_EMPTY ∧
      (demo_insert [1, 2, 3] [97] (demo_fresh 2 [])).metadata =
        (demo_fresh 2 []).metadata.set i m' ∧ m'.is_valid = NON_EMPTY ∧
      m'.offset.orig = (demo_file (demo_fresh 2 [])).bytes.length % 2 ^ 32 ∧
      m'.size.orig = [1, 2, 3].length % 2 ^ 32 ∧
      (demo_file (demo_insert [1, 2, 3] [97] (demo_fresh 2 []))).bytes.length =
        (demo_file (demo_fresh 2 [])).bytes.length + [1, 2, 3].length ∧
      (demo_file (demo_insert [1, 2, 3] [97] (demo_fresh 2 []))).bytes.drop
        (demo_file (demo_fresh 2 [])).bytes.length = [1, 2, 3] ∧
      (m'.offset.orig = (demo_file (demo_fresh 2 [])).bytes.length ↔
        (demo_file (demo_fresh 2 [])).bytes.length < 2 ^ 32) :=
  do_insert_append_offset demo_lib [1, 2, 3] [97] (demo_fresh 2 [])
    (demo_insert [1, 2, 3] [97] (demo_fresh 2 [])) (demo_file (demo_fresh 2 []))
    (demo_file (demo_insert [1, 2, 3] [97] (demo_fresh 2 []))) (by decide!) (by decide!)
    (by decide!) (by decide!) (by decide!) (by decide!)

/-! ## The records on disk and the table in memory -/

theorem encode_metadata_flag (m : pict_metadata) :
    ((encode_metadata m).drop 208).take 2 = le_bytes 2 m.is_valid := by
  unfold encode_metadata
  have hx : (fit 128 m.pict_id ++ fit 32 m.SHA ++ le_bytes 4 m.res_orig.1
      ++ le_bytes 4 m.res_orig.2 ++ le_bytes 4 m.size.thumb ++ le_bytes 4 m.size.small
      ++ le_bytes 4 m.size.orig ++ List.replicate 4 0 ++ le_bytes 8 m.offset.thumb
      ++ le_bytes 8 m.offset.small ++ le_bytes 8 m.offset.orig).length = 208 := by
    simp [fit_length, le_bytes_length]
  generalize (fit 128 m.pict_id ++ fit 32 m.SHA ++ le_bytes 4 m.res_orig.1
      ++ le_bytes 4 m.res_orig.2 ++ le_bytes 4 m.size.thumb ++ le_bytes 4 m.size.small
      ++ le_bytes 4 m.size.orig ++ List.replicate 4 0 ++ le_bytes 8 m.offset.thumb
      ++ le_bytes 8 m.offset.small ++ le_bytes 8 m.offset.orig) = X at hx ⊢
  rw [List.append_assoc, List.append_assoc, List.drop_left' hx,
    List.take_left' (le_bytes_length 2 _)]

theorem flag_of_record {b : List Nat} {i : Nat} {m : pict_metadata}
    (h : slot_record b i = encode_metadata m) : disk_flag b i = le_bytes 2 m.is_valid := by
  unfold disk_flag
  rw [slice_slice b _ (slot_pos i) sizeof_metadata 208 2 h (by decide)]
  exact encode_metadata_flag m

theorem tod_append {b : List Nat} {tbl : List pict_metadata} {N : Nat} (t : List Nat)
    (h : table_on_disk b tbl) (hlen : tbl.length = N) (hD : data_start N ≤ b.length) :
    table_on_disk (b ++ t) tbl := by
  intro j mj hj
  have hend := slot_end_le (getElem?_lt hj) hlen
  obtain ⟨h1, h2⟩ := h j mj hj
  refine ⟨?_, ?_⟩
  · unfold disk_flag at h1 ⊢
    rw [slice_append _ _ _ _ (by omega)]
    exact h1
  · intro hv
    have := h2 hv
    unfold slot_record at this ⊢
    rw [slice_append _ _ _ _ (by simp only [sizeof_metadata]; omega)]
    exact this

theorem tod_write_header {b d : List Nat} {tbl : List pict_metadata}
    (h : table_on_disk b tbl) (hd : d.length = 64) (hb : 64 ≤ b.length) :
    table_on_disk (write_at b 0 d) tbl := by
  intro j mj hj
  have hge := slot_pos_ge j
  obtain ⟨h1, h2⟩ := h j mj hj
  refine ⟨?_, ?_⟩
  · unfold disk_flag at h1 ⊢
    rw [slice_write_other _ _ _ _ _ (by omega) (Or.inr (by omega))]
    exact h1
  · intro hv
    have := h2 hv
    unfold slot_record at this ⊢
    rw [slice_write_other _ _ _ _ _ (by omega) (Or.inr (by omega))]
    exact this

theorem tod_write_slot {b : List Nat} {tbl : List pict_metadata} {N i : Nat}
    (m' : pict_metadata) (h : table_on_disk b tbl) (hi : i < tbl.length)
    (hlen : tbl.length = N) (hD : data_start N ≤ b.length) :
    table_on_disk (write_at b (slot_pos i) (encode_metadata m')) (tbl.set i m') := by
  have hel : (encode_metadata m').length = 216 := encode_metadata_length m'
  have hend := slot_end_le hi hlen
  intro j mj hj
  by_cases hji : i = j
  · subst hji
    rw [List.getElem?_set_self hi] at hj
    cases hj
    have hrec : slot_record (write_at b (slot_pos i) (encode_metadata m')) i =
        encode_metadata m' := by
      unfold slot_record
      have := slice_write_same b (encode_metadata m') (slot_pos i) (by omega)
      rw [hel] at this
      exact this
    exact ⟨flag_of_record hrec, fun _ => hrec⟩
  · rw [List.getElem?_set_ne hji] at hj
    obtain ⟨h1, h2⟩ := h j mj hj
    have hdis : slot_pos j + 216 ≤ slot_pos i ∨ slot_pos i + 216 ≤ slot_pos j := by
      simp only [slot_pos, sizeof_header, sizeof_metadata]
      omega
    refine ⟨?_, ?_⟩
    · unfold disk_flag at h1 ⊢
      rw [slice_write_other _ _ _ _ _ (by omega) (by omega)]
      exact h1
    · intro hv
      have := h2 hv
      unfold slot_record at this ⊢
      rw [slice_write_other _ _ _ _ _ (by omega) (by
        simp only [sizeof_metadata]; omega)]
      exact this

theorem tod_set_free {b : List Nat} {tbl : List pict_metadata} {i : Nat}
    (m' : pict_metadata) (h : table_on_disk b tbl) (hi : i < tbl.length)
    (hflag : disk_flag b i = le_bytes 2 m'.is_valid) (hv : m'.is_valid ≠ NON_EMPTY) :
    table_on_disk b (tbl.set i m') := by
  intro j mj hj
  by_cases hji : i = j
  · subst hji
    rw [List.getElem?_set_self hi] at hj
    cases hj
    exact ⟨hflag, fun e => absurd e hv⟩
  · rw [List.getElem?_set_ne hji] at hj
    exact h j mj hj

theorem header_record_append (b t : List Nat) (hb : 64 ≤ b.length) :
    header_record (b ++ t) = header_record b := by
  unfold header_record
  rw [List.take_append_of_le_length (by simp only [sizeof_header]; omega)]

theorem header_record_write_header (b d : List Nat) (hd : d.length = 64) (hb : 64 ≤ b.length) :
    header_record (write_at b 0 d) = d := by
  have := slice_write_same b d 0 (by omega)
  rw [hd] at this
  simpa [header_record, sizeof_header] using this

theorem header_record_write_slot (b d : List Nat) (i : Nat) (hb : slot_pos i + d.length ≤ b.length) :
    header_record (write_at b (slot_pos i) d) = header_record b := by
  have hge := slot_pos_ge i
  have := slice_write_other b d (slot_pos i) 0 64 hb (Or.inl (by omega))
  simpa [header_record, sizeof_header] using this

theorem data_start_ge (n : Nat) : 64 ≤ data_start n := slot_pos_ge n

/-! ## The records on disk follow the table in memory -/

theorem on_disk_create (filename : List Nat) (db_file db : pictdb_file) (script : List Bool)
    (h : do_create filename db_file (some script) = some (ERR_NONE, db)) : on_disk db := by
  obtain ⟨hh, hmd, f, hf, hb⟩ := do_create_cases filename db_file db script h
  have hmax : db.header.max_files = db_file.header.max_files := by rw [hh]
  have hhl := encode_header_length db.header
  have hrec : ∀ j, j < db_file.header.max_files →
      slot_record f.bytes j = encode_metadata zero_metadata := by
    intro j hj
    unfold slot_record slot_pos
    rw [hb, ← hhl, ← List.drop_drop, List.drop_left, List.map_replicate,
      ← encode_metadata_length zero_metadata]
    exact flatten_replicate_slice (encode_metadata zero_metadata) _ j hj
  refine ⟨f, hf, ?_, ?_, ?_⟩
  · rw [hb, List.length_append, hhl, table_bytes_length, hmax]
    exact Nat.le_refl _
  · unfold header_record
    rw [hb, ← hhl, List.take_left]
  · intro j mj hj
    rw [hmd] at hj
    have hjn : j < db_file.header.max_files := by
      have := getElem?_lt hj
      simpa using this
    have hz : mj = zero_metadata := by
      rw [List.getElem?_replicate, if_pos hjn] at hj
      cases hj; rfl
    subst hz
    exact ⟨flag_of_record (hrec j hjn), fun _ => hrec j hjn⟩

theorem on_disk_insert (L : Lib) (img id : List Nat) (db db' : pictdb_file) (rc : error_code)
    (hinv : db_inv L db) (hdisk : on_disk db)
    (h : do_insert L img id db = some (rc, db')) (hio : rc ≠ ERR_IO) : on_disk db' := by
  obtain ⟨f, hf, hD, hhr, htod⟩ := hdisk
  have hlen := hinv.1.1
  have hD64 := data_start_ge db.header.max_files
  rcases do_insert_no_io L img id db db' rc hlen h hio with ⟨-, rfl⟩ |
    ⟨i, m, hm, hv, -, hcase⟩
  · exact ⟨f, hf, hD, hhr, htod⟩
  have hlt := getElem?_lt hm
  have hend := slot_end_le hlt hlen
  rcases hcase with ⟨-, rfl⟩ | ⟨f0, f', hf0, hf', hc⟩
  · exact ⟨f, hf, hD, hhr, tod_set_free _ htod hlt (htod i m hm).1 hv⟩
  rw [hf] at hf0; cases hf0
  rcases hc with ⟨-, hb, hh, m', hm'v, hmd⟩ | ⟨-, hh, m', B, hB, -, hmd, hb⟩
  · have hme : m.is_valid = EMPTY := by
      rcases hinv.2.1 m (List.getElem?_mem hm) with e | e
      · exact e
      · exact absurd e hv
    refine ⟨f', hf', ?_, ?_, ?_⟩
    · rw [hh, hb, List.length_append]; omega
    · rw [hh, hb, header_record_append _ _ (by omega)]
      exact hhr
    · rw [hmd, hb]
      refine tod_set_free _ (tod_append img htod hlen hD) hlt ?_ (by rw [hm'v]; decide)
      rw [(tod_append img htod hlen hD i m hm).1, hme, hm'v]
  · have hBt : table_on_disk B db.metadata ∧ data_start db.header.max_files ≤ B.length := by
      rcases hB with e | e
      · rw [e]; exact ⟨htod, hD⟩
      · rw [e]; exact ⟨tod_append img htod hlen hD, by rw [List.length_append]; omega⟩
    have hhl := encode_header_length (bump_header db.header)
    have hl1 : (write_at B 0 (encode_header (bump_header db.header))).length = B.length :=
      write_at_length _ _ _ (by rw [hhl]; simp only [sizeof_header]; omega)
    have hel := encode_metadata_length m'
    have hmax : db'.header.max_files = db.header.max_files := by rw [hh]; rfl
    refine ⟨f', hf', ?_, ?_, ?_⟩
    · rw [hmax, hb, write_at_length _ _ _ (by rw [hel, hl1]; simp only [sizeof_metadata]; omega),
        hl1]
      exact hBt.2
    · rw [hh, hb, header_record_write_slot _ _ _ (by
        rw [hel, hl1]; simp only [sizeof_metadata]; omega),
        header_record_write_header _ _ hhl (by omega)]
    · rw [hmd, hb]
      exact tod_write_slot m' (tod_write_header hBt.1 hhl (by omega)) hlt hlen (by
        rw [hl1]; exact hBt.2)

theorem on_disk_resize (L : Lib) (res : Int) (i : Nat) (db db' : pictdb_file) (rc : error_code)
    (hlen : db.metadata.length = db.header.max_files) (hdisk : on_disk db)
    (h : lazily_resize L res db i = some (rc, db')) (hio : rc ≠ ERR_IO) : on_disk db' := by
  obtain ⟨f, hf, hD, hhr, htod⟩ := hdisk
  have hD64 := data_start_ge db.header.max_files
  rcases lazily_resize_no_io L res db db' i rc h hio with ⟨rfl, -⟩ |
    ⟨m, f0, f', hm, -, -, -, hf0, hf', hh, hcase⟩
  · exact ⟨f, hf, hD, hhr, htod⟩
  rw [hf] at hf0; cases hf0
  have hlt := getElem?_lt hm
  have hend := slot_end_le hlt hlen
  rcases hcase with ⟨-, hmd, hb⟩ | ⟨-, res_buff, -, -, -, -, -, hmd, hb⟩
  · exact ⟨f', hf', by rw [hh, hb]; exact hD, by rw [hh, hb]; exact hhr, by
      rw [hmd, hb]; exact htod⟩
  · have hel : ∀ x : pict_metadata, (encode_metadata x).length = 216 := encode_metadata_length
    refine ⟨f', hf', ?_, ?_, ?_⟩
    · rw [hh, hb, write_at_length _ _ _ (by rw [hel, List.length_append]; omega),
        List.length_append]
      omega
    · rw [hh, hb, header_record_write_slot _ _ _ (by rw [hel, List.length_append]; omega),
        header_record_append _ _ (by omega)]
      exact hhr
    · rw [hmd, hb]
      exact tod_write_slot _ (tod_append res_buff htod hlen hD) hlt hlen (by
        rw [List.length_append]; omega)

theorem on_disk_read (L : Lib) (id : List Nat) (res : Int) (db db' : pictdb_file)
    (rc : error_code) (out : Option (List Nat × Nat))
    (hlen : db.metadata.length = db.header.max_files) (hdisk : on_disk db)
    (h : do_read L id res db = some (rc, out, db')) (hio : rc ≠ ERR_IO) : on_disk db' := by
  obtain ⟨db1, h1, hh, hmd, h2⟩ := do_read_no_io L id res db db' rc out h hio
  have hd1 : on_disk db1 := by
    rcases h1 with rfl | ⟨i, rc1, hio1, hr⟩
    · exact hdisk
    · exact on_disk_resize L res i db db1 rc1 hlen hdisk hr hio1
  rcases h2 with rfl | ⟨g, g', hg, hg', hb⟩
  · exact hd1
  · obtain ⟨f1, hf1, hD, hhr, htod⟩ := hd1
    rw [hg] at hf1; cases hf1
    exact ⟨g', hg', by rw [hh, hb]; exact hD, by rw [hh, hb]; exact hhr, by
      rw [hmd, hb]; exact htod⟩

theorem on_disk_delete (name : List Nat) (db db' : pictdb_file) (rc : error_code)
    (hlen : db.metadata.length = db.header.max_files) (hdisk : on_disk db)
    (h : do_delete name db = some (rc, db')) (hio : rc ≠ ERR_IO) : on_disk db' := by
  obtain ⟨f, hf, hD, hhr, htod⟩ := hdisk
  have hD64 := data_start_ge db.header.max_files
  rcases do_delete_no_io name db db' rc h hio with ⟨-, rfl⟩ |
    ⟨-, idx, m, f0, f', hm, -, -, -, -, hmd, hf0, hf', hh, hb⟩
  · exact ⟨f, hf, hD, hhr, htod⟩
  rw [hf] at hf0; cases hf0
  have hlt := getElem?_lt hm
  have hend := slot_end_le hlt hlen
  have hel : (encode_metadata { m with is_valid := EMPTY }).length = 216 :=
    encode_metadata_length _
  have hhl : (encode_header (delete_header db.header)).length = 64 := encode_header_length _
  have hl1 : (write_at f.bytes (slot_pos idx)
      (encode_metadata { m with is_valid := EMPTY })).length = f.bytes.length :=
    write_at_length _ _ _ (by rw [hel]; omega)
  have hmax : db'.header.max_files = db.header.max_files := by rw [hh]; rfl
  refine ⟨f', hf', ?_, ?_, ?_⟩
  · rw [hmax, hb, write_at_length _ _ _ (by rw [hhl, hl1]; omega), hl1]
    exact hD
  · rw [hh, hb, header_record_write_header _ _ hhl (by rw [hl1]; omega)]
  · rw [hmd, hb]
    exact tod_write_header (tod_write_slot _ htod hlt hlen hD) hhl (by rw [hl1]; omega)

theorem session_reachable (L : Lib) (db : pictdb_file) (h : Session L db) : Reachable L db := by
  induction h with
  | create filename db_file script db hmax hc =>
    exact Reachable.create filename db_file script db hmax hc
  | insert db img id rc db' _ hc _ ih => exact Reachable.insert db img id rc db' ih hc
  | delete db name rc db' _ hc _ ih => exact Reachable.delete db name rc db' ih hc
  | read db id res rc out db' _ hc _ ih => exact Reachable.read db id res rc out db' ih hc

/-- C22 (counterexample): in the database `do_create` makes for two slots,
`do_insert` of an image under the id `a` returns `0`; a second `do_insert`
under the same id returns `ERR_DUPLICATE_ID` without any failing I/O, and
afterwards the first bytes of the file are not the byte image of the
in-memory header and table: the slot 1 in memory carries the id, the digest
and the size of the rejected image, its record on disk is all zeros. -/
theorem duplicate_insert_not_on_disk :
    do_create [100] (demo_config 2) (some []) = some (ERR_NONE, demo_fresh 2 []) ∧
    do_insert demo_lib [1, 2, 3] [97] (demo_fresh 2 []) =
      some (ERR_NONE, demo_insert [1, 2, 3] [97] (demo_fresh 2 [])) ∧
    do_insert demo_lib [4] [97] (demo_insert [1, 2, 3] [97] (demo_fresh 2 [])) =
      some (ERR_DUPLICATE_ID,
        demo_insert [4] [97] (demo_insert [1, 2, 3] [97] (demo_fresh 2 []))) ∧
    (demo_file (demo_insert [4] [97] (demo_insert [1, 2, 3] [97] (demo_fresh 2 [])))).bytes.take
        (sizeof_header + 2 * sizeof_metadata) ≠
      encode_header (demo_insert [4] [97] (demo_insert [1, 2, 3] [97] (demo_fresh 2 []))).header
        ++ ((demo_insert [4] [97] (demo_insert [1, 2, 3] [97] (demo_fresh 2 []))).metadata.map
          encode_metadata).flatten := by
  decide!

/-- C22 (amended): in every database of a session started by a successful
`do_create` and continued by calls of `do_insert`, `do_delete` and `do_read`
that return a status other than `ERR_IO`, the file holds the header and the
table, its header record is the byte image of the in-memory header, the
`is_valid` field of every record is the in-memory flag of the slot, and the
record of every `NON_EMPTY` slot is the byte image of the in-memory slot. -/
theorem session_on_disk (L : Lib) (db : pictdb_file) (h : Session L db) : on_disk db := by
  induction h with
  | create filename db_file script db _ hc => exact on_disk_create filename db_file db script hc
  | insert db img id rc db' hs hc hio ih =>
    exact on_disk_insert L img id db db' rc (reachable_inv L db (session_reachable L db hs)) ih
      hc hio
  | delete db name rc db' hs hc hio ih =>
    exact on_disk_delete name db db' rc
      (reachable_inv L db (session_reachable L db hs)).1.1 ih hc hio
  | read db id res rc out db' hs hc hio ih =>
    exact on_disk_read L id res db db' rc out
      (reachable_inv L db (session_reachable L db hs)).1.1 ih hc hio

theorem session_on_disk_witness :
    on_disk (demo_insert [4] [97] (demo_insert [1, 2, 3] [97] (demo_fresh 2 []))) :=
  session_on_disk demo_lib (demo_insert [4] [97] (demo_insert [1, 2, 3] [97] (demo_fresh 2 [])))
    (Session.insert (demo_insert [1, 2, 3] [97] (demo_fresh 2 [])) [4] [97] ERR_DUPLICATE_ID _
      (Session.insert (demo_fresh 2 []) [1, 2, 3] [97] ERR_NONE _
        (Session.create [100] (demo_config 2) [] _ (by decide!) (by decide!))
        (by decide!) (by decide))
      (by decide!) (by decide))

/-! ## The scan of `do_insert` for a free slot -/

theorem update_file_total (db : pictdb_file) (idx : Nat) (f : FILE) (hf : db.fpdb = some f)
    (hi : idx < db.metadata.length) : ∃ r, update_file db idx = some r := by
  have hm : db.metadata[idx]? = some db.metadata[idx] := List.getElem?_eq_getElem hi
  unfold update_file
  simp only [hf, hm]
  split_ifs <;> exact ⟨_, rfl⟩

theorem insert_image_total (L : Lib) (img : List Nat) (db : pictdb_file) (i : Nat) (f : FILE)
    (hf : db.fpdb = some f) (hi : i < db.metadata.length) :
    ∃ r, insert_image L img db i = some r := by
  have hm : db.metadata[i]? = some db.metadata[i] := List.getElem?_eq_getElem hi
  unfold insert_image
  simp only [hf, hm]
  split_ifs
  · exact update_file_total _ i f hf (by simpa [set_slot] using hi)
  · exact ⟨_, rfl⟩
  · exact ⟨_, rfl⟩
  · unfold get_resolution
    cases L.jpegload img with
    | none => exact ⟨_, rfl⟩
    | some wh =>
      obtain ⟨w, h⟩ := wh
      exact update_file_total _ i _ rfl (by simpa [set_slot] using hi)

/-- C27: when `num_files` is the number of `NON_EMPTY` slots and is below
`max_files`, the scan of `do_insert` stops at the lowest index `i` whose slot
is not `NON_EMPTY`, and `i < max_files`: the scan neither reads slot
`max_files` nor runs to the end. With an image that is not empty and an id of
1 to 127 characters, `do_insert` is then the rest of its body at slot `i`: it
returns when the stream is open, never `ERR_FULL_DATABASE`, and it leaves
every slot other than `i` as it was. -/
theorem do_insert_scan_in_bounds (L : Lib) (img id : List Nat) (db : pictdb_file)
    (hlen : db.metadata.length = db.header.max_files)
    (hcount : db.header.num_files = count_non_empty db)
    (hroom : db.header.num_files < db.header.max_files) :
    ∃ (i : Nat) (m : pict_metadata),
      first_slot (db.header.max_files + 1) (fun _ m => m.is_valid ≠ NON_EMPTY)
        db.metadata 0 = some (some i) ∧
      i < db.header.max_files ∧ db.metadata[i]? = some m ∧ m.is_valid ≠ NON_EMPTY ∧
      (flags_ok db.metadata → m.is_valid = EMPTY) ∧
      (∀ j mj, j < i → db.metadata[j]? = some mj → mj.is_valid = NON_EMPTY) ∧
      (strlen id ≠ 0 → strlen id ≤ MAX_PIC_ID → img ≠ [] →
        do_insert L img id db =
          (match do_name_and_content_dedup (set_slot db i
              { m with SHA := L.SHA256 img
                       pict_id := strncpy_nul m.pict_id id
                       size := m.size.put RES_ORIG (img.length % 2 ^ 32) }) i with
            | none => none
            | some (dedup_res, db2) =>
              if dedup_res ≠ ERR_NONE then some (dedup_res, db2)
              else insert_image L img db2 i) ∧
        (db.fpdb ≠ none → ∃ rc db', do_insert L img id db = some (rc, db')) ∧
        ∀ rc db', do_insert L img id db = some (rc, db') →
          rc ≠ ERR_FULL_DATABASE ∧ rc ≠ ERR_INVALID_ARGUMENT ∧
          ∀ j, j ≠ i → db'.metadata[j]? = db.metadata[j]?) := by
  have hfree : ∃ (j : Nat) (m : pict_metadata),
      db.metadata[j]? = some m ∧ m.is_valid ≠ NON_EMPTY := by
    apply exists_free_slot
    unfold count_non_empty at hcount
    omega
  obtain ⟨j, m, hj, hv⟩ := hfree
  obtain ⟨k, mk, hscan, hk, hp, hbefore⟩ :=
    first_slot_hit (db.header.max_files + 1) (fun _ m => m.is_valid ≠ NON_EMPTY) db.metadata 0
      (by omega) ⟨j, m, hj, by simpa using hv⟩
  simp only [Nat.zero_add] at hscan hp hbefore
  have hkv : mk.is_valid ≠ NON_EMPTY := by simpa using hp
  have hklt := getElem?_lt hk
  refine ⟨k, mk, hscan, ?_, hk, hkv, ?_, ?_, ?_⟩
  · omega
  · intro hflags
    rcases hflags mk (List.getElem?_mem hk) with h | h
    · exact h
    · exact absurd h hkv
  · intro i mi hi hmi
    have := hbefore i mi hi hmi
    simpa using this
  intro hid hid_max himg
  have h1 : ¬ (strlen id = 0 ∨ img.length = 0) := by simp [hid, himg]
  have h2 : ¬ (db.header.num_files ≥ db.header.max_files) := by omega
  have h3 : ¬ (MAX_PIC_ID < strlen id) := by omega
  have heq : do_insert L img id db =
      (match do_name_and_content_dedup (set_slot db k
          { mk with SHA := L.SHA256 img
                    pict_id := strncpy_nul mk.pict_id id
                    size := mk.size.put RES_ORIG (img.length % 2 ^ 32) }) k with
        | none => none
        | some (dedup_res, db2) =>
          if dedup_res ≠ ERR_NONE then some (dedup_res, db2)
          else insert_image L img db2 k) := by
    unfold do_insert
    rw [if_neg h1, if_neg h2, hscan]
    simp only [hk, if_neg h3]
  generalize hm1 : ({ mk with SHA := L.SHA256 img
                              pict_id := strncpy_nul mk.pict_id id
                              size := mk.size.put RES_ORIG (img.length % 2 ^ 32) } :
    pict_metadata) = m1 at heq
  have hlen1 : (set_slot db k m1).metadata.length = (set_slot db k m1).header.max_files := by
    simpa [set_slot] using hlen
  have hlt1 : k < (set_slot db k m1).metadata.length := by simpa [set_slot] using hklt
  have hshape : ∀ drc db2, do_name_and_content_dedup (set_slot db k m1) k = some (drc, db2) →
      (drc = ERR_DUPLICATE_ID ∨ drc = ERR_NONE) ∧ db2.fpdb = db.fpdb ∧
        db2.metadata.length = db.metadata.length ∧
        ∀ j, j ≠ k → db2.metadata[j]? = db.metadata[j]? := by
    intro drc db2 hd
    have hset : ∀ (l : List pict_metadata) (X : pict_metadata) (j : Nat), j ≠ k →
        (l.set k X)[j]? = l[j]? := by
      intro l X j hjk
      exact List.getElem?_set_ne (Ne.symm hjk)
    obtain ⟨cand, -, hc⟩ := dedup_cases _ db2 k drc hlen1 hlt1 hd
    rcases hc with ⟨rfl, rfl, -⟩ | ⟨rfl, -, hc2⟩
    · exact ⟨Or.inl rfl, rfl, by simp [set_slot], fun j hjk => hset _ _ j hjk⟩
    · rcases hc2 with ⟨_, _, -, -, -, -, -, rfl⟩ | ⟨-, rfl⟩
      · refine ⟨Or.inr rfl, rfl, by simp [set_slot], fun j hjk => ?_⟩
        simp only [set_slot]
        rw [hset _ _ j hjk, hset _ _ j hjk]
      · refine ⟨Or.inr rfl, rfl, by simp [set_slot], fun j hjk => ?_⟩
        simp only [set_slot]
        rw [hset _ _ j hjk, hset _ _ j hjk]
  refine ⟨heq, ?_, ?_⟩
  · intro hf
    obtain ⟨f, hf⟩ := Option.ne_none_iff_exists'.1 hf
    obtain ⟨⟨drc, db2⟩, hd⟩ := dedup_total (set_slot db k m1) k hlen1 hlt1
    obtain ⟨-, hfp, hl2, -⟩ := hshape drc db2 hd
    rw [heq, hd]
    simp only
    by_cases hdrc : drc ≠ ERR_NONE
    · rw [if_pos hdrc]
      exact ⟨_, _, rfl⟩
    · rw [if_neg hdrc]
      obtain ⟨⟨rc, db'⟩, hr⟩ := insert_image_total L img db2 k f (by rw [hfp, hf])
        (by rw [hl2]; exact hklt)
      exact ⟨rc, db', hr⟩
  · intro rc db' h
    rw [heq] at h
    split at h
    · simp at h
    rename_i drc db2 hd
    obtain ⟨hdrc, -, -, hother⟩ := hshape drc db2 hd
    by_cases hne : drc ≠ ERR_NONE
    · rw [if_pos hne] at h
      simp only [Option.some.injEq, Prod.mk.injEq] at h
      obtain ⟨rfl, rfl⟩ := h
      rcases hdrc with e | e
      · exact ⟨by rw [e]; decide, by rw [e]; decide, hother⟩
      · exact absurd e hne
    · rw [if_neg hne] at h
      obtain ⟨m2, f, f', hm2, -, -, hcase⟩ := insert_image_cases L img db2 db' k rc h
      have hfr : ∀ j, j ≠ k → db'.metadata[j]? = db.metadata[j]? := by
        intro j hjk
        rw [← hother j hjk]
        rcases hcase with ⟨-, -, hmd, -⟩ | ⟨-, -, -, -, hmd, -⟩ | ⟨-, -, -, -, -, wh, -, hmd, -⟩
        · rcases hmd with hmd | ⟨m', -, hmd⟩
          · rw [hmd]
          · rw [hmd, List.getElem?_set_ne (Ne.symm hjk)]
        · rw [hmd, List.getElem?_set_ne (Ne.symm hjk)]
        · rw [hmd, List.getElem?_set_ne (Ne.symm hjk)]
      refine ⟨?_, ?_, hfr⟩
      · intro e
        subst e
        obtain ⟨_, _, _, -, -, -, hc⟩ := insert_image_bytes L img db2 db' k _ h (by decide)
        rcases hc with ⟨hc, -⟩ | ⟨hc, -⟩ <;> cases hc
      · intro e
        subst e
        obtain ⟨_, _, _, -, -, -, hc⟩ := insert_image_bytes L img db2 db' k _ h (by decide)
        rcases hc with ⟨hc, -⟩ | ⟨hc, -⟩ <;> cases hc

theorem do_insert_scan_in_bounds_witness :
    ∃ (i : Nat) (m : pict_metadata),
      first_slot ((demo_insert [1, 2, 3] [97] (demo_fresh 2 [])).header.max_files + 1)
        (fun _ m => m.is_valid ≠ NON_EMPTY)
        (demo_insert [1, 2, 3] [97] (demo_fresh 2 [])).metadata 0 = some (some i) ∧
      i < (demo_insert [1, 2, 3] [97] (demo_fresh 2 [])).header.max_files ∧
      (demo_insert [1, 2, 3] [97] (demo_fresh 2 [])).metadata[i]? = some m ∧
      m.is_valid ≠ NON_EMPTY ∧
      (flags_ok (demo_insert [1, 2, 3] [97] (demo_fresh 2 [])).metadata → m.is_valid = EMPTY) ∧
      (∀ j mj, j < i → (demo_insert [1, 2, 3] [97] (demo_fresh 2 [])).metadata[j]? = some mj →
        mj.is_valid = NON_EMPTY) ∧
      (strlen [98] ≠ 0 → strlen [98] ≤ MAX_PIC_ID → [4, 5] ≠ [] →
        do_insert demo_lib [4, 5] [98] (demo_insert [1, 2, 3] [97] (demo_fresh 2 [])) =
          (match do_name_and_content_dedup
              (set_slot (demo_insert [1, 2, 3] [97] (demo_fresh 2 [])) i
                { m with SHA := demo_lib.SHA256 [4, 5]
                         pict_id := strncpy_nul m.pict_id [98]
                         size := m.size.put RES_ORIG ([4, 5].length % 2 ^ 32) }) i with
            | none => none
            | some (dedup_res, db2) =>
              if dedup_res ≠ ERR_NONE then some (dedup_res, db2)
              else insert_image demo_lib [4, 5] db2 i) ∧
        ((demo_insert [1, 2, 3] [97] (demo_fresh 2 [])).fpdb ≠ none →
          ∃ rc db', do_insert demo_lib [4, 5] [98]
            (demo_insert [1, 2, 3] [97] (demo_fresh 2 [])) = some (rc, db')) ∧
        ∀ rc db', do_insert demo_lib [4, 5] [98]
            (demo_insert [1, 2, 3] [97] (demo_fresh 2 [])) = some (rc, db') →
          rc ≠ ERR_FULL_DATABASE ∧ rc ≠ ERR_INVALID_ARGUMENT ∧
          ∀ j, j ≠ i → db'.metadata[j]? =
            (demo_insert [1, 2, 3] [97] (demo_fresh 2 [])).metadata[j]?) :=
  do_insert_scan_in_bounds demo_lib [4, 5] [98] (demo_insert [1, 2, 3] [97] (demo_fresh 2 []))
    (by decide!) (by decide!) (by decide!)

/-! ## Reading a record back -/

theorem c_str_take_pad : ∀ (l : List Nat) (n k : Nat), strlen l < n → n ≤ l.length + k →
    c_str ((l ++ List.replicate k 0).take n) = c_str l := by
  intro l
  induction l with
  | nil =>
    intro n k h1 h2
    cases n with
    | zero => omega
    | succ n =>
      cases k with
      | zero => simp at h2
      | succ k => simp [c_str, List.replicate_succ]
  | cons a l ih =>
    intro n k h1 h2
    cases n with
    | zero => omega
    | succ n =>
      rw [List.cons_append, List.take_succ_cons]
      by_cases ha : a = 0
      · subst ha
        simp [c_str]
      · have hc : ∀ X : List Nat, c_str (a :: X) = a :: c_str X := by
          intro X
          simp [c_str, List.takeWhile_cons, ha]
        rw [hc, hc]
        congr 1
        apply ih
        · have : strlen (a :: l) = strlen l + 1 := by
            unfold strlen
            rw [hc, List.length_cons]
          omega
        · simp only [List.length_cons] at h2
          omega

theorem c_str_fit (n : Nat) (l : List Nat) (h : strlen l < n) : c_str (fit n l) = c_str l :=
  c_str_take_pad l n n h (by omega)

theorem decode_encode_slot (m : pict_metadata) (h : slot_fits m) (hv : m.is_valid < 2 ^ 16) :
    same_entry m (decode_metadata (encode_metadata m)) := by
  obtain ⟨id, sha, ⟨r1, r2⟩, ⟨st, ss, so⟩, ⟨ot, os, oo⟩, v, u⟩ := m
  obtain ⟨h1, h2, h3, h4, h5, h6, h7, h8⟩ := h
  simp only at h1 h2 h3 h4 h5 h6 h7 h8 hv
  have e0 : (fit 128 id ++ (fit 32 sha ++
    (le_bytes 4 r1 ++ (le_bytes 4 r2 ++ (le_bytes 4 st ++ (le_bytes 4 ss ++ (le_bytes 4 so
      ++ (List.replicate 4 0 ++ (le_bytes 8 ot ++ (le_bytes 8 os ++ (le_bytes 8 oo
      ++ (le_bytes 2 v ++ (le_bytes 2 u ++ List.replicate 4 0))))))))))))).take 128
      = fit 128 id := List.take_left' (fit_length _ _)
  have e1 := take_drop_mid (fit 128 id) (fit 32 sha)
    (le_bytes 4 r1 ++ le_bytes 4 r2 ++ le_bytes 4 st ++ le_bytes 4 ss ++ le_bytes 4 so
      ++ List.replicate 4 0 ++ le_bytes 8 ot ++ le_bytes 8 os ++ le_bytes 8 oo
      ++ le_bytes 2 v ++ le_bytes 2 u ++ List.replicate 4 0) 128 32 (fit_length _ _)
    (fit_length _ _)
  have e4 := take_drop_mid (fit 128 id ++ fit 32 sha ++ le_bytes 4 r1 ++ le_bytes 4 r2)
    (le_bytes 4 st)
    (le_bytes 4 ss ++ le_bytes 4 so
      ++ List.replicate 4 0 ++ le_bytes 8 ot ++ le_bytes 8 os ++ le_bytes 8 oo
      ++ le_bytes 2 v ++ le_bytes 2 u ++ List.replicate 4 0) 168 4
    (by simp [fit_length, le_bytes_length]) (le_bytes_length _ _)
  have e5 := take_drop_mid (fit 128 id ++ fit 32 sha ++ le_bytes 4 r1 ++ le_bytes 4 r2
      ++ le_bytes 4 st)
    (le_bytes 4 ss)
    (le_bytes 4 so
      ++ List.replicate 4 0 ++ le_bytes 8 ot ++ le_bytes 8 os ++ le_bytes 8 oo
      ++ le_bytes 2 v ++ le_bytes 2 u ++ List.replicate 4 0) 172 4
    (by simp [fit_length, le_bytes_length]) (le_bytes_length _ _)
  have e6 := take_drop_mid (fit 128 id ++ fit 32 sha ++ le_bytes 4 r1 ++ le_bytes 4 r2
      ++ le_bytes 4 st ++ le_bytes 4 ss)
    (le_bytes 4 so)
    (List.replicate 4 0 ++ le_bytes 8 ot ++ le_bytes 8 os ++ le_bytes 8 oo
      ++ le_bytes 2 v ++ le_bytes 2 u ++ List.replicate 4 0) 176 4
    (by simp [fit_length, le_bytes_length]) (le_bytes_length _ _)
  have e7 := take_drop_mid (fit 128 id ++ fit 32 sha ++ le_bytes 4 r1 ++ le_bytes 4 r2
      ++ le_bytes 4 st ++ le_bytes 4 ss ++ le_bytes 4 so ++ List.replicate 4 0)
    (le_bytes 8 ot)
    (le_bytes 8 os ++ le_bytes 8 oo
      ++ le_bytes 2 v ++ le_bytes 2 u ++ List.replicate 4 0) 184 8
    (by simp [fit_length, le_bytes_length]) (le_bytes_length _ _)
  have e8 := take_drop_mid (fit 128 id ++ fit 32 sha ++ le_bytes 4 r1 ++ le_bytes 4 r2
      ++ le_bytes 4 st ++ le_bytes 4 ss ++ le_bytes 4 so ++ List.replicate 4 0
      ++ le_bytes 8 ot)
    (le_bytes 8 os)
    (le_bytes 8 oo ++ le_bytes 2 v ++ le_bytes 2 u ++ List.replicate 4 0) 192 8
    (by simp [fit_length, le_bytes_length]) (le_bytes_length _ _)
  have e9 := take_drop_mid (fit 128 id ++ fit 32 sha ++ le_bytes 4 r1 ++ le_bytes 4 r2
      ++ le_bytes 4 st ++ le_bytes 4 ss ++ le_bytes 4 so ++ List.replicate 4 0
      ++ le_bytes 8 ot ++ le_bytes 8 os)
    (le_bytes 8 oo)
    (le_bytes 2 v ++ le_bytes 2 u ++ List.replicate 4 0) 200 8
    (by simp [fit_length, le_bytes_length]) (le_bytes_length _ _)
  have e10 := take_drop_mid (fit 128 id ++ fit 32 sha ++ le_bytes 4 r1 ++ le_bytes 4 r2
      ++ le_bytes 4 st ++ le_bytes 4 ss ++ le_bytes 4 so ++ List.replicate 4 0
      ++ le_bytes 8 ot ++ le_bytes 8 os ++ le_bytes 8 oo)
    (le_bytes 2 v)
    (le_bytes 2 u ++ List.replicate 4 0) 208 2
    (by simp [fit_length, le_bytes_length]) (le_bytes_length _ _)
  simp only [List.append_assoc] at e1 e4 e5 e6 e7 e8 e9 e10
  have key : ∃ r u', decode_metadata
      (encode_metadata ⟨id, sha, (r1, r2), ⟨st, ss, so⟩, ⟨ot, os, oo⟩, v, u⟩)
      = ⟨fit 128 id, sha, r, ⟨st, ss, so⟩, ⟨ot, os, oo⟩, v, u'⟩ := by
    unfold decode_metadata
    simp only [encode_metadata, List.append_assoc]
    rw [e0, e1, e4, e5, e6, e7, e8, e9, e10, fit_eq_self 32 sha h2,
      le_value_le_bytes 4 st h3, le_value_le_bytes 4 ss h4, le_value_le_bytes 4 so h5,
      le_value_le_bytes 8 ot h6, le_value_le_bytes 8 os h7, le_value_le_bytes 8 oo h8,
      le_value_le_bytes 2 v hv]
    exact ⟨_, _, rfl⟩
  obtain ⟨r, u', hkey⟩ := key
  rw [hkey]
  refine ⟨rfl, fun _ => ⟨?_, rfl, rfl, rfl⟩⟩
  exact c_str_fit 128 id (by simp only [MAX_PIC_ID] at h1; omega)

theorem decode_flag (b : List Nat) (i : Nat) :
    (decode_metadata (slot_record b i)).is_valid = le_value (disk_flag b i) := by
  show le_value (((slot_record b i).drop 208).take 2) = le_value (disk_flag b i)
  unfold disk_flag
  rw [slice_slice b (slot_record b i) (slot_pos i) sizeof_metadata 208 2 rfl
    (by simp only [sizeof_metadata]; omega)]

/-- The slot read back from a file that follows the table (`table_on_disk`)
is the slot of the table, as far as `same_entry` goes. -/
theorem same_entry_of_disk (b : List Nat) (tbl : List pict_metadata) (i : Nat)
    (m : pict_metadata) (hdisk : table_on_disk b tbl) (hfl : flags_ok tbl)
    (hfits : table_fits tbl) (hm : tbl[i]? = some m) :
    same_entry m (decode_metadata (slot_record b i)) := by
  obtain ⟨hflag, hrec⟩ := hdisk i m hm
  have hmem := List.getElem?_mem hm
  have hv16 : m.is_valid < 2 ^ 16 := by
    rcases hfl m hmem with e | e <;> rw [e] <;> decide
  have hval : (decode_metadata (slot_record b i)).is_valid = m.is_valid := by
    rw [decode_flag, hflag, le_value_le_bytes 2 _ hv16]
  refine ⟨hval, fun hv => ?_⟩
  rw [hrec hv]
  exact (decode_encode_slot m (hfits m hmem hv) hv16).2 hv

/-! ## The destination of `do_gbcollect` on disk -/

theorem to_int32_toNat_lt (n : Nat) : (to_int32 n).toNat < 2 ^ 32 := by
  unfold to_int32
  have := Nat.mod_lt n (show 0 < 2 ^ 32 by decide)
  split_ifs <;> omega

theorem table_fits_insert (L : Lib) (img id : List Nat) (db db' : pictdb_file)
    (rc : error_code) (hsha : ∀ b, (L.SHA256 b).length = 32)
    (hlen : db.metadata.length = db.header.max_files) (hfits : table_fits db.metadata)
    (h : do_insert L img id db = some (rc, db')) : table_fits db'.metadata := by
  have hmod : ∀ n : Nat, n % 2 ^ 32 < 2 ^ 32 := fun n => Nat.mod_lt n (by decide)
  rcases do_insert_cases L img id db db' rc hlen h with
    ⟨-, rfl⟩ | ⟨i, m, hm, hv, -, -, hid1, -, -, hcase⟩
  · exact hfits
  have hold : ∀ x j, j ≠ i → db.metadata[j]? = some x → x.is_valid = NON_EMPTY → slot_fits x :=
    fun x j _ hj hxv => hfits x (List.getElem?_mem hj) hxv
  have hstr : strlen (strncpy_nul m.pict_id id) ≤ MAX_PIC_ID := by
    unfold strlen
    rw [c_str_strncpy_nul]
    exact hid1
  rcases hcase with ⟨-, -, ⟨m', hm'v, hmd⟩, -⟩ | ⟨-, -, -, f, f', -, -, -, hsucc⟩
  · intro x hx hxv
    rw [hmd] at hx
    rcases mem_set_cases _ _ _ _ hx with rfl | ⟨j, hji, hj⟩
    · exfalso
      rcases hm'v with e | e
      · rw [e] at hxv; exact hv hxv
      · rw [e] at hxv; exact absurd hxv (by decide)
    · exact hold x j hji hj hxv
  rcases hsucc with ⟨k, dup, hk, -, hdv, -, -, -, hmd, -⟩ | ⟨wh, s, -, hmd, hs, -⟩
  · intro x hx hxv
    rw [hmd] at hx
    rcases mem_set_cases _ _ _ _ hx with rfl | ⟨j, hji, hj⟩
    · obtain ⟨-, -, d3, d4, d5, d6, d7, d8⟩ := hfits dup (List.getElem?_mem hk) hdv
      exact ⟨hstr, hsha img, d3, d4, d5, d6, d7, d8⟩
    · exact hold x j hji hj hxv
  · intro x hx hxv
    rw [hmd] at hx
    rcases mem_set_cases _ _ _ _ hx with rfl | ⟨j, hji, hj⟩
    · have hs32 : s < 2 ^ 32 := by
        rcases hs with ⟨-, e⟩ | ⟨k, dup, hk, -, hdv, -, -, e⟩
        · rw [e]; exact hmod _
        · rw [e]; exact (hfits dup (List.getElem?_mem hk) hdv).2.2.2.2.1
      have h64 : f.bytes.length % 2 ^ 32 < 2 ^ 64 :=
        Nat.lt_trans (hmod _) (by decide)
      have z32 : (0 : Nat) < 2 ^ 32 := by decide
      have z64 : (0 : Nat) < 2 ^ 64 := by decide
      exact ⟨hstr, hsha img, z32, z32, hs32, z64, z64, h64⟩
    · exact hold x j hji hj hxv

theorem table_fits_resize (L : Lib) (res : Int) (i : Nat) (db db' : pictdb_file)
    (rc : error_code) (hfits : table_fits db.metadata)
    (h : lazily_resize L res db i = some (rc, db')) : table_fits db'.metadata := by
  rcases lazily_resize_cases L res db db' i rc h with rfl |
    ⟨m, f0, f', hm, hv, -, hres, -, -, -, hcase⟩
  · exact hfits
  rcases hcase with ⟨-, hmd, -⟩ | ⟨res_buff, -, -, -, -, -, hmd, -⟩
  · rw [hmd]; exact hfits
  intro x hx hxv
  rw [hmd] at hx
  rcases mem_set_cases _ _ _ _ hx with rfl | ⟨j, -, hj⟩
  · obtain ⟨d1, d2, d3, d4, d5, d6, d7, d8⟩ := hfits m (List.getElem?_mem hm) hv
    have ho : (to_int32 f0.bytes.length).toNat < 2 ^ 64 :=
      Nat.lt_trans (to_int32_toNat_lt _) (by decide)
    have hs : res_buff.length % 2 ^ 32 < 2 ^ 32 := Nat.mod_lt _ (by decide)
    rcases hres with r | r <;> subst r
    · exact ⟨d1, d2, hs, d4, d5, ho, d7, d8⟩
    · exact ⟨d1, d2, d3, hs, d5, d6, ho, d8⟩
  · exact hfits x (List.getElem?_mem hj) hxv

theorem gbcollect_resize_disk (L : Lib) (res : Int) (m : pict_metadata)
    (ndb ndb' : pictdb_file) (idx : Nat)
    (hlen : ndb.metadata.length = ndb.header.max_files) (hdisk : on_disk ndb)
    (hfits : table_fits ndb.metadata)
    (h : gbcollect_resize L res m ndb idx = some (ERR_NONE, ndb')) :
    on_disk ndb' ∧ table_fits ndb'.metadata := by
  unfold gbcollect_resize at h
  split at h
  · exact ⟨on_disk_resize L res idx ndb ndb' _ hlen hdisk h (by decide),
      table_fits_resize L res idx ndb ndb' _ hfits h⟩
  · simp only [Option.some.injEq, Prod.mk.injEq] at h
    obtain ⟨-, rfl⟩ := h
    exact ⟨hdisk, hfits⟩

theorem gbcollect_slot_disk (L : Lib) (i : Nat) (db db1 ndb ndb3 : pictdb_file) (idx : Nat)
    (hsha : ∀ b, (L.SHA256 b).length = 32) (hinv : db_inv L ndb) (hdisk : on_disk ndb)
    (hfits : table_fits ndb.metadata)
    (h : gbcollect_slot L i db ndb idx = some (ERR_NONE, db1, ndb3)) :
    on_disk ndb3 ∧ table_fits ndb3.metadata := by
  obtain ⟨m, res0, out, hm, hread, hcase⟩ :=
    gbcollect_slot_cases L i db db1 ndb ndb3 idx ERR_NONE h
  rcases hcase with ⟨hne, e, -⟩ | ⟨-, img, size, m1, rc1, ndb1, -, hm1, hins, hcase⟩
  · exact absurd e.symm hne
  rcases hcase with ⟨hne, e, -⟩ | ⟨hrc1, rc2, ndb2, hsm, hcase⟩
  · exact absurd e.symm hne
  subst hrc1
  have hinv1 := db_inv_insert L _ _ ndb ndb1 _ hinv hins
  have hdisk1 := on_disk_insert L _ _ ndb ndb1 _ hinv hdisk hins (by decide)
  have hfits1 := table_fits_insert L _ _ ndb ndb1 _ hsha hinv.1.1 hfits hins
  rcases hcase with ⟨hne, e, -⟩ | ⟨hrc2, hth⟩
  · exact absurd e.symm hne
  subst hrc2
  obtain ⟨hinv2, -, -⟩ := gbcollect_resize_inv L RES_SMALL m1 ndb1 ndb2 idx _ hinv1 hsm
  obtain ⟨hdisk2, hfits2⟩ := gbcollect_resize_disk L RES_SMALL m1 ndb1 ndb2 idx hinv1.1.1
    hdisk1 hfits1 hsm
  exact gbcollect_resize_disk L RES_THUMB m1 ndb2 ndb3 idx hinv2.1.1 hdisk2 hfits2 hth

theorem gbcollect_loop_disk (L : Lib) (hsha : ∀ b, (L.SHA256 b).length = 32) :
    ∀ (n i : Nat) (db ndb : pictdb_file) (idx : Nat) (db' ndb' : pictdb_file),
      db_inv L ndb → on_disk ndb → table_fits ndb.metadata →
      gbcollect_loop L n i db ndb idx = some (ERR_NONE, db', ndb') →
      on_disk ndb' ∧ table_fits ndb'.metadata := by
  intro n
  induction n with
  | zero =>
    intro i db ndb idx db' ndb' _ hdisk hfits h
    rw [gbcollect_loop] at h
    simp only [Option.some.injEq, Prod.mk.injEq] at h
    obtain ⟨-, -, rfl⟩ := h
    exact ⟨hdisk, hfits⟩
  | succ n ih =>
    intro i db ndb idx db' ndb' hinv hdisk hfits h
    rw [gbcollect_loop] at h
    split at h
    · simp at h
    split at h
    · split at h
      · simp at h
      rename_i res db1 ndb1 hslot
      split at h
      · rename_i hne
        simp only [Option.some.injEq, Prod.mk.injEq] at h
        exact absurd h.1 hne
      · rename_i hres
        have hres' : res = ERR_NONE := by simpa using hres
        subst hres'
        obtain ⟨hinv1, -, -⟩ := gbcollect_slot_inv L i db db1 ndb ndb1 idx _ hinv hslot
        obtain ⟨hdisk1, hfits1⟩ := gbcollect_slot_disk L i db db1 ndb ndb1 idx hsha hinv hdisk
          hfits hslot
        exact ih _ _ _ _ _ _ hinv1 hdisk1 hfits1 h
    · exact ih _ _ _ _ _ _ hinv hdisk hfits h

theorem table_fits_create (filename : List Nat) (db_file db : pictdb_file)
    (script : List Bool) (h : do_create filename db_file (some script) = some (ERR_NONE, db)) :
    table_fits db.metadata := by
  obtain ⟨-, hmd, -⟩ := do_create_cases filename db_file db script h
  intro m hm hv
  rw [hmd] at hm
  rw [List.eq_of_mem_replicate hm] at hv
  exact absurd hv (by decide)

/-! ## `do_open` on a file that holds a header and a table -/

theorem decode_header_max_files (h : pictdb_header) (h4 : h.max_files < 2 ^ 32) :
    (decode_header (encode_header h)).max_files = h.max_files := by
  have e3 := take_drop_mid (fit 32 h.db_name ++ le_bytes 4 h.db_version ++ le_bytes 4 h.num_files)
    (le_bytes 4 h.max_files)
    (le_bytes 2 (h.res_resized.getD 0 0) ++ le_bytes 2 (h.res_resized.getD 1 0)
      ++ le_bytes 2 (h.res_resized.getD 2 0) ++ le_bytes 2 (h.res_resized.getD 3 0)
      ++ le_bytes 4 h.unused_32 ++ le_bytes 8 h.unused_64) 40 4
    (by simp [fit_length, le_bytes_length]) (le_bytes_length _ _)
  simp only [List.append_assoc] at e3
  unfold decode_header
  simp only [encode_header, List.append_assoc]
  rw [e3, le_value_le_bytes 4 _ h4]

theorem fread_table_file (b : List Nat) (n : Nat) (hD : data_start n ≤ b.length) :
    fread_table ⟨b, sizeof_header, []⟩ n
      = (n, table_of_file b n, ⟨b, sizeof_header + n * sizeof_metadata, []⟩) := by
  have hk : min n ((b.length - sizeof_header) / sizeof_metadata) = n := by
    apply Nat.min_eq_left
    rw [Nat.le_div_iff_mul_le (by decide)]
    simp only [data_start, slot_pos] at hD
    omega
  unfold fread_table
  simp only [FILE.next, List.headD_nil, List.tail_nil, Bool.false_eq_true, if_false]
  rw [hk]
  simp only [if_true, Nat.sub_self, List.replicate_zero, List.append_nil]
  rfl

/-- On a file whose first bytes are the record of the header `h` and that
holds `h.max_files` slot records, `do_open` with I/O that succeeds returns `0`
with the header and the table read from the file. -/
theorem do_open_file (name mode : List Nat) (other : pictdb_file) (b : List Nat)
    (h : pictdb_header) (hname : strlen name ≠ 0) (hmode : strlen mode ≠ 0)
    (hN : h.max_files < 2 ^ 32) (hD : data_start h.max_files ≤ b.length)
    (hh : header_record b = encode_header h) :
    (decode_header (encode_header h)).max_files = h.max_files ∧
    do_open name mode other (some ⟨b, 0, []⟩)
      = some (ERR_NONE,
          ⟨some ⟨b, sizeof_header + h.max_files * sizeof_metadata, []⟩,
            decode_header (encode_header h), table_of_file b h.max_files⟩) := by
  have hmax := decode_header_max_files h hN
  refine ⟨hmax, ?_⟩
  have hlen : sizeof_header ≤ b.length := by
    have := data_start_ge h.max_files
    simp only [sizeof_header]
    omega
  have htake : (b.drop 0).take sizeof_header = encode_header h := by
    rw [List.drop_zero]
    exact hh
  unfold do_open
  rw [if_neg (by simp [hname, hmode])]
  simp only
  rw [fseek_set_ok _ 0 rfl]
  simp only
  rw [fread_ok ⟨b, 0, []⟩ sizeof_header rfl (by decide) (by simpa using hlen)]
  simp only [htake, hmax, Nat.zero_add]
  rw [fseek_set_ok _ sizeof_header rfl]
  simp only
  rw [fread_table_file b h.max_files hD]
  simp only [ne_eq, not_true_eq_false, if_false]

theorem table_of_file_length (b : List Nat) (n : Nat) : (table_of_file b n).length = n := by
  simp [table_of_file]

theorem table_of_file_getElem? (b : List Nat) (n j : Nat) (hj : j < n) :
    (table_of_file b n)[j]? = some (decode_metadata (slot_record b j)) := by
  simp [table_of_file, List.getElem?_map, List.getElem?_range hj]

/-- The table read from a file that follows the table `tbl` carries, slot by
slot, the entries of `tbl`. -/
theorem table_of_file_same (b : List Nat) (tbl : List pict_metadata)
    (hdisk : table_on_disk b tbl) (hfl : flags_ok tbl) (hfits : table_fits tbl) :
    List.Forall₂ same_entry tbl (table_of_file b tbl.length) := by
  rw [List.forall₂_iff_get]
  refine ⟨(table_of_file_length _ _).symm, ?_⟩
  intro i h1 h2
  have hm : tbl[i]? = some (tbl.get ⟨i, h1⟩) := List.getElem?_eq_getElem h1
  have hm' : (table_of_file b tbl.length)[i]? = some ((table_of_file b tbl.length).get ⟨i, h2⟩) :=
    List.getElem?_eq_getElem h2
  rw [table_of_file_getElem? b _ i h1] at hm'
  rw [← Option.some.inj hm']
  exact same_entry_of_disk b tbl i _ hdisk hfl hfits hm

theorem forall2_live {R : pict_metadata → pict_metadata → Prop} {l1 l2 : List pict_metadata}
    (h : List.Forall₂ (fun a b => b.is_valid = a.is_valid ∧ (a.is_valid = NON_EMPTY → R a b))
      l1 l2) : List.Forall₂ R (live_slots l1) (live_slots l2) := by
  induction h with
  | nil => exact List.Forall₂.nil
  | @cons a b l1 l2 hab _ ih =>
    unfold live_slots at ih ⊢
    by_cases hv : a.is_valid = NON_EMPTY
    · have hv' : b.is_valid = NON_EMPTY := by rw [hab.1]; exact hv
      rw [List.filter_cons_of_pos (by simpa using hv), List.filter_cons_of_pos (by simpa using hv')]
      exact List.Forall₂.cons (hab.2 hv) ih
    · have hv' : ¬ b.is_valid = NON_EMPTY := by rw [hab.1]; exact hv
      rw [List.filter_cons_of_neg (by simpa using hv), List.filter_cons_of_neg (by simpa using hv')]
      exact ih

/-! ## The file `do_gbcollect` leaves under the name of the source -/

theorem forall2_getElem? {α β : Type} {R : α → β → Prop} {l1 : List α} {l2 : List β}
    (h : List.Forall₂ R l1 l2) : ∀ (i : Nat) (b : β), l2[i]? = some b →
      ∃ a, l1[i]? = some a ∧ R a b := by
  induction h with
  | nil => intro i b hb; simp at hb
  | @cons a b l1 l2 hab _ ih =>
    intro i x hx
    cases i with
    | zero =>
      simp only [List.getElem?_cons_zero, Option.some.injEq] at hx
      subst hx
      exact ⟨a, by simp, hab⟩
    | succ i =>
      simp only [List.getElem?_cons_succ] at hx ⊢
      exact ih i x hx

theorem forall2_comp {α β γ : Type} {R : α → β → Prop} {S : β → γ → Prop} {T : α → γ → Prop}
    (hRS : ∀ a b c, R a b → S b c → T a c) {l1 : List α} {l2 : List β}
    (h : List.Forall₂ R l1 l2) : ∀ {l3 : List γ}, List.Forall₂ S l2 l3 → List.Forall₂ T l1 l3 := by
  induction h with
  | nil => intro l3 h3; cases h3; exact List.Forall₂.nil
  | @cons a b l1 l2 hab _ ih =>
    intro l3 h3
    cases h3 with
    | cons hbc h3' => exact List.Forall₂.cons (hRS _ _ _ hab hbc) (ih h3')

theorem gc_related_same (D : Nat) (bs bd : List Nat) (ms md md' : pict_metadata)
    (h : gc_related D bs bd ms md) (hs : same_entry md md') : gc_related D bs bd ms md' := by
  obtain ⟨⟨g1, g2, g3, g4, g5, g6, g7⟩, ht, hsm⟩ := h
  obtain ⟨hv, hf⟩ := hs
  obtain ⟨e1, e2, e3, e4⟩ := hf g1
  unfold orig_bytes at g4
  refine ⟨⟨by rw [hv]; exact g1, by rw [e1]; exact g2, by rw [e2]; exact g3, ?_,
    by rw [e3]; exact g5, by rw [e4]; exact g6, by rw [e3, e4]; exact g7⟩, ?_, ?_⟩
  · unfold orig_bytes
    rw [e3, e4]
    exact g4
  · intro h
    have := ht h
    unfold materialised at this ⊢
    rw [e3, e4]
    exact this
  · intro h
    have := hsm h
    unfold materialised at this ⊢
    rw [e3, e4]
    exact this

/-- A `do_gbcollect` that returns `0` on a source with the invariants, whose
`do_create` succeeded or whose source has a `NON_EMPTY` slot, leaves under the
name of the source a file that `do_open` reads as a database whose `NON_EMPTY`
slots are related, in order, to those of the source. -/
theorem do_gbcollect_file (L : Lib) (D : pictdb_file) (new_filename : List Nat)
    (new_db_file : pictdb_file) (fopen_wb : Option (List Bool)) (remove_fails rename_fails : Bool)
    (r : gc_result) (fD : FILE) (name mode : List Nat) (other : pictdb_file)
    (hsha : ∀ b, (L.SHA256 b).length = 32)
    (hD : db_inv L D) (hfD : D.fpdb = some fD) (hDs : fD.bytes.length < 2 ^ 32)
    (hsh : shared_orig D.metadata)
    (hgc : do_gbcollect L D new_filename new_db_file fopen_wb remove_fails rename_fails = some r)
    (hok : r.res = ERR_NONE)
    (hsmall : ∀ b, r.paths.orig = some b → b.length < 2 ^ 32)
    (hcr : (∃ ndb0, do_create new_filename
        { new_db_file with header := { new_db_file.header with
            max_files := D.header.max_files
            res_resized := [D.header.res_resized.getD 0 0, D.header.res_resized.getD 1 0,
              D.header.res_resized.getD 2 0, D.header.res_resized.getD 3 0] } } fopen_wb
        = some (ERR_NONE, ndb0)) ∨ live_slots D.metadata ≠ [])
    (hname : strlen name ≠ 0) (hmode : strlen mode ≠ 0) :
    ∃ b D', r.paths.orig = some b ∧ r.paths.new = none ∧
      do_open name mode other (some ⟨b, 0, []⟩) = some (ERR_NONE, D') ∧
      (∃ g, D'.fpdb = some g ∧ g.bytes = b ∧ g.faults = []) ∧
      D'.metadata.length = D'.header.max_files ∧
      flags_ok D'.metadata ∧ unique_ids D'.metadata ∧
      List.Forall₂ (gc_related (data_start D.header.max_files) fD.bytes b)
        (live_slots D.metadata) (live_slots D'.metadata) := by
  unfold do_gbcollect at hgc
  simp only at hgc
  split at hgc
  · simp at hgc
  rename_i created ndb0 hc
  split at hgc
  · simp at hgc
  rename_i res db1 ndb1 hl
  have hres : res = ERR_NONE := by
    by_contra hne
    rw [if_pos hne] at hgc
    simp only [Option.some.injEq] at hgc
    subst hgc
    exact hne hok
  subst hres
  have hcreated : created = ERR_NONE := by
    rcases hcr with ⟨ndb0', hc'⟩ | hlive
    · rw [hc'] at hc
      simp only [Option.some.injEq, Prod.mk.injEq] at hc
      exact hc.1.symm
    · by_contra hne
      rw [if_neg hne] at hl
      obtain ⟨-, -, hnone⟩ := gbcollect_loop_empty_dest L _ _ _ _ _ _ _ rfl hl
      apply hlive
      unfold live_slots
      rw [List.filter_eq_nil_iff]
      intro m hm
      obtain ⟨j, hj⟩ := List.mem_iff_getElem?.1 hm
      have hlt := getElem?_lt hj
      rw [hD.1.1] at hlt
      simpa using hnone j m (Nat.zero_le _) (by omega) hj
  subst hcreated
  rw [if_pos rfl] at hl
  cases fopen_wb with
  | none =>
    exfalso
    unfold do_create at hc
    split at hc
    · simp at hc
    · simp at hc
  | some script =>
    have hfn : strlen new_filename ≠ 0 := by
      intro h0
      unfold do_create at hc
      rw [if_pos h0] at hc
      cases hc
    have hinv0 := db_inv_create L _ _ _ _ hc
    have hdisk0 := on_disk_create _ _ _ _ hc
    have hfits0 := table_fits_create _ _ _ _ hc
    obtain ⟨hh0, hmd0, -⟩ := do_create_cases _ _ _ _ hc
    obtain ⟨hinv1, hN1, -⟩ := gbcollect_loop_inv L _ _ _ _ _ _ _ _ hinv0 hl
    obtain ⟨hdisk1, hfits1⟩ := gbcollect_loop_disk L hsha _ _ _ _ _ _ _ hinv0 hdisk0 hfits0 hl
    obtain ⟨⟨hlen1, g1, hg1, hD1⟩, hfl1, hu1, -⟩ := hinv1
    have hpaths : r.paths = ⟨some g1.bytes, none⟩ := by
      rw [if_neg (by simp)] at hgc
      simp only [hg1, if_neg hfn, copy_and_delete] at hgc
      split at hgc
      · simp only [ne_eq, reduceCtorEq, not_false_eq_true, if_true, Option.some.injEq] at hgc
        subst hgc
        cases hok
      · split at hgc
        · simp only [ne_eq, reduceCtorEq, not_false_eq_true, if_true, Option.some.injEq] at hgc
          subst hgc
          cases hok
        · simp only [ne_eq, not_true_eq_false, if_false, Option.some.injEq] at hgc
          subst hgc
          rfl
    have hsmall1 : small_file ndb1 := by
      intro f hf
      rw [hg1] at hf; cases hf
      exact hsmall _ (by rw [hpaths])
    have hstart : gc_inv L D fD.bytes 0 D ndb0 0 := by
      refine ⟨rfl, rfl, ⟨fD, hfD, rfl⟩, hinv0, by rw [hh0], Nat.zero_le _, ?_, ?_⟩
      · intro j m _ hj
        rw [hmd0] at hj
        rw [List.eq_of_mem_replicate (List.getElem?_mem hj)]
        decide
      · rw [List.take_zero, List.take_zero]
        exact List.Forall₂.nil
    obtain ⟨idx, -, -, -, -, h5, -, h7, h8⟩ :=
      gbcollect_loop_spec L D fD hD hfD hDs hsh _ _ _ _ _ _ _ hstart hl hsmall1
    have htake : D.metadata.take (0 + D.header.max_files) = D.metadata := by
      rw [Nat.zero_add, ← hD.1.1, List.take_length]
    rw [htake] at h8
    have hlive : live_slots ndb1.metadata = ndb1.metadata.take idx := by
      apply live_eq_take _ _ _ h7
      intro md hmd
      obtain ⟨ms, -, hr⟩ := forall2_mem_right h8 md hmd
      exact hr.1.1
    rw [← hlive, file_bytes_some _ _ hg1] at h8
    obtain ⟨g1', hg1', hDd, hhd, htd⟩ := hdisk1
    rw [hg1] at hg1'; cases hg1'
    have hN32 : ndb1.header.max_files < 2 ^ 32 := by
      have := hsmall1 g1 hg1
      simp only [data_start, slot_pos, sizeof_header, sizeof_metadata] at hDd
      omega
    obtain ⟨hmax, hopen⟩ := do_open_file name mode other g1.bytes ndb1.header hname hmode hN32
      hDd hhd
    have hsame : List.Forall₂ same_entry ndb1.metadata
        (table_of_file g1.bytes ndb1.header.max_files) := by
      rw [← hlen1]
      exact table_of_file_same g1.bytes ndb1.metadata htd hfl1 hfits1
    refine ⟨g1.bytes, _, by rw [hpaths], by rw [hpaths], hopen, ⟨_, rfl, rfl, rfl⟩, ?_, ?_, ?_, ?_⟩
    · show (table_of_file g1.bytes ndb1.header.max_files).length = _
      rw [table_of_file_length, hmax]
    · intro m' hm'
      obtain ⟨m, hm, hs⟩ := forall2_mem_right hsame m' hm'
      rw [hs.1]
      exact hfl1 m hm
    · intro i j mi' mj' hi hj hvi hvj hid
      obtain ⟨mi, hmi, hsi⟩ := forall2_getElem? hsame i mi' hi
      obtain ⟨mj, hmj, hsj⟩ := forall2_getElem? hsame j mj' hj
      have hvi0 : mi.is_valid = NON_EMPTY := by rw [← hsi.1]; exact hvi
      have hvj0 : mj.is_valid = NON_EMPTY := by rw [← hsj.1]; exact hvj
      apply hu1 i j mi mj hmi hmj hvi0 hvj0
      rw [← (hsi.2 hvi0).1, ← (hsj.2 hvj0).1]
      exact hid
    · have hl2 : List.Forall₂ same_entry (live_slots ndb1.metadata)
          (live_slots (table_of_file g1.bytes ndb1.header.max_files)) := by
        apply forall2_live
        apply List.Forall₂.imp _ hsame
        intro a b hab
        refine ⟨hab.1, fun hv => ?_⟩
        exact ⟨hab.1, fun _ => hab.2 hv⟩
      exact forall2_comp (fun a b c hab hbc => gc_related_same _ _ _ a b c hab hbc) h8 hl2

/-! ## The database `do_gbcollect` leaves -/

/-- C11 (amended): for a database `D` reachable from `do_create` whose file is
shorter than `2^32` bytes, a `do_gbcollect` whose `do_create` of the
destination succeeds, that returns `0` and that leaves a file shorter than
`2^32` bytes, leaves that file under the name of the source and no file under
the other name; `do_open` on the file, with I/O that succeeds, returns `0`
with a database `D'` that has as many `NON_EMPTY` slots as `D`, which carry
the same ids with the same `SHA` in the same order; and for every live id,
`do_read` at `RES_ORIG` with I/O that succeeds returns `0` with the same bytes
and size on `D` and on `D'`. The digest of the library has 32 bytes. -/
theorem do_gbcollect_keeps_entries (L : Lib) (D : pictdb_file) (new_filename : List Nat)
    (new_db_file : pictdb_file) (fopen_wb : Option (List Bool)) (remove_fails rename_fails : Bool)
    (r : gc_result) (fD : FILE) (ndb0 : pictdb_file) (name mode : List Nat) (other : pictdb_file)
    (hsha : ∀ b, (L.SHA256 b).length = 32)
    (hreach : Reachable L D) (hfD : D.fpdb = some fD) (hDs : fD.bytes.length < 2 ^ 32)
    (hcreate : do_create new_filename
        { new_db_file with header := { new_db_file.header with
            max_files := D.header.max_files
            res_resized := [D.header.res_resized.getD 0 0, D.header.res_resized.getD 1 0,
              D.header.res_resized.getD 2 0, D.header.res_resized.getD 3 0] } } fopen_wb
        = some (ERR_NONE, ndb0))
    (hgc : do_gbcollect L D new_filename new_db_file fopen_wb remove_fails rename_fails = some r)
    (hok : r.res = ERR_NONE)
    (hsmall : ∀ b, r.paths.orig = some b → b.length < 2 ^ 32)
    (hname : strlen name ≠ 0) (hmode : strlen mode ≠ 0) :
    ∃ b D', r.paths.orig = some b ∧ r.paths.new = none ∧
      do_open name mode other (some ⟨b, 0, []⟩) = some (ERR_NONE, D') ∧
      count_non_empty D' = count_non_empty D ∧
      (live_slots D'.metadata).map (fun m => (c_str m.pict_id, m.SHA))
        = (live_slots D.metadata).map (fun m => (c_str m.pict_id, m.SHA)) ∧
      ∀ m ∈ D.metadata, m.is_valid = NON_EMPTY →
        ∃ B dbA dbB,
          do_read L m.pict_id RES_ORIG (no_faults D) = some (ERR_NONE, some (B, B.length), dbA) ∧
          do_read L m.pict_id RES_ORIG D' = some (ERR_NONE, some (B, B.length), dbB) := by
  have hD := reachable_inv L D hreach
  have hsh : shared_orig D.metadata := by
    apply reachable_shared L D hreach
    intro g hg
    rw [hfD] at hg; cases hg
    exact hDs
  obtain ⟨b, D', hp1, hp2, hopen, ⟨g, hg, hgb, hgf⟩, hlen', hfl', hu', hF⟩ :=
    do_gbcollect_file L D new_filename new_db_file fopen_wb remove_fails rename_fails r fD
      name mode other hsha hD hfD hDs hsh hgc hok hsmall (Or.inl ⟨ndb0, hcreate⟩) hname hmode
  have hmap := forall2_map_eq (fun m : pict_metadata => (c_str m.pict_id, m.SHA))
    (fun m : pict_metadata => (c_str m.pict_id, m.SHA)) hF (by
      intro a b hab
      show (c_str b.pict_id, b.SHA) = (c_str a.pict_id, a.SHA)
      rw [hab.1.2.1, hab.1.2.2.1])
  refine ⟨b, D', hp1, hp2, hopen, ?_, hmap, ?_⟩
  · rw [count_non_empty_live, count_non_empty_live, ← List.length_map _
      (fun m : pict_metadata => (c_str m.pict_id, m.SHA)), hmap, List.length_map]
  · intro m hm hv
    obtain ⟨i, hi⟩ := List.mem_iff_getElem?.1 hm
    obtain ⟨b1, b2, b3, b4⟩ := hD.2.2.2 fD hfD hDs m hm hv
    have hpos := data_start_pos D.header.max_files
    obtain ⟨dbA, hA⟩ := no_faults_read L m.pict_id D fD i m hD hfD hi hv rfl (by omega)
      (by omega) b2
    obtain ⟨md, hmd, hr⟩ := forall2_mem_left hF m ((mem_live_slots _ _).2 ⟨hm, hv⟩)
    obtain ⟨hmd', hmdv⟩ := (mem_live_slots _ _).1 hmd
    obtain ⟨j, hj⟩ := List.mem_iff_getElem?.1 hmd'
    obtain ⟨g1, g2, g3, g4, g5, g6, g7⟩ := hr.1
    rw [← hgb] at g4 g7
    obtain ⟨dbB, hB⟩ := do_read_live_ok L m.pict_id D' j md g hlen' hfl' hu' hj hmdv
      g2.symm hg hgf (by omega) (by omega) g7
    rw [g4, g5] at hB
    have hlenB : (orig_bytes fD.bytes m).length = m.size.orig := orig_bytes_length _ _ b2
    refine ⟨orig_bytes fD.bytes m, dbA, dbB, ?_, ?_⟩
    · rw [hlenB]; exact hA
    · rw [hlenB]; exact hB

/-- C12 (amended): for a database `D` reachable from `do_create` whose file is
shorter than `2^32` bytes, a `do_gbcollect` that returns `0` and leaves a file
shorter than `2^32` bytes leaves that file under the name of the source;
`do_open` on the file, with I/O that succeeds, returns `0` with a database
`D'` in which every live id of `D` has a `NON_EMPTY` slot, and each derived
resolution (`RES_THUMB`, `RES_SMALL`) that is materialised for the id in `D`
is materialised in that slot. The digest of the library has 32 bytes. -/
theorem do_gbcollect_keeps_resolutions (L : Lib) (D : pictdb_file) (new_filename : List Nat)
    (new_db_file : pictdb_file) (fopen_wb : Option (List Bool)) (remove_fails rename_fails : Bool)
    (r : gc_result) (fD : FILE) (name mode : List Nat) (other : pictdb_file)
    (hsha : ∀ b, (L.SHA256 b).length = 32)
    (hreach : Reachable L D) (hfD : D.fpdb = some fD) (hDs : fD.bytes.length < 2 ^ 32)
    (hgc : do_gbcollect L D new_filename new_db_file fopen_wb remove_fails rename_fails = some r)
    (hok : r.res = ERR_NONE)
    (hsmall : ∀ b, r.paths.orig = some b → b.length < 2 ^ 32)
    (hname : strlen name ≠ 0) (hmode : strlen mode ≠ 0)
    (m : pict_metadata) (hm : m ∈ D.metadata) (hv : m.is_valid = NON_EMPTY) :
    ∃ b D', r.paths.orig = some b ∧ r.paths.new = none ∧
      do_open name mode other (some ⟨b, 0, []⟩) = some (ERR_NONE, D') ∧
      ∃ md ∈ D'.metadata, md.is_valid = NON_EMPTY ∧
        c_str md.pict_id = c_str m.pict_id ∧
        (materialised m RES_THUMB → materialised md RES_THUMB) ∧
        (materialised m RES_SMALL → materialised md RES_SMALL) := by
  have hD := reachable_inv L D hreach
  have hsh : shared_orig D.metadata := by
    apply reachable_shared L D hreach
    intro g hg
    rw [hfD] at hg; cases hg
    exact hDs
  have hlive : m ∈ live_slots D.metadata := (mem_live_slots _ _).2 ⟨hm, hv⟩
  obtain ⟨b, D', hp1, hp2, hopen, -, -, -, -, hF⟩ :=
    do_gbcollect_file L D new_filename new_db_file fopen_wb remove_fails rename_fails r fD
      name mode other hsha hD hfD hDs hsh hgc hok hsmall
      (Or.inr (List.ne_nil_of_mem hlive)) hname hmode
  obtain ⟨md, hmd, hr⟩ := forall2_mem_left hF m hlive
  obtain ⟨hmd', hmdv⟩ := (mem_live_slots _ _).1 hmd
  exact ⟨b, D', hp1, hp2, hopen, md, hmd', hmdv, hr.1.2.1, hr.2.1, hr.2.2⟩

theorem demo_gbcollect_file_small :
    ∀ b, (demo_gbcollect demo_shared).paths.orig = some b → b.length < 2 ^ 32 := by
  intro b hb
  have h : (demo_gbcollect demo_shared).paths.orig.map (fun c => c.length) = some 500 := by
    decide!
  rw [hb] at h
  simp only [Option.map_some', Option.some.injEq] at h
  omega

/-- C11 (example): the collection of `demo_shared`, in which `"a"` and `"b"`
hold the same payload. -/
theorem do_gbcollect_keeps_entries_witness :
    ∃ b D', (demo_gbcollect demo_shared).paths.orig = some b ∧
      (demo_gbcollect demo_shared).paths.new = none ∧
      do_open [100] [114] (demo_config 0) (some ⟨b, 0, []⟩) = some (ERR_NONE, D') ∧
      count_non_empty D' = count_non_empty demo_shared ∧
      (live_slots D'.metadata).map (fun m => (c_str m.pict_id, m.SHA))
        = (live_slots demo_shared.metadata).map (fun m => (c_str m.pict_id, m.SHA)) ∧
      ∀ m ∈ demo_shared.metadata, m.is_valid = NON_EMPTY →
        ∃ B dbA dbB,
          do_read demo_lib m.pict_id RES_ORIG (no_faults demo_shared)
            = some (ERR_NONE, some (B, B.length), dbA) ∧
          do_read demo_lib m.pict_id RES_ORIG D' = some (ERR_NONE, some (B, B.length), dbB) :=
  do_gbcollect_keeps_entries demo_lib demo_shared [116] (demo_config 0) (some []) false false
    (demo_gbcollect demo_shared) (demo_file demo_shared) (demo_fresh 2 []) [100] [114]
    (demo_config 0) (fun b => fit_length 32 b) demo_shared_reachable (by decide!) (by decide!)
    (by decide!) (by decide!) (by decide!) demo_gbcollect_file_small (by decide) (by decide)

/-- C12 (example): the collection of `demo_shared`, in which `"a"`, the entry
of slot 0, has its thumbnail. -/
theorem do_gbcollect_keeps_resolutions_witness :
    ∃ b D', (demo_gbcollect demo_shared).paths.orig = some b ∧
      (demo_gbcollect demo_shared).paths.new = none ∧
      do_open [100] [114] (demo_config 0) (some ⟨b, 0, []⟩) = some (ERR_NONE, D') ∧
      ∃ md ∈ D'.metadata, md.is_valid = NON_EMPTY ∧
        c_str md.pict_id = c_str (demo_shared.metadata.getD 0 zero_metadata).pict_id ∧
        (materialised (demo_shared.metadata.getD 0 zero_metadata) RES_THUMB →
          materialised md RES_THUMB) ∧
        (materialised (demo_shared.metadata.getD 0 zero_metadata) RES_SMALL →
          materialised md RES_SMALL) :=
  do_gbcollect_keeps_resolutions demo_lib demo_shared [116] (demo_config 0) (some []) false
    false (demo_gbcollect demo_shared) (demo_file demo_shared) [100] [114] (demo_config 0)
    (fun b => fit_length 32 b) demo_shared_reachable (by decide!) (by decide!)
    (by decide!) (by decide!) demo_gbcollect_file_small (by decide) (by decide)
    (demo_shared.metadata.getD 0 zero_metadata) (by decide!) (by decide!)

end PictDB
